import Mathlib

/-!
# ThingMagic serial reader driver: frame codec and connection logic

A shallow embedding of parts of `serial_reader_l3.c` and `serial_reader.c`
(Mercury API 1.3.1.83) together with theorems about them.

Conventions of the embedding:

* bytes, 16-bit and 32-bit machine integers are natural numbers; where the C
  code truncates (the `uint16_t` CRC register, the `uint8_t len` parameter of
  `tm_crc`) the truncation is written out with `%`;
* a message buffer `uint8_t *data` is a function from indices to bytes;
* timeouts and transport listeners have no influence on the values computed
  and are left out.
-/

namespace MercuryApi

/-! ## Status codes -/

/-- Modelled from the spec: the `TMR_Status` values of `tmr_status.h` (the
header is not among the sources).  `ERROR_CODE status` is
`TMR_ERROR_CODE(status)`, the typed reader-code error that carries the 16-bit
status word of a response; `ERROR_COMM n` stands for any further
communication error that a transport may return. -/
inductive TMR_Status where
  | SUCCESS
  | ERROR_TIMEOUT
  | ERROR_CRC_ERROR
  | ERROR_DEVICE_RESET
  | ERROR_PARSE
  | ERROR_NOT_FOUND
  | ERROR_READONLY
  | ERROR_INVALID
  | ERROR_TOO_BIG
  | ERROR_NO_ANTENNA
  | ERROR_NO_TAGS
  | ERROR_NO_TAGS_FOUND
  | ERROR_UNSUPPORTED
  | ERROR_UNIMPLEMENTED
  | ERROR_TRYAGAIN
  | ERROR_FIRMWARE_FORMAT
  | ERROR_CODE (status : Nat)
  | ERROR_COMM (n : Nat)
  deriving DecidableEq

open TMR_Status

/-- Modelled from the spec: the macro `TMR_ERROR_IS_CODE` of `tmr_status.h` (not
among the sources), true of the reader-code errors. -/
def TMR_ERROR_IS_CODE : TMR_Status → Bool
  | ERROR_CODE _ => true
  | _ => false

/-! ## Message buffers -/

/-- A message buffer addressed through a `uint8_t *`. -/
abbrev Buf := Nat → Nat

/-- Store `bytes` into `data` starting at index `off`. -/
def writeBytes (data : Buf) (off : Nat) (bytes : List Nat) : Buf :=
  fun i => if off ≤ i ∧ i < off + bytes.length then bytes.getD (i - off) 0 else data i

/-- The call `memcpy(data + dst, data + src, n)` for `dst ≤ src`: byte `i` of
the destination receives what was at `src + i` before the call.  Where the two
ranges overlap this is the result of copying byte by byte from the low end. -/
def memcpy (data : Buf) (dst src n : Nat) : Buf :=
  fun i => if dst ≤ i ∧ i < dst + n then data (src + (i - dst)) else data i

/-- Modelled from the spec: the macro `GETU16AT` of `tmr_utils.h` (not among
the sources), the big-endian 16-bit integer at index `i`. -/
def GETU16AT (data : Buf) (i : Nat) : Nat :=
  (data i <<< 8) ||| data (i + 1)

/-! ## CRC (`serial_reader_l3.c`, lines 51-74) -/

/-- The table `crctable`. -/
def crctable : List Nat :=
  [0x0000, 0x1021, 0x2042, 0x3063,
   0x4084, 0x50a5, 0x60c6, 0x70e7,
   0x8108, 0x9129, 0xa14a, 0xb16b,
   0xc18c, 0xd1ad, 0xe1ce, 0xf1ef]

/-- One statement of the loop body of `tm_crc`:
`crc = ((crc << 4) | nib) ^ crctable[crc >> 12]`, stored back into 16 bits. -/
def crcNibble (crc nib : Nat) : Nat :=
  (((crc <<< 4) ||| nib) ^^^ crctable.getD (crc >>> 12) 0) % 65536

/-- The loop body of `tm_crc` for the byte `u8Buf[i]`: high nibble, then low
nibble. -/
def crcByte (crc byte : Nat) : Nat :=
  crcNibble (crcNibble crc (byte >>> 4)) (byte &&& 0xf)

/-- The loop `for (i = 0; i < len; i++)` of `tm_crc`: the value of `crc` after
`i` iterations, `crc` being `0xffff` before the first. -/
def crcLoop (u8Buf : Nat → Nat) : Nat → Nat
  | 0 => 0xffff
  | i + 1 => crcByte (crcLoop u8Buf i) (u8Buf i)

/-- The function `tm_crc(uint8_t *u8Buf, uint8_t len)`.  The parameter `len` is
eight bits wide, so the argument is reduced modulo 256 on entry. -/
def tm_crc (u8Buf : Nat → Nat) (len : Nat) : Nat :=
  crcLoop u8Buf (len % 256)

/-! ## The serial transport -/

/-- State of the byte link seen from the driver: the bytes the module will
still deliver, the lengths asked from `receiveBytes` so far (oldest first). -/
structure SerialTransport where
  rx : List Nat
  requested : List Nat
  deriving DecidableEq

/-- Modelled from the spec: `receiveBytes(want, timeout)` of the external
transport (its implementation is not among the sources).  The call delivers
`length` bytes into `data` from index `off` on; fewer bytes are delivered only
when the link runs dry before the deadline, which is reported as a timeout.  The
result is the status, the number of bytes obtained, the buffer and the link. -/
def receiveBytes (t : SerialTransport) (length : Nat) (data : Buf) (off : Nat) :
    TMR_Status × Nat × Buf × SerialTransport :=
  if length ≤ t.rx.length then
    (SUCCESS, length, writeBytes data off (t.rx.take length),
      { t with rx := t.rx.drop length, requested := t.requested ++ [length] })
  else
    (ERROR_TIMEOUT, t.rx.length, writeBytes data off t.rx,
      { t with rx := [], requested := t.requested ++ [length] })

/-! ## Receiving a response (`serial_reader_l3.c`, lines 172-258) -/

/-- Outcome of `TMR_SR_receiveMessage`: the status returned, the message buffer
and the transport after the call. -/
structure ReceiveResult where
  ret : TMR_Status
  data : Buf
  transport : SerialTransport

/-- The search loop `for (i = 1; i < 6; i++)` for the start-of-header byte:
the pair `(sohPosition, sohFound)` it leaves behind. -/
def findSoh (data : Buf) : Nat × Bool :=
  match (List.range' 1 5).find? (fun i => data i == 0xFF) with
  | some i => (i, true)
  | none => (0, false)

/-- Lines 234-257 of `TMR_SR_receiveMessage`: the CRC check, the opcode check
and the decoding of the status word, on the buffer as the reads left it.  `len`
is the local variable `len`, `ret` the status of the last `receiveBytes`. -/
def receiveCheck (useStreaming : Bool) (transport : SerialTransport) (data : Buf)
    (opcode : Nat) (len : Nat) (ret : TMR_Status) : ReceiveResult :=
  let crc := tm_crc (fun i => data (1 + i)) (len + 4)
  if data (len + 5) ≠ crc >>> 8 ∨ data (len + 6) ≠ crc &&& 0xff then
    ⟨ERROR_CRC_ERROR, data, transport⟩
  else if data 2 ≠ opcode ∧ (data 2 ≠ 0x2F ∨ useStreaming = false) then
    ⟨ERROR_DEVICE_RESET, data, transport⟩
  else
    let status := GETU16AT data 3
    if status ≠ 0 then ⟨ERROR_CODE status, data, transport⟩
    else ⟨ret, data, transport⟩

/-- Lines 218-227 of `TMR_SR_receiveMessage`, followed by the checks: `len` is
read at `sohPosition + 1`, and unless it is zero `len + sohPosition` more bytes
are received at `data + 7 - sohPosition`.  `ret` is the status of the first
`receiveBytes`. -/
def receiveBody (useStreaming : Bool) (transport : SerialTransport) (data : Buf)
    (opcode : Nat) (sohPosition : Nat) (ret : TMR_Status) : ReceiveResult :=
  let len := data (sohPosition + 1) % 256
  if len = 0 then receiveCheck useStreaming transport data opcode len ret
  else
    let r := receiveBytes transport (len + sohPosition) data (7 - sohPosition)
    receiveCheck useStreaming r.2.2.2 r.2.2.1 opcode len r.1

/-- The function `TMR_SR_receiveMessage(reader, data, opcode, timeoutMs)`;
`useStreaming` is `reader->u.serialReader.useStreaming`. -/
def TMR_SR_receiveMessage (useStreaming : Bool) (transport : SerialTransport) (data : Buf)
    (opcode : Nat) : ReceiveResult :=
  let r := receiveBytes transport 7 data 0
  let ret := r.1
  let data := r.2.2.1
  let transport := r.2.2.2
  if ret ≠ SUCCESS then ⟨ret, data, transport⟩
  else if data 0 ≠ 0xFF then
    let s := findSoh data
    if s.2 = false then ⟨ERROR_TIMEOUT, data, transport⟩
    else receiveBody useStreaming transport (memcpy data 0 s.1 (7 - s.1)) opcode s.1 ret
  else receiveBody useStreaming transport data opcode 0 ret

/-! ## Response frames as the module sends them -/

/-- The CRC of a whole byte sequence: the loop body of `tm_crc` applied to every
byte in order, starting from `0xffff`.  This is the checksum the module puts on
the wire: for a response frame, the CRC over `[LEN, OPCODE, STATUS, PAYLOAD]`. -/
def frameCrc (bytes : List Nat) : Nat :=
  bytes.foldl crcByte 0xffff

/-- The checked part `[LEN, OPCODE, STATUS_HI, STATUS_LO, PAYLOAD]` of a
response frame, `LEN` being the payload length. -/
def frameBody (opcode statusHi statusLo : Nat) (payload : List Nat) : List Nat :=
  [payload.length, opcode, statusHi, statusLo] ++ payload

/-- The bytes `FF | LEN | OPCODE | STATUS_HI STATUS_LO | PAYLOAD | crcHi crcLo`
with arbitrary trailing check bytes. -/
def frameWith (opcode statusHi statusLo : Nat) (payload : List Nat) (crcHi crcLo : Nat) :
    List Nat :=
  0xFF :: (frameBody opcode statusHi statusLo payload ++ [crcHi, crcLo])

/-- The response frame `FF | LEN | OPCODE | STATUS_HI STATUS_LO | PAYLOAD |
CRC_HI CRC_LO` whose CRC is taken over `[LEN, OPCODE, STATUS, PAYLOAD]`. -/
def responseFrame (opcode statusHi statusLo : Nat) (payload : List Nat) : List Nat :=
  frameWith opcode statusHi statusLo payload
    (frameCrc (frameBody opcode statusHi statusLo payload) >>> 8)
    (frameCrc (frameBody opcode statusHi statusLo payload) &&& 0xff)

/-- A transport that is about to deliver exactly the bytes `bytes`. -/
def linkWith (bytes : List Nat) : SerialTransport :=
  { rx := bytes, requested := [] }

/-- The payload area of a received message: `n` bytes from index 5. -/
def payloadOf (data : Buf) (n : Nat) : List Nat :=
  (List.range n).map (fun i => data (5 + i))

/-- Flip bit `bit` of the byte at index `pos` of a frame. -/
def flipBit (frame : List Nat) (pos bit : Nat) : List Nat :=
  frame.set pos (frame.getD pos 0 ^^^ 2 ^ bit)

/-! ## The reader handle and its surroundings (`serial_reader.c`) -/

/-- The keys of `TMR_Param` (`tmr_params.h`) in the order of the enumeration.
`TMR_PARAM_MIN` is `BAUDRATE` and `TMR_PARAM_MAX` is `REGION_LBT_ENABLE`. -/
inductive TMR_Param where
  | NONE
  | BAUDRATE
  | COMMANDTIMEOUT
  | TRANSPORTTIMEOUT
  | POWERMODE
  | USERMODE
  | ANTENNA_CHECKPORT
  | ANTENNA_PORTLIST
  | ANTENNA_CONNECTEDPORTLIST
  | ANTENNA_PORTSWITCHGPOS
  | ANTENNA_SETTLINGTIMELIST
  | ANTENNA_TXRXMAP
  | GPIO_INPUTLIST
  | GPIO_OUTPUTLIST
  | GEN2_ACCESSPASSWORD
  | GEN2_Q
  | GEN2_TAGENCODING
  | GEN2_SESSION
  | GEN2_TARGET
  | GEN2_BLF
  | GEN2_TARI
  | GEN2_WRITEMODE
  | ISO180006B_BLF
  | READ_ASYNCOFFTIME
  | READ_ASYNCONTIME
  | READ_PLAN
  | RADIO_ENABLEPOWERSAVE
  | RADIO_POWERMAX
  | RADIO_POWERMIN
  | RADIO_PORTREADPOWERLIST
  | RADIO_PORTWRITEPOWERLIST
  | RADIO_READPOWER
  | RADIO_WRITEPOWER
  | RADIO_TEMPERATURE
  | TAGREADDATA_RECORDHIGHESTRSSI
  | TAGREADDATA_REPORTRSSIINDBM
  | TAGREADDATA_UNIQUEBYANTENNA
  | TAGREADDATA_UNIQUEBYDATA
  | TAGOP_ANTENNA
  | TAGOP_PROTOCOL
  | VERSION_HARDWARE
  | VERSION_SERIAL
  | VERSION_MODEL
  | VERSION_SOFTWARE
  | VERSION_SUPPORTEDPROTOCOLS
  | REGION_ID
  | REGION_SUPPORTEDREGIONS
  | REGION_HOPTABLE
  | REGION_HOPTIME
  | REGION_LBT_ENABLE
  deriving DecidableEq

/-- The value `TMR_SR_POWER_MODE_INVALID` of `tmr_serial_reader.h`. -/
def TMR_SR_POWER_MODE_INVALID : Nat := 4

/-- Modelled from the spec: the value `TMR_REGION_NONE` of `tmr_region.h` (not
among the sources), the region of a reader for which none is configured. -/
def TMR_REGION_NONE : Nat := 0

/-- The value `TMR_SR_MAX_PACKET_SIZE` of `tmr_serial_reader.h`. -/
def TMR_SR_MAX_PACKET_SIZE : Nat := 256

/-- The value `TMR_SR_MAX_ANTENNA_PORTS` of `tm_config.h`. -/
def TMR_SR_MAX_ANTENNA_PORTS : Nat := 16

/-- The value `TMR_MAX_SERIAL_MULTIPROTOCOL_LENGTH` of `tm_config.h`. -/
def TMR_MAX_SERIAL_MULTIPROTOCOL_LENGTH : Nat := 5

/-- The value `TMR_SR_GEN2_Q_INVALID` of `tmr_serial_reader.h`. -/
def TMR_SR_GEN2_Q_INVALID : Nat := 2

/-- The value `TMR_GEN2_WORD_ONLY` of `tmr_gen2.h`. -/
def TMR_GEN2_WORD_ONLY : Nat := 0

/-- The value `TMR_GEN2_BLOCK_ONLY` of `tmr_gen2.h`. -/
def TMR_GEN2_BLOCK_ONLY : Nat := 1

/-- The value `TMR_GEN2_BLOCK_FALLBACK` of `tmr_gen2.h`. -/
def TMR_GEN2_BLOCK_FALLBACK : Nat := 2

/-- Modelled from the spec: the identifier `TMR_TAG_PROTOCOL_GEN2` of
`tmr_tag_protocol.h` (not among the sources).  The spec names the protocols
without numbering them; what is used of the number is that it lies in 1..32 and
differs from that of ISO180006B. -/
def TMR_TAG_PROTOCOL_GEN2 : Nat := 5

/-- Modelled from the spec: the identifier `TMR_TAG_PROTOCOL_ISO180006B` of
`tmr_tag_protocol.h` (not among the sources); see `TMR_TAG_PROTOCOL_GEN2`. -/
def TMR_TAG_PROTOCOL_ISO180006B : Nat := 3

/-- Modelled from the spec: the opcode `TMR_SR_OPCODE_GET_ANTENNA_PORT` of
`serial_reader_imp.h` (not among the sources), "get antenna port (0x61)". -/
def TMR_SR_OPCODE_GET_ANTENNA_PORT : Nat := 0x61

/-- Modelled from the spec: the opcode `TMR_SR_OPCODE_READ_TAG_ID_MULTIPLE` of
`serial_reader_imp.h` (not among the sources), "read tag ID multiple (0x22)". -/
def TMR_SR_OPCODE_READ_TAG_ID_MULTIPLE : Nat := 0x22

/-- Modelled from the spec: the opcode `TMR_SR_OPCODE_WRITE_TAG_DATA` of
`serial_reader_imp.h` (not among the sources), "write tag data (0x24)". -/
def TMR_SR_OPCODE_WRITE_TAG_DATA : Nat := 0x24

/-- Modelled from the spec: the opcode `TMR_SR_OPCODE_WRITE_TAG_SPECIFIC` of
`serial_reader_imp.h` (not among the sources), which `TMR_SR_cmdBlockWrite`
sends: "block write (0x2E)". -/
def TMR_SR_OPCODE_WRITE_TAG_SPECIFIC : Nat := 0x2E

/-- Modelled from the spec: the option value
`TMR_SR_GEN2_SINGULATION_OPTION_USE_PASSWORD` of `serial_reader_imp.h` (not among
the sources), the "UsePassword flag" of the option byte. -/
def TMR_SR_GEN2_SINGULATION_OPTION_USE_PASSWORD : Nat := 0x05

/-- Modelled from the spec: the option value
`TMR_SR_GEN2_SINGULATION_OPTION_SELECT_ON_ADDRESSED_EPC` of `serial_reader_imp.h`
(not among the sources), the "dedicated option value" of a select on bank 1. -/
def TMR_SR_GEN2_SINGULATION_OPTION_SELECT_ON_ADDRESSED_EPC : Nat := 0x04

/-- Modelled from the spec: the option bit
`TMR_SR_GEN2_SINGULATION_OPTION_INVERSE_SELECT_BIT` of `serial_reader_imp.h` (not
among the sources), the bit that `invert` sets. -/
def TMR_SR_GEN2_SINGULATION_OPTION_INVERSE_SELECT_BIT : Nat := 0x08

/-- Modelled from the spec: the option bit
`TMR_SR_GEN2_SINGULATION_OPTION_EXTENDED_DATA_LENGTH` of `serial_reader_imp.h`
(not among the sources), set for masks longer than 255 bits. -/
def TMR_SR_GEN2_SINGULATION_OPTION_EXTENDED_DATA_LENGTH : Nat := 0x20

/-- Modelled from the spec: the operation `TMR_ISO180006B_SELECT_OP_EQUALS` of
`tmr_iso180006b.h` (not among the sources), the "equals-op" of an ISO180006B
select.  The theorems do not depend on the number. -/
def TMR_ISO180006B_SELECT_OP_EQUALS : Nat := 0

/-- An entry `TMR_AntennaMap` of the Tx/Rx map (`tmr_serial_reader.h`). -/
structure TMR_AntennaMap where
  antenna : Nat
  txPort : Nat
  rxPort : Nat
  deriving DecidableEq

/-- A `TMR_AntennaMapList` (`tmr_serial_reader.h`): `list` holds the entries
`list[0] .. list[len - 1]`, so the field `len` is the length of `list`; `max` is
the number of entries there is space for. -/
structure TMR_AntennaMapList where
  list : List TMR_AntennaMap
  max : Nat
  deriving DecidableEq

/-- Modelled from the spec: a `TMR_uint8List` of `tmr_utils.h` (not among the
sources), laid out like the other lists of the interface: `list` holds the
entries `list[0] .. list[len - 1]`, `max` is the capacity. -/
structure TMR_uint8List where
  list : List Nat
  max : Nat
  deriving DecidableEq

/-- A `TMR_SR_GEN2_Q` (`tmr_serial_reader.h`): the type of the Q algorithm and
`u.staticQ.initialQ`. -/
structure TMR_SR_GEN2_Q where
  type : Nat
  initialQ : Nat
  deriving DecidableEq

/-- The enumeration `TMR_TagopType` (`tmr_tagop.h`). -/
inductive TMR_TagopType where
  | GEN2_READDATA
  | GEN2_WRITEDATA
  | GEN2_LOCK
  | GEN2_KILL
  | GEN2_BLOCKWRITE
  | GEN2_BLOCKPERMALOCK
  | ISO180006B_READDATA
  | ISO180006B_WRITEDATA
  | ISO180006B_LOCK
  | LIST
  deriving DecidableEq

/-- A `TMR_Tagop` (`tmr_tagop.h`) as far as the read plan looks at it: its
type. -/
structure TMR_Tagop where
  type : TMR_TagopType
  deriving DecidableEq

/-- Modelled from the spec: a `TMR_TagFilter` of `tmr_filter.h` (not among the
sources), the "tagged variant" of a Gen2 select, an EPC match on tag data, or an
ISO180006B select.  The fields are the ones `filterbytes` reads; `mask`, `epc`
and `data` are the byte arrays pointed to. -/
inductive TMR_TagFilter where
  | gen2Select (invert : Bool) (bank : Nat) (bitPointer : Nat) (maskBitLength : Nat)
      (mask : List Nat)
  | tagData (epcByteCount : Nat) (epc : List Nat)
  | iso180006bSelect (invert : Bool) (op : Nat) (address : Nat) (mask : Nat) (data : List Nat)
  deriving DecidableEq

/-- Modelled from the spec: a `TMR_ReadPlan` of `tmr_read_plan.h` (not among
the sources), the "tagged variant" of a simple plan and a multi-plan, each with
its weight.  `plans` are the plans pointed to by `u.multi.plans[0 ..
planCount - 1]`; `other` is a plan whose `type` is neither of the two.  A null
`filter` or `tagop` is `none`.  The weights are taken to be 32 bits wide, like
the `uint32_t` timeouts they are multiplied with. -/
inductive TMR_ReadPlan where
  | simple (weight : Nat) (antennas : List Nat) (protocol : Nat)
      (filter : Option TMR_TagFilter) (tagop : Option TMR_Tagop)
  | multi (weight : Nat) (plans : List TMR_ReadPlan) (totalWeight : Nat)
  | other (weight : Nat)

/-- The field `weight` of a read plan. -/
def TMR_ReadPlan.weight : TMR_ReadPlan → Nat
  | TMR_ReadPlan.simple weight _ _ _ _ => weight
  | TMR_ReadPlan.multi weight _ _ => weight
  | TMR_ReadPlan.other weight => weight

/-- What the pointer `value` of the parameter functions points to: a number
(integers, enumerations and booleans), a list of bytes, an antenna map, a Q
algorithm, a read plan, or an object that is not looked into here (strings, hop
tables, lists of port values, of regions and of protocols). -/
inductive ParamValue where
  | num (n : Nat)
  | u8List (l : TMR_uint8List)
  | antennaMapList (m : TMR_AntennaMapList)
  | gen2Q (q : TMR_SR_GEN2_Q)
  | readPlan (p : TMR_ReadPlan)
  | object

/-- The number read through `value` by a cast such as `*(uint32_t *)value`. -/
def ParamValue.toNat : ParamValue → Nat
  | ParamValue.num n => n
  | _ => 0

/-- The words of the object `value` points to, as a command hands them to the
module. -/
def ParamValue.words : ParamValue → List Nat
  | ParamValue.num n => [n]
  | ParamValue.u8List l => l.list
  | ParamValue.gen2Q q => [q.type, q.initialQ]
  | _ => []

/-- Modelled from the spec: the keys of `TMR_SR_Configuration`
(`serial_reader_imp.h`, not among the sources) that `serial_reader.c` passes to
the reader-configuration commands. -/
inductive TMR_SR_Configuration where
  | UNIQUE_BY_ANTENNA
  | TRANSMIT_POWER_SAVE
  | EXTENDED_EPC
  | ANTENNA_CONTROL_GPIO
  | SAFETY_ANTENNA_CHECK
  | UNIQUE_BY_DATA
  | RSSI_IN_DBM
  | RECORD_HIGHEST_RSSI
  deriving DecidableEq

/-- Modelled from the spec: the keys of `TMR_SR_ProtocolConfiguration`
(`serial_reader_imp.h`, not among the sources) that `serial_reader.c` passes to
the protocol-configuration commands. -/
inductive TMR_SR_ProtocolConfiguration where
  | GEN2_Q
  | GEN2_TAGENCODING
  | GEN2_SESSION
  | GEN2_TARGET
  | GEN2_LINKFREQUENCY
  | GEN2_TARI
  | ISO180006B_LINKFREQUENCY
  deriving DecidableEq

/-- A call of a command function of `serial_reader_l3.c`, or of a helper of
`serial_reader.c` made of such calls, that is exchanged with the module as a
whole: what is kept of it are the arguments written here, its status and the
value it delivers. -/
inductive Command where
  | SetReaderConfiguration (key : TMR_SR_Configuration) (value : List Nat)
  | GetReaderConfiguration (key : TMR_SR_Configuration)
  | SetProtocolConfiguration (protocol : Nat) (key : TMR_SR_ProtocolConfiguration)
      (value : List Nat)
  | GetProtocolConfiguration (protocol : Nat) (key : TMR_SR_ProtocolConfiguration)
  | SetProtocol (protocol : Nat)
  | SetTxRxPorts (txPort : Nat) (rxPort : Nat)
  | SetAntennaSearchList (ports : List (Nat × Nat))
  | GetGPIODirection (pin : Nat)
  | SetGPIODirection (pin : Nat) (out : Bool)
  | GetReadTxPowerWithLimits
  | GetReadTxPower
  | GetWriteTxPower
  | SetReadTxPower (power : Nat)
  | SetWriteTxPower (power : Nat)
  | getPortValues (offset : Nat)
  | setPortValues (offset : Nat)
  | GetFrequencyHopTable
  | SetFrequencyHopTable
  | GetFrequencyHopTime
  | SetFrequencyHopTime (hopTime : Nat)
  | SetRegionLbt (region : Nat) (lbt : Nat)
  | GetRegionConfiguration
  | GetUserMode
  | SetUserMode (mode : Nat)
  | GetAvailableRegions
  | GetAvailableProtocols
  | GetTemperature
  | getHardwareInfo
  | getSerialNumber
  | ISO180006BWriteTagData (address : Nat) (data : List Nat)
  | MultipleProtocolSearch (protocols : List Nat) (timeoutMs : Nat)
  | inventory (timeoutMs : Nat) (protocol : Nat) (embedded : Bool)
  deriving DecidableEq

/-- A call that leaves the driver: an operation of the transport, a command
exchanged with the module, the boot sequence run as a whole, or a request
message handed to `TMR_SR_sendTimeout` (its bytes from `LEN` to the end of the
payload). -/
inductive WireEvent where
  | transportOpen
  | setBaudRate (rate : Nat)
  | flush
  | cmdVersion
  | boot (currentBaudRate : Nat)
  | cmdSetRegion (region : Nat)
  | cmdSetBaudRate (rate : Nat)
  | cmdSetPowerMode (mode : Nat)
  | cmdGetPowerMode
  | command (c : Command)
  | message (request : List Nat)
  deriving DecidableEq

/-- The answers of the transport and of the module to the calls the driver
makes.  `flush` and `cmdVersion` depend on the baud rate in force on the host
side of the link; `boot` is the status of `TMR_SR_boot` for a given current baud
rate; `cmdGetPowerMode` is the status together with the mode reported;
`command` is the status of a command exchanged as a whole together with the
value it delivers; `exchange` is the status of `TMR_SR_sendTimeout` for a
request message together with the message buffer as the response leaves it. -/
structure Env where
  transportOpen : TMR_Status
  setBaudRate : Nat → TMR_Status
  flush : Nat → TMR_Status
  cmdVersion : Nat → TMR_Status
  boot : Nat → TMR_Status
  cmdSetRegion : Nat → TMR_Status
  cmdSetBaudRate : Nat → TMR_Status
  cmdSetPowerMode : Nat → TMR_Status
  cmdGetPowerMode : TMR_Status × Nat
  command : Command → TMR_Status × ParamValue
  exchange : List Nat → TMR_Status × Buf

/-- The structure `reader->tagOpParams`. -/
structure TMR_TagOpParams where
  antenna : Nat
  protocol : Nat
  deriving DecidableEq

/-- The fields of `TMR_SR_VersionInfo` (`tmr_serial_reader.h`) used here. -/
structure TMR_SR_VersionInfo where
  hardware : List Nat
  protocols : Nat
  deriving DecidableEq

/-- Modelled from the spec: the hardware identifier `TMR_SR_MODEL_M6E` of
`serial_reader_imp.h` (not among the sources), the value of
`versionInfo.hardware[0]` on "M6E hardware".  The theorems do not depend on the
number. -/
def TMR_SR_MODEL_M6E : Nat := 0x18

/-- The fields of `TMR_Reader` and `TMR_SR_SerialReader` used here.  The two
bit sets are functions from keys to bits.  `txRxMap` is the list `*sr->txRxMap`
and `readPlan` the plan `*reader->readParams.readPlan`.  `trace` is not a field
of the C structure: it records, oldest first, the calls that left the driver.
`transport` is the byte link the streaming frames arrive on. -/
structure Reader where
  connected : Bool
  baudRate : Nat
  powerMode : Nat
  regionId : Nat
  transportTimeout : Nat
  commandTimeout : Nat
  paramConfirmed : TMR_Param → Bool
  paramPresent : TMR_Param → Bool
  trace : List WireEvent
  tagOpParams : TMR_TagOpParams
  txRxMap : TMR_AntennaMapList
  portMask : Nat
  versionInfo : TMR_SR_VersionInfo
  gpioDirections : Int
  readPlan : TMR_ReadPlan
  currentProtocol : Nat
  useStreaming : Bool
  searchTimeoutMs : Nat
  tagsRemaining : Int
  tagsRemainingInBuffer : Nat
  bufResponse : Buf
  bufPointer : Nat
  oldQ : TMR_SR_GEN2_Q
  writeMode : Nat
  gen2AccessPassword : Nat
  transport : SerialTransport

/-- Modelled from the spec: the macro `BITGET` of `tmr_utils.h` (not among the
sources) on a bit set over the parameter keys. -/
def BITGET (bits : TMR_Param → Bool) (key : TMR_Param) : Bool :=
  bits key

/-- Modelled from the spec: the macro `BITSET` of `tmr_utils.h` (not among the
sources) on a bit set over the parameter keys. -/
def BITSET (bits : TMR_Param → Bool) (key : TMR_Param) : TMR_Param → Bool :=
  fun k => if k = key then true else bits k

/-- The assignments of `TMR_SR_SerialReader_init` (lines 2601-2613) to the
fields modelled. -/
def TMR_SR_SerialReader_init (reader : Reader) : Reader :=
  { reader with
    paramConfirmed := fun _ => false
    paramPresent := fun _ => false
    baudRate := 115200
    powerMode := TMR_SR_POWER_MODE_INVALID
    transportTimeout := 2000
    commandTimeout := 2000
    regionId := TMR_REGION_NONE
    tagsRemaining := 0
    tagsRemainingInBuffer := 0
    gen2AccessPassword := 0
    oldQ := { reader.oldQ with type := TMR_SR_GEN2_Q_INVALID } }

/-! ## Connecting (`serial_reader.c`, lines 238-309) -/

/-- The table `rates` of `TMR_SR_connect`. -/
def rates : List Nat :=
  [9600, 115200, 921600, 19200, 38400, 57600, 230400, 460800]

/-- How control leaves the baud-rate loop of `TMR_SR_connect`: by a `return`
inside the loop, or by `break` or the loop condition, with the values of `i`,
`rate` and `ret` at that point. -/
inductive ScanExit where
  | returned (ret : TMR_Status)
  | left (i : Nat) (rate : Nat) (ret : TMR_Status)
  deriving DecidableEq

/-- The loop `for (i = 0; i <= numberof(rates); i++)` of `TMR_SR_connect`.  The
first argument counts the iterations still to run, so the loop variable is
`i = numberof(rates) + 1 - n`; with none left the loop condition fails at
`i = numberof(rates) + 1`. -/
def connectLoop (env : Env) (baudRate : Nat) :
    Nat → Nat → TMR_Status → List WireEvent → ScanExit × List WireEvent
  | 0, rate, ret, trace => (ScanExit.left (rates.length + 1) rate ret, trace)
  | n + 1, _, ret, trace =>
    let i := rates.length - n
    let rate := if i = 0 then baudRate else rates.getD (i - 1) 0
    if i ≠ 0 ∧ rate = baudRate then connectLoop env baudRate n rate ret trace
    else
      let ret1 := env.setBaudRate rate
      let trace1 := trace ++ [WireEvent.setBaudRate rate]
      if ret1 ≠ SUCCESS then (ScanExit.returned ret1, trace1)
      else
        let ret2 := env.flush rate
        let trace2 := trace1 ++ [WireEvent.flush]
        if ret2 ≠ SUCCESS then (ScanExit.returned ret2, trace2)
        else
          let ret3 := env.cmdVersion rate
          let trace3 := trace2 ++ [WireEvent.cmdVersion]
          if ret3 = SUCCESS then (ScanExit.left i rate ret3, trace3)
          else if ret3 ≠ ERROR_TIMEOUT then (ScanExit.returned ret3, trace3)
          else connectLoop env baudRate n rate ret3 trace3

/-- The function `TMR_SR_connect(reader)`.  `TMR_SR_boot` is called as a whole:
it contributes its status and one entry of the trace. -/
def TMR_SR_connect (env : Env) (reader : Reader) : TMR_Status × Reader :=
  let ret := env.transportOpen
  let trace := reader.trace ++ [WireEvent.transportOpen]
  if ret ≠ SUCCESS then (ret, { reader with trace := trace })
  else
    match connectLoop env reader.baudRate (rates.length + 1) 0 ret trace with
    | (ScanExit.returned ret, trace) => (ret, { reader with trace := trace })
    | (ScanExit.left i rate _, trace) =>
      if i = rates.length then (ERROR_TIMEOUT, { reader with trace := trace })
      else
        (env.boot rate,
          { reader with connected := true, trace := trace ++ [WireEvent.boot rate] })

/-- The rates handed to the transport's `setBaudRate`, in order. -/
def ratesSet : List WireEvent → List Nat
  | [] => []
  | WireEvent.setBaudRate rate :: rest => rate :: ratesSet rest
  | _ :: rest => ratesSet rest

/-- The candidate sequence of the baud scan: the configured rate, then the
entries of `rates` with every entry equal to the configured rate left out. -/
def candidates (baudRate : Nat) : List Nat :=
  baudRate :: rates.filter (fun r => r ≠ baudRate)

/-- The rates a scan over the candidates `cs`, taken in order, hands to
`setBaudRate`: the scan goes on to the next candidate exactly when the rate was
set, the link was flushed and the version probe timed out. -/
def scanned (env : Env) : List Nat → List Nat
  | [] => []
  | r :: rs =>
    r :: (if env.setBaudRate r = SUCCESS ∧ env.flush r = SUCCESS ∧
            env.cmdVersion r = ERROR_TIMEOUT then scanned env rs else [])

/-- The calls that left the driver between the reader state `before` and the
later state `after`. -/
def callsBetween (before after : Reader) : List WireEvent :=
  after.trace.drop before.trace.length

/-! ## Request messages and commands (`serial_reader_l3.c`) -/

/-- Modelled from the spec: the macro `SETU8(msg, i, x)` of `tmr_utils.h` (not
among the sources), `msg[i++] = x & 0xff` for an index variable `i` of type
`uint8_t`.  A message under construction is the pair of the buffer and the
index. -/
def SETU8 (m : Buf × Nat) (x : Nat) : Buf × Nat :=
  (fun k => if k = m.2 then x % 256 else m.1 k, (m.2 + 1) % 256)

/-- Modelled from the spec: the macro `SETU16(msg, i, x)` of `tmr_utils.h` (not
among the sources), the two bytes of `x`, high byte first ("big-endian
multi-byte integers"). -/
def SETU16 (m : Buf × Nat) (x : Nat) : Buf × Nat :=
  SETU8 (SETU8 m (x >>> 8)) x

/-- Modelled from the spec: the macro `SETU32(msg, i, x)` of `tmr_utils.h` (not
among the sources), the four bytes of `x`, high byte first. -/
def SETU32 (m : Buf × Nat) (x : Nat) : Buf × Nat :=
  SETU8 (SETU8 (SETU8 (SETU8 m (x >>> 24)) (x >>> 16)) (x >>> 8)) x

/-- The statement `msg[1] = i - 3`, stored into a byte. -/
def installLength (m : Buf × Nat) : Buf :=
  fun k => if k = 1 then (m.2 + 256 - 3) % 256 else m.1 k

/-- The bytes `msg[1] .. msg[msg[1] + 2]` of a request message: the length
byte, the opcode and the payload, which `TMR_SR_sendMessage` frames with the
start-of-header byte and the checksum. -/
def requestOf (msg : Buf) : List Nat :=
  (List.range (msg 1 % 256 + 2)).map (fun k => msg (1 + k))

/-- The function `TMR_SR_sendTimeout(reader, data, timeoutMs)`, run as a whole:
the request is recorded and the module's answer is that of the environment. -/
def TMR_SR_sendTimeout (env : Env) (reader : Reader) (data : Buf) :
    TMR_Status × Buf × Reader :=
  ((env.exchange (requestOf data)).1, (env.exchange (requestOf data)).2,
    { reader with trace := reader.trace ++ [WireEvent.message (requestOf data)] })

/-- The function `TMR_SR_send(reader, data)`. -/
def TMR_SR_send (env : Env) (reader : Reader) (data : Buf) : TMR_Status × Buf × Reader :=
  TMR_SR_sendTimeout env reader data

/-- A command function exchanged as a whole: its status, the value it
delivers, and the reader with the call recorded. -/
def callCommand (env : Env) (reader : Reader) (c : Command) :
    TMR_Status × ParamValue × Reader :=
  ((env.command c).1, (env.command c).2,
    { reader with trace := reader.trace ++ [WireEvent.command c] })

/-- An element of the array `TMR_SR_PortDetect ports[]`. -/
structure TMR_SR_PortDetect where
  port : Nat
  detected : Bool
  deriving DecidableEq

/-- The loop `for (i = 1, j = 0; i < msg[1] && j < *count; i += 2, j++)` of
`TMR_SR_cmdAntennaDetect`: the elements `ports[j], ports[j + 1], ...` it
stores.  The first argument is `*count - j`.  The index `i` stays below 256,
the loop ending once `i` reaches `msg[1]`. -/
def antennaDetectLoop (msg : Buf) : Nat → Nat → List TMR_SR_PortDetect
  | 0, _ => []
  | n + 1, i =>
    if i < msg 1 then
      { port := msg (i + 5), detected := msg (i + 6) == 1 } :: antennaDetectLoop msg n (i + 2)
    else []

/-- The function `TMR_SR_cmdAntennaDetect(reader, count, ports)`; `count` is the
value of `*count` on entry, and the list returned holds `ports[0] ..
ports[*count - 1]` for the value of `*count` on return. -/
def TMR_SR_cmdAntennaDetect (env : Env) (reader : Reader) (count : Nat) :
    TMR_Status × List TMR_SR_PortDetect × Reader :=
  let m := SETU8 (SETU8 (fun _ => 0, 2) TMR_SR_OPCODE_GET_ANTENNA_PORT) 5
  let r := TMR_SR_send env reader (installLength m)
  if r.1 ≠ SUCCESS then (r.1, [], r.2.2)
  else (SUCCESS, antennaDetectLoop r.2.1 count 1, r.2.2)

/-- The macro `HASPORT(mask, port)` of `serial_reader.c` (line 39),
`(1 << (port - 1)) & mask`.  The shift is on a 32-bit `int` and is defined in C
for `port` in 1..32 only; for these ports the value below is the value of the
macro.  For port 0 and for ports above 32 the C expression has no defined
value, and the statements about maps of the caller take the ports in 1..32. -/
def HASPORT (mask port : Nat) : Nat :=
  (1 <<< (port - 1)) &&& mask

/-- The loop of `initTxRxMapFromPorts` (lines 61-72) over the elements of
`ports` still to visit: the port mask, the entries stored into
`staticTxRxMapData` so far and the tag-operation antenna.  The shift is defined
in C for ports in 1..32. -/
def initTxRxMapLoop : List TMR_SR_PortDetect → Nat → List TMR_AntennaMap → Nat →
    Nat × List TMR_AntennaMap × Nat
  | [], portMask, data, antenna => (portMask, data, antenna)
  | p :: rest, portMask, data, antenna =>
    initTxRxMapLoop rest ((portMask ||| (1 <<< (p.port - 1))) % 2 ^ 32)
      (data ++ [{ antenna := p.port, txPort := p.port, rxPort := p.port }])
      (if antenna = 0 ∧ p.detected = true then p.port else antenna)

/-- The function `initTxRxMapFromPorts(reader)`. -/
def initTxRxMapFromPorts (env : Env) (reader : Reader) : TMR_Status × Reader :=
  let r := TMR_SR_cmdAntennaDetect env reader TMR_SR_MAX_ANTENNA_PORTS
  if r.1 ≠ SUCCESS then (r.1, r.2.2)
  else
    let l := initTxRxMapLoop r.2.1 0 [] r.2.2.tagOpParams.antenna
    (SUCCESS,
      { r.2.2 with
        portMask := l.1
        tagOpParams := { r.2.2.tagOpParams with antenna := l.2.2 }
        txRxMap := { list := l.2.1, max := TMR_SR_MAX_ANTENNA_PORTS } })

/-- Lines 230-235 of `TMR_SR_boot`: the defaults of the tag-operation
parameters and the construction of the Tx/Rx map that end the boot sequence. -/
def bootAntennaSetup (env : Env) (reader : Reader) : TMR_Status × Reader :=
  initTxRxMapFromPorts env
    { reader with tagOpParams := { antenna := 0, protocol := TMR_TAG_PROTOCOL_GEN2 } }

/-- The function `setProtocol(reader, protocol)` of `serial_reader.c`. -/
def setProtocol (env : Env) (reader : Reader) (protocol : Nat) : TMR_Status × Reader :=
  let r := callCommand env reader (Command.SetProtocol protocol)
  if r.1 ≠ SUCCESS then (r.1, r.2.2)
  else
    let r2 := callCommand env r.2.2
      (Command.SetReaderConfiguration TMR_SR_Configuration.EXTENDED_EPC [1])
    if r2.1 ≠ SUCCESS then (r2.1, r2.2.2)
    else (SUCCESS, { r2.2.2 with currentProtocol := protocol })

/-- The search list that `setAntennaList` builds: for each antenna of the
list that the Tx/Rx map knows, the ports of the first entry with that antenna. -/
def antennaSearchList (map : TMR_AntennaMapList) (antennas : List Nat) : List (Nat × Nat) :=
  antennas.filterMap (fun a =>
    (map.list.find? (fun e => a == e.antenna)).map (fun e => (e.txPort, e.rxPort)))

/-- The function `setAntennaList(reader, antennas)`. -/
def setAntennaList (env : Env) (reader : Reader) (antennas : List Nat) : TMR_Status × Reader :=
  let r := callCommand env reader
    (Command.SetAntennaSearchList (antennaSearchList reader.txRxMap antennas))
  (r.1, r.2.2)

/-- The function `autoDetectAntennaList(reader)`: the detected ports that are
the transmit port of a map entry, with the ports of the first such entry. -/
def autoDetectAntennaList (env : Env) (reader : Reader) : TMR_Status × Reader :=
  let r := TMR_SR_cmdAntennaDetect env reader TMR_SR_MAX_ANTENNA_PORTS
  if r.1 ≠ SUCCESS then (r.1, r.2.2)
  else
    let searchList := (r.2.1.filter (fun p => p.detected)).filterMap (fun p =>
      (reader.txRxMap.list.find? (fun e => p.port == e.txPort)).map
        (fun e => (e.txPort, e.rxPort)))
    if searchList.length = 0 then (ERROR_NO_ANTENNA, r.2.2)
    else
      let r2 := callCommand env r.2.2 (Command.SetAntennaSearchList searchList)
      (r2.1, r2.2.2)

/-- The function `prepForSearch(reader, antennaList)`. -/
def prepForSearch (env : Env) (reader : Reader) (antennaList : List Nat) :
    TMR_Status × Reader :=
  if antennaList.length = 0 then autoDetectAntennaList env reader
  else setAntennaList env reader antennaList

/-! ## Read plans (`serial_reader.c`, lines 1629-1682) -/

mutual
/-- The function `validateReadPlan(reader, plan)`: its result, and the plan as
the call leaves it (the total weight of a multi-plan is recomputed in place). -/
def validateReadPlan (reader : Reader) : TMR_ReadPlan → Bool × TMR_ReadPlan
  | TMR_ReadPlan.multi weight plans _ =>
    match validateReadPlanLoop reader plans 0 with
    | (false, plans1, totalWeight) => (false, TMR_ReadPlan.multi weight plans1 totalWeight)
    | (true, plans1, totalWeight) =>
      if totalWeight = 0 then (false, TMR_ReadPlan.multi weight plans1 totalWeight)
      else (true, TMR_ReadPlan.multi weight plans1 totalWeight)
  | TMR_ReadPlan.simple weight antennas protocol filter tagop =>
    if (1 <<< (protocol - 1)) &&& reader.versionInfo.protocols = 0 then
      (false, TMR_ReadPlan.simple weight antennas protocol filter tagop)
    else if antennas.any (fun a => !(reader.txRxMap.list.any (fun e => a == e.antenna))) then
      (false, TMR_ReadPlan.simple weight antennas protocol filter tagop)
    else
      match tagop with
      | some op =>
        if op.type = TMR_TagopType.LIST then
          (false, TMR_ReadPlan.simple weight antennas protocol filter tagop)
        else (true, TMR_ReadPlan.simple weight antennas protocol filter tagop)
      | none => (true, TMR_ReadPlan.simple weight antennas protocol filter tagop)
  | TMR_ReadPlan.other weight => (true, TMR_ReadPlan.other weight)
/-- The loop of `validateReadPlan` over the sub-plans still to visit, with the
value of `plan->u.multi.totalWeight` reached so far: whether the loop ran to its
end, the sub-plans as the calls leave them, and the total weight. -/
def validateReadPlanLoop (reader : Reader) :
    List TMR_ReadPlan → Nat → Bool × List TMR_ReadPlan × Nat
  | [], totalWeight => (true, [], totalWeight)
  | p :: rest, totalWeight =>
    match validateReadPlan reader p with
    | (false, p1) => (false, p1 :: rest, totalWeight)
    | (true, p1) =>
      match validateReadPlanLoop reader rest ((totalWeight + p1.weight) % 2 ^ 32) with
      | (b, rest1, totalWeight1) => (b, p1 :: rest1, totalWeight1)
end

/-! ## Parameters (`serial_reader.c`, lines 1685-1703, 1736-2138, 2140-2581) -/

/-- How control leaves the first `switch` of `TMR_SR_paramGet`: at its end
(after a `break`), or by a `return` inside it; with the status, the object
`value` points to and the reader at that point. -/
inductive GetExit where
  | left (ret : TMR_Status) (value : ParamValue) (reader : Reader)
  | returned (ret : TMR_Status) (value : ParamValue) (reader : Reader)

/-- How control leaves the first `switch` of `TMR_SR_paramSet`: at its end, or
by a `return` inside it. -/
inductive SetExit where
  | left (ret : TMR_Status) (reader : Reader)
  | returned (ret : TMR_Status) (reader : Reader)

/-- The loop `for (pin = 1; pin <= 4; pin++)` of the case of the two GPIO lists
in `TMR_SR_paramGet` (lines 2288-2299) over the pins still to visit: the status
is that of the query that failed, if one did. -/
def getGPIODirections (env : Env) : List Nat → Reader → TMR_Status × Reader
  | [], reader => (SUCCESS, reader)
  | pin :: rest, reader =>
    let r := callCommand env reader (Command.GetGPIODirection pin)
    if r.1 ≠ SUCCESS then (r.1, r.2.2)
    else if r.2.1.toNat ≠ 0 then
      getGPIODirections env rest
        { r.2.2 with
          gpioDirections := Int.ofNat (r.2.2.gpioDirections.toNat ||| (1 <<< pin)) }
    else getGPIODirections env rest r.2.2

/-- The key of the reader-configuration commands that the first `switch` of the
parameter functions stores in `readerkey`, for the keys of the first group of
the second `switch`. -/
def readerkeyOf : TMR_Param → Option TMR_SR_Configuration
  | TMR_Param.RADIO_ENABLEPOWERSAVE => some TMR_SR_Configuration.TRANSMIT_POWER_SAVE
  | TMR_Param.ANTENNA_CHECKPORT => some TMR_SR_Configuration.SAFETY_ANTENNA_CHECK
  | TMR_Param.TAGREADDATA_RECORDHIGHESTRSSI => some TMR_SR_Configuration.RECORD_HIGHEST_RSSI
  | TMR_Param.TAGREADDATA_REPORTRSSIINDBM => some TMR_SR_Configuration.RSSI_IN_DBM
  | TMR_Param.TAGREADDATA_UNIQUEBYANTENNA => some TMR_SR_Configuration.UNIQUE_BY_ANTENNA
  | TMR_Param.TAGREADDATA_UNIQUEBYDATA => some TMR_SR_Configuration.UNIQUE_BY_DATA
  | _ => none

/-- The protocol and key that the first `switch` of the parameter functions
stores in `protokey`, for the keys of the second group of the second
`switch`. -/
def protokeyOf : TMR_Param → Option (Nat × TMR_SR_ProtocolConfiguration)
  | TMR_Param.GEN2_Q => some (TMR_TAG_PROTOCOL_GEN2, TMR_SR_ProtocolConfiguration.GEN2_Q)
  | TMR_Param.GEN2_TAGENCODING =>
    some (TMR_TAG_PROTOCOL_GEN2, TMR_SR_ProtocolConfiguration.GEN2_TAGENCODING)
  | TMR_Param.GEN2_SESSION =>
    some (TMR_TAG_PROTOCOL_GEN2, TMR_SR_ProtocolConfiguration.GEN2_SESSION)
  | TMR_Param.GEN2_TARGET =>
    some (TMR_TAG_PROTOCOL_GEN2, TMR_SR_ProtocolConfiguration.GEN2_TARGET)
  | TMR_Param.GEN2_BLF =>
    some (TMR_TAG_PROTOCOL_GEN2, TMR_SR_ProtocolConfiguration.GEN2_LINKFREQUENCY)
  | TMR_Param.GEN2_TARI => some (TMR_TAG_PROTOCOL_GEN2, TMR_SR_ProtocolConfiguration.GEN2_TARI)
  | TMR_Param.ISO180006B_BLF =>
    some (TMR_TAG_PROTOCOL_ISO180006B, TMR_SR_ProtocolConfiguration.ISO180006B_LINKFREQUENCY)
  | _ => none

/-- The case of a key whose value is fetched by one command exchanged as a
whole: `ret = TMR_SR_cmd...(reader, value); break;`. -/
def getByCommand (env : Env) (reader : Reader) (c : Command) : GetExit :=
  GetExit.left (callCommand env reader c).1 (callCommand env reader c).2.1
    (callCommand env reader c).2.2

/-- The first `switch` of `TMR_SR_paramGet` (lines 2158-2541).  Of the objects
stored through `value`, the numbers, the antenna map and the values delivered by
single commands are kept; the strings and the lists built by the other cases are
not looked into, and `value` is handed on as it came. -/
def paramGetSwitch (env : Env) (reader : Reader) (key : TMR_Param) (value : ParamValue) :
    GetExit :=
  match key with
  | TMR_Param.BAUDRATE => GetExit.left SUCCESS (ParamValue.num reader.baudRate) reader
  | TMR_Param.COMMANDTIMEOUT =>
    GetExit.left SUCCESS (ParamValue.num reader.commandTimeout) reader
  | TMR_Param.TRANSPORTTIMEOUT =>
    GetExit.left SUCCESS (ParamValue.num reader.transportTimeout) reader
  | TMR_Param.REGION_ID => GetExit.left SUCCESS (ParamValue.num reader.regionId) reader
  | TMR_Param.RADIO_ENABLEPOWERSAVE => GetExit.left SUCCESS value reader
  | TMR_Param.RADIO_POWERMAX =>
    GetExit.left (callCommand env reader Command.GetReadTxPowerWithLimits).1 value
      (callCommand env reader Command.GetReadTxPowerWithLimits).2.2
  | TMR_Param.RADIO_POWERMIN =>
    GetExit.left (callCommand env reader Command.GetReadTxPowerWithLimits).1 value
      (callCommand env reader Command.GetReadTxPowerWithLimits).2.2
  | TMR_Param.RADIO_READPOWER => getByCommand env reader Command.GetReadTxPower
  | TMR_Param.RADIO_WRITEPOWER => getByCommand env reader Command.GetWriteTxPower
  | TMR_Param.ANTENNA_CHECKPORT => GetExit.left SUCCESS value reader
  | TMR_Param.TAGREADDATA_RECORDHIGHESTRSSI => GetExit.left SUCCESS value reader
  | TMR_Param.TAGREADDATA_REPORTRSSIINDBM => GetExit.left SUCCESS value reader
  | TMR_Param.TAGREADDATA_UNIQUEBYANTENNA => GetExit.left SUCCESS value reader
  | TMR_Param.TAGREADDATA_UNIQUEBYDATA => GetExit.left SUCCESS value reader
  | TMR_Param.ANTENNA_PORTSWITCHGPOS =>
    GetExit.left
      (callCommand env reader
        (Command.GetReaderConfiguration TMR_SR_Configuration.ANTENNA_CONTROL_GPIO)).1
      value
      (callCommand env reader
        (Command.GetReaderConfiguration TMR_SR_Configuration.ANTENNA_CONTROL_GPIO)).2.2
  | TMR_Param.ANTENNA_SETTLINGTIMELIST =>
    GetExit.left (callCommand env reader (Command.getPortValues 2)).1 value
      (callCommand env reader (Command.getPortValues 2)).2.2
  | TMR_Param.RADIO_PORTREADPOWERLIST =>
    GetExit.left (callCommand env reader (Command.getPortValues 0)).1 value
      (callCommand env reader (Command.getPortValues 0)).2.2
  | TMR_Param.RADIO_PORTWRITEPOWERLIST =>
    GetExit.left (callCommand env reader (Command.getPortValues 1)).1 value
      (callCommand env reader (Command.getPortValues 1)).2.2
  | TMR_Param.GPIO_INPUTLIST | TMR_Param.GPIO_OUTPUTLIST =>
    if reader.versionInfo.hardware.getD 0 0 = TMR_SR_MODEL_M6E then
      if reader.gpioDirections = -1 then
        let r := getGPIODirections env [1, 2, 3, 4] { reader with gpioDirections := 0 }
        if r.1 ≠ SUCCESS then GetExit.returned r.1 value r.2
        else GetExit.left SUCCESS value r.2
      else GetExit.left SUCCESS value reader
    else GetExit.left SUCCESS value reader
  | TMR_Param.ANTENNA_PORTLIST =>
    GetExit.left (TMR_SR_cmdAntennaDetect env reader TMR_SR_MAX_ANTENNA_PORTS).1 value
      (TMR_SR_cmdAntennaDetect env reader TMR_SR_MAX_ANTENNA_PORTS).2.2
  | TMR_Param.ANTENNA_CONNECTEDPORTLIST =>
    GetExit.left (TMR_SR_cmdAntennaDetect env reader TMR_SR_MAX_ANTENNA_PORTS).1 value
      (TMR_SR_cmdAntennaDetect env reader TMR_SR_MAX_ANTENNA_PORTS).2.2
  | TMR_Param.ANTENNA_TXRXMAP =>
    match value with
    | ParamValue.antennaMapList map =>
      GetExit.left SUCCESS
        (ParamValue.antennaMapList { map with list := reader.txRxMap.list.take map.max })
        reader
    | _ => GetExit.left SUCCESS value reader
  | TMR_Param.REGION_HOPTABLE =>
    GetExit.left (callCommand env reader Command.GetFrequencyHopTable).1 value
      (callCommand env reader Command.GetFrequencyHopTable).2.2
  | TMR_Param.REGION_HOPTIME => getByCommand env reader Command.GetFrequencyHopTime
  | TMR_Param.REGION_LBT_ENABLE =>
    let r := callCommand env reader Command.GetRegionConfiguration
    if r.1 ≠ SUCCESS ∧ TMR_ERROR_IS_CODE r.1 = true then
      GetExit.left SUCCESS (ParamValue.num 0) r.2.2
    else GetExit.left r.1 r.2.1 r.2.2
  | TMR_Param.TAGOP_ANTENNA =>
    GetExit.left SUCCESS (ParamValue.num reader.tagOpParams.antenna) reader
  | TMR_Param.TAGOP_PROTOCOL =>
    GetExit.left SUCCESS (ParamValue.num reader.tagOpParams.protocol) reader
  | TMR_Param.POWERMODE =>
    if reader.connected then
      let reader1 := { reader with trace := reader.trace ++ [WireEvent.cmdGetPowerMode] }
      let ret := env.cmdGetPowerMode.1
      let reader2 :=
        if ret = SUCCESS then { reader1 with powerMode := env.cmdGetPowerMode.2 } else reader1
      GetExit.left ret (ParamValue.num reader2.powerMode) reader2
    else GetExit.left SUCCESS (ParamValue.num reader.powerMode) reader
  | TMR_Param.USERMODE => getByCommand env reader Command.GetUserMode
  | TMR_Param.GEN2_Q => GetExit.left SUCCESS value reader
  | TMR_Param.GEN2_TAGENCODING => GetExit.left SUCCESS value reader
  | TMR_Param.GEN2_SESSION => GetExit.left SUCCESS value reader
  | TMR_Param.GEN2_TARGET => GetExit.left SUCCESS value reader
  | TMR_Param.GEN2_BLF => GetExit.left SUCCESS value reader
  | TMR_Param.GEN2_TARI => GetExit.left SUCCESS value reader
  | TMR_Param.GEN2_WRITEMODE => GetExit.left SUCCESS (ParamValue.num reader.writeMode) reader
  | TMR_Param.ISO180006B_BLF => GetExit.left SUCCESS value reader
  | TMR_Param.GEN2_ACCESSPASSWORD =>
    GetExit.left SUCCESS (ParamValue.num reader.gen2AccessPassword) reader
  | TMR_Param.REGION_SUPPORTEDREGIONS =>
    GetExit.left (callCommand env reader Command.GetAvailableRegions).1 value
      (callCommand env reader Command.GetAvailableRegions).2.2
  | TMR_Param.VERSION_SUPPORTEDPROTOCOLS =>
    GetExit.left (callCommand env reader Command.GetAvailableProtocols).1 value
      (callCommand env reader Command.GetAvailableProtocols).2.2
  | TMR_Param.RADIO_TEMPERATURE => getByCommand env reader Command.GetTemperature
  | TMR_Param.VERSION_HARDWARE =>
    GetExit.left (callCommand env reader Command.getHardwareInfo).1 value
      (callCommand env reader Command.getHardwareInfo).2.2
  | TMR_Param.VERSION_SERIAL =>
    GetExit.left (callCommand env reader Command.getSerialNumber).1 value
      (callCommand env reader Command.getSerialNumber).2.2
  | TMR_Param.VERSION_MODEL => GetExit.left SUCCESS value reader
  | TMR_Param.VERSION_SOFTWARE => GetExit.left SUCCESS value reader
  | _ => GetExit.left ERROR_NOT_FOUND value reader

/-- The second `switch` of `TMR_SR_paramGet` (lines 2543-2569). -/
def paramGetSecond (env : Env) (reader : Reader) (key : TMR_Param) (ret : TMR_Status)
    (value : ParamValue) : TMR_Status × ParamValue × Reader :=
  match readerkeyOf key with
  | some readerkey => callCommand env reader (Command.GetReaderConfiguration readerkey)
  | none =>
    match protokeyOf key with
    | some protokey =>
      callCommand env reader (Command.GetProtocolConfiguration protokey.1 protokey.2)
    | none => (ret, value, reader)

/-- The function `TMR_SR_paramGet(reader, key, value)`.  `value` is the object
that `value` points to on entry; the result carries what it points to on
return. -/
def TMR_SR_paramGet (env : Env) (reader : Reader) (key : TMR_Param) (value : ParamValue) :
    TMR_Status × ParamValue × Reader :=
  if BITGET reader.paramConfirmed key && !BITGET reader.paramPresent key then
    (ERROR_NOT_FOUND, value, reader)
  else
    match paramGetSwitch env reader key value with
    | GetExit.returned ret value reader => (ret, value, reader)
    | GetExit.left ret value reader =>
      let r := paramGetSecond env reader key ret value
      let ret := r.1
      let reader := r.2.2
      if BITGET reader.paramConfirmed key = false then
        let present := if ret = SUCCESS then BITSET reader.paramPresent key else reader.paramPresent
        (ret, r.2.1,
          { reader with
            paramPresent := present, paramConfirmed := BITSET reader.paramConfirmed key })
      else (ret, r.2.1, reader)

/-- Modelled from the spec: the function `TMR_paramGet` of `tm_reader.c` (not
among the sources).  The probe "attempts the get"; for a key that the serial
reader handles the get is the handler installed in `reader->paramGet` by
`TMR_SR_SerialReader_init`, which is `TMR_SR_paramGet`. -/
def TMR_paramGet (env : Env) (reader : Reader) (key : TMR_Param) (value : ParamValue) :
    TMR_Status × ParamValue × Reader :=
  TMR_SR_paramGet env reader key value

/-- The function `TMR_SR_paramProbe(reader, key)`; the buffer handed to the get
holds zeros. -/
def TMR_SR_paramProbe (env : Env) (reader : Reader) (key : TMR_Param) : Reader :=
  let r := TMR_paramGet env reader key (ParamValue.num 0)
  let ret := r.1
  let reader := r.2.2
  let present := if ret = SUCCESS then BITSET reader.paramPresent key else reader.paramPresent
  { reader with paramPresent := present, paramConfirmed := BITSET reader.paramConfirmed key }

/-- The port mask that the case `TMR_PARAM_ANTENNA_PORTSWITCHGPOS` of
`TMR_SR_paramSet` computes into a `uint8_t` (lines 1848-1852) over the entries
still to visit.  The shift is defined in C for entries in 1..32. -/
def gpoPortmask : List Nat → Nat → Nat
  | [], portmask => portmask
  | x :: rest, portmask => gpoPortmask rest ((portmask ||| (1 <<< (x - 1))) % 256)

/-- The loop `for (pin = 1; pin <= 4; pin++)` of the case of the two GPIO lists
in `TMR_SR_paramSet` (lines 2018-2031) over the pins still to visit. -/
def setGPIODirections (env : Env) (newDirections : Nat) : List Nat → Reader → TMR_Status × Reader
  | [], reader => (SUCCESS, reader)
  | pin :: rest, reader =>
    if reader.gpioDirections = -1 ∨
        reader.gpioDirections.toNat &&& (1 <<< pin) ≠ newDirections &&& (1 <<< pin) then
      let r := callCommand env reader
        (Command.SetGPIODirection pin (newDirections &&& (1 <<< pin) != 0))
      if r.1 ≠ SUCCESS then (r.1, r.2.2)
      else setGPIODirections env newDirections rest r.2.2
    else setGPIODirections env newDirections rest reader

/-- The case `TMR_PARAM_ANTENNA_TXRXMAP` of `TMR_SR_paramSet` (lines
1866-1896) for the candidate `map`. -/
def setTxRxMap (reader : Reader) (map : TMR_AntennaMapList) : SetExit :=
  if map.list.length > reader.txRxMap.max then SetExit.left ERROR_TOO_BIG reader
  else if map.list.any (fun e => HASPORT reader.portMask e.txPort == 0 ||
      HASPORT reader.portMask e.rxPort == 0) then
    SetExit.returned ERROR_NO_ANTENNA reader
  else SetExit.left SUCCESS { reader with txRxMap := { reader.txRxMap with list := map.list } }

/-- The case `TMR_PARAM_TAGOP_ANTENNA` of `TMR_SR_paramSet` (lines
1934-1964). -/
def setTagopAntenna (env : Env) (reader : Reader) (antenna : Nat) : SetExit :=
  match (reader.txRxMap.list.take reader.txRxMap.max).find? (fun e => e.antenna == antenna) with
  | some e =>
    let reader1 := { reader with tagOpParams := { reader.tagOpParams with antenna := antenna } }
    if e.txPort = 0 then SetExit.left ERROR_NO_ANTENNA reader1
    else
      SetExit.left (callCommand env reader1 (Command.SetTxRxPorts e.txPort e.rxPort)).1
        (callCommand env reader1 (Command.SetTxRxPorts e.txPort e.rxPort)).2.2
  | none => SetExit.left ERROR_NO_ANTENNA reader

/-- The case of a key that is set by one command exchanged as a whole:
`ret = TMR_SR_cmd...(reader, ...); break;`. -/
def setByCommand (env : Env) (reader : Reader) (c : Command) : SetExit :=
  SetExit.left (callCommand env reader c).1 (callCommand env reader c).2.2

/-- The first `switch` of `TMR_SR_paramSet` (lines 1760-2108); `value` is the
object `value` points to. -/
def paramSetSwitch (env : Env) (reader : Reader) (key : TMR_Param) (value : ParamValue) :
    SetExit :=
  match key with
  | TMR_Param.REGION_ID =>
    let reader := { reader with regionId := value.toNat }
    if reader.connected then
      SetExit.left (env.cmdSetRegion reader.regionId)
        { reader with trace := reader.trace ++ [WireEvent.cmdSetRegion reader.regionId] }
    else SetExit.left SUCCESS reader
  | TMR_Param.BAUDRATE =>
    let rate := value.toNat
    if reader.connected then
      let ret := env.cmdSetBaudRate rate
      let reader := { reader with trace := reader.trace ++ [WireEvent.cmdSetBaudRate rate] }
      if ret ≠ SUCCESS then SetExit.left ret reader
      else
        let reader := { reader with baudRate := rate }
        SetExit.left ret
          { reader with trace := reader.trace ++ [WireEvent.setBaudRate reader.baudRate] }
    else SetExit.left SUCCESS { reader with baudRate := rate }
  | TMR_Param.COMMANDTIMEOUT =>
    SetExit.left SUCCESS { reader with commandTimeout := value.toNat }
  | TMR_Param.TRANSPORTTIMEOUT =>
    SetExit.left SUCCESS { reader with transportTimeout := value.toNat }
  | TMR_Param.RADIO_ENABLEPOWERSAVE => SetExit.left SUCCESS reader
  | TMR_Param.RADIO_READPOWER => setByCommand env reader (Command.SetReadTxPower value.toNat)
  | TMR_Param.RADIO_WRITEPOWER => setByCommand env reader (Command.SetWriteTxPower value.toNat)
  | TMR_Param.RADIO_PORTREADPOWERLIST => setByCommand env reader (Command.setPortValues 0)
  | TMR_Param.RADIO_PORTWRITEPOWERLIST => setByCommand env reader (Command.setPortValues 1)
  | TMR_Param.ANTENNA_SETTLINGTIMELIST => setByCommand env reader (Command.setPortValues 2)
  | TMR_Param.ANTENNA_CHECKPORT => SetExit.left SUCCESS reader
  | TMR_Param.TAGREADDATA_RECORDHIGHESTRSSI => SetExit.left SUCCESS reader
  | TMR_Param.TAGREADDATA_REPORTRSSIINDBM => SetExit.left SUCCESS reader
  | TMR_Param.TAGREADDATA_UNIQUEBYANTENNA => SetExit.left SUCCESS reader
  | TMR_Param.TAGREADDATA_UNIQUEBYDATA => SetExit.left SUCCESS reader
  | TMR_Param.ANTENNA_PORTSWITCHGPOS =>
    let portmask :=
      match value with
      | ParamValue.u8List l => gpoPortmask (l.list.take l.max) 0
      | _ => 0
    let r := callCommand env reader
      (Command.SetReaderConfiguration TMR_SR_Configuration.ANTENNA_CONTROL_GPIO [portmask])
    if r.1 ≠ SUCCESS then SetExit.left r.1 r.2.2
    else
      SetExit.left (initTxRxMapFromPorts env r.2.2).1 (initTxRxMapFromPorts env r.2.2).2
  | TMR_Param.ANTENNA_TXRXMAP =>
    match value with
    | ParamValue.antennaMapList map => setTxRxMap reader map
    | _ => SetExit.left SUCCESS reader
  | TMR_Param.REGION_HOPTABLE => setByCommand env reader Command.SetFrequencyHopTable
  | TMR_Param.REGION_HOPTIME => setByCommand env reader (Command.SetFrequencyHopTime value.toNat)
  | TMR_Param.REGION_LBT_ENABLE =>
    let r := callCommand env reader Command.GetFrequencyHopTable
    if r.1 ≠ SUCCESS then SetExit.left r.1 r.2.2
    else
      let r2 := callCommand env r.2.2 (Command.SetRegionLbt reader.regionId value.toNat)
      if r2.1 ≠ SUCCESS then SetExit.left r2.1 r2.2.2
      else setByCommand env r2.2.2 Command.SetFrequencyHopTable
  | TMR_Param.TAGOP_ANTENNA => setTagopAntenna env reader (value.toNat % 256)
  | TMR_Param.TAGOP_PROTOCOL =>
    if (1 <<< (value.toNat - 1)) &&& reader.versionInfo.protocols = 0 then
      SetExit.left ERROR_UNSUPPORTED reader
    else
      SetExit.left SUCCESS
        { reader with tagOpParams := { reader.tagOpParams with protocol := value.toNat } }
  | TMR_Param.READ_PLAN =>
    match value with
    | ParamValue.readPlan plan =>
      if (validateReadPlan reader plan).1 = false then SetExit.returned ERROR_INVALID reader
      else SetExit.left SUCCESS { reader with readPlan := (validateReadPlan reader plan).2 }
    | _ => SetExit.left SUCCESS reader
  | TMR_Param.GPIO_INPUTLIST | TMR_Param.GPIO_OUTPUTLIST =>
    if reader.versionInfo.hardware.getD 0 0 = TMR_SR_MODEL_M6E then
      let pins :=
        match value with
        | ParamValue.u8List l => l.list.take l.max
        | _ => []
      let newDirections :=
        pins.foldl (fun d pin => d ^^^ (1 <<< pin))
          (if key = TMR_Param.GPIO_OUTPUTLIST then 0 else 0x1e)
      let r := setGPIODirections env newDirections [1, 2, 3, 4] reader
      if r.1 ≠ SUCCESS then SetExit.returned r.1 r.2
      else SetExit.left SUCCESS { r.2 with gpioDirections := Int.ofNat newDirections }
    else SetExit.left ERROR_READONLY reader
  | TMR_Param.RADIO_POWERMAX => SetExit.left ERROR_READONLY reader
  | TMR_Param.RADIO_POWERMIN => SetExit.left ERROR_READONLY reader
  | TMR_Param.REGION_SUPPORTEDREGIONS => SetExit.left ERROR_READONLY reader
  | TMR_Param.ANTENNA_PORTLIST => SetExit.left ERROR_READONLY reader
  | TMR_Param.ANTENNA_CONNECTEDPORTLIST => SetExit.left ERROR_READONLY reader
  | TMR_Param.VERSION_SUPPORTEDPROTOCOLS => SetExit.left ERROR_READONLY reader
  | TMR_Param.RADIO_TEMPERATURE => SetExit.left ERROR_READONLY reader
  | TMR_Param.VERSION_HARDWARE => SetExit.left ERROR_READONLY reader
  | TMR_Param.VERSION_MODEL => SetExit.left ERROR_READONLY reader
  | TMR_Param.VERSION_SOFTWARE => SetExit.left ERROR_READONLY reader
  | TMR_Param.POWERMODE =>
    if reader.connected then
      let ret := env.cmdSetPowerMode value.toNat
      let reader :=
        { reader with trace := reader.trace ++ [WireEvent.cmdSetPowerMode value.toNat] }
      if ret = SUCCESS then SetExit.left ret { reader with powerMode := value.toNat }
      else SetExit.left ret reader
    else SetExit.left SUCCESS { reader with powerMode := value.toNat }
  | TMR_Param.USERMODE => setByCommand env reader (Command.SetUserMode value.toNat)
  | TMR_Param.GEN2_Q => SetExit.left SUCCESS reader
  | TMR_Param.GEN2_TAGENCODING => SetExit.left SUCCESS reader
  | TMR_Param.GEN2_SESSION => SetExit.left SUCCESS reader
  | TMR_Param.GEN2_TARGET => SetExit.left SUCCESS reader
  | TMR_Param.GEN2_BLF => SetExit.left SUCCESS reader
  | TMR_Param.GEN2_TARI => SetExit.left SUCCESS reader
  | TMR_Param.GEN2_WRITEMODE => SetExit.left SUCCESS { reader with writeMode := value.toNat }
  | TMR_Param.ISO180006B_BLF => SetExit.left SUCCESS reader
  | TMR_Param.GEN2_ACCESSPASSWORD =>
    SetExit.left SUCCESS { reader with gen2AccessPassword := value.toNat }
  | _ => SetExit.left ERROR_NOT_FOUND reader

/-- The second `switch` of `TMR_SR_paramSet` (lines 2110-2136). -/
def paramSetSecond (env : Env) (reader : Reader) (key : TMR_Param) (ret : TMR_Status)
    (value : ParamValue) : TMR_Status × Reader :=
  match readerkeyOf key with
  | some readerkey =>
    ((callCommand env reader (Command.SetReaderConfiguration readerkey value.words)).1,
      (callCommand env reader (Command.SetReaderConfiguration readerkey value.words)).2.2)
  | none =>
    match protokeyOf key with
    | some protokey =>
      ((callCommand env reader
          (Command.SetProtocolConfiguration protokey.1 protokey.2 value.words)).1,
        (callCommand env reader
          (Command.SetProtocolConfiguration protokey.1 protokey.2 value.words)).2.2)
    | none => (ret, reader)

/-- The function `TMR_SR_paramSet(reader, key, value)`; `value` is the object
`value` points to. -/
def TMR_SR_paramSet (env : Env) (reader : Reader) (key : TMR_Param) (value : ParamValue) :
    TMR_Status × Reader :=
  let reader :=
    if BITGET reader.paramConfirmed key = false then TMR_SR_paramProbe env reader key else reader
  if BITGET reader.paramConfirmed key && !BITGET reader.paramPresent key then
    (ERROR_NOT_FOUND, reader)
  else
    match paramSetSwitch env reader key value with
    | SetExit.returned ret reader => (ret, reader)
    | SetExit.left ret reader => paramSetSecond env reader key ret value

/-- Modelled from the spec: the function `TMR_paramSet` of `tm_reader.c` (not
among the sources); for a key that the serial reader handles the set is the
handler installed in `reader->paramSet` by `TMR_SR_SerialReader_init`, which is
`TMR_SR_paramSet`. -/
def TMR_paramSet (env : Env) (reader : Reader) (key : TMR_Param) (value : ParamValue) :
    TMR_Status × Reader :=
  TMR_SR_paramSet env reader key value

/-! ## Reading (`serial_reader.c`, lines 444-690 and 717-779) -/

/-- The protocol that `TMR_SR_read_internal` reads from a sub-plan through
`u.simple.protocol`; for a sub-plan that is not a simple plan the member read
holds no protocol, and 0 (`TMR_TAG_PROTOCOL_NONE`) stands for it. -/
def subPlanProtocol : TMR_ReadPlan → Nat
  | TMR_ReadPlan.simple _ _ protocol _ _ => protocol
  | _ => 0

/-- The antenna list `((TMR_SimpleReadPlan*)(rp->u.multi.plans[0]))->antennas`
of the multi-protocol search. -/
def firstAntennaList : List TMR_ReadPlan → List Nat
  | TMR_ReadPlan.simple _ antennas _ _ _ :: _ => antennas
  | _ => []

/-- Lines 535-689 of `TMR_SR_read_internal`, the search for a simple read
plan.  The loop `while (elapsed < timeoutMs)` (lines 562-687) is run as a
whole: it is not entered when `timeoutMs` is 0; otherwise its commands are the
one call `Command.inventory`, whose status is what the loop returns and whose
value is the number of tags it counted.  `tagCount` is `*tagCount`. -/
def searchSimple (env : Env) (reader : Reader) (timeoutMs : Nat) (tagCount : Nat)
    (antennas : List Nat) (protocol : Nat) (tagop : Option TMR_Tagop) :
    TMR_Status × Nat × Reader :=
  let r := prepForSearch env reader antennas
  if r.1 ≠ SUCCESS then (r.1, tagCount, r.2)
  else
    let r1 :=
      if r.2.currentProtocol ≠ protocol then
        setProtocol env { r.2 with currentProtocol := protocol } protocol
      else (SUCCESS, r.2)
    if r1.1 ≠ SUCCESS then (r1.1, tagCount, r1.2)
    else
      let reader1 := { r1.2 with searchTimeoutMs := timeoutMs }
      if timeoutMs = 0 then (SUCCESS, tagCount, reader1)
      else
        let r2 := callCommand env reader1 (Command.inventory timeoutMs protocol tagop.isSome)
        if r2.1 = ERROR_NO_TAGS_FOUND then
          (SUCCESS, tagCount,
            { r2.2.2 with tagsRemaining := if r2.2.2.useStreaming then 1 else r2.2.2.tagsRemaining })
        else if r2.1 ≠ SUCCESS then (r2.1, tagCount, r2.2.2)
        else
          (SUCCESS, tagCount + r2.2.1.toNat,
            { r2.2.2 with
              tagsRemaining :=
                if r2.2.2.useStreaming then 1
                else r2.2.2.tagsRemaining + Int.ofNat r2.2.1.toNat })

/-- The expression `rp->u.multi.plans[i]->weight * timeoutMs /
rp->u.multi.totalWeight` of `TMR_SR_read_internal` (lines 519-520), assigned to
the `uint32_t subTimeout`.  The product is taken in 32 bits. -/
def subTimeout (weight timeoutMs totalWeight : Nat) : Nat :=
  weight * timeoutMs % 2 ^ 32 / totalWeight

mutual
/-- The function `TMR_SR_read_internal(reader, timeoutMs, tagCount, rp)`;
`tagCount` is `*tagCount` on entry, and the result carries its value on
return. -/
def TMR_SR_read_internal (env : Env) :
    TMR_ReadPlan → Reader → Nat → Nat → TMR_Status × Nat × Reader
  | TMR_ReadPlan.multi _ plans totalWeight, reader, timeoutMs, tagCount =>
    if TMR_MAX_SERIAL_MULTIPROTOCOL_LENGTH < plans.length then (ERROR_TOO_BIG, tagCount, reader)
    else if totalWeight = 0 then
      let r := prepForSearch env reader (firstAntennaList plans)
      if r.1 ≠ SUCCESS then (r.1, tagCount, r.2)
      else
        let r2 := callCommand env r.2
          (Command.MultipleProtocolSearch (plans.map subPlanProtocol) (timeoutMs % 65536))
        (r2.1, tagCount + r2.2.1.toNat, r2.2.2)
    else readSubPlans env timeoutMs totalWeight plans reader tagCount SUCCESS
  | TMR_ReadPlan.simple _ antennas protocol _ tagop, reader, timeoutMs, tagCount =>
    searchSimple env reader timeoutMs tagCount antennas protocol tagop
  | TMR_ReadPlan.other _, reader, _, tagCount => (ERROR_INVALID, tagCount, reader)
/-- The loop of `TMR_SR_read_internal` over the sub-plans of a multi-plan
(lines 517-528), for the sub-plans still to visit; `ret` is the status of the
last sub-plan read. -/
def readSubPlans (env : Env) (timeoutMs totalWeight : Nat) :
    List TMR_ReadPlan → Reader → Nat → TMR_Status → TMR_Status × Nat × Reader
  | [], reader, tagCount, ret => (ret, tagCount, reader)
  | p :: rest, reader, tagCount, _ =>
    match TMR_SR_read_internal env p reader (subTimeout p.weight timeoutMs totalWeight)
        tagCount with
    | (ret, tagCount1, reader1) =>
      if ret ≠ SUCCESS ∧ ret ≠ ERROR_NO_TAGS_FOUND then (ret, tagCount1, reader1)
      else readSubPlans env timeoutMs totalWeight rest reader1 tagCount1 ret
end

/-- The function `TMR_SR_hasMoreTags(reader)`.  The streaming frames are
received from `reader.transport`.  In `tmr_serial_reader.h` the array
`bufResponse[256]` is followed by `bufPointer` and `tagsRemainingInBuffer`; the
fields are kept apart here, which is what the source does for a frame that
fits the array, one of `LEN + 7 <= 256` bytes, that is with a length byte of
at most 249.  A longer frame overruns the array in C, and the statements about
the frames received take the length byte to be at most 249. -/
def TMR_SR_hasMoreTags (env : Env) (reader : Reader) : TMR_Status × Reader :=
  if reader.useStreaming = true ∧ reader.tagsRemainingInBuffer = 0 then
    let r := TMR_SR_receiveMessage reader.useStreaming reader.transport reader.bufResponse
      TMR_SR_OPCODE_READ_TAG_ID_MULTIPLE
    let reader1 := { reader with bufResponse := r.data, transport := r.transport }
    let msg := r.data
    if r.ret ≠ SUCCESS then (r.ret, reader1)
    else if msg 1 < 6 ∨ msg 2 = 0x2F then (ERROR_PARSE, reader1)
    else if msg (if msg 5 &&& 0x10 = 0x10 then 10 else 8) = 0x01 then
      (SUCCESS, { reader1 with tagsRemainingInBuffer := 1, bufPointer := 11 })
    else if msg (if msg 5 &&& 0x10 = 0x10 then 10 else 8) = 0x00 then
      let reader2 := { reader1 with tagsRemaining := 0 }
      if reader2.oldQ.type ≠ TMR_SR_GEN2_Q_INVALID then
        let s := TMR_paramSet env reader2 TMR_Param.GEN2_Q (ParamValue.gen2Q reader2.oldQ)
        if s.1 ≠ SUCCESS then (s.1, s.2)
        else (ERROR_NO_TAGS, { s.2 with oldQ := { s.2.oldQ with type := TMR_SR_GEN2_Q_INVALID } })
      else (ERROR_NO_TAGS, reader2)
    else (ERROR_PARSE, reader1)
  else (if reader.tagsRemaining > 0 then SUCCESS else ERROR_NO_TAGS, reader)

/-! ## Writing tag memory (`serial_reader.c`, lines 1120-1190) -/

/-- The bytes `data[0] .. data[n - 1]` that a `memcpy(dst, data, n)` reads. -/
def bytesOf (data : List Nat) (n : Nat) : List Nat :=
  (List.range n).map (fun k => data.getD k 0)

/-- The loop `for (j = 0; j < n; j++) SETU8(msg, *i, bytes[j])` of
`filterbytes`, for `bytes[j], bytes[j + 1], ...` given as a list. -/
def setBytes (m : Buf × Nat) (bytes : List Nat) : Buf × Nat :=
  bytes.foldl SETU8 m

/-- The function `filterbytes(protocol, filter, option, i, msg, accessPassword,
usePassword)`: its status, the value it stores through `option` (`none` when
it stores none), and the message with its index.  The value stored is kept
apart from the message although `option` may point into `msg` (at index 5 for
`TMR_SR_cmdGEN2WriteTagData`): the bytes the function appends lie behind the
index it is entered with. -/
def filterbytes (protocol : Nat) (filter : Option TMR_TagFilter) (m : Buf × Nat)
    (accessPassword : Nat) (usePassword : Bool) : TMR_Status × Option Nat × (Buf × Nat) :=
  if filter = none ∧ accessPassword = 0 then (SUCCESS, some 0, m)
  else if protocol = TMR_TAG_PROTOCOL_GEN2 then
    let m1 := if usePassword then SETU32 m accessPassword else m
    match filter with
    | none => (SUCCESS, some TMR_SR_GEN2_SINGULATION_OPTION_USE_PASSWORD, m1)
    | some (TMR_TagFilter.gen2Select invert bank bitPointer maskBitLength mask) =>
      let option0 :=
        if bank = 1 then TMR_SR_GEN2_SINGULATION_OPTION_SELECT_ON_ADDRESSED_EPC else bank % 256
      let option1 :=
        if invert then option0 ||| TMR_SR_GEN2_SINGULATION_OPTION_INVERSE_SELECT_BIT else option0
      let option2 :=
        if maskBitLength > 255 then
          option1 ||| TMR_SR_GEN2_SINGULATION_OPTION_EXTENDED_DATA_LENGTH
        else option1
      let m2 := SETU32 m1 bitPointer
      let m3 := if maskBitLength > 255 then SETU8 m2 ((maskBitLength >>> 8) &&& 0xFF) else m2
      let m4 := SETU8 m3 (maskBitLength &&& 0xFF)
      if m4.2 + 1 + maskBitLength / 8 > TMR_SR_MAX_PACKET_SIZE then
        (ERROR_TOO_BIG, some option2, m4)
      else (SUCCESS, some option2, setBytes m4 (bytesOf mask (maskBitLength / 8)))
    | some (TMR_TagFilter.tagData epcByteCount epc) =>
      let bitCount := epcByteCount * 8
      let option1 :=
        if bitCount > 255 then 1 ||| TMR_SR_GEN2_SINGULATION_OPTION_EXTENDED_DATA_LENGTH else 1
      let m2 := if bitCount > 255 then SETU8 m1 ((bitCount >>> 8) &&& 0xFF) else m1
      let m3 := SETU8 m2 (bitCount &&& 0xFF)
      if m3.2 + 1 + epcByteCount > TMR_SR_MAX_PACKET_SIZE then (ERROR_TOO_BIG, some option1, m3)
      else (SUCCESS, some option1, setBytes m3 (bytesOf epc epcByteCount))
    | some (TMR_TagFilter.iso180006bSelect _ _ _ _ _) => (ERROR_INVALID, none, m1)
  else if protocol = TMR_TAG_PROTOCOL_ISO180006B then
    match filter with
    | none =>
      (SUCCESS, some 1,
        SETU32 (SETU32 (SETU8 (SETU8 (SETU8 m TMR_ISO180006B_SELECT_OP_EQUALS) 0) 0) 0) 0)
    | some (TMR_TagFilter.iso180006bSelect invert op address mask data) =>
      (SUCCESS, some 1,
        setBytes (SETU8 (SETU8 (SETU8 m (if invert then op ||| 4 else op)) address) mask)
          (bytesOf data 8))
    | some (TMR_TagFilter.tagData epcByteCount epc) =>
      if epcByteCount > 8 then (ERROR_INVALID, some 1, m)
      else
        (SUCCESS, some 1,
          setBytes
            (setBytes
              (SETU8 (SETU8 (SETU8 m TMR_ISO180006B_SELECT_OP_EQUALS) 0)
                ((0xff00 >>> epcByteCount) &&& 0xff))
              (bytesOf epc epcByteCount))
            (List.replicate (8 - epcByteCount) 0))
    | some (TMR_TagFilter.gen2Select _ _ _ _ _) => (ERROR_INVALID, some 1, m)
  else (ERROR_INVALID, none, m)

/-- The function `TMR_SR_msgAddGEN2DataWrite(msg, i, timeout, bank, address)`. -/
def TMR_SR_msgAddGEN2DataWrite (m : Buf × Nat) (timeout bank address : Nat) : Buf × Nat :=
  SETU8 (SETU32 (SETU8 (SETU16 (SETU8 m TMR_SR_OPCODE_WRITE_TAG_DATA) timeout) 0) address) bank

/-- The message that `TMR_SR_cmdGEN2WriteTagData` has built when it reaches its
call of `TMR_SR_sendTimeout` (lines 1399-1414), or the status it returns before
that. -/
def msgGEN2WriteTagData (timeout bank address count : Nat) (data : List Nat)
    (accessPassword : Nat) (filter : Option TMR_TagFilter) : Except TMR_Status Buf :=
  let m := TMR_SR_msgAddGEN2DataWrite (fun _ => 0, 2) timeout bank address
  let f := filterbytes TMR_TAG_PROTOCOL_GEN2 filter m accessPassword true
  let m1 : Buf × Nat :=
    match f.2.1 with
    | some option => (fun k => if k = 5 then option % 256 else f.2.2.1 k, f.2.2.2)
    | none => f.2.2
  if f.1 ≠ SUCCESS then Except.error f.1
  else if m1.2 + count + 1 > TMR_SR_MAX_PACKET_SIZE then Except.error ERROR_TOO_BIG
  else
    Except.ok (installLength (writeBytes m1.1 m1.2 (bytesOf data count), (m1.2 + count) % 256))

/-- The function `TMR_SR_cmdGEN2WriteTagData(reader, timeout, bank, address,
count, data, accessPassword, filter)`. -/
def TMR_SR_cmdGEN2WriteTagData (env : Env) (reader : Reader) (timeout bank address count : Nat)
    (data : List Nat) (accessPassword : Nat) (filter : Option TMR_TagFilter) :
    TMR_Status × Reader :=
  match msgGEN2WriteTagData timeout bank address count data accessPassword filter with
  | Except.error ret => (ret, reader)
  | Except.ok msg => ((TMR_SR_sendTimeout env reader msg).1, (TMR_SR_sendTimeout env reader msg).2.2)

/-- The message that `TMR_SR_cmdBlockWrite` has built when it reaches its call
of `TMR_SR_send` (lines 499-515); the status of `filterbytes` is not looked
at. -/
def msgBlockWrite (timeout bank wordPtr wordCount : Nat) (data : List Nat)
    (accessPassword : Nat) (target : Option TMR_TagFilter) : Buf :=
  let m := SETU8 (SETU16 (SETU8 (fun _ => 0, 2) TMR_SR_OPCODE_WRITE_TAG_SPECIFIC) timeout) 0x00
  let rec_ := m.2
  let m1 := SETU8 (SETU8 (SETU8 m 0x40) 0x00) 0xC7
  let f := filterbytes TMR_TAG_PROTOCOL_GEN2 target m1 accessPassword true
  let option := f.2.1.getD 0
  let m2 : Buf × Nat :=
    (fun k => if k = rec_ then (f.2.2.1 rec_ ||| option) % 256 else f.2.2.1 k, f.2.2.2)
  let m3 := SETU8 (SETU32 (SETU8 (SETU8 m2 0x00) bank) wordPtr) (wordCount % 256)
  installLength (writeBytes m3.1 m3.2 (bytesOf data (2 * wordCount)), (m3.2 + 2 * wordCount) % 256)

/-- The function `TMR_SR_cmdBlockWrite(reader, timeout, bank, wordPtr, wordCount,
data, accessPassword, target)`. -/
def TMR_SR_cmdBlockWrite (env : Env) (reader : Reader) (timeout bank wordPtr wordCount : Nat)
    (data : List Nat) (accessPassword : Nat) (target : Option TMR_TagFilter) :
    TMR_Status × Reader :=
  ((TMR_SR_send env reader
      (msgBlockWrite timeout bank wordPtr wordCount data accessPassword target)).1,
    (TMR_SR_send env reader
      (msgBlockWrite timeout bank wordPtr wordCount data accessPassword target)).2.2)

/-- The function `TMR_SR_writeTagMemBytes(reader, filter, bank, address, count,
data)`.  `mode0` is what the local variable `mode` holds before the call of
`TMR_paramGet`, whose status is not looked at. -/
def TMR_SR_writeTagMemBytes (env : Env) (reader : Reader) (mode0 : Nat)
    (filter : Option TMR_TagFilter) (bank address count : Nat) (data : List Nat) :
    TMR_Status × Reader :=
  let g := TMR_paramGet env reader TMR_Param.GEN2_WRITEMODE (ParamValue.num mode0)
  let mode := g.2.1.toNat
  let r := setProtocol env g.2.2 g.2.2.tagOpParams.protocol
  if r.1 ≠ SUCCESS then (r.1, r.2)
  else if r.2.tagOpParams.protocol = TMR_TAG_PROTOCOL_GEN2 then
    if address &&& 1 ≠ 0 ∨ count &&& 1 ≠ 0 then (ERROR_INVALID, r.2)
    else if mode = TMR_GEN2_WORD_ONLY then
      TMR_SR_cmdGEN2WriteTagData env r.2 (r.2.commandTimeout % 65536) bank (address / 2)
        (count % 256) data r.2.gen2AccessPassword filter
    else if mode = TMR_GEN2_BLOCK_ONLY then
      TMR_SR_cmdBlockWrite env r.2 (r.2.commandTimeout % 65536) bank (address / 2)
        (count / 2 % 256) data r.2.gen2AccessPassword filter
    else if mode = TMR_GEN2_BLOCK_FALLBACK then
      let b := TMR_SR_cmdBlockWrite env r.2 (r.2.commandTimeout % 65536) bank (address / 2)
        (count / 2 % 256) data r.2.gen2AccessPassword filter
      if b.1 = SUCCESS then b
      else
        TMR_SR_cmdGEN2WriteTagData env b.2 (b.2.commandTimeout % 65536) bank (address / 2)
          (count % 256) data b.2.gen2AccessPassword filter
    else (SUCCESS, r.2)
  else if r.2.tagOpParams.protocol = TMR_TAG_PROTOCOL_ISO180006B then
    if count ≠ 1 then (ERROR_INVALID, r.2)
    else
      ((callCommand env r.2 (Command.ISO180006BWriteTagData (address % 256) (bytesOf data 1))).1,
        (callCommand env r.2
          (Command.ISO180006BWriteTagData (address % 256) (bytesOf data 1))).2.2)
  else (ERROR_INVALID, r.2)

/-! ## Concrete surroundings used in the examples -/

/-- A transport and module that accept every call, the module answering the
version probe only while the host side of the link runs at `rate`; the boot
sequence ends with `bootStatus`.  Every command exchanged as a whole and every
request message is answered with success, the value delivered being 0 and the
response buffer holding zeros. -/
def moduleAt (rate : Nat) (bootStatus : TMR_Status) : Env where
  transportOpen := SUCCESS
  setBaudRate := fun _ => SUCCESS
  flush := fun _ => SUCCESS
  cmdVersion := fun r => if r = rate then SUCCESS else ERROR_TIMEOUT
  boot := fun _ => bootStatus
  cmdSetRegion := fun _ => SUCCESS
  cmdSetBaudRate := fun _ => SUCCESS
  cmdSetPowerMode := fun _ => SUCCESS
  cmdGetPowerMode := (SUCCESS, 0)
  command := fun _ => (SUCCESS, ParamValue.num 0)
  exchange := fun _ => (SUCCESS, fun _ => 0)

/-- A reader handle as `TMR_SR_SerialReader_init` leaves it, not connected and
with an empty trace. -/
def freshReader : Reader :=
  TMR_SR_SerialReader_init
    { connected := false
      baudRate := 0
      powerMode := 0
      regionId := 0
      transportTimeout := 0
      commandTimeout := 0
      paramConfirmed := fun _ => false
      paramPresent := fun _ => false
      trace := []
      tagOpParams := { antenna := 0, protocol := 0 }
      txRxMap := { list := [], max := 0 }
      portMask := 0
      versionInfo := { hardware := [], protocols := 0 }
      gpioDirections := 0
      readPlan := TMR_ReadPlan.simple 0 [] 0 none none
      currentProtocol := 0
      useStreaming := false
      searchTimeoutMs := 0
      tagsRemaining := 0
      tagsRemainingInBuffer := 0
      bufResponse := fun _ => 0
      bufPointer := 0
      oldQ := { type := 0, initialQ := 0 }
      writeMode := 0
      gen2AccessPassword := 0
      transport := { rx := [], requested := [] } }

/-- A detect reply listing port 1 (nothing attached) and port 2 (antenna
attached). -/
def detectReply : Buf :=
  fun k => if k = 1 then 5 else if k = 6 then 1 else if k = 8 then 2 else if k = 9 then 1 else 0

/-- A module that answers every request message with `detectReply`. -/
def detectModule : Env :=
  { moduleAt 9600 SUCCESS with exchange := fun _ => (SUCCESS, detectReply) }

/-- The predicate of the specification on the tag-operation antenna:
`tagOpParams.antenna` is 0 or is the antenna of an entry of the Tx/Rx map. -/
def tagOpAntennaNamed (reader : Reader) : Bool :=
  reader.tagOpParams.antenna == 0 ||
    reader.txRxMap.list.any (fun e => e.antenna == reader.tagOpParams.antenna)

/-- A reader with ports 1 and 2 in its port mask, the identity map on them, and
tag operations on antenna 2. -/
def twoPortReader : Reader :=
  { freshReader with
    portMask := 3
    txRxMap :=
      { list := [{ antenna := 1, txPort := 1, rxPort := 1 },
          { antenna := 2, txPort := 2, rxPort := 2 }]
        max := TMR_SR_MAX_ANTENNA_PORTS }
    tagOpParams := { antenna := 2, protocol := TMR_TAG_PROTOCOL_GEN2 } }

/-- A detect reply listing port 1 only, with an antenna attached. -/
def onePortReply : Buf :=
  fun k => if k = 1 then 3 else if k = 6 then 1 else if k = 7 then 1 else 0

/-- A module that answers every request message with `onePortReply`. -/
def onePortModule : Env :=
  { moduleAt 9600 SUCCESS with exchange := fun _ => (SUCCESS, onePortReply) }

/-- A reader that has confirmed every parameter and found none present. -/
def nothingPresentReader : Reader :=
  { freshReader with paramConfirmed := fun _ => true }

/-- A reader of model M6E whose pin directions have not been fetched
(`gpioDirections` is -1) and that has confirmed no parameter. -/
def gpioReader : Reader :=
  { freshReader with
    versionInfo := { hardware := [TMR_SR_MODEL_M6E, 0, 0, 0], protocols := 0 }
    gpioDirections := -1
    paramConfirmed := fun _ => false
    paramPresent := fun _ => false }

/-- A module that answers the query of a pin direction with a timeout and
everything else with success. -/
def gpioFailModule : Env :=
  { moduleAt 9600 SUCCESS with
    command := fun c =>
      match c with
      | Command.GetGPIODirection _ => (ERROR_TIMEOUT, ParamValue.num 0)
      | _ => (SUCCESS, ParamValue.num 0) }

/-- The sum of the weights of the children of a multi-plan. -/
def weightSum (plans : List TMR_ReadPlan) : Nat :=
  (plans.map TMR_ReadPlan.weight).sum

mutual
/-- The conditions (a) to (d) of the specification on a read plan: every simple
plan's protocol `p` has bit `p - 1` set in `versionInfo.protocols`, every
antenna a simple plan lists is the antenna of an entry of the Tx/Rx map, no
simple plan carries a tag operation of type List, and the weights of the
children of every multi-plan have a positive sum. -/
def planAccepted (reader : Reader) : TMR_ReadPlan → Bool
  | TMR_ReadPlan.simple _ antennas protocol _ tagop =>
    reader.versionInfo.protocols.testBit (protocol - 1) &&
      antennas.all (fun a => reader.txRxMap.list.any (fun e => e.antenna == a)) &&
      (match tagop with
        | some op => decide (op.type ≠ TMR_TagopType.LIST)
        | none => true)
  | TMR_ReadPlan.multi _ plans _ =>
    plansAccepted reader plans && decide (0 < weightSum plans)
  | TMR_ReadPlan.other _ => true
/-- The conditions (a) to (d) on every plan of a list. -/
def plansAccepted (reader : Reader) : List TMR_ReadPlan → Bool
  | [] => true
  | p :: rest => planAccepted reader p && plansAccepted reader rest
end

mutual
/-- The weights of the children of every multi-plan in the plan sum to less
than 2^32, so that no total weight wraps. -/
def weightsFit : TMR_ReadPlan → Bool
  | TMR_ReadPlan.multi _ plans _ => plansFit plans && decide (weightSum plans < 2 ^ 32)
  | _ => true
/-- The condition `weightsFit` on every plan of a list. -/
def plansFit : List TMR_ReadPlan → Bool
  | [] => true
  | p :: rest => weightsFit p && plansFit rest
end

/-- A reader that supports protocols 3 and 5, with the identity map on ports 1
and 2, that has found the read plan present. -/
def planReader : Reader :=
  { twoPortReader with
    versionInfo := { hardware := [TMR_SR_MODEL_M6E, 0, 0, 0], protocols := 0x14 }
    paramConfirmed := fun _ => true
    paramPresent := fun _ => true }

/-- A multi-plan of two simple plans, Gen2 on antenna 1 with weight 3 and
ISO 18000-6B on antenna 2 with weight 1; its total-weight field is not set. -/
def twoProtocolPlan : TMR_ReadPlan :=
  TMR_ReadPlan.multi 0
    [TMR_ReadPlan.simple 3 [1] TMR_TAG_PROTOCOL_GEN2 none none,
      TMR_ReadPlan.simple 1 [2] TMR_TAG_PROTOCOL_ISO180006B none none] 0

/-- The timeouts of the inventory rounds recorded in a trace, in order. -/
def inventoryTimeouts (trace : List WireEvent) : List Nat :=
  trace.filterMap (fun e =>
    match e with
    | WireEvent.command (Command.inventory timeoutMs _ _) => some timeoutMs
    | _ => none)

/-- The sub-timeouts that the loop of `TMR_SR_read_internal` computes for the
children of a multi-plan, in order. -/
def subTimeouts (timeoutMs totalWeight : Nat) (plans : List TMR_ReadPlan) : List Nat :=
  plans.map (fun p => subTimeout p.weight timeoutMs totalWeight)

/-- Whether a plan is a simple plan that names its antennas. -/
def namesAntennas : TMR_ReadPlan → Bool
  | TMR_ReadPlan.simple _ antennas _ _ _ => !antennas.isEmpty
  | _ => false

/-- A multi-plan of three Gen2 plans on antenna 1 with weight 1 each, and total
weight 3. -/
def threeEqualPlans : TMR_ReadPlan :=
  TMR_ReadPlan.multi 0
    [TMR_ReadPlan.simple 1 [1] TMR_TAG_PROTOCOL_GEN2 none none,
      TMR_ReadPlan.simple 1 [1] TMR_TAG_PROTOCOL_GEN2 none none,
      TMR_ReadPlan.simple 1 [1] TMR_TAG_PROTOCOL_GEN2 none none] 3

/-- A module that answers the command that sets a protocol configuration with a
timeout and everything else with success. -/
def qFailModule : Env :=
  { moduleAt 9600 SUCCESS with
    command := fun c =>
      match c with
      | Command.SetProtocolConfiguration _ _ _ => (ERROR_TIMEOUT, ParamValue.num 0)
      | _ => (SUCCESS, ParamValue.num 0) }

/-- A reader in streaming mode with an empty local buffer and a saved static Q
of 4, about to receive the frame that ends a stream: opcode 0x22, status 0 and
six payload bytes with the response type 0x00 at offset 8. -/
def streamingReader : Reader :=
  { planReader with
    useStreaming := true
    tagsRemaining := 1
    oldQ := { type := 1, initialQ := 4 }
    transport := linkWith (responseFrame TMR_SR_OPCODE_READ_TAG_ID_MULTIPLE 0 0 [0, 0, 0, 0, 0, 0]) }

/-- A module that refuses block writes (the requests with opcode 0x2E) with the
reader code 0x406 and accepts every other request and command. -/
def blockRefusingModule : Env :=
  { moduleAt 9600 SUCCESS with
    exchange := fun request =>
      if request.getD 1 0 = TMR_SR_OPCODE_WRITE_TAG_SPECIFIC then (ERROR_CODE 0x406, fun _ => 0)
      else (SUCCESS, fun _ => 0) }

/-- A reader set up for Gen2 tag operations in the write mode BlockFallback,
with a command timeout of 1000 ms and no access password. -/
def fallbackReader : Reader :=
  { planReader with
    writeMode := TMR_GEN2_BLOCK_FALLBACK
    commandTimeout := 1000
    gen2AccessPassword := 0 }

/-- A reader set up for Gen2 tag operations in the write mode WordOnly, with a
command timeout of 1000 ms and no access password. -/
def wordOnlyReader : Reader :=
  { planReader with
    writeMode := TMR_GEN2_WORD_ONLY
    commandTimeout := 1000
    gen2AccessPassword := 0 }

/-- The four bytes of a 32-bit number, most significant byte first. -/
def be32 (x : Nat) : List Nat :=
  [(x >>> 24) % 256, (x >>> 16) % 256, (x >>> 8) % 256, x % 256]

/-- The option byte of a Gen2 select as the specification words it: the
dedicated value for bank 1 and the bank number otherwise, with the
inverse-select bit for an inverted select and the extended-data-length bit for
a mask of more than 255 bits. -/
def selectOption (invert : Bool) (bank maskBitLength : Nat) : Nat :=
  ((if bank = 1 then TMR_SR_GEN2_SINGULATION_OPTION_SELECT_ON_ADDRESSED_EPC else bank) |||
    (if invert then TMR_SR_GEN2_SINGULATION_OPTION_INVERSE_SELECT_BIT else 0)) |||
    (if maskBitLength > 255 then TMR_SR_GEN2_SINGULATION_OPTION_EXTENDED_DATA_LENGTH else 0)

/-- The length field of a Gen2 select as the specification words it: two
bytes, high byte first, for more than 255 bits and one byte otherwise. -/
def selectLength (maskBitLength : Nat) : List Nat :=
  if maskBitLength > 255 then [(maskBitLength >>> 8) % 256, maskBitLength % 256]
  else [maskBitLength]

/-- The bytes a Gen2 select puts in front of the mask: the access password
when it is asked for, the bit pointer and the length field. -/
def selectHeader (accessPassword : Nat) (usePassword : Bool) (bitPointer maskBitLength : Nat) :
    List Nat :=
  (if usePassword then be32 accessPassword else []) ++ be32 bitPointer ++
    selectLength maskBitLength

/-- The select of the sample `filter.c` (lines 152-160): bits 8-19 of the TID
bank against the twelve bits `0x003`, given as the mask bytes `00 03`. -/
def tidSelect : TMR_TagFilter :=
  TMR_TagFilter.gen2Select false 2 8 12 [0x00, 0x03]

/-- A message under construction with the index behind the five bytes of a
header. -/
def emptyMessage : Buf × Nat :=
  (fun _ => 0, 5)

/-- The bytes `msg[from] .. msg[from + n - 1]` of a message. -/
def bytesAt (msg : Buf) (start n : Nat) : List Nat :=
  (List.range n).map (fun k => msg (start + k))

/-- The byte whose `n` most significant bits are 1 and whose other bits are 0,
for `n` from 0 to 8. -/
def msbMask (n : Nat) : Nat :=
  256 - 2 ^ (8 - n)

/-- The eleven bytes of an ISO180006B tag-data filter as the specification
words them: the EQUALS operation, address 0, the mask byte, the `n` EPC bytes
and `8 - n` zero bytes. -/
def isoTagDataBytes (n : Nat) (epc : List Nat) : List Nat :=
  [TMR_ISO180006B_SELECT_OP_EQUALS, 0, msbMask n] ++ bytesOf epc n ++ List.replicate (8 - n) 0

/-- The frame that `TMR_SR_hasMoreTags` receives in streaming mode: the result
of its call of `TMR_SR_receiveMessage`. -/
def streamFrame (reader : Reader) : ReceiveResult :=
  TMR_SR_receiveMessage reader.useStreaming reader.transport reader.bufResponse
    TMR_SR_OPCODE_READ_TAG_ID_MULTIPLE

/-- The response-type byte of a streaming frame as the specification places
it: at offset 10 when bit 0x10 of byte 5 is set, at offset 8 otherwise. -/
def responseType (msg : Buf) : Nat :=
  if msg 5 &&& 0x10 = 0x10 then msg 10 else msg 8

/-- The command that writes a saved Q back to the module. -/
def restoreQ (q : TMR_SR_GEN2_Q) : Command :=
  Command.SetProtocolConfiguration TMR_TAG_PROTOCOL_GEN2 TMR_SR_ProtocolConfiguration.GEN2_Q
    [q.type, q.initialQ]

/-- The command `SetReaderConfiguration(ExtendedEPC, true)` that `setProtocol`
sends after a successful `SetProtocol`. -/
def extendedEpcWrite : Command :=
  Command.SetReaderConfiguration TMR_SR_Configuration.EXTENDED_EPC [1]

/-- Where a command trace stands with respect to the ExtendedEPC setting:
`settled` when no successful `SetProtocol` is waiting for its ExtendedEPC
write, `awaited` right after a successful `SetProtocol` (the next command must
be the ExtendedEPC write), `unwritten` when the write that followed the last
successful `SetProtocol` has failed and none has succeeded since. -/
inductive EpcState where
  | settled
  | awaited
  | unwritten
  deriving DecidableEq

/-- One step of the specification's rule on a command trace; `none` is a
breach of the rule.  After a successful `SetProtocol` the next event must be
the ExtendedEPC write; a search (an inventory round or a multi-protocol
search) must not be sent while the ExtendedEPC write is outstanding.  The
statuses are those of the module `env`. -/
def epcStep (env : Env) (s : EpcState) (e : WireEvent) : Option EpcState :=
  if s = EpcState.awaited then
    if e = WireEvent.command extendedEpcWrite then
      some (if (env.command extendedEpcWrite).1 = SUCCESS then EpcState.settled
        else EpcState.unwritten)
    else none
  else
    match e with
    | WireEvent.command (Command.SetProtocol protocol) =>
      some (if (env.command (Command.SetProtocol protocol)).1 = SUCCESS then EpcState.awaited
        else s)
    | WireEvent.command (Command.SetReaderConfiguration key value) =>
      some (if Command.SetReaderConfiguration key value = extendedEpcWrite ∧
          (env.command extendedEpcWrite).1 = SUCCESS then EpcState.settled else s)
    | WireEvent.command (Command.inventory _ _ _) =>
      if s = EpcState.unwritten then none else some s
    | WireEvent.command (Command.MultipleProtocolSearch _ _) =>
      if s = EpcState.unwritten then none else some s
    | _ => some s

/-- The rule of the specification run over a command trace, oldest event
first: the state reached, or `none` when the trace breaches the rule. -/
def epcRun (env : Env) : EpcState → List WireEvent → Option EpcState
  | s, [] => some s
  | s, e :: rest =>
    match epcStep env s e with
    | none => none
    | some s1 => epcRun env s1 rest

/-- A module that accepts `SetProtocol` and every other command but answers
the ExtendedEPC write with a timeout. -/
def epcRefusingModule : Env :=
  { moduleAt 9600 SUCCESS with
    command := fun c =>
      if c = extendedEpcWrite then (ERROR_TIMEOUT, ParamValue.num 0)
      else (SUCCESS, ParamValue.num 0) }

/-- A simple plan that reads Gen2 on antenna 1. -/
def gen2Plan : TMR_ReadPlan :=
  TMR_ReadPlan.simple 1 [1] TMR_TAG_PROTOCOL_GEN2 none none

/-! ## Tag read data (`serial_reader_l3.c`, lines 1043-1255) -/

/-- Modelled from the spec: the macro `GETU24AT` of `tmr_utils.h` (not among
the sources), the big-endian 24-bit integer at index `i`. -/
def GETU24AT (data : Buf) (i : Nat) : Nat :=
  (data i <<< 16) ||| (data (i + 1) <<< 8) ||| data (i + 2)

/-- Modelled from the spec: the macro `GETU32AT` of `tmr_utils.h` (not among
the sources), the big-endian 32-bit integer at index `i`. -/
def GETU32AT (data : Buf) (i : Nat) : Nat :=
  (data i <<< 24) ||| (data (i + 1) <<< 16) ||| (data (i + 2) <<< 8) ||| data (i + 3)

/-- Modelled from the spec: the macro `GETU8(msg, i)` of `tmr_utils.h` (not
among the sources), `msg[i++]` for an index variable `i` of type `uint8_t`: the
value read and the index behind it. -/
def GETU8 (msg : Buf) (i : Nat) : Nat × Nat :=
  (msg i, (i + 1) % 256)

/-- Modelled from the spec: the macro `GETU16(msg, i)` of `tmr_utils.h` (not
among the sources), the big-endian 16-bit integer at `i` and the index behind
it. -/
def GETU16 (msg : Buf) (i : Nat) : Nat × Nat :=
  (GETU16AT msg i, (i + 2) % 256)

/-- Modelled from the spec: the macro `GETU24(msg, i)` of `tmr_utils.h` (not
among the sources). -/
def GETU24 (msg : Buf) (i : Nat) : Nat × Nat :=
  (GETU24AT msg i, (i + 3) % 256)

/-- Modelled from the spec: the macro `GETU32(msg, i)` of `tmr_utils.h` (not
among the sources). -/
def GETU32 (msg : Buf) (i : Nat) : Nat × Nat :=
  (GETU32AT msg i, (i + 4) % 256)

/-- The conversion `(int8_t)x` of a byte. -/
def toInt8 (x : Nat) : Int :=
  if x % 256 < 128 then Int.ofNat (x % 256) else Int.ofNat (x % 256) - 256

/-- Modelled from the spec: the metadata flag `TMR_TRD_METADATA_FLAG_READCOUNT`
of `tmr_tag_data.h` (not among the sources).  The theorems do not depend on the
numbers of the nine flags, only on the flags being tested with `flags & FLAG`. -/
def TMR_TRD_METADATA_FLAG_READCOUNT : Nat := 0x0001

/-- Modelled from the spec: the metadata flag `TMR_TRD_METADATA_FLAG_RSSI`. -/
def TMR_TRD_METADATA_FLAG_RSSI : Nat := 0x0002

/-- Modelled from the spec: the metadata flag `TMR_TRD_METADATA_FLAG_ANTENNAID`. -/
def TMR_TRD_METADATA_FLAG_ANTENNAID : Nat := 0x0004

/-- Modelled from the spec: the metadata flag `TMR_TRD_METADATA_FLAG_FREQUENCY`. -/
def TMR_TRD_METADATA_FLAG_FREQUENCY : Nat := 0x0008

/-- Modelled from the spec: the metadata flag `TMR_TRD_METADATA_FLAG_TIMESTAMP`. -/
def TMR_TRD_METADATA_FLAG_TIMESTAMP : Nat := 0x0010

/-- Modelled from the spec: the metadata flag `TMR_TRD_METADATA_FLAG_PHASE`. -/
def TMR_TRD_METADATA_FLAG_PHASE : Nat := 0x0020

/-- Modelled from the spec: the metadata flag `TMR_TRD_METADATA_FLAG_PROTOCOL`. -/
def TMR_TRD_METADATA_FLAG_PROTOCOL : Nat := 0x0040

/-- Modelled from the spec: the metadata flag `TMR_TRD_METADATA_FLAG_DATA`. -/
def TMR_TRD_METADATA_FLAG_DATA : Nat := 0x0080

/-- Modelled from the spec: the metadata flag
`TMR_TRD_METADATA_FLAG_GPIO_STATUS`. -/
def TMR_TRD_METADATA_FLAG_GPIO_STATUS : Nat := 0x0100

/-- Modelled from the spec: the protocol value `TMR_TAG_PROTOCOL_NONE` of
`tmr_tag_protocol.h` (not among the sources). -/
def TMR_TAG_PROTOCOL_NONE : Nat := 0

/-- Modelled from the spec: the hardware identifier `TMR_SR_MODEL_M5E` of
`serial_reader_imp.h` (not among the sources).  The theorems do not depend on
the number. -/
def TMR_SR_MODEL_M5E : Nat := 0x00

/-- Modelled from the spec: the capacity `TMR_MAX_EPC_BYTE_COUNT` of the array
`epc` of a `TMR_TagData` (`tmr_tag_data.h`, not among the sources), to which the
EPC bytes are "clipped". -/
def TMR_MAX_EPC_BYTE_COUNT : Nat := 62

/-- Modelled from the spec: a `TMR_GpioPin` of `tmr_gpio.h` (not among the
sources), an element of the "GPIO snapshot". -/
structure TMR_GpioPin where
  id : Nat
  high : Bool
  deriving DecidableEq

/-- Modelled from the spec: the fields of a `TMR_TagData` of `tmr_tag_data.h`
(not among the sources) that the parser writes: "EPC bytes + length, CRC, PC
bytes (Gen2), protocol".  `epc` and `pc` are the contents of the arrays. -/
structure TMR_TagData where
  protocol : Nat
  epcByteCount : Nat
  epc : List Nat
  crc : Nat
  pcByteCount : Nat
  pc : List Nat
  deriving DecidableEq

/-- The list `read->data` of a tag read: the contents of the array `list`, its
capacity `max`, and the field `len`, kept apart from the contents since the
parser stores the length announced by the message even above the capacity. -/
structure TMR_ReadDataList where
  list : List Nat
  max : Nat
  len : Nat
  deriving DecidableEq

/-- Modelled from the spec: the fields of a `TMR_TagReadData` of
`tmr_tag_data.h` (not among the sources) that the parser writes.  `gpio` is the
contents of the array of pins. -/
structure TMR_TagReadData where
  tag : TMR_TagData
  metadataFlags : Nat
  phase : Nat
  antenna : Nat
  gpio : List TMR_GpioPin
  gpioCount : Nat
  readCount : Nat
  rssi : Int
  frequency : Nat
  dspMicros : Nat
  timestampLow : Nat
  timestampHigh : Nat
  data : TMR_ReadDataList
  deriving DecidableEq

/-- Lines 1049-1072 of `TMR_SR_parseMetadataFromMessage` (the same as lines
1148-1171 of `TMR_SR_parseMetadataOnly`): the fields set before any byte is
read. -/
def metadataInit (reader : Reader) (read : TMR_TagReadData) (flags : Nat) : TMR_TagReadData :=
  { read with
    metadataFlags := flags
    tag := { read.tag with protocol := TMR_TAG_PROTOCOL_NONE }
    readCount := 0
    rssi := 0
    antenna := 0
    phase := 0
    frequency := 0
    dspMicros := 0
    timestampLow := 0
    timestampHigh := 0
    gpioCount := if reader.versionInfo.hardware.getD 0 0 = TMR_SR_MODEL_M5E then 2 else 4 }

/-- The statement `if (flags & TMR_TRD_METADATA_FLAG_READCOUNT) ...` (lines
1076-1079), on the record and the cursor `*i`. -/
def readCountField (flags : Nat) (msg : Buf) (s : TMR_TagReadData × Nat) :
    TMR_TagReadData × Nat :=
  if flags &&& TMR_TRD_METADATA_FLAG_READCOUNT ≠ 0 then
    ({ s.1 with readCount := (GETU8 msg s.2).1 }, (GETU8 msg s.2).2)
  else s

/-- The statement `if (flags & TMR_TRD_METADATA_FLAG_RSSI) ...` (lines
1080-1083); `TMR_SR_parseMetadataOnly` stores the byte without the conversion
to `int8_t` (line 1179). -/
def rssiField (signedRssi : Bool) (flags : Nat) (msg : Buf) (s : TMR_TagReadData × Nat) :
    TMR_TagReadData × Nat :=
  if flags &&& TMR_TRD_METADATA_FLAG_RSSI ≠ 0 then
    ({ s.1 with
        rssi := if signedRssi then toInt8 (GETU8 msg s.2).1 else Int.ofNat (GETU8 msg s.2).1 },
      (GETU8 msg s.2).2)
  else s

/-- The statement `if (flags & TMR_TRD_METADATA_FLAG_ANTENNAID) ...` (lines
1084-1087). -/
def antennaField (flags : Nat) (msg : Buf) (s : TMR_TagReadData × Nat) :
    TMR_TagReadData × Nat :=
  if flags &&& TMR_TRD_METADATA_FLAG_ANTENNAID ≠ 0 then
    ({ s.1 with antenna := (GETU8 msg s.2).1 }, (GETU8 msg s.2).2)
  else s

/-- The statement `if (flags & TMR_TRD_METADATA_FLAG_FREQUENCY) ...` (lines
1088-1091). -/
def frequencyField (flags : Nat) (msg : Buf) (s : TMR_TagReadData × Nat) :
    TMR_TagReadData × Nat :=
  if flags &&& TMR_TRD_METADATA_FLAG_FREQUENCY ≠ 0 then
    ({ s.1 with frequency := (GETU24 msg s.2).1 }, (GETU24 msg s.2).2)
  else s

/-- The statement `if (flags & TMR_TRD_METADATA_FLAG_TIMESTAMP) ...` (lines
1092-1095). -/
def timestampField (flags : Nat) (msg : Buf) (s : TMR_TagReadData × Nat) :
    TMR_TagReadData × Nat :=
  if flags &&& TMR_TRD_METADATA_FLAG_TIMESTAMP ≠ 0 then
    ({ s.1 with dspMicros := (GETU32 msg s.2).1 }, (GETU32 msg s.2).2)
  else s

/-- The statement `if (flags & TMR_TRD_METADATA_FLAG_PHASE) ...` (lines
1096-1099). -/
def phaseField (flags : Nat) (msg : Buf) (s : TMR_TagReadData × Nat) :
    TMR_TagReadData × Nat :=
  if flags &&& TMR_TRD_METADATA_FLAG_PHASE ≠ 0 then
    ({ s.1 with phase := (GETU16 msg s.2).1 }, (GETU16 msg s.2).2)
  else s

/-- The statement `if (flags & TMR_TRD_METADATA_FLAG_PROTOCOL) ...` (lines
1100-1103). -/
def protocolField (flags : Nat) (msg : Buf) (s : TMR_TagReadData × Nat) :
    TMR_TagReadData × Nat :=
  if flags &&& TMR_TRD_METADATA_FLAG_PROTOCOL ≠ 0 then
    ({ s.1 with tag := { s.1.tag with protocol := (GETU8 msg s.2).1 } }, (GETU8 msg s.2).2)
  else s

/-- The statement `if (flags & TMR_TRD_METADATA_FLAG_DATA) ...` (lines
1104-1117): the length in bytes is stored into `data.len`, at most `data.max`
bytes are copied from the message into the array, and the cursor, a byte, moves
on by the length. -/
def dataField (flags : Nat) (msg : Buf) (s : TMR_TagReadData × Nat) :
    TMR_TagReadData × Nat :=
  if flags &&& TMR_TRD_METADATA_FLAG_DATA ≠ 0 then
    let msgDataLen := (GETU16 msg s.2).1 / 8
    let i1 := (GETU16 msg s.2).2
    let copyLen := if msgDataLen > s.1.data.max then s.1.data.max else msgDataLen
    ({ s.1 with
        data :=
          { s.1.data with
            len := msgDataLen
            list := (List.range copyLen).map (fun k => msg (i1 + k)) ++
              s.1.data.list.drop copyLen } },
      (i1 + msgDataLen) % 256)
  else s

/-- The statement `if (flags & TMR_TRD_METADATA_FLAG_GPIO_STATUS) ...` (lines
1118-1127): the first `gpioCount` pins receive their number and their bit of
the status byte. -/
def gpioField (flags : Nat) (msg : Buf) (s : TMR_TagReadData × Nat) :
    TMR_TagReadData × Nat :=
  if flags &&& TMR_TRD_METADATA_FLAG_GPIO_STATUS ≠ 0 then
    let gpioByte := (GETU8 msg s.2).1
    ({ s.1 with
        gpio :=
          (List.range s.1.gpioCount).map
              (fun j => { id := j + 1, high := (gpioByte >>> j) &&& 0x1 = 1 }) ++
            s.1.gpio.drop s.1.gpioCount },
      (GETU8 msg s.2).2)
  else s

/-- Lines 1049-1127 of `TMR_SR_parseMetadataFromMessage`, which are the body
of `TMR_SR_parseMetadataOnly` except for the conversion of the RSSI: the record
and the cursor when the EPC length field is reached. -/
def metadataFields (signedRssi : Bool) (reader : Reader) (read : TMR_TagReadData)
    (flags i : Nat) (msg : Buf) : TMR_TagReadData × Nat :=
  gpioField flags msg
    (dataField flags msg
      (protocolField flags msg
        (phaseField flags msg
          (timestampField flags msg
            (frequencyField flags msg
              (antennaField flags msg
                (rssiField signedRssi flags msg
                  (readCountField flags msg (metadataInit reader read flags, i)))))))))

/-- The function `TMR_SR_parseMetadataOnly(reader, read, flags, i, msg)`. -/
def TMR_SR_parseMetadataOnly (reader : Reader) (read : TMR_TagReadData) (flags i : Nat)
    (msg : Buf) : TMR_TagReadData × Nat :=
  metadataFields false reader read flags i msg

/-- Lines 1129-1143 of `TMR_SR_parseMetadataFromMessage`: the EPC length, the
PC bytes of a Gen2 tag, the EPC bytes and the CRC.  `msgEpcLen` is an `int`;
the field `epcByteCount` is taken to be a byte, and the cursor is one. -/
def epcFields (msg : Buf) (s : TMR_TagReadData × Nat) : TMR_TagReadData × Nat :=
  let msgEpcLen0 : Int := Int.ofNat ((GETU16 msg s.2).1 / 8) - 2
  let i1 := (GETU16 msg s.2).2
  let gen2 := s.1.tag.protocol = TMR_TAG_PROTOCOL_GEN2
  let msgEpcLen : Int := if gen2 then msgEpcLen0 - 2 else msgEpcLen0
  let tag1 : TMR_TagData :=
    if gen2 then
      { s.1.tag with
        pcByteCount := 2
        pc := [(GETU8 msg i1).1, (GETU8 msg (GETU8 msg i1).2).1] ++ s.1.tag.pc.drop 2 }
    else s.1.tag
  let i2 := if gen2 then (GETU8 msg (GETU8 msg i1).2).2 else i1
  let count0 := (msgEpcLen % 256).toNat
  let count := if count0 > TMR_MAX_EPC_BYTE_COUNT then TMR_MAX_EPC_BYTE_COUNT else count0
  let i3 := ((Int.ofNat i2 + msgEpcLen) % 256).toNat
  ({ s.1 with
      tag :=
        { tag1 with
          epcByteCount := count
          epc := (List.range count).map (fun k => msg (i2 + k)) ++ tag1.epc.drop count
          crc := (GETU16 msg i3).1 } },
    (GETU16 msg i3).2)

/-- The function `TMR_SR_parseMetadataFromMessage(reader, read, flags, i,
msg)`: the record and the cursor `*i` on return. -/
def TMR_SR_parseMetadataFromMessage (reader : Reader) (read : TMR_TagReadData) (flags i : Nat)
    (msg : Buf) : TMR_TagReadData × Nat :=
  epcFields msg (metadataFields true reader read flags i msg)

/-- The loop of `TMR_SR_postprocessReaderSpecificMetadata` (lines 1245-1253)
over the entries of the Tx/Rx map still to visit. -/
def remapAntenna (antenna : Nat) : List TMR_AntennaMap → Nat
  | [] => antenna
  | e :: rest =>
    if antenna &&& 0xf = e.rxPort ∧ antenna >>> 4 = e.txPort then e.antenna
    else remapAntenna antenna rest

/-- The function `TMR_SR_postprocessReaderSpecificMetadata(read, sr)`;
`readTimeHigh`, `readTimeLow` and `txRxMap` are the fields of `sr` it reads.
The two halves of the time stamp are 32 bits wide. -/
def TMR_SR_postprocessReaderSpecificMetadata (read : TMR_TagReadData)
    (readTimeHigh readTimeLow : Nat) (txRxMap : TMR_AntennaMapList) : TMR_TagReadData :=
  let timestampLow := (readTimeLow + read.dspMicros / 1000) % 2 ^ 32
  let timestampHigh :=
    if timestampLow < readTimeLow then (readTimeHigh + 1) % 2 ^ 32 else readTimeHigh
  { read with
    timestampHigh := timestampHigh
    timestampLow := timestampLow
    antenna := if read.antenna ≠ 0 then remapAntenna read.antenna txRxMap.list else read.antenna }

/-- The size a field takes in the message as the specification gives it:
`size` bytes when its flag is set in the mask, none otherwise. -/
def fieldSize (flags flag size : Nat) : Nat :=
  if flags &&& flag ≠ 0 then size else 0

/-- The sizes of the seven fields of fixed size, in the order of the
specification: readCount, RSSI, antenna, frequency, timestamp, phase,
protocol. -/
def fixedSizes (flags : Nat) : List Nat :=
  [fieldSize flags TMR_TRD_METADATA_FLAG_READCOUNT 1,
    fieldSize flags TMR_TRD_METADATA_FLAG_RSSI 1,
    fieldSize flags TMR_TRD_METADATA_FLAG_ANTENNAID 1,
    fieldSize flags TMR_TRD_METADATA_FLAG_FREQUENCY 3,
    fieldSize flags TMR_TRD_METADATA_FLAG_TIMESTAMP 4,
    fieldSize flags TMR_TRD_METADATA_FLAG_PHASE 2,
    fieldSize flags TMR_TRD_METADATA_FLAG_PROTOCOL 1]

/-- The index of the `k`-th field of fixed size (`k = 7` for the data field)
in the order of the specification, for a cursor that is a byte and starts at
`i`. -/
def fieldAt (flags i k : Nat) : Nat :=
  (i + ((fixedSizes flags).take k).sum) % 256

/-- The number of data bytes announced by the data field: its 16-bit length
in bits, divided by 8. -/
def dataBytes (flags i : Nat) (msg : Buf) : Nat :=
  GETU16AT msg (fieldAt flags i 7) / 8

/-- The sum of the sizes of the flagged fields, the data field taking its two
length bytes and its data bytes. -/
def metadataSize (flags i : Nat) (msg : Buf) : Nat :=
  (fixedSizes flags).sum +
    (if flags &&& TMR_TRD_METADATA_FLAG_DATA ≠ 0 then 2 + dataBytes flags i msg else 0) +
    fieldSize flags TMR_TRD_METADATA_FLAG_GPIO_STATUS 1

/-- The index of the GPIO byte. -/
def gpioAt (flags i : Nat) (msg : Buf) : Nat :=
  (i + (fixedSizes flags).sum +
    (if flags &&& TMR_TRD_METADATA_FLAG_DATA ≠ 0 then 2 + dataBytes flags i msg else 0)) % 256

/-- A tag read record with nothing in it and room for 16 data bytes. -/
def emptyRead : TMR_TagReadData :=
  { tag := { protocol := 0, epcByteCount := 0, epc := [], crc := 0, pcByteCount := 0, pc := [] }
    metadataFlags := 0
    phase := 0
    antenna := 0
    gpio := []
    gpioCount := 0
    readCount := 0
    rssi := 0
    frequency := 0
    dspMicros := 0
    timestampLow := 0
    timestampHigh := 0
    data := { list := [], max := 16, len := 0 } }

/-- A record that holds three data bytes and two pins from an earlier read. -/
def staleRead : TMR_TagReadData :=
  { emptyRead with
    data := { list := [0xAA, 0xBB, 0xCC], max := 16, len := 3 }
    gpio := [{ id := 1, high := true }, { id := 2, high := true }] }

/-- A message whose bytes 5 and 6 announce a data field of 65528 bits. -/
def longDataMessage : Buf :=
  fun k => if k = 5 then 0xFF else if k = 6 then 0xF8 else 0

/-- A message that holds, from index 5 on, a record with all nine fields:
read count 2, RSSI -56, antenna 0x11, frequency 915250, 1000 microseconds,
phase 90, protocol Gen2, two data bytes and the GPIO byte 0x05. -/
def allFieldsMessage : Buf :=
  fun k => ([0x02, 0xC8, 0x11, 0x0D, 0xF7, 0x32, 0x00, 0x00, 0x03, 0xE8, 0x00, 0x5A, 0x05,
    0x00, 0x10, 0xDE, 0xAD, 0x05] : List Nat).getD (k - 5) 0

/-! ## The Gen2 link frequency (`serial_reader_l3.c`, lines 1802-1918 and 2337-2445) -/

/-- Modelled from the spec: the opcode of the command that sets a protocol
configuration ("get/set protocol configuration 0x6B/0x9B");
`serial_reader_imp.h` is not among the sources. -/
def TMR_SR_OPCODE_SET_PROTOCOL_PARAM : Nat := 0x9B

/-- Modelled from the spec: the opcode of the command that gets a protocol
configuration. -/
def TMR_SR_OPCODE_GET_PROTOCOL_PARAM : Nat := 0x6B

/-- Modelled from the spec: the number of the key
`TMR_SR_GEN2_CONFIGURATION_LINKFREQUENCY` of `serial_reader_imp.h` (not among
the sources).  The theorems do not depend on the number. -/
def TMR_SR_GEN2_CONFIGURATION_LINKFREQUENCY : Nat := 0x10

/-- The enumerator `TMR_GEN2_LINKFREQUENCY_250KHZ` (`tmr_gen2.h`, line 180). -/
def TMR_GEN2_LINKFREQUENCY_250KHZ : Nat := 250

/-- The enumerator `TMR_GEN2_LINKFREQUENCY_400KHZ` (`tmr_gen2.h`, line 182). -/
def TMR_GEN2_LINKFREQUENCY_400KHZ : Nat := 400

/-- The enumerator `TMR_GEN2_LINKFREQUENCY_40KHZ` (`tmr_gen2.h`, line 184). -/
def TMR_GEN2_LINKFREQUENCY_40KHZ : Nat := 40

/-- The enumerator `TMR_GEN2_LINKFREQUENCY_640KHZ` (`tmr_gen2.h`, line 186). -/
def TMR_GEN2_LINKFREQUENCY_640KHZ : Nat := 640

/-- The `switch (*(int *)value)` of `TMR_SR_cmdSetProtocolConfiguration` for the
key `TMR_SR_GEN2_CONFIGURATION_LINKFREQUENCY` (lines 1828-1845): the byte `BLF`,
or `none` for the `default` that returns `TMR_ERROR_INVALID`. -/
def gen2LinkFrequencyCode (value : Nat) : Option Nat :=
  if value = 40 then some 0x03
  else if value = 250 then some 0x00
  else if value = 400 then some 0x02
  else if value = 640 then some 0x04
  else none

/-- The function `TMR_SR_cmdSetProtocolConfiguration(reader, protocol, key,
value)` for a Gen2 key with `key.u.gen2 =
TMR_SR_GEN2_CONFIGURATION_LINKFREQUENCY` (lines 1810-1814, 1827-1846 and
1916-1917); `value` is `*(int *)value`. -/
def setGen2LinkFrequency (env : Env) (reader : Reader) (protocol value : Nat) :
    TMR_Status × Reader :=
  let m := SETU8 (SETU8 (SETU8 (fun _ => 0, 2) TMR_SR_OPCODE_SET_PROTOCOL_PARAM) protocol)
    TMR_SR_GEN2_CONFIGURATION_LINKFREQUENCY
  match gen2LinkFrequencyCode value with
  | none => (ERROR_INVALID, reader)
  | some blf =>
    let r := TMR_SR_send env reader (installLength (SETU8 m blf))
    (r.1, r.2.2)

/-- The function `TMR_SR_cmdGetProtocolConfiguration(reader, protocol, key,
value)` for a Gen2 key with `key.u.gen2 =
TMR_SR_GEN2_CONFIGURATION_LINKFREQUENCY` (lines 2346-2351, 2363-2369 and
2384-2386): the status, the `TMR_GEN2_LinkFrequency` behind `value` (`value0` on
entry), and the reader. -/
def getGen2LinkFrequency (env : Env) (reader : Reader) (protocol value0 : Nat) :
    TMR_Status × Nat × Reader :=
  let m := SETU8 (SETU8 (SETU8 (fun _ => 0, 2) TMR_SR_OPCODE_GET_PROTOCOL_PARAM) protocol)
    TMR_SR_GEN2_CONFIGURATION_LINKFREQUENCY
  let r := TMR_SR_send env reader (installLength m)
  if r.1 ≠ SUCCESS then (r.1, value0, r.2.2)
  else (SUCCESS, r.2.1 7, r.2.2)

/-- A module that holds the link-frequency byte `stored` and answers every
request with success and a response whose byte 7 is that byte. -/
def blfModule (stored : Nat) : Env :=
  { moduleAt 9600 SUCCESS with
    exchange := fun _ => (SUCCESS, fun k => if k = 7 then stored else 0) }

/-- The last data byte of the last request message of a trace: the byte a
module stores on a set of the link frequency. -/
def storedLinkFrequency (trace : List WireEvent) : Nat :=
  match trace.getLast? with
  | some (WireEvent.message request) => request.getLastD 0
  | _ => 0

/-- A set of the Gen2 link frequency `f` followed by a get, on a module that
accepts the set, stores the byte it carries and answers the get with the byte
stored: the status of the set, the status of the get and the value the get
delivers. -/
def linkFrequencyRoundTrip (f : Nat) : TMR_Status × TMR_Status × Nat :=
  let s := setGen2LinkFrequency (blfModule 0) freshReader TMR_TAG_PROTOCOL_GEN2 f
  let g := getGen2LinkFrequency (blfModule (storedLinkFrequency s.2.trace)) s.2
    TMR_TAG_PROTOCOL_GEN2 0
  (s.1, g.1, g.2.1)

/-! ## Listener registration (`tm_reader_async.c`, lines 195-290) -/

/-- The state the four registration functions work on.  A listener block is
known by its address, a number; a null pointer is `none`.  `listenerLock` is
true while the mutex `reader->listenerLock` is held (by the thread that
dispatches to the listeners, for one).  `readListeners` and
`readExceptionListeners` are the two head pointers; `readNext` and
`exceptionNext` give the field `next` of the block at an address, for the
blocks of the two types. -/
structure ListenerState where
  listenerLock : Bool
  readListeners : Option Nat
  readExceptionListeners : Option Nat
  readNext : Nat → Option Nat
  exceptionNext : Nat → Option Nat

/-- The statements `b->next = head; head = b;` of the two add functions: the
new head pointer and the new `next` fields. -/
def linkBlock (head : Option Nat) (next : Nat → Option Nat) (b : Nat) :
    Option Nat × (Nat → Option Nat) :=
  (some b, fun k => if k = b then head else next k)

/-- The loop `while (NULL != block)` of the two remove functions (lines
215-224 and 265-274).  `prev` is `none` while it points to the head pointer and
`some p` when it points to the field `next` of the block `p`.  The result is
the value of `block` when the loop ends, with the head pointer and the `next`
fields as the assignment `*prev = block->next` leaves them.  The first argument
bounds the number of blocks visited; `none` means the bound was reached. -/
def unlinkLoop (b : Nat) (head : Option Nat) (next : Nat → Option Nat) :
    Nat → Option Nat → Option Nat → Option (Option Nat × Option Nat × (Nat → Option Nat))
  | 0, _, _ => none
  | _ + 1, _, none => some (none, head, next)
  | n + 1, prev, some block =>
    if block = b then
      match prev with
      | none => some (some block, next block, next)
      | some p => some (some block, head, fun k => if k = p then next block else next k)
    else unlinkLoop b head next n (some block) (next block)

/-- The function `TMR_addReadListener(reader, b)`.  The lock that
`pthread_mutex_trylock` takes is released before the function returns. -/
def TMR_addReadListener (s : ListenerState) (b : Nat) : TMR_Status × ListenerState :=
  if s.listenerLock then (ERROR_TRYAGAIN, s)
  else
    (SUCCESS,
      { s with
        readListeners := (linkBlock s.readListeners s.readNext b).1
        readNext := (linkBlock s.readListeners s.readNext b).2 })

/-- The function `TMR_removeReadListener(reader, b)`; `fuel` bounds the number
of blocks the loop visits, and the result is `none` when the bound is reached. -/
def TMR_removeReadListener (fuel : Nat) (s : ListenerState) (b : Nat) :
    Option (TMR_Status × ListenerState) :=
  if s.listenerLock then some (ERROR_TRYAGAIN, s)
  else
    match unlinkLoop b s.readListeners s.readNext fuel none s.readListeners with
    | none => none
    | some (block, head, next) =>
      some (if block = none then ERROR_INVALID else SUCCESS,
        { s with readListeners := head, readNext := next })

/-- The function `TMR_addReadExceptionListener(reader, b)`. -/
def TMR_addReadExceptionListener (s : ListenerState) (b : Nat) : TMR_Status × ListenerState :=
  if s.listenerLock then (ERROR_TRYAGAIN, s)
  else
    (SUCCESS,
      { s with
        readExceptionListeners := (linkBlock s.readExceptionListeners s.exceptionNext b).1
        exceptionNext := (linkBlock s.readExceptionListeners s.exceptionNext b).2 })

/-- The function `TMR_removeReadExceptionListener(reader, b)`. -/
def TMR_removeReadExceptionListener (fuel : Nat) (s : ListenerState) (b : Nat) :
    Option (TMR_Status × ListenerState) :=
  if s.listenerLock then some (ERROR_TRYAGAIN, s)
  else
    match unlinkLoop b s.readExceptionListeners s.exceptionNext fuel none
        s.readExceptionListeners with
    | none => none
    | some (block, head, next) =>
      some (if block = none then ERROR_INVALID else SUCCESS,
        { s with readExceptionListeners := head, exceptionNext := next })

/-- The blocks reached from the pointer `head` through the fields `next`, up
to the null pointer, are the blocks of `l`, in this order. -/
def listIs (next : Nat → Option Nat) : Option Nat → List Nat → Bool
  | none, [] => true
  | some a, x :: l => a == x && listIs next (next a) l
  | _, _ => false

/-- A state with the lock free, the read listeners 3, 2, 1 and the exception
listener 7. -/
def threeListeners : ListenerState :=
  { listenerLock := false
    readListeners := some 3
    readExceptionListeners := some 7
    readNext := fun k => if k = 3 then some 2 else if k = 2 then some 1 else none
    exceptionNext := fun _ => none }

/-! ## Loading firmware (`serial_reader.c`, lines 1323-1448) -/

/-- Modelled from the spec: the opcode of the command that erases a flash
sector ("erase flash 0x07"); `serial_reader_imp.h` is not among the sources. -/
def TMR_SR_OPCODE_ERASE_FLASH : Nat := 0x07

/-- Modelled from the spec: the opcode of the command that writes into a flash
sector ("write flash sector 0x0D"). -/
def TMR_SR_OPCODE_WRITE_FLASH_SECTOR : Nat := 0x0D

/-- Modelled from the spec: the opcode of the command that enters the
bootloader ("boot bootloader 0x09"). -/
def TMR_SR_OPCODE_BOOT_BOOTLOADER : Nat := 0x09

/-- Modelled from the spec: the status `TMR_ERROR_INVALID_OPCODE` of
`tmr_status.h` (not among the sources), a reader-code error.  The theorems do
not depend on the number. -/
def TMR_ERROR_INVALID_OPCODE : TMR_Status :=
  ERROR_CODE 0x101

/-- The array `magic` of `TMR_SR_firmwareLoad`. -/
def magic : List Nat :=
  [0x54, 0x4D, 0x2D, 0x53, 0x50, 0x61, 0x69, 0x6B, 0x00, 0x00, 0x00, 0x02]

/-- The function `TMR_SR_cmdBootBootloader(reader)`. -/
def TMR_SR_cmdBootBootloader (env : Env) (reader : Reader) : TMR_Status × Reader :=
  let r := TMR_SR_send env reader (installLength (SETU8 (fun _ => 0, 2)
    TMR_SR_OPCODE_BOOT_BOOTLOADER))
  (r.1, r.2.2)

/-- The message that `TMR_SR_cmdEraseFlash` builds. -/
def msgEraseFlash (sector password : Nat) : Buf :=
  installLength (SETU8 (SETU32 (SETU8 (fun _ => 0, 2) TMR_SR_OPCODE_ERASE_FLASH) password)
    sector)

/-- The function `TMR_SR_cmdEraseFlash(reader, sector, password)`. -/
def TMR_SR_cmdEraseFlash (env : Env) (reader : Reader) (sector password : Nat) :
    TMR_Status × Reader :=
  let r := TMR_SR_sendTimeout env reader (msgEraseFlash sector password)
  (r.1, r.2.2)

/-- The message that `TMR_SR_cmdWriteFlashSector` builds: the opcode, the
password, the address, the sector, and `length` bytes copied from `data +
offset` by `memcpy`, the index, a byte, moving on by `length`. -/
def msgWriteFlashSector (sector address password length : Nat) (data : Buf) (offset : Nat) :
    Buf :=
  let m := SETU8 (SETU32 (SETU32 (SETU8 (fun _ => 0, 2) TMR_SR_OPCODE_WRITE_FLASH_SECTOR)
    password) address) sector
  installLength
    (fun k => if m.2 ≤ k ∧ k < m.2 + length then data (offset + (k - m.2)) else m.1 k,
      (m.2 + length) % 256)

/-- The function `TMR_SR_cmdWriteFlashSector(reader, sector, address, password,
length, data, offset)`. -/
def TMR_SR_cmdWriteFlashSector (env : Env) (reader : Reader)
    (sector address password length : Nat) (data : Buf) (offset : Nat) : TMR_Status × Reader :=
  let r := TMR_SR_sendTimeout env reader
    (msgWriteFlashSector sector address password length data offset)
  (r.1, r.2.2)

/-- Modelled from the spec: a `TMR_FirmwareDataProvider` of `tm_reader.h` (not
among the sources), the callback that "delivers" the bytes of the image.  Its
state, reached through `cookie`, is a value of type `σ`; called with the state
and the number of bytes asked for (`*size` on entry) it gives its result, the
bytes it has stored into `data` (their number is `*size` on return) and the
state it leaves. -/
abbrev FirmwareDataProvider (σ : Type) := σ → Nat → Bool × List Nat × σ

/-- The two loops of `TMR_SR_firmwareLoad` that call the provider until
`remaining` bytes have arrived (lines 1342-1353 and 1420-1430).  `width` is
2^32 for the `uint32_t remaining` of the first loop and 2^16 for the `uint16_t
packetRemaining` of the second; `size` and `offset` are 16 bits wide.  The
first argument bounds the number of calls of the provider; the result is `none`
when the bound is reached, `some none` when the provider has returned false,
and otherwise the state of the provider and the buffer. -/
def provideLoop {σ : Type} (provider : FirmwareDataProvider σ) (width : Nat) :
    Nat → σ → Buf → Nat → Nat → Option (Option (σ × Buf))
  | 0, cookie, buf, remaining, _ => if remaining = 0 then some (some (cookie, buf)) else none
  | n + 1, cookie, buf, remaining, offset =>
    if remaining = 0 then some (some (cookie, buf))
    else
      let r := provider cookie (remaining % 65536)
      if r.1 = false then some none
      else
        provideLoop provider width n r.2.2 (writeBytes buf offset r.2.1)
          ((remaining + width - r.2.1.length % 65536) % width)
          ((offset + r.2.1.length % 65536) % 65536)

/-- How the loop over the pages ends: by a `return` inside the loop, or with
`remaining` at 0. -/
inductive PageExit where
  | returned (ret : TMR_Status) (reader : Reader)
  | finished (reader : Reader)

/-- The loop `while (remaining > 0)` of `TMR_SR_firmwareLoad` over the pages
(lines 1410-1445).  `fuel` bounds the calls of the provider for one page.  The
first argument bounds the number of pages still to write; every page takes at
least one byte off `remaining`, so `remaining` pages suffice.  The result is
`none` when a bound is reached. -/
def writePages {σ : Type} (env : Env) (provider : FirmwareDataProvider σ) (fuel : Nat) :
    Nat → Reader → σ → Buf → Nat → Nat → Option PageExit
  | 0, reader, _, _, _, remaining =>
    if remaining = 0 then some (PageExit.finished reader) else none
  | n + 1, reader, cookie, buf, address, remaining =>
    if remaining = 0 then some (PageExit.finished reader)
    else
      let packetLen := if 240 > remaining then remaining % 65536 else 240
      match provideLoop provider 65536 fuel cookie buf packetLen 0 with
      | none => none
      | some none => some (PageExit.returned ERROR_FIRMWARE_FORMAT reader)
      | some (some (cookie1, buf1)) =>
        let r := TMR_SR_cmdWriteFlashSector env reader 2 address 0x02254410 (packetLen % 256)
          buf1 0
        if r.1 ≠ SUCCESS then some (PageExit.returned r.1 r.2)
        else
          writePages env provider fuel n r.2 cookie1 buf1 ((address + packetLen) % 2 ^ 32)
            ((remaining + 2 ^ 32 - packetLen) % 2 ^ 32)

/-- The function `TMR_SR_firmwareLoad(reader, cookie, provider)`.  `fuel`
bounds the calls of the provider for the header and for each page; the result
is `none` when the bound is reached.  `TMR_SR_cmdSetBaudRate` and `TMR_SR_boot`
are called as a whole. -/
def TMR_SR_firmwareLoad {σ : Type} (env : Env) (fuel : Nat) (reader : Reader) (cookie : σ)
    (provider : FirmwareDataProvider σ) : Option (TMR_Status × Reader) :=
  match provideLoop provider (2 ^ 32) fuel cookie (fun _ => 0) (magic.length + 4) 0 with
  | none => none
  | some none => some (ERROR_FIRMWARE_FORMAT, reader)
  | some (some (cookie1, buf)) =>
    if bytesAt buf 0 magic.length ≠ magic then some (ERROR_FIRMWARE_FORMAT, reader)
    else
      let len := GETU32AT buf 12
      let reader1 := { reader with trace := reader.trace ++ [WireEvent.cmdSetBaudRate 9600] }
      if env.cmdSetBaudRate 9600 ≠ SUCCESS then some (env.cmdSetBaudRate 9600, reader1)
      else
        let reader2 := { reader1 with trace := reader1.trace ++ [WireEvent.setBaudRate 9600] }
        if env.setBaudRate 9600 ≠ SUCCESS then some (env.setBaudRate 9600, reader2)
        else
          let r3 := TMR_SR_cmdBootBootloader env reader2
          if r3.1 ≠ SUCCESS ∧ r3.1 ≠ TMR_ERROR_INVALID_OPCODE then some (r3.1, r3.2)
          else
            let rate := if reader.baudRate > 115200 then 115200 else reader.baudRate
            let reader4 := { r3.2 with trace := r3.2.trace ++ [WireEvent.cmdSetBaudRate rate] }
            if env.cmdSetBaudRate rate ≠ SUCCESS then some (env.cmdSetBaudRate rate, reader4)
            else
              let reader5 :=
                { reader4 with trace := reader4.trace ++ [WireEvent.setBaudRate rate] }
              if env.setBaudRate rate ≠ SUCCESS then some (env.setBaudRate rate, reader5)
              else
                let r6 := TMR_SR_cmdEraseFlash env reader5 2 0x08959121
                if r6.1 ≠ SUCCESS then some (r6.1, r6.2)
                else
                  match writePages env provider fuel len r6.2 cookie1 buf 0 len with
                  | none => none
                  | some (PageExit.returned ret reader7) => some (ret, reader7)
                  | some (PageExit.finished reader7) =>
                    some (env.boot rate,
                      { reader7 with trace := reader7.trace ++ [WireEvent.boot rate] })

/-- A provider that delivers the bytes of an image in order, at most `chunk`
at a call: its state is the part of the image not yet delivered, and it
returns false once nothing is left. -/
def streamProvider (chunk : Nat) : FirmwareDataProvider (List Nat) :=
  fun cookie size =>
    if cookie = [] then (false, [], [])
    else (true, cookie.take (min size chunk), cookie.drop (min size chunk))

/-- The request of the `k`-th write-flash-sector command as the specification
has it, for the payload of an image: the length byte, the opcode, the password
`0x02254410`, the address `240 * k`, the sector 2 and the next 240 bytes of the
payload, or as many as are left. -/
def pageRequest (payload : List Nat) (k : Nat) : List Nat :=
  [9 + ((payload.drop (240 * k)).take 240).length, TMR_SR_OPCODE_WRITE_FLASH_SECTOR, 0x02, 0x25,
    0x44, 0x10] ++ be32 (240 * k) ++ [0x02] ++ (payload.drop (240 * k)).take 240

/-- The request of the erase-flash command as the specification has it: sector
2 with the password `0x08959121`. -/
def eraseRequest : List Nat :=
  [5, TMR_SR_OPCODE_ERASE_FLASH, 0x08, 0x95, 0x91, 0x21, 0x02]

/-- The request of the boot-bootloader command. -/
def bootloaderRequest : List Nat :=
  [0, TMR_SR_OPCODE_BOOT_BOOTLOADER]

/-- An image: the magic number, the length of the payload in four bytes, high
byte first, and the payload. -/
def firmwareImage (payload : List Nat) : List Nat :=
  magic ++ be32 payload.length ++ payload

/-- A payload of 0x200 bytes, byte `j` being `j mod 251`. -/
def samplePayload : List Nat :=
  (List.range 0x200).map (fun j => j % 251)

/-! ## The off time of the background reads (`tm_reader_async.c`, lines 176-188) -/

/-- The conversion of an integer to `int32_t`, by wrapping. -/
def toInt32 (x : Int) : Int :=
  (x + 2 ^ 31) % 2 ^ 32 - 2 ^ 31

/-- Lines 180-182 of `do_background_reads`: the `int32_t sleepTime` computed
from the `uint32_t offTime` and the elapsed time `difftime`, whose fields are of
type `long`; each compound assignment is computed in `long` and converted back. -/
def sleepTimeOf (offTime : Nat) (tv_sec tv_usec : Int) : Int :=
  toInt32 (toInt32 (toInt32 (Int.ofNat (offTime % 2 ^ 32)) - Int.tdiv tv_usec 1000) - tv_sec * 1000)

/-- Lines 183-188 of `do_background_reads`: the fields `tv_sec` and `tv_nsec`
of the `sleepspec` handed to `nanosleep`, or `none` when `nanosleep` is not
called.  The product `sleepTime * 1000000` is taken in `int`, 32 bits wide. -/
def sleepspecOf (sleepTime : Int) : Option (Int × Int) :=
  if sleepTime > 0 then some (Int.tdiv sleepTime 1000, toInt32 (sleepTime * 1000000)) else none

/-- Lines 176-188 of `do_background_reads`: what is handed to `nanosleep` for
an off time and the time `difftime` elapsed since the read finished. -/
def offTimeSleep (offTime : Nat) (tv_sec tv_usec : Int) : Option (Int × Int) :=
  sleepspecOf (sleepTimeOf offTime tv_sec tv_usec)

/-- The milliseconds elapsed according to `difftime`. -/
def elapsedMs (tv_sec tv_usec : Int) : Int :=
  tv_sec * 1000 + Int.tdiv tv_usec 1000

/-! ## Locking a Gen2 tag (`serial_reader_l3.c`, lines 938-949 and 1419-1441) -/

/-- Modelled from the spec: the opcode `TMR_SR_OPCODE_LOCK_TAG` of
`serial_reader_imp.h` (not among the sources), "lock tag (0x25)". -/
def TMR_SR_OPCODE_LOCK_TAG : Nat := 0x25

/-- The function `TMR_SR_msgAddGEN2LockTag(msg, i, timeout, mask, action,
accessPassword)`. -/
def TMR_SR_msgAddGEN2LockTag (m : Buf × Nat) (timeout mask action accessPassword : Nat) :
    Buf × Nat :=
  SETU16 (SETU16 (SETU32 (SETU8 (SETU16 (SETU8 m TMR_SR_OPCODE_LOCK_TAG) timeout) 0)
    accessPassword) mask) action

/-- The message that `TMR_SR_cmdGEN2LockTag` has built when it reaches its call
of `TMR_SR_sendTimeout` (lines 1428-1438), or the status it returns before
that.  The call of line 1430 hands `(uint16_t)accessPassword`, `mask` and
`action`, in this order, to the parameters `mask`, `action` and
`accessPassword` of `TMR_SR_msgAddGEN2LockTag`. -/
def msgGEN2LockTag (timeout mask action accessPassword : Nat) (filter : Option TMR_TagFilter) :
    Except TMR_Status Buf :=
  let m := TMR_SR_msgAddGEN2LockTag (fun _ => 0, 2) timeout (accessPassword % 65536) mask action
  let f := filterbytes TMR_TAG_PROTOCOL_GEN2 filter m 0 false
  let m1 : Buf × Nat :=
    match f.2.1 with
    | some option => (fun k => if k = 5 then option % 256 else f.2.2.1 k, f.2.2.2)
    | none => f.2.2
  if f.1 ≠ SUCCESS then Except.error f.1
  else Except.ok (installLength m1)

/-- The function `TMR_SR_cmdGEN2LockTag(reader, timeout, mask, action,
accessPassword, filter)`. -/
def TMR_SR_cmdGEN2LockTag (env : Env) (reader : Reader) (timeout mask action accessPassword : Nat)
    (filter : Option TMR_TagFilter) : TMR_Status × Reader :=
  match msgGEN2LockTag timeout mask action accessPassword filter with
  | Except.error ret => (ret, reader)
  | Except.ok msg => ((TMR_SR_sendTimeout env reader msg).1, (TMR_SR_sendTimeout env reader msg).2.2)

/-- The case `TMR_TAGOP_GEN2_LOCK` of `TMR_SR_executeTagOp` (`serial_reader.c`,
lines 2633-2640). -/
def executeTagOpLock (env : Env) (reader : Reader) (mask action : Nat)
    (filter : Option TMR_TagFilter) : TMR_Status × Reader :=
  TMR_SR_cmdGEN2LockTag env reader (reader.commandTimeout % 65536) mask action
    reader.gen2AccessPassword filter

/-- The lock frame as the specification lays it out: the opcode, the timeout
and the option byte, then the 32-bit access password, the 16-bit mask and the
16-bit action; this is the message that `TMR_SR_msgAddGEN2LockTag` builds for
the mask, the action and the password. -/
def lockFrameFields (timeout mask action accessPassword : Nat) : List Nat :=
  bytesAt (TMR_SR_msgAddGEN2LockTag (fun _ => 0, 2) timeout mask action accessPassword).1 2 12

/-- The bytes of the frame of `TMR_SR_cmdGEN2LockTag` from the opcode on, for a
lock without filter. -/
def lockCommandFields (timeout mask action accessPassword : Nat) : List Nat :=
  match msgGEN2LockTag timeout mask action accessPassword none with
  | Except.ok msg => bytesAt msg 2 12
  | Except.error _ => []

/-! ## The frequency hop table (`serial_reader_l3.c`, lines 2088-2114) -/

/-- Modelled from the spec: the opcode `TMR_SR_OPCODE_GET_FREQ_HOP_TABLE` of
`serial_reader_imp.h` (not among the sources), "set/get hop table
(0x95/0x65)". -/
def TMR_SR_OPCODE_GET_FREQ_HOP_TABLE : Nat := 0x65

/-- The loop `for (j = 0; i < *count && j < len; j++)` of
`TMR_SR_cmdGetFrequencyHopTable`: the values it stores into `hopTable[j],
hopTable[j + 1], ...`.  The first argument is `len - j`; `i` is the message
index as the construction of the request left it. -/
def hopTableLoop (msg : Buf) (i count len : Nat) : Nat → Nat → List Nat
  | 0, _ => []
  | n + 1, j =>
    if i < count ∧ j < len then GETU32AT msg (5 + 4 * j) :: hopTableLoop msg i count len n (j + 1)
    else []

/-- The function `TMR_SR_cmdGetFrequencyHopTable(reader, count, hopTable)`;
`count` is the value of `*count` on entry.  The result carries the value of
`*count` on return and the values stored into `hopTable[0], hopTable[1], ...`,
in order. -/
def TMR_SR_cmdGetFrequencyHopTable (env : Env) (reader : Reader) (count : Nat) :
    TMR_Status × Nat × List Nat × Reader :=
  let m := SETU8 (fun _ => 0, 2) TMR_SR_OPCODE_GET_FREQ_HOP_TABLE
  let r := TMR_SR_send env reader (installLength m)
  if r.1 ≠ SUCCESS then (r.1, count, [], r.2.2)
  else
    let len := r.2.1 1 / 4
    (SUCCESS, len, hopTableLoop r.2.1 m.2 count len len 0, r.2.2)

/-- The case `TMR_PARAM_REGION_HOPTABLE` of `TMR_SR_paramGet` (`serial_reader.c`,
lines 2378-2393) for a list with capacity `max`: the status, the field `len` of
the list (`len0` on entry) and the values stored into its array. -/
def getHopTable (env : Env) (reader : Reader) (max len0 : Nat) :
    TMR_Status × Nat × List Nat × Reader :=
  let r := TMR_SR_cmdGetFrequencyHopTable env reader (max % 256)
  if r.1 ≠ SUCCESS then (r.1, len0, r.2.2.1, r.2.2.2)
  else (SUCCESS, r.2.1, r.2.2.1, r.2.2.2)

/-- A reply to the request for the hop table that carries the five
frequencies 902750, 903250, 903750, 904250 and 904750 kHz. -/
def fiveHopsReply : Buf :=
  fun k => ([0xFF, 20, 0x65, 0x00, 0x00,
    0x00, 0x0D, 0xC6, 0x5E, 0x00, 0x0D, 0xC8, 0x52, 0x00, 0x0D, 0xCA, 0x46,
    0x00, 0x0D, 0xCC, 0x3A, 0x00, 0x0D, 0xCE, 0x2E] : List Nat).getD k 0

/-- A module that answers every request message with `fiveHopsReply`. -/
def fiveHopsModule : Env :=
  { moduleAt 9600 SUCCESS with exchange := fun _ => (SUCCESS, fiveHopsReply) }

/-! ## Reading tag memory (`serial_reader.c`, lines 1014-1094; `serial_reader_l3.c`,
lines 911-922, 1259-1307 and 1468-1512) -/

/-- Modelled from the spec: the opcode `TMR_SR_OPCODE_READ_TAG_DATA` of
`serial_reader_imp.h` (not among the sources), "read tag data (0x28)". -/
def TMR_SR_OPCODE_READ_TAG_DATA : Nat := 0x28

/-- Modelled from the spec: the command byte `TMR_SR_ISO180006B_COMMAND_READ`
of `serial_reader_imp.h` (not among the sources).  The theorems do not depend
on the number. -/
def TMR_SR_ISO180006B_COMMAND_READ : Nat := 0x0C

/-- The function `TMR_SR_msgAddGEN2DataRead(msg, i, timeout, bank, wordAddress,
len)`. -/
def TMR_SR_msgAddGEN2DataRead (m : Buf × Nat) (timeout bank wordAddress len : Nat) : Buf × Nat :=
  SETU8 (SETU32 (SETU8 (SETU8 (SETU16 (SETU8 m TMR_SR_OPCODE_READ_TAG_DATA) timeout) 0) bank)
    wordAddress) len

/-- The message that `TMR_SR_cmdGEN2ReadTagData` has built when it reaches its
call of `TMR_SR_sendTimeout` (lines 1479-1488), or the status it returns before
that. -/
def msgGEN2ReadTagData (timeout bank address length accessPassword : Nat)
    (filter : Option TMR_TagFilter) : Except TMR_Status Buf :=
  let m := TMR_SR_msgAddGEN2DataRead (fun _ => 0, 2) timeout bank address length
  let f := filterbytes TMR_TAG_PROTOCOL_GEN2 filter m accessPassword true
  let m1 : Buf × Nat :=
    match f.2.1 with
    | some option => (fun k => if k = 5 then option % 256 else f.2.2.1 k, f.2.2.2)
    | none => f.2.2
  if f.1 ≠ SUCCESS then Except.error f.1
  else Except.ok (installLength m1)

/-- The end of the two commands that read tag data (lines 1294-1304 and
1497-1507): the record receives the flag of the data field, the protocol and an
empty EPC; `len` is stored into `read->data.len`, a field taken to be 16 bits
wide, and `copylen = (uint8_t)len`, cut down to `read->data.max`, bytes are
copied from `msg[start]` on. -/
def storeReadData (msg : Buf) (start len protocol : Nat) (read : TMR_TagReadData) :
    TMR_TagReadData :=
  let copylen := if len % 256 > read.data.max then read.data.max else len % 256
  { read with
    metadataFlags := TMR_TRD_METADATA_FLAG_DATA
    tag := { read.tag with protocol := protocol, epcByteCount := 0 }
    data :=
      { read.data with
        len := len
        list := bytesAt msg start copylen ++ read.data.list.drop copylen } }

/-- The value `msg[1] + 5 - i` that `TMR_SR_cmdGEN2ReadTagData` stores into
`read->data.len` (line 1500, with `i = 6`), in 16 bits. -/
def gen2DataLength (msg : Buf) : Nat :=
  (msg 1 + 5 + 65536 - 6) % 65536

/-- The function `TMR_SR_cmdGEN2ReadTagData(reader, timeout, bank, address,
length, accessPassword, filter, read)`: its status, the record `*read` and the
reader. -/
def TMR_SR_cmdGEN2ReadTagData (env : Env) (reader : Reader)
    (timeout bank address length accessPassword : Nat) (filter : Option TMR_TagFilter)
    (read : TMR_TagReadData) : TMR_Status × TMR_TagReadData × Reader :=
  match msgGEN2ReadTagData timeout bank address length accessPassword filter with
  | Except.error ret => (ret, read, reader)
  | Except.ok msg =>
    let r := TMR_SR_sendTimeout env reader msg
    if r.1 ≠ SUCCESS then (r.1, read, r.2.2)
    else
      (SUCCESS,
        storeReadData r.2.1 6 (gen2DataLength r.2.1) TMR_TAG_PROTOCOL_GEN2 read,
        r.2.2)

/-- The function `TMR_SR_cmdISO180006BReadTagData(reader, timeout, address,
length, filter, read)`. -/
def TMR_SR_cmdISO180006BReadTagData (env : Env) (reader : Reader) (timeout address length : Nat)
    (filter : Option TMR_TagFilter) (read : TMR_TagReadData) :
    TMR_Status × TMR_TagReadData × Reader :=
  match filter with
  | some (TMR_TagFilter.tagData epcByteCount epc) =>
    if length > 8 ∨ epcByteCount ≠ 8 then (ERROR_INVALID, read, reader)
    else
      let m := SETU8 (SETU8 (SETU8 (SETU8 (SETU8 (SETU16
        (SETU8 (fun _ => 0, 2) TMR_SR_OPCODE_READ_TAG_DATA) timeout) 0x01)
        TMR_SR_ISO180006B_COMMAND_READ) 0x00) length) address
      let msg := installLength (writeBytes m.1 m.2 (bytesOf epc 8), (m.2 + 8) % 256)
      let r := TMR_SR_sendTimeout env reader msg
      if r.1 ≠ SUCCESS then (r.1, read, r.2.2)
      else (SUCCESS, storeReadData r.2.1 5 (r.2.1 1) TMR_TAG_PROTOCOL_ISO180006B read, r.2.2)
  | _ => (ERROR_INVALID, read, reader)

/-- The function `TMR_SR_readTagMemBytesUnaligned(reader, target, bank,
byteAddress, byteCount, data)`: its status, the caller's array `data` and the
reader.  `buf0` is what the local array `buf` of 254 bytes holds on entry and
`read0` what the local record `read` holds. -/
def TMR_SR_readTagMemBytesUnaligned (env : Env) (reader : Reader)
    (target : Option TMR_TagFilter) (bank byteAddress byteCount : Nat) (data buf0 : List Nat)
    (read0 : TMR_TagReadData) : TMR_Status × List Nat × Reader :=
  let wordCount := (byteCount + 1 + (byteAddress &&& 1)) / 2 % 65536
  let read := { read0 with data := { read0.data with max := 254, list := buf0 } }
  let r := TMR_SR_cmdGEN2ReadTagData env reader (reader.commandTimeout % 65536) bank
    (byteAddress / 2) (wordCount % 256) reader.gen2AccessPassword target read
  if r.1 ≠ SUCCESS then (r.1, data, r.2.2)
  else
    (SUCCESS,
      (List.range byteCount).map (fun k => r.2.1.data.list.getD ((byteAddress &&& 1) + k) 0) ++
        data.drop byteCount,
      r.2.2)

/-- The function `TMR_SR_readTagMemBytes(reader, target, bank, byteAddress,
byteCount, data)`: its status, the caller's array `data` and the reader;
`buf0` and `read0` are what the local variables hold on entry. -/
def TMR_SR_readTagMemBytes (env : Env) (reader : Reader) (target : Option TMR_TagFilter)
    (bank byteAddress byteCount : Nat) (data buf0 : List Nat) (read0 : TMR_TagReadData) :
    TMR_Status × List Nat × Reader :=
  let r := setProtocol env reader reader.tagOpParams.protocol
  if r.1 ≠ SUCCESS then (r.1, data, r.2)
  else
    let read := { read0 with data := { read0.data with max := byteCount, list := data } }
    if r.2.tagOpParams.protocol = TMR_TAG_PROTOCOL_GEN2 then
      if byteAddress &&& 1 ≠ 0 ∨ byteCount &&& 1 ≠ 0 then
        TMR_SR_readTagMemBytesUnaligned env r.2 target bank byteAddress byteCount data buf0 read0
      else
        let c := TMR_SR_cmdGEN2ReadTagData env r.2 (r.2.commandTimeout % 65536) bank
          (byteAddress / 2) (byteCount / 2 % 256) r.2.gen2AccessPassword target read
        (c.1, c.2.1.data.list, c.2.2)
    else if r.2.tagOpParams.protocol = TMR_TAG_PROTOCOL_ISO180006B then
      let c := TMR_SR_cmdISO180006BReadTagData env r.2 (r.2.commandTimeout % 65536)
        (byteAddress % 256) (byteCount % 256) target read
      (c.1, c.2.1.data.list, c.2.2)
    else (ERROR_UNIMPLEMENTED, data, r.2)

/-- The message of `TMR_SR_cmdGEN2ReadTagData` when it builds one, and a
buffer of zeros otherwise. -/
def readTagDataMessage (timeout bank address length accessPassword : Nat)
    (filter : Option TMR_TagFilter) : Buf :=
  match msgGEN2ReadTagData timeout bank address length accessPassword filter with
  | Except.ok msg => msg
  | Except.error _ => fun _ => 0

/-- A reply to a read of tag data that carries the four bytes 11 22 33 44. -/
def fourBytesReply : Buf :=
  fun k => ([0xFF, 5, 0x28, 0x00, 0x00, 0x00, 0x11, 0x22, 0x33, 0x44] : List Nat).getD k 0

/-- A module that answers every request message with `fourBytesReply`. -/
def fourBytesModule : Env :=
  { moduleAt 9600 SUCCESS with exchange := fun _ => (SUCCESS, fourBytesReply) }

/-! ## Executing a tag operation (`serial_reader.c`, lines 883-944) -/

/-- The value `TMR_SR_GEN2_Q_DYNAMIC` of `tmr_serial_reader.h`. -/
def TMR_SR_GEN2_Q_DYNAMIC : Nat := 0

/-- The value `TMR_SR_GEN2_Q_STATIC` of `tmr_serial_reader.h`. -/
def TMR_SR_GEN2_Q_STATIC : Nat := 1

/-- The `TMR_SR_GEN2_Q` that a get leaves in the object `value` points to; a
get that delivers no Q leaves the object as it was. -/
def ParamValue.toQ : ParamValue → TMR_SR_GEN2_Q → TMR_SR_GEN2_Q
  | ParamValue.gen2Q q, _ => q
  | _, old => old

/-- The function `TMR_SR_tagop_execute(reader, tagop)`.  `count0` is what the
local variable `count` holds on entry: `TMR_SR_read_internal` adds the tags it
counts to it.  The plan is the one that `TMR_RP_init_simple` and
`TMR_RP_set_tagop` build: one antenna, the tag-operation protocol, weight 1,
no filter, and the tag operation. -/
def TMR_SR_tagop_execute (env : Env) (reader : Reader) (tagop : TMR_Tagop) (count0 : Nat) :
    TMR_Status × Reader :=
  let g := TMR_paramGet env reader TMR_Param.GEN2_Q (ParamValue.gen2Q reader.oldQ)
  let reader1 := { g.2.2 with oldQ := g.2.1.toQ g.2.2.oldQ }
  if g.1 ≠ SUCCESS then (g.1, reader1)
  else
    let s := TMR_paramSet env reader1 TMR_Param.GEN2_Q
      (ParamValue.gen2Q { type := TMR_SR_GEN2_Q_STATIC, initialQ := 0 })
    if s.1 ≠ SUCCESS then (s.1, s.2)
    else
      let tagopReadPlan := TMR_ReadPlan.simple 1 [s.2.tagOpParams.antenna]
        s.2.tagOpParams.protocol none (some tagop)
      let r := TMR_SR_read_internal env tagopReadPlan s.2 s.2.commandTimeout count0
      if r.1 ≠ SUCCESS then (r.1, r.2.2)
      else if r.2.1 = 0 then (ERROR_NO_TAGS_FOUND, r.2.2)
      else (SUCCESS, r.2.2)

/-- A module that runs the dynamic Q algorithm with an initial Q of 4 and finds
one tag in every inventory round; the inventory round ends with the status
`inventoryStatus`. -/
def dynamicQModule (inventoryStatus : TMR_Status) : Env :=
  { moduleAt 9600 SUCCESS with
    command := fun c =>
      match c with
      | Command.GetProtocolConfiguration _ TMR_SR_ProtocolConfiguration.GEN2_Q =>
        (SUCCESS, ParamValue.gen2Q { type := TMR_SR_GEN2_Q_DYNAMIC, initialQ := 4 })
      | Command.inventory _ _ _ => (inventoryStatus, ParamValue.num 1)
      | _ => (SUCCESS, ParamValue.num 0) }

/-- The commands of a trace that set the Gen2 Q, with the values they carry, in
order. -/
def qWrites (trace : List WireEvent) : List (List Nat) :=
  trace.filterMap (fun e =>
    match e with
    | WireEvent.command (Command.SetProtocolConfiguration _
        TMR_SR_ProtocolConfiguration.GEN2_Q value) => some value
    | _ => none)

/-- The protocol argument of the most recent `SetProtocol` command of a trace
that the module answered with success, if there is one. -/
def acceptedProtocol (env : Env) (trace : List WireEvent) : Option Nat :=
  trace.foldl (fun last e =>
    match e with
    | WireEvent.command (Command.SetProtocol protocol) =>
      if (env.command (Command.SetProtocol protocol)).1 = SUCCESS then some protocol else last
    | _ => last) none

/-- A module that refuses `SetProtocol` for Gen2 with a timeout and accepts
every other command. -/
def gen2RefusingModule : Env :=
  { moduleAt 9600 SUCCESS with
    command := fun c =>
      if c = Command.SetProtocol TMR_TAG_PROTOCOL_GEN2 then (ERROR_TIMEOUT, ParamValue.num 0)
      else (SUCCESS, ParamValue.num 0) }

/-! ## Framing a request (`serial_reader_l3.c`, lines 146-159) -/

/-- Lines 150-154 of `TMR_SR_sendMessage`: the stores into the message buffer
`data`, each with its index and its value, in order.  `len` is a `uint8_t`; the
indices `len + 3` and `len + 4` are computed in `int`. -/
def sendMessageStores (data : Buf) : List (Nat × Nat) :=
  let len := data 1 % 256
  let crc := tm_crc (fun k => data (1 + k)) (len + 2)
  [(0, 0xff), (len + 3, (crc >>> 8) % 256), (len + 4, crc &&& 0xff)]

/-- Lines 150-158 of `TMR_SR_sendMessage`: the message buffer as the stores
leave it, and the number `len + 5` of bytes handed to `TMR_SR_sendBytes`. -/
def TMR_SR_sendMessage (data : Buf) : Buf × Nat :=
  ((sendMessageStores data).foldl (fun m s => fun k => if k = s.1 then s.2 else m k) data,
    data 1 % 256 + 5)

/-- The message of `TMR_SR_cmdGEN2WriteTagData` when it builds one, and a
buffer of zeros otherwise. -/
def writeTagDataMessage (timeout bank address count : Nat) (data : List Nat)
    (accessPassword : Nat) (filter : Option TMR_TagFilter) : Buf :=
  match msgGEN2WriteTagData timeout bank address count data accessPassword filter with
  | Except.ok msg => msg
  | Except.error _ => fun _ => 0

/-- The EPC length field `B` of a tag record: the 16-bit number at the cursor
that the metadata fields leave. -/
def epcBitLength (reader : Reader) (read : TMR_TagReadData) (flags i : Nat) (msg : Buf) : Nat :=
  GETU16AT msg (metadataFields true reader read flags i msg).2

/-- The number of bytes between the EPC length field and the EPC and CRC:
the two CRC bytes, and for a record whose protocol is Gen2 the two PC bytes. -/
def epcOverhead (reader : Reader) (read : TMR_TagReadData) (flags i : Nat) (msg : Buf) : Nat :=
  if (metadataFields true reader read flags i msg).1.tag.protocol = TMR_TAG_PROTOCOL_GEN2 then 4
  else 2

/-- The length `L = B / 8 - 2` of the EPC in bytes, less 2 more for Gen2. -/
def epcLength (reader : Reader) (read : TMR_TagReadData) (flags i : Nat) (msg : Buf) : Nat :=
  epcBitLength reader read flags i msg / 8 - epcOverhead reader read flags i msg

/-- The index of the start of the EPC, for a cursor that is a byte: behind the
length field and, for Gen2, behind the two PC bytes. -/
def epcStart (reader : Reader) (read : TMR_TagReadData) (flags i : Nat) (msg : Buf) : Nat :=
  ((metadataFields true reader read flags i msg).2 +
    epcOverhead reader read flags i msg) % 256

/-- A message whose bytes 5 and 6 announce an EPC field of 2048 bits; the bytes
at the indices 261 and 262 are `AB CD`. -/
def longEpcMessage : Buf :=
  fun k => if k = 5 then 0x08 else if k = 261 then 0xAB else if k = 262 then 0xCD else 0

/-- A message that holds, from index 5 on, a Gen2 record with the protocol
field only: an EPC field of 64 bits, the PC bytes 30 00, the EPC
`E2 00 12 34` and the CRC `BE EF`. -/
def gen2RecordMessage : Buf :=
  fun k => ([0x05, 0x00, 0x40, 0x30, 0x00, 0xE2, 0x00, 0x12, 0x34, 0xBE, 0xEF] : List Nat).getD
    (k - 5) 0

/-- The multi-plan of the sample `multiprotocolsearch.c` on a reader that
supports Gen2 and ISO 18000-6B: two simple plans of weight 0, and a total
weight of 0. -/
def zeroWeightPlan : TMR_ReadPlan :=
  TMR_ReadPlan.multi 0
    [TMR_ReadPlan.simple 0 [1] TMR_TAG_PROTOCOL_GEN2 none none,
      TMR_ReadPlan.simple 0 [2] TMR_TAG_PROTOCOL_ISO180006B none none] 0

mutual
/-- The protocols of the simple plans of a read plan are in 1..32, the range
for which the shift `1 << (protocol - 1)` of `validateReadPlan` is defined in
C. -/
def protocolsInRange : TMR_ReadPlan → Bool
  | TMR_ReadPlan.simple _ _ protocol _ _ => decide (1 ≤ protocol ∧ protocol ≤ 32)
  | TMR_ReadPlan.multi _ plans _ => plansInRange plans
  | TMR_ReadPlan.other _ => true
/-- The condition `protocolsInRange` on every plan of a list. -/
def plansInRange : List TMR_ReadPlan → Bool
  | [] => true
  | p :: rest => protocolsInRange p && plansInRange rest
end

/-- A multi-plan of two simple plans of weight 2^31 each: the weights sum to
2^32. -/
def heavyPlan : TMR_ReadPlan :=
  TMR_ReadPlan.multi 0
    [TMR_ReadPlan.simple 2147483648 [1] TMR_TAG_PROTOCOL_GEN2 none none,
      TMR_ReadPlan.simple 2147483648 [2] TMR_TAG_PROTOCOL_ISO180006B none none] 0

/-- A multi-plan of three simple plans of weights 2^31, 2^31 and 1: the
weights sum to 2^32 + 1. -/
def wrappingPlan : TMR_ReadPlan :=
  TMR_ReadPlan.multi 0
    [TMR_ReadPlan.simple 2147483648 [1] TMR_TAG_PROTOCOL_GEN2 none none,
      TMR_ReadPlan.simple 2147483648 [2] TMR_TAG_PROTOCOL_ISO180006B none none,
      TMR_ReadPlan.simple 1 [1] TMR_TAG_PROTOCOL_GEN2 none none] 0

/-! ## Words of tag memory (`serial_reader.c`, lines 980-1011 and 1096-1118) -/

/-- The two bytes that hold the `uint16_t` value `v` in the memory of the host,
the byte at the lower address first. -/
def hostBytes (bigEndianHost : Bool) (v : Nat) : Nat × Nat :=
  if bigEndianHost then ((v >>> 8) % 256, v % 256) else (v % 256, (v >>> 8) % 256)

/-- The value of `data[i]` for an array of `uint16_t` that lies over the bytes
`data8`. -/
def loadWord (bigEndianHost : Bool) (data8 : Buf) (i : Nat) : Nat :=
  if bigEndianHost then (data8 (2 * i) <<< 8) ||| data8 (2 * i + 1)
  else (data8 (2 * i + 1) <<< 8) ||| data8 (2 * i)

/-- The assignment `data[i] = v` for an array of `uint16_t` that lies over the
bytes `data8`. -/
def storeWord (bigEndianHost : Bool) (data8 : Buf) (i v : Nat) : Buf :=
  fun k =>
    if k = 2 * i then (hostBytes bigEndianHost v).1
    else if k = 2 * i + 1 then (hostBytes bigEndianHost v).2
    else data8 k

/-- The loop of `TMR_SR_readTagMemWords` (lines 1002-1005), compiled since
`tm_config.h` leaves `TMR_BIG_ENDIAN_HOST` undefined:
`data[i] = (data8[2*i] << 8) | data8[2*i + 1]` for `i` from 0 to
`wordCount - 1`, in place, the value being converted to `uint16_t`. -/
def wordsFromBytes (bigEndianHost : Bool) (wordCount : Nat) (data8 : Buf) : Buf :=
  (List.range wordCount).foldl
    (fun m i => storeWord bigEndianHost m i (((m (2 * i) <<< 8) ||| m (2 * i + 1)) % 65536)) data8

/-- The function `TMR_SR_readTagMemWords(reader, target, bank, wordAddress,
wordCount, data)`: its status, the bytes of the caller's array `data` and the
reader.  `data` holds the bytes of the array on entry. -/
def TMR_SR_readTagMemWords (env : Env) (reader : Reader) (bigEndianHost : Bool)
    (target : Option TMR_TagFilter) (bank wordAddress wordCount : Nat) (data buf0 : List Nat)
    (read0 : TMR_TagReadData) : TMR_Status × List Nat × Reader :=
  let r := TMR_SR_readTagMemBytes env reader target bank (wordAddress * 2 % 2 ^ 32)
    (wordCount * 2 % 65536) data buf0 read0
  if r.1 ≠ SUCCESS then (r.1, r.2.1, r.2.2)
  else
    (SUCCESS,
      bytesAt (wordsFromBytes bigEndianHost wordCount (fun k => r.2.1.getD k 0)) 0
          (2 * wordCount) ++ r.2.1.drop (2 * wordCount),
      r.2.2)

/-- The loop of `TMR_SR_writeTagMemWords` (lines 1106-1110):
`buf[2*i] = data[i] >> 8; buf[2*i + 1] = data[i] & 0xff` for `i` from 0 to
`count - 1`; `data` holds the values of the words. -/
def bytesFromWords (data : List Nat) (count : Nat) (buf : Buf) : Buf :=
  (List.range count).foldl
    (fun b i => fun k =>
      if k = 2 * i + 1 then data.getD i 0 &&& 0xff
      else if k = 2 * i then (data.getD i 0 >>> 8) % 256
      else b k) buf

/-- The function `TMR_SR_writeTagMemWords(reader, filter, bank, address, count,
data)`; `buf0` is what the local array `buf` of 254 bytes holds on entry, and
`mode0` what the local variable `mode` of `TMR_SR_writeTagMemBytes` holds. -/
def TMR_SR_writeTagMemWords (env : Env) (reader : Reader) (mode0 : Nat)
    (filter : Option TMR_TagFilter) (bank address count : Nat) (data buf0 : List Nat) :
    TMR_Status × Reader :=
  TMR_SR_writeTagMemBytes env reader mode0 filter bank (address * 2 % 2 ^ 32)
    (count * 2 % 65536) (bytesAt (bytesFromWords data count (fun k => buf0.getD k 0)) 0 254)

/-- The byte sequence that the specification assigns to a list of 16-bit
words: for each word its high byte `w / 256`, then its low byte `w % 256`. -/
def highByteFirst : List Nat → List Nat
  | [] => []
  | w :: rest => w / 256 :: w % 256 :: highByteFirst rest

/-! ## Arithmetic of the checksum -/



theorem xor_mod_pow (a b k : Nat) : (a ^^^ b) % 2 ^ k = (a % 2 ^ k) ^^^ (b % 2 ^ k) := by
  apply Nat.eq_of_testBit_eq
  intro i
  simp only [Nat.testBit_mod_two_pow, Nat.testBit_xor]
  cases decide (i < k) <;> simp

theorem crctable_getD (t : Nat) (ht : t < 16) : crctable.getD t 0 = 4129 * t := by
  interval_cases t <;> rfl

theorem crcNibble_eq (r t nib : Nat) (hr : r < 4096) (ht : t < 16) (hn : nib < 16) :
    crcNibble (4096 * t + r) nib = (16 * r + nib) ^^^ (4129 * t) := by
  unfold crcNibble
  have h1 : (4096 * t + r) >>> 12 = t := by
    rw [Nat.shiftRight_eq_div_pow]; omega
  have h2 : ((4096 * t + r) <<< 4) ||| nib = 65536 * t + (16 * r + nib) := by
    have h := Nat.mul_add_lt_is_or (i := 4) (by simpa using hn) (4096 * t + r)
    rw [Nat.shiftLeft_eq, Nat.mul_comm, ← h]; omega
  rw [h1, h2, crctable_getD t ht]
  have := xor_mod_pow (65536 * t + (16 * r + nib)) (4129 * t) 16
  norm_num at this
  rw [this]
  have e1 : (65536 * t + (16 * r + nib)) % 65536 = 16 * r + nib := by omega
  have e2 : 4129 * t % 65536 = 4129 * t := by omega
  rw [e1, e2]

theorem crcNibble_lt (crc nib : Nat) : crcNibble crc nib < 65536 := by
  unfold crcNibble; omega

/-- The low nibble of the result of one update is the incoming nibble combined
with the nibble shifted out at the top. -/
theorem crcNibble_mod16 (r t nib : Nat) (hr : r < 4096) (ht : t < 16) (hn : nib < 16) :
    crcNibble (4096 * t + r) nib % 16 = nib ^^^ t := by
  rw [crcNibble_eq r t nib hr ht hn]
  have := xor_mod_pow (16 * r + nib) (4129 * t) 4
  norm_num at this
  rw [this]
  have e1 : (16 * r + nib) % 16 = nib := by omega
  have e2 : 4129 * t % 16 = t := by omega
  rw [e1, e2]

theorem crcNibble_inj_state (c c' nib : Nat) (hc : c < 65536) (hc' : c' < 65536) (hn : nib < 16)
    (h : crcNibble c nib = crcNibble c' nib) : c = c' := by
  obtain ⟨t, r, rfl, ht, hr⟩ : ∃ t r, c = 4096 * t + r ∧ t < 16 ∧ r < 4096 :=
    ⟨c / 4096, c % 4096, by omega, by omega, by omega⟩
  obtain ⟨t', r', rfl, ht', hr'⟩ : ∃ t r, c' = 4096 * t + r ∧ t < 16 ∧ r < 4096 :=
    ⟨c' / 4096, c' % 4096, by omega, by omega, by omega⟩
  have hm := congrArg (· % 16) h
  simp only [crcNibble_mod16 _ _ _ hr ht hn, crcNibble_mod16 _ _ _ hr' ht' hn] at hm
  have htt : t = t' := Nat.xor_right_injective hm
  subst htt
  rw [crcNibble_eq r t nib hr ht hn, crcNibble_eq r' t nib hr' ht hn] at h
  have := Nat.xor_left_injective h
  omega

theorem crcNibble_inj_low (c c' nib nib' : Nat) (hc : c < 65536) (hc' : c' < 65536)
    (hn : nib < 16) (hn' : nib' < 16) (htop : c / 4096 = c' / 4096)
    (h : crcNibble c nib = crcNibble c' nib') : c = c' ∧ nib = nib' := by
  obtain ⟨t, r, rfl, ht, hr⟩ : ∃ t r, c = 4096 * t + r ∧ t < 16 ∧ r < 4096 :=
    ⟨c / 4096, c % 4096, by omega, by omega, by omega⟩
  obtain ⟨t', r', rfl, ht', hr'⟩ : ∃ t r, c' = 4096 * t + r ∧ t < 16 ∧ r < 4096 :=
    ⟨c' / 4096, c' % 4096, by omega, by omega, by omega⟩
  have htt : t = t' := by omega
  subst htt
  rw [crcNibble_eq r t nib hr ht hn, crcNibble_eq r' t nib' hr' ht hn'] at h
  have := Nat.xor_left_injective h
  omega

theorem xor_shiftRight (a b k : Nat) : (a ^^^ b) >>> k = (a >>> k) ^^^ (b >>> k) := by
  apply Nat.eq_of_testBit_eq
  intro i
  simp only [Nat.testBit_shiftRight, Nat.testBit_xor]

theorem and_15 (b : Nat) : b &&& 0xf = b % 16 := Nat.and_pow_two_sub_one_eq_mod b 4

theorem crcNibble_top (r t nib : Nat) (hr : r < 4096) (ht : t < 16) (hn : nib < 16) :
    crcNibble (4096 * t + r) nib / 4096 = (r / 256) ^^^ t := by
  rw [crcNibble_eq r t nib hr ht hn]
  have := xor_shiftRight (16 * r + nib) (4129 * t) 12
  simp only [Nat.shiftRight_eq_div_pow] at this
  norm_num at this
  rw [this]
  have e1 : (16 * r + nib) / 4096 = r / 256 := by omega
  have e2 : 4129 * t / 4096 = t := by omega
  rw [e1, e2]

theorem crcByte_lt (crc byte : Nat) : crcByte crc byte < 65536 := crcNibble_lt _ _

theorem crcByte_inj_state (c c' b : Nat) (hc : c < 65536) (hc' : c' < 65536) (hb : b < 256)
    (h : crcByte c b = crcByte c' b) : c = c' := by
  unfold crcByte at h
  have hlo : b &&& 0xf < 16 := by rw [and_15]; omega
  have hhi : b >>> 4 < 16 := by rw [Nat.shiftRight_eq_div_pow]; omega
  have h1 := crcNibble_inj_state _ _ _ (crcNibble_lt _ _) (crcNibble_lt _ _) hlo h
  exact crcNibble_inj_state _ _ _ hc hc' hhi h1

theorem crcByte_inj_byte (c b b' : Nat) (hc : c < 65536) (hb : b < 256) (hb' : b' < 256)
    (h : crcByte c b = crcByte c b') : b = b' := by
  unfold crcByte at h
  have hlo : b &&& 0xf < 16 := by rw [and_15]; omega
  have hhi : b >>> 4 < 16 := by rw [Nat.shiftRight_eq_div_pow]; omega
  have hlo' : b' &&& 0xf < 16 := by rw [and_15]; omega
  have hhi' : b' >>> 4 < 16 := by rw [Nat.shiftRight_eq_div_pow]; omega
  have htop : crcNibble c (b >>> 4) / 4096 = crcNibble c (b' >>> 4) / 4096 := by
    obtain ⟨t, r, rfl, ht, hr⟩ : ∃ t r, c = 4096 * t + r ∧ t < 16 ∧ r < 4096 :=
      ⟨c / 4096, c % 4096, by omega, by omega, by omega⟩
    rw [crcNibble_top r t _ hr ht hhi, crcNibble_top r t _ hr ht hhi']
  obtain ⟨h1, h2⟩ := crcNibble_inj_low _ _ _ _ (crcNibble_lt _ _) (crcNibble_lt _ _) hlo hlo' htop h
  obtain ⟨_, h3⟩ := crcNibble_inj_low _ _ _ _ hc hc hhi hhi' rfl h1
  rw [and_15, and_15] at h2
  rw [Nat.shiftRight_eq_div_pow, Nat.shiftRight_eq_div_pow] at h3
  omega

theorem writeBytes_lt (d : Buf) (l : List Nat) (i : Nat) (h : i < l.length) :
    writeBytes d 0 l i = l.getD i 0 := by
  simp [writeBytes, h]

theorem writeBytes_ge (d : Buf) (l : List Nat) (i : Nat) (h : l.length ≤ i) :
    writeBytes d 0 l i = d i := by
  simp [writeBytes]; omega

theorem getD_take (l : List Nat) (n i : Nat) (h : i < n) : (l.take n).getD i 0 = l.getD i 0 := by
  simp [List.getD_eq_getElem?_getD, List.getElem?_take, h]

theorem getD_drop (l : List Nat) (n i : Nat) : (l.drop n).getD i 0 = l.getD (n + i) 0 := by
  simp [List.getD_eq_getElem?_getD, List.getElem?_drop]

/-- Two consecutive stores of stream bytes amount to one store of the longer run. -/
theorem writeBytes_take_drop (d : Buf) (s : List Nat) (a b : Nat) (h : a + b ≤ s.length) :
    writeBytes (writeBytes d 0 (s.take a)) a ((s.drop a).take b) = writeBytes d 0 (s.take (a + b)) := by
  funext i
  simp only [writeBytes, List.length_take, List.length_drop]
  have e1 : min a s.length = a := by omega
  have e2 : min b (s.length - a) = b := by omega
  have e3 : min (a + b) s.length = a + b := by omega
  rw [e1, e2, e3]
  by_cases h1 : i < a
  · have : ¬ (a ≤ i ∧ i < a + b) := by omega
    rw [if_neg this, if_pos (by omega), if_pos (by omega)]
    rw [getD_take _ _ _ (by omega), getD_take _ _ _ (by omega)]
  · by_cases h2 : i < a + b
    · rw [if_pos (by omega), if_pos (by omega)]
      rw [getD_take _ _ _ (by omega), getD_take _ _ _ (by omega), getD_drop]
      congr 1; omega
    · rw [if_neg (by omega), if_neg (by omega), if_neg (by omega)]

theorem receive_aligned (us : Bool) (t : SerialTransport) (d0 : Buf) (opcode len : Nat)
    (h0 : t.rx.getD 0 0 = 0xFF) (h1 : t.rx.getD 1 0 = len) (hb : len < 256)
    (hl : 7 + len ≤ t.rx.length) :
    TMR_SR_receiveMessage us t d0 opcode =
      receiveCheck us
        { rx := t.rx.drop (7 + len),
          requested := t.requested ++ 7 :: (if len = 0 then [] else [len]) }
        (writeBytes d0 0 (t.rx.take (7 + len))) opcode len SUCCESS := by
  have h7 : 7 ≤ t.rx.length := by omega
  have hd0 : writeBytes d0 0 (List.take 7 t.rx) 0 = 0xFF := by
    rw [writeBytes_lt _ _ _ (by simp; omega), getD_take _ _ _ (by omega), h0]
  have hd1 : writeBytes d0 0 (List.take 7 t.rx) 1 = len := by
    rw [writeBytes_lt _ _ _ (by simp; omega), getD_take _ _ _ (by omega), h1]
  unfold TMR_SR_receiveMessage receiveBytes
  simp only [if_pos h7, hd0, ne_eq, not_true_eq_false, if_false]
  unfold receiveBody
  simp only [hd1, Nat.mod_eq_of_lt hb, Nat.zero_add]
  by_cases hz : len = 0
  · subst hz
    simp only [if_true, Nat.add_zero, List.append_nil]
  · simp only [hz, if_false]
    unfold receiveBytes
    have h2 : len ≤ (List.drop 7 t.rx).length := by
      rw [List.length_drop]; omega
    simp only [Nat.add_zero, Nat.sub_zero, if_pos h2]
    rw [writeBytes_take_drop d0 t.rx 7 _ (by omega)]
    simp only [List.drop_drop, List.append_assoc, List.singleton_append, List.cons_append,
      List.nil_append]


theorem crcLoop_lt (f : Nat → Nat) (n : Nat) : crcLoop f n < 65536 := by
  cases n with
  | zero => simp [crcLoop]
  | succ n => exact crcByte_lt _ _

/-- The checksum loop only looks at the bytes below its bound. -/
theorem crcLoop_congr (f g : Nat → Nat) (n : Nat) (h : ∀ i, i < n → f i = g i) :
    crcLoop f n = crcLoop g n := by
  induction n with
  | zero => rfl
  | succ n ih =>
    simp only [crcLoop]
    rw [ih (fun i hi => h i (by omega)), h n (by omega)]

theorem crcLoop_list (l : List Nat) :
    crcLoop (fun i => l.getD i 0) l.length = frameCrc l := by
  induction l using List.reverseRecOn with
  | nil => rfl
  | append_singleton l x ih =>
    rw [List.length_append, List.length_singleton]
    simp only [crcLoop, frameCrc, List.foldl_append, List.foldl_cons, List.foldl_nil]
    have h1 : (l ++ [x]).getD l.length 0 = x := by simp [List.getD_eq_getElem?_getD]
    rw [h1]
    have h2 : crcLoop (fun i => (l ++ [x]).getD i 0) l.length = crcLoop (fun i => l.getD i 0) l.length := by
      apply crcLoop_congr
      intro i hi
      simp [List.getD_eq_getElem?_getD, List.getElem?_append_left hi]
    rw [h2, ih, frameCrc]

theorem tm_crc_eq_frameCrc (f : Nat → Nat) (l : List Nat) (hl : l.length < 256)
    (h : ∀ i, i < l.length → f i = l.getD i 0) : tm_crc f l.length = frameCrc l := by
  unfold tm_crc
  rw [Nat.mod_eq_of_lt hl, crcLoop_congr f (fun i => l.getD i 0) _ h, crcLoop_list]

/-- Two buffers that differ in exactly one byte below the bound have different
checksums. -/
theorem crcLoop_single (f g : Nat → Nat) (n p : Nat) (hp : p < n)
    (hf : ∀ i, i < n → f i < 256) (hg : ∀ i, i < n → g i < 256)
    (hne : f p ≠ g p) (heq : ∀ i, i < n → i ≠ p → f i = g i) :
    crcLoop f n ≠ crcLoop g n := by
  induction n with
  | zero => omega
  | succ n ih =>
    simp only [crcLoop]
    by_cases hpn : p = n
    · subst hpn
      rw [crcLoop_congr f g p (fun i hi => heq i (by omega) (by omega))]
      intro h
      exact hne (crcByte_inj_byte _ _ _ (crcLoop_lt _ _) (hf p (by omega)) (hg p (by omega)) h)
    · have ih' := ih (by omega) (fun i hi => hf i (by omega)) (fun i hi => hg i (by omega))
        (fun i hi hip => heq i (by omega) hip)
      rw [heq n (by omega) (by omega)]
      intro h
      exact ih' (crcByte_inj_state _ _ _ (crcLoop_lt _ _) (crcLoop_lt _ _)
        (hg n (by omega)) h)

/-! ## Delivery of a complete, aligned frame -/


theorem frameWith_length (op sh sl : Nat) (b : List Nat) (c1 c2 : Nat) :
    (frameWith op sh sl b c1 c2).length = b.length + 7 := by
  simp [frameWith, frameBody]

theorem frameBody_length (op sh sl : Nat) (b : List Nat) :
    (frameBody op sh sl b).length = b.length + 4 := by
  simp [frameBody]

theorem frameWith_getD_succ (op sh sl : Nat) (b : List Nat) (c1 c2 i : Nat)
    (hi : i < b.length + 4) :
    (frameWith op sh sl b c1 c2).getD (1 + i) 0 = (frameBody op sh sl b).getD i 0 := by
  have h : i < (frameBody op sh sl b).length := by rw [frameBody_length]; exact hi
  rw [Nat.add_comm]
  simp only [frameWith, List.getD_eq_getElem?_getD, List.getElem?_cons_succ,
    List.getElem?_append_left h]

theorem frameWith_getD_payload (op sh sl : Nat) (b : List Nat) (c1 c2 i : Nat) :
    (frameWith op sh sl b c1 c2).getD (5 + i) 0 = (b ++ [c1, c2]).getD i 0 := by
  rw [Nat.add_comm]
  simp [frameWith, frameBody, List.getD_eq_getElem?_getD]

theorem frameWith_getD_hi (op sh sl : Nat) (b : List Nat) (c1 c2 : Nat) :
    (frameWith op sh sl b c1 c2).getD (b.length + 5) 0 = c1 := by
  rw [Nat.add_comm, frameWith_getD_payload, List.getD_eq_getElem?_getD,
    List.getElem?_append_right (Nat.le_refl _)]
  simp

theorem frameWith_getD_lo (op sh sl : Nat) (b : List Nat) (c1 c2 : Nat) :
    (frameWith op sh sl b c1 c2).getD (b.length + 6) 0 = c2 := by
  have e : b.length + 6 = 5 + (b.length + 1) := by omega
  rw [e, frameWith_getD_payload, List.getD_eq_getElem?_getD,
    List.getElem?_append_right (Nat.le_succ _)]
  simp

theorem frameWith_getD_data (op sh sl : Nat) (b : List Nat) (c1 c2 i : Nat) (hi : i < b.length) :
    (frameWith op sh sl b c1 c2).getD (5 + i) 0 = b.getD i 0 := by
  rw [frameWith_getD_payload, List.getD_eq_getElem?_getD, List.getElem?_append_left hi,
    List.getD_eq_getElem?_getD]

theorem shl8_or (hi lo : Nat) (h : lo < 256) : (hi <<< 8) ||| lo = hi * 256 + lo := by
  have := Nat.mul_add_lt_is_or (i := 8) (by simpa using h) hi
  rw [Nat.shiftLeft_eq, Nat.mul_comm, ← this]

theorem tm_crc_congr (f g : Nat → Nat) (len : Nat) (h : ∀ i, i < len → f i = g i) :
    tm_crc f len = tm_crc g len := by
  unfold tm_crc
  exact crcLoop_congr f g _ (fun i hi => h i (lt_of_lt_of_le hi (Nat.mod_le _ _)))

/-- What `TMR_SR_receiveMessage` does with a complete, aligned frame: the
verdict of the three checks on the bytes of the frame. -/
theorem receive_frame (us : Bool) (d0 : Buf) (opcode op sh sl : Nat) (b : List Nat) (c1 c2 : Nat)
    (hb : b.length < 256) :
    (TMR_SR_receiveMessage us (linkWith (frameWith op sh sl b c1 c2)) d0 opcode).ret =
      (if c1 ≠ tm_crc (fun i => (frameBody op sh sl b).getD i 0) (b.length + 4) >>> 8 ∨
          c2 ≠ tm_crc (fun i => (frameBody op sh sl b).getD i 0) (b.length + 4) &&& 0xff then
        ERROR_CRC_ERROR
      else if op ≠ opcode ∧ (op ≠ 0x2F ∨ us = false) then ERROR_DEVICE_RESET
      else if (sh <<< 8) ||| sl ≠ 0 then ERROR_CODE ((sh <<< 8) ||| sl)
      else SUCCESS) ∧
    (TMR_SR_receiveMessage us (linkWith (frameWith op sh sl b c1 c2)) d0 opcode).data =
      writeBytes d0 0 (frameWith op sh sl b c1 c2) ∧
    (TMR_SR_receiveMessage us (linkWith (frameWith op sh sl b c1 c2)) d0 opcode).transport.rx = [] := by
  have hlen := frameWith_length op sh sl b c1 c2
  have hra := receive_aligned us (linkWith (frameWith op sh sl b c1 c2)) d0 opcode b.length
    (by simp [linkWith, frameWith]) (by simp [linkWith, frameWith, frameBody]) hb
    (by simp only [linkWith, hlen]; omega)
  have htake : List.take (7 + b.length) (frameWith op sh sl b c1 c2) = frameWith op sh sl b c1 c2 :=
    List.take_of_length_le (by rw [hlen]; omega)
  have hdrop : List.drop (7 + b.length) (frameWith op sh sl b c1 c2) = [] :=
    List.drop_of_length_le (by rw [hlen]; omega)
  simp only [linkWith, htake, hdrop] at hra
  simp only [linkWith]
  rw [hra]
  have hD : ∀ i, i < b.length + 7 →
      writeBytes d0 0 (frameWith op sh sl b c1 c2) i = (frameWith op sh sl b c1 c2).getD i 0 :=
    fun i hi => writeBytes_lt _ _ _ (by rw [hlen]; exact hi)
  have hcrc : tm_crc (fun i => writeBytes d0 0 (frameWith op sh sl b c1 c2) (1 + i)) (b.length + 4) =
      tm_crc (fun i => (frameBody op sh sl b).getD i 0) (b.length + 4) := by
    apply tm_crc_congr
    intro i hi
    rw [hD _ (by omega), frameWith_getD_succ _ _ _ _ _ _ _ hi]
  have h2 : writeBytes d0 0 (frameWith op sh sl b c1 c2) 2 = op := by
    rw [hD _ (by omega)]; simp [frameWith, frameBody]
  have h3 : writeBytes d0 0 (frameWith op sh sl b c1 c2) 3 = sh := by
    rw [hD _ (by omega)]; simp [frameWith, frameBody]
  have h4 : writeBytes d0 0 (frameWith op sh sl b c1 c2) 4 = sl := by
    rw [hD _ (by omega)]; simp [frameWith, frameBody]
  have h5 : writeBytes d0 0 (frameWith op sh sl b c1 c2) (b.length + 5) = c1 := by
    rw [hD _ (by omega), frameWith_getD_hi]
  have h6 : writeBytes d0 0 (frameWith op sh sl b c1 c2) (b.length + 6) = c2 := by
    rw [hD _ (by omega), frameWith_getD_lo]
  unfold receiveCheck GETU16AT
  simp only [hcrc, h2, h3, h4, h5, h6]
  refine ⟨?_, ?_, ?_⟩
  · split_ifs <;> rfl
  · split_ifs <;> rfl
  · split_ifs <;> rfl



theorem frameBody_crc (op sh sl : Nat) (b : List Nat) (hb : b.length ≤ 251) :
    tm_crc (fun i => (frameBody op sh sl b).getD i 0) (b.length + 4) =
      frameCrc (frameBody op sh sl b) := by
  have h := tm_crc_eq_frameCrc (fun i => (frameBody op sh sl b).getD i 0) (frameBody op sh sl b)
    (by rw [frameBody_length]; omega) (fun _ _ => rfl)
  rwa [frameBody_length] at h

theorem payloadOf_frame (d0 : Buf) (op sh sl : Nat) (b : List Nat) (c1 c2 : Nat) :
    payloadOf (writeBytes d0 0 (frameWith op sh sl b c1 c2)) b.length = b := by
  apply List.ext_getElem
  · simp [payloadOf]
  · intro i h1 h2
    simp only [payloadOf, List.getElem_map, List.getElem_range]
    rw [writeBytes_lt _ _ _ (by rw [frameWith_length]; omega), frameWith_getD_data _ _ _ _ _ _ _ h2,
      List.getD_eq_getElem?_getD, List.getElem?_eq_getElem h2]
    rfl


/-! ## The baud-rate scan -/


theorem ratesSet_append (a b : List WireEvent) : ratesSet (a ++ b) = ratesSet a ++ ratesSet b := by
  induction a with
  | nil => rfl
  | cons e rest ih => cases e <;> simp [ratesSet, ih]

theorem rates_drop (k : Nat) (hk : k < rates.length) :
    rates.drop k = rates.getD k 0 :: rates.drop (k + 1) := by
  rw [List.drop_eq_getElem_cons hk, List.getD_eq_getElem?_getD, List.getElem?_eq_getElem hk]
  rfl

/-- The rates set by the loop of `TMR_SR_connect` from iteration
`numberof(rates) + 1 - n` on. -/
theorem connectLoop_ratesSet (env : Env) (b n : Nat) (hn : n ≤ rates.length) (rate : Nat)
    (ret : TMR_Status) (tr : List WireEvent) :
    ratesSet (connectLoop env b n rate ret tr).2 =
      ratesSet tr ++ scanned env ((rates.drop (rates.length - n)).filter (fun r => r ≠ b)) := by
  induction n generalizing rate ret tr with
  | zero => simp [connectLoop, scanned]
  | succ n ih =>
    have hi : rates.length - n ≠ 0 := by omega
    have hd := rates_drop (rates.length - (n + 1)) (by omega)
    have e : rates.length - (n + 1) + 1 = rates.length - n := by omega
    have e2 : rates.length - n - 1 = rates.length - (n + 1) := by omega
    rw [e] at hd
    rw [hd]
    simp only [connectLoop, hi, if_false, ne_eq, not_false_eq_true, true_and, e2]
    generalize rates.getD (rates.length - (n + 1)) 0 = r
    by_cases hb : r = b
    · rw [if_pos hb, ih (by omega)]
      simp only [List.filter_cons, hb, not_true_eq_false, decide_False, Bool.false_eq_true,
        if_false]
    · rw [if_neg hb]
      simp only [List.filter_cons, hb, not_false_eq_true, decide_True, if_true, scanned]
      by_cases h1 : env.setBaudRate r = SUCCESS
      · by_cases h2 : env.flush r = SUCCESS
        · by_cases h3 : env.cmdVersion r = SUCCESS
          · simp [h1, h2, h3, ratesSet_append, ratesSet]
          · by_cases h4 : env.cmdVersion r = ERROR_TIMEOUT
            · simp [h1, h2, h4, ih (Nat.le_of_succ_le hn), ratesSet_append, ratesSet]
            · simp [h1, h2, h3, h4, ratesSet_append, ratesSet]
        · simp [h1, h2, ratesSet_append, ratesSet]
      · simp [h1, ratesSet_append, ratesSet]

/-- A candidate at which the scan cannot go on is the last rate it sets. -/
theorem scanned_last (env : Env) (cs : List Nat) (r : Nat) (hr : r ∈ scanned env cs)
    (hbad : ¬ (env.setBaudRate r = SUCCESS ∧ env.flush r = SUCCESS ∧
      env.cmdVersion r = ERROR_TIMEOUT)) :
    (scanned env cs).getLast? = some r := by
  induction cs with
  | nil => simp [scanned] at hr
  | cons c cs ih =>
    simp only [scanned] at hr ⊢
    by_cases hg : env.setBaudRate c = SUCCESS ∧ env.flush c = SUCCESS ∧
        env.cmdVersion c = ERROR_TIMEOUT
    · rw [if_pos hg] at hr ⊢
      rcases List.mem_cons.mp hr with h | h
      · exact absurd (h ▸ hg) hbad
      · have := ih h
        rw [List.getLast?_cons, this]; rfl
    · rw [if_neg hg] at hr ⊢
      rcases List.mem_cons.mp hr with h | h
      · rw [h]; rfl
      · simp at h

theorem scanned_take (env : Env) (cs : List Nat) : ∃ m, scanned env cs = cs.take m := by
  induction cs with
  | nil => exact ⟨0, rfl⟩
  | cons c cs ih =>
    obtain ⟨m, hm⟩ := ih
    simp only [scanned]
    split_ifs
    · exact ⟨m + 1, by rw [hm]; rfl⟩
    · exact ⟨1, by simp⟩

theorem scanned_all (env : Env) (cs : List Nat)
    (h : ∀ r ∈ cs, env.setBaudRate r = SUCCESS ∧ env.flush r = SUCCESS ∧
      env.cmdVersion r = ERROR_TIMEOUT) : scanned env cs = cs := by
  induction cs with
  | nil => rfl
  | cons c cs ih =>
    simp only [scanned]
    rw [if_pos (h c (List.mem_cons_self _ _)), ih (fun r hr => h r (List.mem_cons_of_mem _ hr))]

/-- A probe error other than a timeout ends the loop of `TMR_SR_connect` with a
`return` of that error. -/
theorem connectLoop_error (env : Env) (b n : Nat) (hn : n ≤ rates.length) (rate : Nat)
    (ret : TMR_Status) (tr : List WireEvent) (r : Nat)
    (hr : r ∈ scanned env ((rates.drop (rates.length - n)).filter (fun r => r ≠ b)))
    (h1 : env.setBaudRate r = SUCCESS) (h2 : env.flush r = SUCCESS)
    (h3 : env.cmdVersion r ≠ SUCCESS) (h4 : env.cmdVersion r ≠ ERROR_TIMEOUT) :
    (connectLoop env b n rate ret tr).1 = ScanExit.returned (env.cmdVersion r) := by
  induction n generalizing rate ret tr with
  | zero => simp [scanned] at hr
  | succ n ih =>
    have hi : rates.length - n ≠ 0 := by omega
    have hd := rates_drop (rates.length - (n + 1)) (by omega)
    have e : rates.length - (n + 1) + 1 = rates.length - n := by omega
    have e2 : rates.length - n - 1 = rates.length - (n + 1) := by omega
    rw [e] at hd
    rw [hd] at hr
    simp only [connectLoop, hi, if_false, ne_eq, not_false_eq_true, true_and, e2]
    generalize rates.getD (rates.length - (n + 1)) 0 = c at hr ⊢
    by_cases hb : c = b
    · rw [if_pos hb]
      simp only [List.filter_cons, hb, ne_eq, not_true_eq_false, decide_False, Bool.false_eq_true,
        if_false] at hr
      exact ih (by omega) _ _ _ hr
    · rw [if_neg hb]
      simp only [List.filter_cons, hb, ne_eq, not_false_eq_true, decide_True, if_true,
        scanned] at hr
      by_cases hg : env.setBaudRate c = SUCCESS ∧ env.flush c = SUCCESS ∧
          env.cmdVersion c = ERROR_TIMEOUT
      · rw [if_pos hg] at hr
        rcases List.mem_cons.mp hr with h | h
        · exact absurd (h ▸ hg.2.2) h4
        · simp only [hg.1, hg.2.1, hg.2.2, not_true_eq_false, if_false, reduceCtorEq]
          exact ih (by omega) _ _ _ h
      · rw [if_neg hg] at hr
        rcases List.mem_cons.mp hr with h | h
        · subst h
          simp [h1, h2, h3, h4]
        · simp at h



theorem rates_drop_zero : rates.drop (rates.length - rates.length) = rates := by
  rw [Nat.sub_self, List.drop_zero]

/-- The first iteration of the loop of `TMR_SR_connect`, at `i = 0`. -/
theorem connectLoop_first (env : Env) (b rate : Nat) (ret : TMR_Status) (tr : List WireEvent) :
    connectLoop env b (rates.length + 1) rate ret tr =
      if env.setBaudRate b ≠ SUCCESS then
        (ScanExit.returned (env.setBaudRate b), tr ++ [WireEvent.setBaudRate b])
      else if env.flush b ≠ SUCCESS then
        (ScanExit.returned (env.flush b), tr ++ [WireEvent.setBaudRate b] ++ [WireEvent.flush])
      else if env.cmdVersion b = SUCCESS then
        (ScanExit.left 0 b (env.cmdVersion b),
          tr ++ [WireEvent.setBaudRate b] ++ [WireEvent.flush] ++ [WireEvent.cmdVersion])
      else if env.cmdVersion b ≠ ERROR_TIMEOUT then
        (ScanExit.returned (env.cmdVersion b),
          tr ++ [WireEvent.setBaudRate b] ++ [WireEvent.flush] ++ [WireEvent.cmdVersion])
      else
        connectLoop env b rates.length b (env.cmdVersion b)
          (tr ++ [WireEvent.setBaudRate b] ++ [WireEvent.flush] ++ [WireEvent.cmdVersion]) :=
  rfl

/-- The rates set by the whole loop of `TMR_SR_connect`. -/
theorem connectLoop_ratesSet_all (env : Env) (b rate : Nat) (ret : TMR_Status)
    (tr : List WireEvent) :
    ratesSet (connectLoop env b (rates.length + 1) rate ret tr).2 =
      ratesSet tr ++ scanned env (candidates b) := by
  rw [connectLoop_first]
  simp only [candidates, scanned]
  by_cases h1 : env.setBaudRate b = SUCCESS
  · by_cases h2 : env.flush b = SUCCESS
    · by_cases h3 : env.cmdVersion b = SUCCESS
      · simp [h1, h2, h3, ratesSet_append, ratesSet]
      · by_cases h4 : env.cmdVersion b = ERROR_TIMEOUT
        · have := connectLoop_ratesSet env b rates.length (Nat.le_refl _) b ERROR_TIMEOUT
            (tr ++ [WireEvent.setBaudRate b] ++ [WireEvent.flush] ++ [WireEvent.cmdVersion])
          rw [rates_drop_zero] at this
          simp only [h1, h2, h4, ne_eq, not_true_eq_false, if_false, reduceCtorEq, and_self,
            if_true, this]
          simp [ratesSet_append, ratesSet]
        · simp [h1, h2, h3, h4, ratesSet_append, ratesSet]
    · simp [h1, h2, ratesSet_append, ratesSet]
  · simp [h1, ratesSet_append, ratesSet]

theorem connectLoop_error_all (env : Env) (b rate : Nat) (ret : TMR_Status)
    (tr : List WireEvent) (r : Nat) (hr : r ∈ scanned env (candidates b))
    (h1 : env.setBaudRate r = SUCCESS) (h2 : env.flush r = SUCCESS)
    (h3 : env.cmdVersion r ≠ SUCCESS) (h4 : env.cmdVersion r ≠ ERROR_TIMEOUT) :
    (connectLoop env b (rates.length + 1) rate ret tr).1 = ScanExit.returned (env.cmdVersion r) := by
  rw [connectLoop_first]
  simp only [candidates, scanned] at hr
  by_cases hg : env.setBaudRate b = SUCCESS ∧ env.flush b = SUCCESS ∧
      env.cmdVersion b = ERROR_TIMEOUT
  · rw [if_pos hg] at hr
    rcases List.mem_cons.mp hr with h | h
    · exact absurd (h ▸ hg.2.2) h4
    · simp only [hg.1, hg.2.1, hg.2.2, ne_eq, not_true_eq_false, if_false, reduceCtorEq]
      have h' : r ∈ scanned env
          ((rates.drop (rates.length - rates.length)).filter (fun r => r ≠ b)) := by
        rw [rates_drop_zero]; exact h
      exact connectLoop_error env b rates.length (Nat.le_refl _) _ _ _ r h' h1 h2 h3 h4
  · rw [if_neg hg] at hr
    rcases List.mem_cons.mp hr with h | h
    · subst h
      simp [h1, h2, h3, h4]
    · simp at h

theorem candidates_nodup (b : Nat) : (candidates b).Nodup := by
  unfold candidates
  rw [List.nodup_cons]
  refine ⟨by simp [List.mem_filter], List.Nodup.filter _ (by decide)⟩

theorem drop_append_length (a b : List WireEvent) : (a ++ b).drop a.length = b := by
  simp

theorem connectLoop_trace (env : Env) (b n rate : Nat) (ret : TMR_Status) (tr : List WireEvent) :
    ∃ ev, (connectLoop env b n rate ret tr).2 = tr ++ ev := by
  induction n generalizing rate ret tr with
  | zero => exact ⟨[], by simp [connectLoop]⟩
  | succ n ih =>
    simp only [connectLoop]
    generalize (if rates.length - n = 0 then b else rates.getD (rates.length - n - 1) 0) = c
    split_ifs
    · exact ih _ _ _
    · exact ⟨_, rfl⟩
    · exact ⟨_, List.append_assoc _ _ _⟩
    · exact ⟨[WireEvent.setBaudRate c, WireEvent.flush, WireEvent.cmdVersion], by simp⟩
    · exact ⟨[WireEvent.setBaudRate c, WireEvent.flush, WireEvent.cmdVersion], by simp⟩
    · obtain ⟨ev, hev⟩ := ih c (env.cmdVersion c)
        (tr ++ [WireEvent.setBaudRate c] ++ [WireEvent.flush] ++ [WireEvent.cmdVersion])
      exact ⟨[WireEvent.setBaudRate c, WireEvent.flush, WireEvent.cmdVersion] ++ ev,
        by rw [hev]; simp⟩

/-- The status and the trace of `TMR_SR_connect` in terms of how its loop ends. -/
theorem connect_eq (env : Env) (reader : Reader) (hopen : env.transportOpen = SUCCESS) :
    TMR_SR_connect env reader =
      match connectLoop env reader.baudRate (rates.length + 1) 0 SUCCESS
          (reader.trace ++ [WireEvent.transportOpen]) with
      | (ScanExit.returned ret, trace) => (ret, { reader with trace := trace })
      | (ScanExit.left i rate _, trace) =>
        if i = rates.length then (ERROR_TIMEOUT, { reader with trace := trace })
        else
          (env.boot rate,
            { reader with connected := true, trace := trace ++ [WireEvent.boot rate] }) := by
  unfold TMR_SR_connect
  simp only [hopen, ne_eq, not_true_eq_false, if_false]

theorem connect_rates (env : Env) (reader : Reader) (hopen : env.transportOpen = SUCCESS) :
    ratesSet (callsBetween reader (TMR_SR_connect env reader).2) =
      scanned env (candidates reader.baudRate) := by
  rw [connect_eq env reader hopen]
  obtain ⟨ev, hev⟩ := connectLoop_trace env reader.baudRate (rates.length + 1) 0 SUCCESS
    (reader.trace ++ [WireEvent.transportOpen])
  have hr := connectLoop_ratesSet_all env reader.baudRate 0 SUCCESS
    (reader.trace ++ [WireEvent.transportOpen])
  rcases hx : connectLoop env reader.baudRate (rates.length + 1) 0 SUCCESS
    (reader.trace ++ [WireEvent.transportOpen]) with ⟨ex, tr⟩
  rw [hx] at hev hr
  simp only at hev hr
  have hs : ratesSet ev = scanned env (candidates reader.baudRate) := by
    rw [hev, ratesSet_append] at hr
    exact List.append_cancel_left hr
  subst hev
  cases ex with
  | returned ret =>
    simp only [callsBetween, List.append_assoc, drop_append_length, ratesSet_append, ratesSet,
      List.nil_append, hs]
  | left i rate ret =>
    simp only
    split_ifs
    · simp only [callsBetween, List.append_assoc, drop_append_length, ratesSet_append, ratesSet,
        List.nil_append, hs]
    · simp only [callsBetween, List.append_assoc, drop_append_length, ratesSet_append, ratesSet,
        List.nil_append, List.append_nil, hs]

theorem connect_error (env : Env) (reader : Reader) (hopen : env.transportOpen = SUCCESS)
    (r : Nat) (hr : r ∈ scanned env (candidates reader.baudRate))
    (h1 : env.setBaudRate r = SUCCESS) (h2 : env.flush r = SUCCESS)
    (h3 : env.cmdVersion r ≠ SUCCESS) (h4 : env.cmdVersion r ≠ ERROR_TIMEOUT) :
    (TMR_SR_connect env reader).1 = env.cmdVersion r := by
  rw [connect_eq env reader hopen]
  have he := connectLoop_error_all env reader.baudRate 0 SUCCESS
    (reader.trace ++ [WireEvent.transportOpen]) r hr h1 h2 h3 h4
  rcases hx : connectLoop env reader.baudRate (rates.length + 1) 0 SUCCESS
    (reader.trace ++ [WireEvent.transportOpen]) with ⟨ex, tr⟩
  rw [hx] at he
  simp only at he
  subst he
  rfl


/-- A successful probe ends the loop of `TMR_SR_connect` by `break`, with `i`
the index of the rate in the table plus one. -/
theorem connectLoop_break (env : Env) (b n : Nat) (hn : n ≤ rates.length) (rate : Nat)
    (ret : TMR_Status) (tr : List WireEvent) (r : Nat)
    (hr : r ∈ scanned env ((rates.drop (rates.length - n)).filter (fun r => r ≠ b)))
    (h1 : env.setBaudRate r = SUCCESS) (h2 : env.flush r = SUCCESS)
    (h3 : env.cmdVersion r = SUCCESS) :
    ∃ i, (connectLoop env b n rate ret tr).1 = ScanExit.left i r SUCCESS ∧
      1 ≤ i ∧ i ≤ rates.length ∧ rates.getD (i - 1) 0 = r := by
  induction n generalizing rate ret tr with
  | zero => simp [scanned] at hr
  | succ n ih =>
    have hi : rates.length - n ≠ 0 := by omega
    have hd := rates_drop (rates.length - (n + 1)) (by omega)
    have e : rates.length - (n + 1) + 1 = rates.length - n := by omega
    have e2 : rates.length - n - 1 = rates.length - (n + 1) := by omega
    rw [e] at hd
    rw [hd] at hr
    simp only [connectLoop, hi, if_false, ne_eq, not_false_eq_true, true_and, e2]
    generalize hc : rates.getD (rates.length - (n + 1)) 0 = c at hr ⊢
    by_cases hb : c = b
    · rw [if_pos hb]
      simp only [List.filter_cons, hb, ne_eq, not_true_eq_false, decide_False, Bool.false_eq_true,
        if_false] at hr
      exact ih (by omega) _ _ _ hr
    · rw [if_neg hb]
      simp only [List.filter_cons, hb, ne_eq, not_false_eq_true, decide_True, if_true,
        scanned] at hr
      by_cases hg : env.setBaudRate c = SUCCESS ∧ env.flush c = SUCCESS ∧
          env.cmdVersion c = ERROR_TIMEOUT
      · rw [if_pos hg] at hr
        rcases List.mem_cons.mp hr with h | h
        · rw [h, hg.2.2] at h3; exact absurd h3 (by decide)
        · simp only [hg.1, hg.2.1, hg.2.2, not_true_eq_false, if_false, reduceCtorEq]
          exact ih (by omega) _ _ _ h
      · rw [if_neg hg] at hr
        rcases List.mem_cons.mp hr with h | h
        · subst h
          refine ⟨rates.length - n, ?_, by omega, by omega, ?_⟩
          · simp [h1, h2, h3]
          · rw [e2]; exact hc
        · simp at h

/-- The rates set up to a candidate before which every candidate lets the scan
go on include that candidate. -/
theorem scanned_reaches (env : Env) (before after : List Nat) (r : Nat)
    (h : ∀ c ∈ before, env.setBaudRate c = SUCCESS ∧ env.flush c = SUCCESS ∧
      env.cmdVersion c = ERROR_TIMEOUT) :
    r ∈ scanned env (before ++ r :: after) := by
  induction before with
  | nil => simp [scanned]
  | cons c cs ih =>
    simp only [List.cons_append, scanned]
    rw [if_pos (h c (List.mem_cons_self _ _))]
    exact List.mem_cons_of_mem _ (ih (fun x hx => h x (List.mem_cons_of_mem _ hx)))

/-- When every remaining candidate lets the scan go on, the loop of
`TMR_SR_connect` ends by its condition, with `i = numberof(rates) + 1` and
`rate` the last entry of the table. -/
theorem connectLoop_exhaust (env : Env) (b n : Nat) (hn : n ≤ rates.length) (rate : Nat)
    (ret : TMR_Status) (tr : List WireEvent)
    (hall : ∀ c ∈ (rates.drop (rates.length - n)).filter (fun r => r ≠ b),
      env.setBaudRate c = SUCCESS ∧ env.flush c = SUCCESS ∧ env.cmdVersion c = ERROR_TIMEOUT) :
    ∃ ret1, (connectLoop env b n rate ret tr).1 =
      ScanExit.left (rates.length + 1) (if n = 0 then rate else 460800) ret1 := by
  induction n generalizing rate ret tr with
  | zero => exact ⟨ret, by simp [connectLoop]⟩
  | succ n ih =>
    have hi : rates.length - n ≠ 0 := by omega
    have hd := rates_drop (rates.length - (n + 1)) (by omega)
    have e : rates.length - (n + 1) + 1 = rates.length - n := by omega
    have e2 : rates.length - n - 1 = rates.length - (n + 1) := by omega
    rw [e] at hd
    rw [hd] at hall
    have hlast : n = 0 → rates.getD (rates.length - (n + 1)) 0 = 460800 := by
      intro h0; subst h0; rfl
    simp only [connectLoop, hi, if_false, ne_eq, not_false_eq_true, true_and, e2,
      Nat.add_one_ne_zero]
    generalize rates.getD (rates.length - (n + 1)) 0 = c at hall hlast ⊢
    have hrate : (if n = 0 then c else 460800) = 460800 := by
      split_ifs with h0
      · exact hlast h0
      · rfl
    by_cases hb : c = b
    · rw [if_pos hb]
      simp only [List.filter_cons, hb, ne_eq, not_true_eq_false, decide_False, Bool.false_eq_true,
        if_false] at hall
      obtain ⟨ret1, h⟩ := ih (by omega) c ret tr hall
      exact ⟨ret1, by rw [h, hrate]⟩
    · rw [if_neg hb]
      simp only [List.filter_cons, hb, ne_eq, not_false_eq_true, decide_True, if_true] at hall
      have hg := hall c (List.mem_cons_self _ _)
      simp only [hg.1, hg.2.1, hg.2.2, not_true_eq_false, if_false, reduceCtorEq]
      obtain ⟨ret1, h⟩ := ih (by omega) c ERROR_TIMEOUT
        (tr ++ [WireEvent.setBaudRate c] ++ [WireEvent.flush] ++ [WireEvent.cmdVersion])
        (fun x hx => hall x (List.mem_cons_of_mem _ hx))
      exact ⟨ret1, by rw [h, hrate]⟩

/-! ## Bit flips -/


theorem frameCrc_lt (l : List Nat) : frameCrc l < 65536 := by
  rw [← crcLoop_list]; exact crcLoop_lt _ _

theorem getD_set (l : List Nat) (p w i : Nat) (hp : p < l.length) :
    (l.set p w).getD i 0 = if i = p then w else l.getD i 0 := by
  simp only [List.getD_eq_getElem?_getD, List.getElem?_set, hp, if_true]
  by_cases h : p = i
  · subst h; simp
  · rw [if_neg h, if_neg (fun e => h e.symm)]

theorem getD_lt_of_forall (l : List Nat) (n i : Nat) (hn : 0 < n) (h : ∀ x ∈ l, x < n) :
    l.getD i 0 < n := by
  rw [List.getD_eq_getElem?_getD]
  by_cases hi : i < l.length
  · rw [List.getElem?_eq_getElem hi]; exact h _ (List.getElem_mem _)
  · rw [List.getElem?_eq_none (by omega)]; exact hn

theorem xor_pow_ne (x bit : Nat) : x ^^^ 2 ^ bit ≠ x := by
  intro h
  have h0 : x ^^^ 2 ^ bit = x ^^^ 0 := by rw [h, Nat.xor_zero]
  have := Nat.xor_right_injective h0
  exact absurd this (by positivity)

theorem xor_pow_lt (x bit : Nat) (hx : x < 256) (hbit : bit < 8) : x ^^^ 2 ^ bit < 256 := by
  have h1 : x < 2 ^ 8 := by simpa using hx
  have h2 : 2 ^ bit < 2 ^ 8 := Nat.pow_lt_pow_right (by norm_num) hbit
  simpa using Nat.xor_lt_two_pow h1 h2

theorem split16 (a b : Nat) (h : a ≠ b) :
    a >>> 8 ≠ b >>> 8 ∨ a &&& 0xff ≠ b &&& 0xff := by
  have e1 : ∀ x : Nat, x &&& 0xff = x % 256 := fun x => Nat.and_pow_two_sub_one_eq_mod x 8
  rw [e1, e1, Nat.shiftRight_eq_div_pow, Nat.shiftRight_eq_div_pow]
  omega

theorem frameBody_lt (op sh sl : Nat) (b : List Nat) (hb : b.length ≤ 251)
    (hbytes : ∀ x ∈ b, x < 256) (hop : op < 256) (hsh : sh < 256) (hsl : sl < 256) :
    ∀ x ∈ frameBody op sh sl b, x < 256 := by
  intro x hx
  simp only [frameBody, List.mem_append, List.mem_cons, List.mem_singleton] at hx
  rcases hx with (h | h | h | h | h) | h
  · omega
  · omega
  · omega
  · omega
  · simp at h
  · exact hbytes x h


/-! ## Start-of-header search and resynchronisation -/


theorem findSoh_none (data : Buf) (h : ∀ i, 1 ≤ i → i < 6 → data i ≠ 0xFF) :
    findSoh data = (0, false) := by
  have h1 := h 1 (by omega) (by omega)
  have h2 := h 2 (by omega) (by omega)
  have h3 := h 3 (by omega) (by omega)
  have h4 := h 4 (by omega) (by omega)
  have h5 := h 5 (by omega) (by omega)
  simp [findSoh, List.range', h1, h2, h3, h4, h5]

theorem findSoh_at (data : Buf) (k : Nat) (hk1 : 1 ≤ k) (hk : k < 6)
    (h : ∀ i, 1 ≤ i → i < k → data i ≠ 0xFF) (hk2 : data k = 0xFF) :
    findSoh data = (k, true) := by
  have hcases : k = 1 ∨ k = 2 ∨ k = 3 ∨ k = 4 ∨ k = 5 := by omega
  rcases hcases with rfl | rfl | rfl | rfl | rfl
  · simp [findSoh, List.range', hk2]
  · have h1 := h 1 (by omega) (by omega)
    simp [findSoh, List.range', hk2, h1]
  · have h1 := h 1 (by omega) (by omega)
    have h2 := h 2 (by omega) (by omega)
    simp [findSoh, List.range', hk2, h1, h2]
  · have h1 := h 1 (by omega) (by omega)
    have h2 := h 2 (by omega) (by omega)
    have h3 := h 3 (by omega) (by omega)
    simp [findSoh, List.range', hk2, h1, h2, h3]
  · have h1 := h 1 (by omega) (by omega)
    have h2 := h 2 (by omega) (by omega)
    have h3 := h 3 (by omega) (by omega)
    have h4 := h 4 (by omega) (by omega)
    simp [findSoh, List.range', hk2, h1, h2, h3, h4]

theorem getD_append_left (l1 l2 : List Nat) (i : Nat) (h : i < l1.length) :
    (l1 ++ l2).getD i 0 = l1.getD i 0 := by
  simp only [List.getD_eq_getElem?_getD, List.getElem?_append_left h]

theorem getD_append_right (l1 l2 : List Nat) (i : Nat) :
    (l1 ++ l2).getD (l1.length + i) 0 = l2.getD i 0 := by
  simp only [List.getD_eq_getElem?_getD, List.getElem?_append_right (Nat.le_add_right _ _),
    Nat.add_sub_cancel_left]

/-- The buffer after a resynchronised receive: shifting the first seven bytes and
appending the second read leaves the frame at index 0. -/
theorem resync_buffer (d0 : Buf) (junk s : List Nat) (len : Nat) (hk : junk.length ≤ 7)
    (hl : 7 + len ≤ s.length) :
    writeBytes (memcpy (writeBytes d0 0 (junk ++ s.take (7 - junk.length))) 0 junk.length
        (7 - junk.length)) (7 - junk.length)
        ((s.drop (7 - junk.length)).take (len + junk.length)) =
      writeBytes d0 0 (s.take (7 + len)) := by
  funext i
  have e1 : min (len + junk.length) (s.length - (7 - junk.length)) = len + junk.length := by omega
  have e2 : min (7 + len) s.length = 7 + len := by omega
  have e3 : min (7 - junk.length) s.length = 7 - junk.length := by omega
  simp only [writeBytes, memcpy, List.length_take, List.length_drop, List.length_append, e1, e2, e3,
    Nat.zero_le, true_and, Nat.zero_add, Nat.sub_zero]
  by_cases h1 : i < 7 - junk.length
  · rw [if_neg (by omega), if_pos h1, if_pos (by omega), if_pos (by omega),
      getD_append_right, getD_take _ _ _ h1, getD_take _ _ _ (by omega)]
  · by_cases h2 : i < 7 + len
    · rw [if_pos (by omega), if_pos h2, getD_take _ _ _ (by omega), getD_take _ _ _ (by omega),
        getD_drop]
      congr 1; omega
    · rw [if_neg (by omega), if_neg h1, if_neg (by omega), if_neg h2]

theorem receive_resync (us : Bool) (d0 : Buf) (opcode len : Nat) (junk s rq : List Nat)
    (hk3 : 3 ≤ junk.length) (hk5 : junk.length ≤ 5) (hjunk : ∀ x ∈ junk, x ≠ 0xFF)
    (h0 : s.getD 0 0 = 0xFF) (h1 : s.getD 1 0 = len) (hpos : 0 < len) (hb : len < 256)
    (hl : 7 + len ≤ s.length) :
    TMR_SR_receiveMessage us { rx := junk ++ s, requested := rq } d0 opcode =
      receiveCheck us { rx := s.drop (7 + len), requested := rq ++ [7, len + junk.length] }
        (writeBytes d0 0 (s.take (7 + len))) opcode len SUCCESS := by
  have htake : List.take 7 (junk ++ s) = junk ++ s.take (7 - junk.length) := by
    rw [List.take_append_eq_append_take, List.take_of_length_le (by omega)]
  have hdrop : List.drop 7 (junk ++ s) = s.drop (7 - junk.length) := by
    rw [List.drop_append_eq_append_drop, List.drop_of_length_le (by omega), List.nil_append]
  have hD : ∀ i, i < 7 →
      writeBytes d0 0 (junk ++ s.take (7 - junk.length)) i = (junk ++ s).getD i 0 := by
    intro i hi
    rw [← htake, writeBytes_lt _ _ _ (by rw [List.length_take, List.length_append]; omega),
      getD_take _ _ _ hi]
  have hDj : ∀ i, i < junk.length →
      writeBytes d0 0 (junk ++ s.take (7 - junk.length)) i ≠ 0xFF := by
    intro i hi
    rw [hD i (by omega), getD_append_left _ _ _ hi]
    rw [List.getD_eq_getElem?_getD, List.getElem?_eq_getElem hi]
    exact hjunk _ (List.getElem_mem _)
  have hDk : writeBytes d0 0 (junk ++ s.take (7 - junk.length)) junk.length = 0xFF := by
    rw [hD _ (by omega)]
    have := getD_append_right junk s 0
    rw [Nat.add_zero] at this
    rw [this, h0]
  have hlen : memcpy (writeBytes d0 0 (junk ++ s.take (7 - junk.length))) 0 junk.length
      (7 - junk.length) (junk.length + 1) = len := by
    simp only [memcpy]
    rw [if_neg (by omega), hD _ (by omega), getD_append_right, h1]
  unfold TMR_SR_receiveMessage receiveBytes
  have h7 : 7 ≤ (junk ++ s).length := by rw [List.length_append]; omega
  simp only [if_pos h7, ne_eq, not_true_eq_false, if_false, htake, hdrop]
  rw [if_pos (hDj 0 (by omega)), findSoh_at _ junk.length (by omega) (by omega)
    (fun i _ hi => hDj i hi) hDk]
  simp only [Bool.true_eq_false, if_false]
  unfold receiveBody
  simp only [hlen, Nat.mod_eq_of_lt hb]
  rw [if_neg (by omega)]
  unfold receiveBytes
  have h2 : len + junk.length ≤ (List.drop (7 - junk.length) s).length := by
    rw [List.length_drop]; omega
  simp only [if_pos h2]
  rw [resync_buffer d0 junk s len (by omega) hl]
  have e : 7 - junk.length + (len + junk.length) = 7 + len := by omega
  simp only [List.drop_drop, e, List.append_assoc, List.singleton_append]


set_option maxRecDepth 8000

/-! ## Theorems on the frame codec -/

/-- The receive path gives up with a timeout, after its single request of seven
bytes, whenever none of the first six bytes delivered is the start-of-header
byte. -/
theorem receive_no_sof (us : Bool) (t : SerialTransport) (d0 : Buf) (opcode : Nat)
    (h7 : 7 ≤ t.rx.length) (hno : ∀ i, i < 6 → t.rx.getD i 0 ≠ 0xFF) :
    (TMR_SR_receiveMessage us t d0 opcode).ret = ERROR_TIMEOUT ∧
    (TMR_SR_receiveMessage us t d0 opcode).transport.requested = t.requested ++ [7] ∧
    (TMR_SR_receiveMessage us t d0 opcode).transport.rx = t.rx.drop 7 := by
  have hd : ∀ i, i < 6 → writeBytes d0 0 (List.take 7 t.rx) i ≠ 0xFF := by
    intro i hi
    rw [writeBytes_lt _ _ _ (by rw [List.length_take]; omega), getD_take _ _ _ (by omega)]
    exact hno i hi
  unfold TMR_SR_receiveMessage receiveBytes
  simp only [if_pos h7, ne_eq, not_true_eq_false, if_false]
  rw [if_pos (hd 0 (by omega)), findSoh_none _ (fun i _ hi => hd i (by omega))]
  simp

/-- The status of the checks does not depend on the transport. -/
theorem receiveCheck_ret (us : Bool) (t t' : SerialTransport) (D : Buf) (opcode len : Nat)
    (ret : TMR_Status) :
    (receiveCheck us t D opcode len ret).ret = (receiveCheck us t' D opcode len ret).ret := by
  unfold receiveCheck
  simp only []
  split_ifs <;> rfl

/-- The checks leave the buffer as it is. -/
theorem receiveCheck_data (us : Bool) (t : SerialTransport) (D : Buf) (opcode len : Nat)
    (ret : TMR_Status) : (receiveCheck us t D opcode len ret).data = D := by
  unfold receiveCheck
  simp only []
  split_ifs <;> rfl

/-- The CRC of the checked part of the response frame for opcode 3 with 252
zero bytes of payload, computed in runs of 63 bytes. -/
theorem frameCrc_252 : frameCrc (frameBody 3 0 0 (List.replicate 252 0)) = 57861 := by
  have e : frameBody 3 0 0 (List.replicate 252 0) =
      [252, 3, 0, 0] ++ (List.replicate 63 0 ++ (List.replicate 63 0 ++
        (List.replicate 63 0 ++ List.replicate 63 0))) := by
    simp only [frameBody, List.length_replicate, ← List.replicate_add]
  have h0 : List.foldl crcByte 0xffff [252, 3, 0, 0] = 57871 := by decide
  have h1 : List.foldl crcByte 57871 (List.replicate 63 0) = 13601 := by decide
  have h2 : List.foldl crcByte 13601 (List.replicate 63 0) = 56732 := by decide
  have h3 : List.foldl crcByte 56732 (List.replicate 63 0) = 59819 := by decide
  have h4 : List.foldl crcByte 59819 (List.replicate 63 0) = 57861 := by decide
  rw [e]
  unfold frameCrc
  rw [List.foldl_append, h0, List.foldl_append, h1, List.foldl_append, h2, List.foldl_append, h3,
    h4]

/-- C1 (amended): for every opcode and every payload `b` of at most 251 bytes,
the response frame `FF | len(b) | opcode | 00 00 | b | CRC_HI CRC_LO`, whose CRC
is taken over `[LEN, OPCODE, STATUS, PAYLOAD]`, is accepted by
`TMR_SR_receiveMessage` called with that opcode when the transport delivers the
frame from its first byte: the status is success and bytes `5 .. 5+len(b)-1` of
the buffer are `b`. -/
theorem crc_round_trip (us : Bool) (d0 : Buf) (opcode : Nat) (b : List Nat)
    (hb : b.length ≤ 251) :
    (TMR_SR_receiveMessage us (linkWith (responseFrame opcode 0 0 b)) d0 opcode).ret = SUCCESS ∧
    payloadOf (TMR_SR_receiveMessage us (linkWith (responseFrame opcode 0 0 b)) d0 opcode).data
      b.length = b := by
  unfold responseFrame
  obtain ⟨h1, h2, _⟩ := receive_frame us d0 opcode opcode 0 0 b
    (frameCrc (frameBody opcode 0 0 b) >>> 8) (frameCrc (frameBody opcode 0 0 b) &&& 0xff)
    (by omega)
  rw [frameBody_crc opcode 0 0 b hb] at h1
  rw [h1, h2, payloadOf_frame]
  simp

/-- C1 (witness): the frame with opcode 3 and payload `01 02 03` is accepted and
its payload recovered. -/
theorem crc_round_trip_witness :
    [1, 2, 3].length ≤ 251 ∧
    (TMR_SR_receiveMessage false (linkWith (responseFrame 3 0 0 [1, 2, 3])) (fun _ => 0) 3).ret
      = SUCCESS ∧
    payloadOf (TMR_SR_receiveMessage false (linkWith (responseFrame 3 0 0 [1, 2, 3]))
      (fun _ => 0) 3).data [1, 2, 3].length = [1, 2, 3] :=
  ⟨by decide, crc_round_trip false (fun _ => 0) 3 [1, 2, 3] (by decide)⟩

/-- C1 (counterexample): the response frame for opcode 3 with a payload of 252
zero bytes, status 0 and the CRC over `[LEN, OPCODE, STATUS, PAYLOAD]`, is not
accepted: `TMR_SR_receiveMessage` returns the CRC error, because `len + 4`
does not fit the eight-bit length parameter of `tm_crc`. -/
theorem crc_round_trip_fails_at_252 :
    (List.replicate 252 0).length ≤ 253 ∧
    (TMR_SR_receiveMessage false (linkWith (responseFrame 3 0 0 (List.replicate 252 0)))
      (fun _ => 0) 3).ret = ERROR_CRC_ERROR := by
  refine ⟨by rw [List.length_replicate]; omega, ?_⟩
  unfold responseFrame
  obtain ⟨h1, _, _⟩ := receive_frame false (fun _ => 0) 3 3 0 0 (List.replicate 252 0)
    (frameCrc (frameBody 3 0 0 (List.replicate 252 0)) >>> 8)
    (frameCrc (frameBody 3 0 0 (List.replicate 252 0)) &&& 0xff)
    (by rw [List.length_replicate]; omega)
  have hcrc : tm_crc (fun i => (frameBody 3 0 0 (List.replicate 252 0)).getD i 0)
      ((List.replicate 252 0).length + 4) = 0xffff := by
    rw [List.length_replicate]
    rfl
  rw [h1, hcrc, frameCrc_252, if_pos (by decide)]

/-- A frame whose check bytes are what the function `tm_crc` returns when it is
called with the length argument `len + 4` passes the receiver for every payload
the length byte admits.  From 252 payload bytes on that value is no longer the
CRC of `[LEN, OPCODE, STATUS, PAYLOAD]`: for 252 bytes the loop visits no byte
and the value is the start value `0xFFFF`, whatever the frame holds. -/
theorem receive_own_crc (us : Bool) (d0 : Buf) (opcode : Nat) (b : List Nat)
    (hb : b.length ≤ 255) :
    (TMR_SR_receiveMessage us (linkWith (frameWith opcode 0 0 b
      (tm_crc (fun i => (frameBody opcode 0 0 b).getD i 0) (b.length + 4) >>> 8)
      (tm_crc (fun i => (frameBody opcode 0 0 b).getD i 0) (b.length + 4) &&& 0xff)))
      d0 opcode).ret = SUCCESS ∧
    (b.length = 252 →
      tm_crc (fun i => (frameBody opcode 0 0 b).getD i 0) (b.length + 4) = 0xffff) := by
  obtain ⟨h1, _, _⟩ := receive_frame us d0 opcode opcode 0 0 b
    (tm_crc (fun i => (frameBody opcode 0 0 b).getD i 0) (b.length + 4) >>> 8)
    (tm_crc (fun i => (frameBody opcode 0 0 b).getD i 0) (b.length + 4) &&& 0xff)
    (by omega)
  refine ⟨?_, ?_⟩
  · rw [h1]
    simp
  · intro h
    rw [h]
    rfl

/-- The CRC of the checked part of the response frame for opcode 3 whose payload
is 250 zero bytes followed by `1D FA`, computed in runs of 83 bytes: it is
`0xFFFF`, the value `tm_crc` returns for a length of zero. -/
theorem frameCrc_ffff :
    frameCrc (frameBody 3 0 0 (0 :: (List.replicate 249 0 ++ [29, 250]))) = 65535 := by
  have e : frameBody 3 0 0 (0 :: (List.replicate 249 0 ++ [29, 250])) =
      [252, 3, 0, 0, 0] ++ (List.replicate 83 0 ++ (List.replicate 83 0 ++
        (List.replicate 83 0 ++ [29, 250]))) := by
    have r : List.replicate 249 0 = List.replicate 83 0 ++ (List.replicate 83 0 ++
        List.replicate 83 0) := by
      simp only [← List.replicate_add]
    simp only [frameBody, List.length_cons, List.length_append, List.length_replicate, r,
      List.cons_append, List.nil_append, List.append_assoc, List.length_nil]
  have h0 : List.foldl crcByte 0xffff [252, 3, 0, 0, 0] = 53868 := by decide
  have h1 : List.foldl crcByte 53868 (List.replicate 83 0) = 53806 := by decide
  have h2 : List.foldl crcByte 53806 (List.replicate 83 0) = 7667 := by decide
  have h3 : List.foldl crcByte 7667 (List.replicate 83 0) = 24771 := by decide
  have h4 : List.foldl crcByte 24771 [29, 250] = 65535 := by decide
  rw [e]
  unfold frameCrc
  rw [List.foldl_append, h0, List.foldl_append, h1, List.foldl_append, h2, List.foldl_append, h3,
    h4]

/-- The valid frame of `frameCrc_ffff` with bit 0 of its first payload byte
flipped is accepted with success. -/
theorem flip_unnoticed_at_252 :
    (TMR_SR_receiveMessage false
      (linkWith (flipBit (responseFrame 3 0 0 (0 :: (List.replicate 249 0 ++ [29, 250]))) 5 0))
      (fun _ => 0) 3).ret = SUCCESS := by
  have hl : (1 :: (List.replicate 249 0 ++ [29, 250])).length = 252 := by
    simp only [List.length_cons, List.length_append, List.length_replicate, List.length_nil]
  have hf : flipBit (responseFrame 3 0 0 (0 :: (List.replicate 249 0 ++ [29, 250]))) 5 0 =
      frameWith 3 0 0 (1 :: (List.replicate 249 0 ++ [29, 250])) 255 255 := by
    unfold responseFrame
    rw [frameCrc_ffff]
    simp only [flipBit, frameWith, frameBody, List.cons_append, List.nil_append, List.set,
      List.getD_cons_succ, List.getD_cons_zero, List.length_cons, List.length_append,
      List.length_replicate, List.length_nil]
    rfl
  obtain ⟨h1, _, _⟩ := receive_frame false (fun _ => 0) 3 3 0 0
    (1 :: (List.replicate 249 0 ++ [29, 250])) 255 255 (by rw [hl]; omega)
  have hcrc : tm_crc (fun i => (frameBody 3 0 0 (1 :: (List.replicate 249 0 ++ [29, 250]))).getD i 0)
      ((1 :: (List.replicate 249 0 ++ [29, 250])).length + 4) = 0xffff := by
    rw [hl]
    rfl
  rw [hf, h1, hcrc]
  decide

/-- C2 (amended): for every valid response frame (SOF, LEN, opcode, status 0,
payload of at most 251 bytes, correct CRC) and every bit position in the bytes
that follow the length byte (opcode, status, payload and the two CRC bytes),
delivering the frame with that one bit flipped makes `TMR_SR_receiveMessage`
fail with the CRC error, whatever opcode was requested. -/
theorem single_bit_error (us : Bool) (d0 : Buf) (requested opcode : Nat) (b : List Nat)
    (pos bit : Nat) (hb : b.length ≤ 251) (hbytes : ∀ x ∈ b, x < 256) (hop : opcode < 256)
    (hpos : 2 ≤ pos) (hpos2 : pos < b.length + 7) (hbit : bit < 8) :
    (TMR_SR_receiveMessage us (linkWith (flipBit (responseFrame opcode 0 0 b) pos bit)) d0
      requested).ret = ERROR_CRC_ERROR := by
  unfold responseFrame
  generalize hc1 : frameCrc (frameBody opcode 0 0 b) >>> 8 = c1
  generalize hc2 : frameCrc (frameBody opcode 0 0 b) &&& 0xff = c2
  have hFlen := frameWith_length opcode 0 0 b c1 c2
  have hG : ∀ i, (flipBit (frameWith opcode 0 0 b c1 c2) pos bit).getD i 0 =
      if i = pos then (frameWith opcode 0 0 b c1 c2).getD pos 0 ^^^ 2 ^ bit
      else (frameWith opcode 0 0 b c1 c2).getD i 0 :=
    fun i => getD_set _ _ _ _ (by rw [hFlen]; exact hpos2)
  have hGlen : (flipBit (frameWith opcode 0 0 b c1 c2) pos bit).length = b.length + 7 := by
    simp only [flipBit, List.length_set, hFlen]
  have hra := receive_aligned us (linkWith (flipBit (frameWith opcode 0 0 b c1 c2) pos bit)) d0
    requested b.length
    (by simp only [linkWith]; rw [hG, if_neg (by omega)]; simp [frameWith])
    (by simp only [linkWith]; rw [hG, if_neg (by omega)]; simp [frameWith, frameBody])
    (by omega) (by simp only [linkWith, hGlen]; omega)
  simp only [linkWith] at hra
  rw [List.take_of_length_le (by rw [hGlen]; omega)] at hra
  simp only [linkWith]
  rw [hra]
  have hD : ∀ i, i < b.length + 7 →
      writeBytes d0 0 (flipBit (frameWith opcode 0 0 b c1 c2) pos bit) i =
        if i = pos then (frameWith opcode 0 0 b c1 c2).getD pos 0 ^^^ 2 ^ bit
        else (frameWith opcode 0 0 b c1 c2).getD i 0 :=
    fun i hi => by rw [writeBytes_lt _ _ _ (by rw [hGlen]; exact hi), hG]
  have hbody := frameBody_lt opcode 0 0 b hb hbytes hop (by norm_num) (by norm_num)
  have hcrcF := frameBody_crc opcode 0 0 b hb
  unfold tm_crc at hcrcF
  have hmod : (b.length + 4) % 256 = b.length + 4 := Nat.mod_eq_of_lt (by omega)
  rw [hmod] at hcrcF
  unfold receiveCheck
  simp only
  rw [if_pos]
  rw [hD _ (by omega), hD _ (by omega)]
  unfold tm_crc
  rw [hmod]
  by_cases hlow : pos < b.length + 5
  · -- the flipped bit is covered by the checksum
    have hFpos : (frameWith opcode 0 0 b c1 c2).getD pos 0 =
        (frameBody opcode 0 0 b).getD (pos - 1) 0 := by
      have h := frameWith_getD_succ opcode 0 0 b c1 c2 (pos - 1) (by omega)
      rwa [show 1 + (pos - 1) = pos by omega] at h
    rw [if_neg (by omega), if_neg (by omega), frameWith_getD_hi, frameWith_getD_lo]
    have hne : frameCrc (frameBody opcode 0 0 b) ≠
        crcLoop (fun i => writeBytes d0 0 (flipBit (frameWith opcode 0 0 b c1 c2) pos bit) (1 + i))
          (b.length + 4) := by
      intro h
      rw [← hcrcF] at h
      refine crcLoop_single
        (fun i => writeBytes d0 0 (flipBit (frameWith opcode 0 0 b c1 c2) pos bit) (1 + i))
        (fun i => (frameBody opcode 0 0 b).getD i 0) (b.length + 4) (pos - 1) (by omega)
        ?_ ?_ ?_ ?_ h.symm
      · intro i hi
        simp only
        rw [hD _ (by omega), frameWith_getD_succ _ _ _ _ _ _ _ hi, hFpos]
        split_ifs
        · exact xor_pow_lt _ _ (getD_lt_of_forall _ _ _ (by norm_num) hbody) hbit
        · exact getD_lt_of_forall _ _ _ (by norm_num) hbody
      · intro i _
        exact getD_lt_of_forall _ _ _ (by norm_num) hbody
      · simp only
        rw [hD _ (by omega), if_pos (by omega), hFpos]
        exact xor_pow_ne _ _
      · intro i hi hne
        simp only
        rw [hD _ (by omega), if_neg (by omega), frameWith_getD_succ _ _ _ _ _ _ _ hi]
    have hs := split16 _ _ hne
    rwa [hc1, hc2] at hs
  · -- the flipped bit is in one of the two check bytes
    have hsame : crcLoop (fun i => writeBytes d0 0 (flipBit (frameWith opcode 0 0 b c1 c2) pos bit) (1 + i))
        (b.length + 4) = crcLoop (fun i => (frameBody opcode 0 0 b).getD i 0) (b.length + 4) := by
      apply crcLoop_congr
      intro i hi
      rw [hD _ (by omega), if_neg (by omega), frameWith_getD_succ _ _ _ _ _ _ _ hi]
    rw [hsame, hcrcF, hc1, hc2]
    by_cases h5 : pos = b.length + 5
    · left
      rw [if_pos h5.symm, h5, frameWith_getD_hi]
      exact xor_pow_ne _ _
    · right
      have h6 : pos = b.length + 6 := by omega
      rw [if_pos h6.symm, h6, frameWith_getD_lo]
      exact xor_pow_ne _ _

/-- C2 (witness): bit 0 of the second payload byte of the frame with opcode 3
and payload `01 02 03`. -/
theorem single_bit_error_witness :
    [1, 2, 3].length ≤ 251 ∧ (∀ x ∈ [1, 2, 3], x < 256) ∧ 3 < 256 ∧ 2 ≤ 6 ∧
    6 < [1, 2, 3].length + 7 ∧ 0 < 8 ∧
    (TMR_SR_receiveMessage false (linkWith (flipBit (responseFrame 3 0 0 [1, 2, 3]) 6 0))
      (fun _ => 0) 3).ret = ERROR_CRC_ERROR :=
  ⟨by decide, by decide, by decide, by decide, by decide, by decide,
    single_bit_error false (fun _ => 0) 3 3 [1, 2, 3] 6 0 (by decide) (by decide) (by decide)
      (by decide) (by decide) (by decide)⟩

/-- C2 (counterexample): a flipped bit in the SOF byte gives a timeout, which is
neither the CRC error nor the parse error; a flipped bit in the length byte can
go unnoticed: the valid frame `FF 02 03 00 00 B4 A3 0E 8B` with bit 1 of its
length byte flipped is accepted with success; and so can a flipped payload bit
of a valid frame with 252 payload bytes. -/
theorem single_bit_error_fails :
    (TMR_SR_receiveMessage false (linkWith (flipBit (responseFrame 3 0 0 [1, 2, 3]) 0 0))
      (fun _ => 0) 3).ret = ERROR_TIMEOUT ∧
    responseFrame 3 0 0 [180, 163] = [255, 2, 3, 0, 0, 180, 163, 14, 139] ∧
    (TMR_SR_receiveMessage false (linkWith (flipBit (responseFrame 3 0 0 [180, 163]) 1 1))
      (fun _ => 0) 3).ret = SUCCESS ∧
    (TMR_SR_receiveMessage false
      (linkWith (flipBit (responseFrame 3 0 0 (0 :: (List.replicate 249 0 ++ [29, 250]))) 5 0))
      (fun _ => 0) 3).ret = SUCCESS :=
  ⟨by decide, by decide, by decide, flip_unnoticed_at_252⟩

/-- C3 (amended): for every `k` in 3..5 and every response frame `F` with a
payload of 1 to 255 bytes, when the transport delivers `k` bytes none of which is
`0xFF` followed by `F`, `TMR_SR_receiveMessage` returns the same status as for
`F` delivered alone and leaves the same buffer, with SOF at index 0 and LEN at
index 1; for `k = 6` it returns the timeout error. -/
theorem sof_resync (us : Bool) (d0 : Buf) (requested op sh sl : Nat) (b junk : List Nat)
    (hk3 : 3 ≤ junk.length) (hjunk : ∀ x ∈ junk, x ≠ 0xFF)
    (hb : b.length ≤ 255) :
    (junk.length ≤ 5 → 1 ≤ b.length →
      (TMR_SR_receiveMessage us (linkWith (junk ++ responseFrame op sh sl b)) d0 requested).ret =
        (TMR_SR_receiveMessage us (linkWith (responseFrame op sh sl b)) d0 requested).ret ∧
      (TMR_SR_receiveMessage us (linkWith (junk ++ responseFrame op sh sl b)) d0 requested).data =
        (TMR_SR_receiveMessage us (linkWith (responseFrame op sh sl b)) d0 requested).data ∧
      (TMR_SR_receiveMessage us (linkWith (junk ++ responseFrame op sh sl b)) d0 requested).data 0
        = 0xFF ∧
      (TMR_SR_receiveMessage us (linkWith (junk ++ responseFrame op sh sl b)) d0 requested).data 1
        = b.length) ∧
    (junk.length = 6 →
      (TMR_SR_receiveMessage us (linkWith (junk ++ responseFrame op sh sl b)) d0 requested).ret =
        ERROR_TIMEOUT) := by
  have hFlen : (responseFrame op sh sl b).length = b.length + 7 := frameWith_length _ _ _ _ _ _
  have hF0 : (responseFrame op sh sl b).getD 0 0 = 0xFF := by simp [responseFrame, frameWith]
  have hF1 : (responseFrame op sh sl b).getD 1 0 = b.length := by
    simp [responseFrame, frameWith, frameBody]
  constructor
  · intro hk5 hb1
    have h1 := receive_resync us d0 requested b.length junk (responseFrame op sh sl b) []
      hk3 hk5 hjunk hF0 hF1 (by omega) (by omega) (by rw [hFlen]; omega)
    have h2 := receive_aligned us (linkWith (responseFrame op sh sl b)) d0 requested b.length
      hF0 hF1 (by omega) (by simp only [linkWith]; rw [hFlen]; omega)
    simp only [linkWith] at h2 ⊢
    rw [h1, h2]
    have e1 := receiveCheck_ret us
      { rx := List.drop (7 + b.length) (responseFrame op sh sl b),
        requested := [] ++ [7, b.length + junk.length] }
      { rx := List.drop (7 + b.length) (responseFrame op sh sl b),
        requested := [] ++ 7 :: (if b.length = 0 then [] else [b.length]) }
      (writeBytes d0 0 (List.take (7 + b.length) (responseFrame op sh sl b))) requested b.length
      SUCCESS
    have e2 := receiveCheck_data us
      { rx := List.drop (7 + b.length) (responseFrame op sh sl b),
        requested := [] ++ [7, b.length + junk.length] }
      (writeBytes d0 0 (List.take (7 + b.length) (responseFrame op sh sl b))) requested b.length
      SUCCESS
    have e3 := receiveCheck_data us
      { rx := List.drop (7 + b.length) (responseFrame op sh sl b),
        requested := [] ++ 7 :: (if b.length = 0 then [] else [b.length]) }
      (writeBytes d0 0 (List.take (7 + b.length) (responseFrame op sh sl b))) requested b.length
      SUCCESS
    refine ⟨e1, by rw [e2, e3], ?_, ?_⟩
    · rw [e2, writeBytes_lt _ _ _ (by rw [List.length_take, hFlen]; omega),
        getD_take _ _ _ (by omega), hF0]
    · rw [e2, writeBytes_lt _ _ _ (by rw [List.length_take, hFlen]; omega),
        getD_take _ _ _ (by omega), hF1]
  · intro hk
    refine (receive_no_sof us (linkWith (junk ++ responseFrame op sh sl b)) d0 requested
      (by simp only [linkWith, List.length_append]; omega) ?_).1
    intro i hi
    simp only [linkWith]
    rw [getD_append_left _ _ _ (by omega), List.getD_eq_getElem?_getD,
      List.getElem?_eq_getElem (by omega)]
    exact hjunk _ (List.getElem_mem _)

/-- C3 (witness): three and six zero bytes in front of the frame with opcode 3
and payload `01 02 03 04`. -/
theorem sof_resync_witness :
    3 ≤ [0, 0, 0].length ∧ (∀ x ∈ [0, 0, 0], x ≠ 0xFF) ∧
    [1, 2, 3, 4].length ≤ 255 ∧
    (([0, 0, 0].length ≤ 5 → 1 ≤ [1, 2, 3, 4].length →
      (TMR_SR_receiveMessage false (linkWith ([0, 0, 0] ++ responseFrame 3 0 0 [1, 2, 3, 4]))
          (fun _ => 0) 3).ret =
        (TMR_SR_receiveMessage false (linkWith (responseFrame 3 0 0 [1, 2, 3, 4]))
          (fun _ => 0) 3).ret ∧
      (TMR_SR_receiveMessage false (linkWith ([0, 0, 0] ++ responseFrame 3 0 0 [1, 2, 3, 4]))
          (fun _ => 0) 3).data =
        (TMR_SR_receiveMessage false (linkWith (responseFrame 3 0 0 [1, 2, 3, 4]))
          (fun _ => 0) 3).data ∧
      (TMR_SR_receiveMessage false (linkWith ([0, 0, 0] ++ responseFrame 3 0 0 [1, 2, 3, 4]))
          (fun _ => 0) 3).data 0 = 0xFF ∧
      (TMR_SR_receiveMessage false (linkWith ([0, 0, 0] ++ responseFrame 3 0 0 [1, 2, 3, 4]))
          (fun _ => 0) 3).data 1 = [1, 2, 3, 4].length) ∧
    ([0, 0, 0].length = 6 →
      (TMR_SR_receiveMessage false (linkWith ([0, 0, 0] ++ responseFrame 3 0 0 [1, 2, 3, 4]))
          (fun _ => 0) 3).ret = ERROR_TIMEOUT)) :=
  ⟨by decide, by decide, by decide,
    sof_resync false (fun _ => 0) 3 3 0 0 [1, 2, 3, 4] [0, 0, 0] (by decide) (by decide)
      (by decide)⟩

/-- C3 (counterexample): with `F = FF 04 03 00 00 01 02 03 04 C9 3A`, accepted
with success when delivered alone, six leading zero bytes give a timeout and one
leading zero byte gives a CRC error; and three zero bytes in front of the frame
`FF 00 03 00 00 B4 A3` with an empty payload, accepted when delivered alone,
give a CRC error. -/
theorem sof_resync_fails :
    (TMR_SR_receiveMessage false (linkWith (responseFrame 3 0 0 [1, 2, 3, 4])) (fun _ => 0) 3).ret
      = SUCCESS ∧
    (TMR_SR_receiveMessage false
      (linkWith ([0, 0, 0, 0, 0, 0] ++ responseFrame 3 0 0 [1, 2, 3, 4])) (fun _ => 0) 3).ret
      = ERROR_TIMEOUT ∧
    (TMR_SR_receiveMessage false
      (linkWith ([0] ++ responseFrame 3 0 0 [1, 2, 3, 4])) (fun _ => 0) 3).ret
      = ERROR_CRC_ERROR ∧
    (TMR_SR_receiveMessage false (linkWith (responseFrame 3 0 0 [])) (fun _ => 0) 3).ret
      = SUCCESS ∧
    (TMR_SR_receiveMessage false
      (linkWith ([0, 0, 0] ++ responseFrame 3 0 0 [])) (fun _ => 0) 3).ret
      = ERROR_CRC_ERROR := by
  decide

/-- C4: for every input whose first seven delivered bytes are all different from
`0xFF`, `TMR_SR_receiveMessage` returns the timeout error and requests no
further bytes from the transport: its one request of seven bytes is the only
one, and the bytes after the seventh stay on the link. -/
theorem no_sof_timeout (us : Bool) (t : SerialTransport) (d0 : Buf) (opcode : Nat)
    (h7 : 7 ≤ t.rx.length) (hno : ∀ i, i < 7 → t.rx.getD i 0 ≠ 0xFF) :
    (TMR_SR_receiveMessage us t d0 opcode).ret = ERROR_TIMEOUT ∧
    (TMR_SR_receiveMessage us t d0 opcode).transport.requested = t.requested ++ [7] ∧
    (TMR_SR_receiveMessage us t d0 opcode).transport.rx = t.rx.drop 7 :=
  receive_no_sof us t d0 opcode h7 (fun i hi => hno i (by omega))

/-- C4 (witness): seven zero bytes in front of a valid frame. -/
theorem no_sof_timeout_witness :
    7 ≤ (linkWith ([0, 0, 0, 0, 0, 0, 0] ++ responseFrame 3 0 0 [1, 2, 3])).rx.length ∧
    (∀ i, i < 7 →
      (linkWith ([0, 0, 0, 0, 0, 0, 0] ++ responseFrame 3 0 0 [1, 2, 3])).rx.getD i 0 ≠ 0xFF) ∧
    (TMR_SR_receiveMessage false
      (linkWith ([0, 0, 0, 0, 0, 0, 0] ++ responseFrame 3 0 0 [1, 2, 3])) (fun _ => 0) 3).ret
      = ERROR_TIMEOUT ∧
    (TMR_SR_receiveMessage false
      (linkWith ([0, 0, 0, 0, 0, 0, 0] ++ responseFrame 3 0 0 [1, 2, 3])) (fun _ => 0)
        3).transport.requested
      = (linkWith ([0, 0, 0, 0, 0, 0, 0] ++ responseFrame 3 0 0 [1, 2, 3])).requested ++ [7] ∧
    (TMR_SR_receiveMessage false
      (linkWith ([0, 0, 0, 0, 0, 0, 0] ++ responseFrame 3 0 0 [1, 2, 3])) (fun _ => 0)
        3).transport.rx
      = (linkWith ([0, 0, 0, 0, 0, 0, 0] ++ responseFrame 3 0 0 [1, 2, 3])).rx.drop 7 :=
  ⟨by decide, by decide,
    no_sof_timeout false (linkWith ([0, 0, 0, 0, 0, 0, 0] ++ responseFrame 3 0 0 [1, 2, 3]))
      (fun _ => 0) 3 (by decide) (by decide)⟩

/-- C5: for every response frame with a payload of at most 255 bytes that is
delivered whole, and every requested opcode: if the frame is CRC-valid, that is
its two check bytes are what `tm_crc` computes over `[LEN, OPCODE, STATUS,
PAYLOAD]`, then `TMR_SR_receiveMessage` returns the device-reset error if and
only if the frame's opcode differs from the requested opcode and it is not the
case that the frame's opcode is `0x2F` and `useStreaming` is true; and the CRC
check is made first: a frame that is not CRC-valid yields the CRC error whatever
its opcode.  For payloads of at most 251 bytes the value computed by `tm_crc` is
the CRC of the whole sequence. -/
theorem opcode_discipline (us : Bool) (d0 : Buf) (opcode op sh sl : Nat) (b : List Nat)
    (c1 c2 : Nat) (hb : b.length < 256) :
    ((c1 = tm_crc (fun i => (frameBody op sh sl b).getD i 0) (b.length + 4) >>> 8 ∧
        c2 = tm_crc (fun i => (frameBody op sh sl b).getD i 0) (b.length + 4) &&& 0xff) →
      ((TMR_SR_receiveMessage us (linkWith (frameWith op sh sl b c1 c2)) d0 opcode).ret
          = ERROR_DEVICE_RESET ↔
        (op ≠ opcode ∧ ¬ (op = 0x2F ∧ us = true)))) ∧
    (¬ (c1 = tm_crc (fun i => (frameBody op sh sl b).getD i 0) (b.length + 4) >>> 8 ∧
        c2 = tm_crc (fun i => (frameBody op sh sl b).getD i 0) (b.length + 4) &&& 0xff) →
      (TMR_SR_receiveMessage us (linkWith (frameWith op sh sl b c1 c2)) d0 opcode).ret
        = ERROR_CRC_ERROR) ∧
    (b.length ≤ 251 →
      tm_crc (fun i => (frameBody op sh sl b).getD i 0) (b.length + 4) =
        frameCrc (frameBody op sh sl b)) := by
  obtain ⟨h1, _, _⟩ := receive_frame us d0 opcode op sh sl b c1 c2 hb
  refine ⟨?_, ?_, frameBody_crc op sh sl b⟩
  · rintro ⟨e1, e2⟩
    rw [h1, if_neg (by simp [e1, e2])]
    cases us <;> by_cases h : op = opcode <;> by_cases h' : op = 0x2F <;>
      simp [h, h'] <;> split_ifs <;> simp
  · intro hne
    rw [h1, if_pos (by tauto)]


/-- C5 (witness): the frame `FF 03 03 00 00 01 02 03 96 E2`, requested opcode
3. -/
theorem opcode_discipline_witness :
    [1, 2, 3].length < 256 ∧
    (((150 = tm_crc (fun i => (frameBody 3 0 0 [1, 2, 3]).getD i 0) ([1, 2, 3].length + 4) >>> 8 ∧
        226 = tm_crc (fun i => (frameBody 3 0 0 [1, 2, 3]).getD i 0) ([1, 2, 3].length + 4)
          &&& 0xff) →
      ((TMR_SR_receiveMessage false (linkWith (frameWith 3 0 0 [1, 2, 3] 150 226))
          (fun _ => 0) 3).ret = ERROR_DEVICE_RESET ↔
        (3 ≠ 3 ∧ ¬ (3 = 0x2F ∧ false = true)))) ∧
    (¬ (150 = tm_crc (fun i => (frameBody 3 0 0 [1, 2, 3]).getD i 0) ([1, 2, 3].length + 4) >>> 8 ∧
        226 = tm_crc (fun i => (frameBody 3 0 0 [1, 2, 3]).getD i 0) ([1, 2, 3].length + 4)
          &&& 0xff) →
      (TMR_SR_receiveMessage false (linkWith (frameWith 3 0 0 [1, 2, 3] 150 226))
        (fun _ => 0) 3).ret = ERROR_CRC_ERROR) ∧
    ([1, 2, 3].length ≤ 251 →
      tm_crc (fun i => (frameBody 3 0 0 [1, 2, 3]).getD i 0) ([1, 2, 3].length + 4) =
        frameCrc (frameBody 3 0 0 [1, 2, 3]))) :=
  ⟨by decide, opcode_discipline false (fun _ => 0) 3 3 0 0 [1, 2, 3] 150 226 (by decide)⟩

/-- C6: for every response frame delivered whole that passes the CRC check and
the opcode check, `TMR_SR_receiveMessage` returns success if and only if the
big-endian 16-bit status word at bytes 3..4 is zero, and otherwise returns the
reader-code error that carries exactly that status value. -/
theorem status_decoding (us : Bool) (d0 : Buf) (opcode op sh sl : Nat) (b : List Nat)
    (c1 c2 : Nat) (hb : b.length < 256) (hsl : sl < 256)
    (hcrc1 : c1 = tm_crc (fun i => (frameBody op sh sl b).getD i 0) (b.length + 4) >>> 8)
    (hcrc2 : c2 = tm_crc (fun i => (frameBody op sh sl b).getD i 0) (b.length + 4) &&& 0xff)
    (hop : op = opcode ∨ (op = 0x2F ∧ us = true)) :
    ((TMR_SR_receiveMessage us (linkWith (frameWith op sh sl b c1 c2)) d0 opcode).ret = SUCCESS ↔
      sh * 256 + sl = 0) ∧
    (sh * 256 + sl ≠ 0 →
      (TMR_SR_receiveMessage us (linkWith (frameWith op sh sl b c1 c2)) d0 opcode).ret =
        ERROR_CODE (sh * 256 + sl)) ∧
    GETU16AT (TMR_SR_receiveMessage us (linkWith (frameWith op sh sl b c1 c2)) d0 opcode).data 3 =
      sh * 256 + sl := by
  obtain ⟨h1, h2, _⟩ := receive_frame us d0 opcode op sh sl b c1 c2 hb
  have hnr : ¬ (op ≠ opcode ∧ (op ≠ 0x2F ∨ us = false)) := by
    rcases hop with h | ⟨h, h'⟩
    · simp [h]
    · simp [h, h']
  rw [h1, if_neg (by simp [hcrc1, hcrc2]), if_neg hnr, shl8_or sh sl hsl]
  refine ⟨?_, ?_, ?_⟩
  · by_cases h : sh * 256 + sl = 0
    · rw [if_neg (by simpa using h)]; exact ⟨fun _ => h, fun _ => rfl⟩
    · rw [if_pos h]; exact ⟨fun hr => TMR_Status.noConfusion hr, fun hz => absurd hz h⟩
  · intro h; rw [if_pos h]
  · rw [h2]
    unfold GETU16AT
    rw [writeBytes_lt _ _ _ (by rw [frameWith_length]; omega),
      writeBytes_lt _ _ _ (by rw [frameWith_length]; omega), shl8_or]
    · simp [frameWith, frameBody]
    · simpa [frameWith, frameBody] using hsl


/-- C6 (witness): the frame `FF 03 03 01 05 01 02 03 5E 27` with status word
`0x0105`, requested opcode 3. -/
theorem status_decoding_witness :
    [1, 2, 3].length < 256 ∧ 5 < 256 ∧
    94 = tm_crc (fun i => (frameBody 3 1 5 [1, 2, 3]).getD i 0) ([1, 2, 3].length + 4) >>> 8 ∧
    39 = tm_crc (fun i => (frameBody 3 1 5 [1, 2, 3]).getD i 0) ([1, 2, 3].length + 4)
      &&& 0xff ∧
    (3 = 3 ∨ (3 = 0x2F ∧ false = true)) ∧
    (((TMR_SR_receiveMessage false (linkWith (frameWith 3 1 5 [1, 2, 3] 94 39))
        (fun _ => 0) 3).ret = SUCCESS ↔ 1 * 256 + 5 = 0) ∧
    (1 * 256 + 5 ≠ 0 →
      (TMR_SR_receiveMessage false (linkWith (frameWith 3 1 5 [1, 2, 3] 94 39))
        (fun _ => 0) 3).ret = ERROR_CODE (1 * 256 + 5)) ∧
    GETU16AT (TMR_SR_receiveMessage false (linkWith (frameWith 3 1 5 [1, 2, 3] 94 39))
      (fun _ => 0) 3).data 3 = 1 * 256 + 5) :=
  ⟨by decide, by decide, by decide, by decide, by decide,
    status_decoding false (fun _ => 0) 3 3 1 5 [1, 2, 3] 94 39 (by decide) (by decide)
      (by decide) (by decide) (by decide)⟩

/-! ## Theorems on connecting and on parameters -/

/-- C7: in `TMR_SR_connect`, once the transport is open, for every configured
baud rate the candidates (the configured rate, then the entries of `rates` in
order with every entry equal to the configured rate left out) are pairwise
distinct, so no rate is tried twice; the rates passed to the transport's
`setBaudRate` are an initial segment of the candidates; they are all of the
candidates when every rate is set, flushed and answered by a timeout of the
version probe; and a probe error other than a timeout is returned at once, the
rate it occurred at being the last one set. -/
theorem baud_scan_order (env : Env) (reader : Reader) (hopen : env.transportOpen = SUCCESS) :
    (candidates reader.baudRate).Nodup ∧
    (∃ m, ratesSet (callsBetween reader (TMR_SR_connect env reader).2) =
      (candidates reader.baudRate).take m) ∧
    ((∀ r ∈ candidates reader.baudRate, env.setBaudRate r = SUCCESS ∧ env.flush r = SUCCESS ∧
        env.cmdVersion r = ERROR_TIMEOUT) →
      ratesSet (callsBetween reader (TMR_SR_connect env reader).2) =
        candidates reader.baudRate) ∧
    (∀ r ∈ ratesSet (callsBetween reader (TMR_SR_connect env reader).2),
      env.setBaudRate r = SUCCESS → env.flush r = SUCCESS →
      env.cmdVersion r ≠ SUCCESS → env.cmdVersion r ≠ ERROR_TIMEOUT →
      (TMR_SR_connect env reader).1 = env.cmdVersion r ∧
      (ratesSet (callsBetween reader (TMR_SR_connect env reader).2)).getLast? = some r) := by
  rw [connect_rates env reader hopen]
  refine ⟨candidates_nodup _, scanned_take env _, scanned_all env _, ?_⟩
  intro r hr h1 h2 h3 h4
  exact ⟨connect_error env reader hopen r hr h1 h2 h3 h4,
    scanned_last env _ r hr (fun hg => h4 hg.2.2)⟩


/-- C7 (witness): configured rate 9600, module answering at 115200. -/
theorem baud_scan_order_witness :
    (moduleAt 115200 SUCCESS).transportOpen = SUCCESS ∧
    ((candidates ({ freshReader with baudRate := 9600 } : Reader).baudRate).Nodup ∧
    (∃ m, ratesSet (callsBetween { freshReader with baudRate := 9600 }
        (TMR_SR_connect (moduleAt 115200 SUCCESS) { freshReader with baudRate := 9600 }).2) =
      (candidates ({ freshReader with baudRate := 9600 } : Reader).baudRate).take m) ∧
    ((∀ r ∈ candidates ({ freshReader with baudRate := 9600 } : Reader).baudRate,
        (moduleAt 115200 SUCCESS).setBaudRate r = SUCCESS ∧
        (moduleAt 115200 SUCCESS).flush r = SUCCESS ∧
        (moduleAt 115200 SUCCESS).cmdVersion r = ERROR_TIMEOUT) →
      ratesSet (callsBetween { freshReader with baudRate := 9600 }
          (TMR_SR_connect (moduleAt 115200 SUCCESS) { freshReader with baudRate := 9600 }).2) =
        candidates ({ freshReader with baudRate := 9600 } : Reader).baudRate) ∧
    (∀ r ∈ ratesSet (callsBetween { freshReader with baudRate := 9600 }
        (TMR_SR_connect (moduleAt 115200 SUCCESS) { freshReader with baudRate := 9600 }).2),
      (moduleAt 115200 SUCCESS).setBaudRate r = SUCCESS →
      (moduleAt 115200 SUCCESS).flush r = SUCCESS →
      (moduleAt 115200 SUCCESS).cmdVersion r ≠ SUCCESS →
      (moduleAt 115200 SUCCESS).cmdVersion r ≠ ERROR_TIMEOUT →
      (TMR_SR_connect (moduleAt 115200 SUCCESS) { freshReader with baudRate := 9600 }).1 =
        (moduleAt 115200 SUCCESS).cmdVersion r ∧
      (ratesSet (callsBetween { freshReader with baudRate := 9600 }
        (TMR_SR_connect (moduleAt 115200 SUCCESS)
          { freshReader with baudRate := 9600 }).2)).getLast? = some r)) :=
  ⟨rfl, baud_scan_order (moduleAt 115200 SUCCESS) { freshReader with baudRate := 9600 } rfl⟩

/-- Scenario S1: with 9600 configured and a module that answers the version
probe at 115200 only, `TMR_SR_connect` sets 9600, probes, sets 115200, probes,
marks the reader connected and boots with 115200 as the current rate. -/
theorem connect_scenario_S1 :
    (TMR_SR_connect (moduleAt 115200 SUCCESS) { freshReader with baudRate := 9600 }).1 = SUCCESS ∧
    (TMR_SR_connect (moduleAt 115200 SUCCESS)
      { freshReader with baudRate := 9600 }).2.connected = true ∧
    (TMR_SR_connect (moduleAt 115200 SUCCESS) { freshReader with baudRate := 9600 }).2.trace =
      [WireEvent.transportOpen, WireEvent.setBaudRate 9600, WireEvent.flush, WireEvent.cmdVersion,
        WireEvent.setBaudRate 115200, WireEvent.flush, WireEvent.cmdVersion,
        WireEvent.boot 115200] := by
  decide

/-- Baud-scan acceptance as the code has it: a candidate at which the version
probe succeeds after timing out at every earlier candidate is accepted, the
reader marked connected and the boot sequence run with that rate, provided the
candidate is the configured rate or is not the last entry of `rates`. -/
theorem connect_accepts (env : Env) (reader : Reader) (hopen : env.transportOpen = SUCCESS)
    (before after : List Nat) (r : Nat)
    (hsplit : candidates reader.baudRate = before ++ r :: after)
    (hbefore : ∀ c ∈ before, env.setBaudRate c = SUCCESS ∧ env.flush c = SUCCESS ∧
      env.cmdVersion c = ERROR_TIMEOUT)
    (h1 : env.setBaudRate r = SUCCESS) (h2 : env.flush r = SUCCESS)
    (h3 : env.cmdVersion r = SUCCESS) (hlast : r = reader.baudRate ∨ r ≠ 460800) :
    (TMR_SR_connect env reader).1 = env.boot r ∧
    (TMR_SR_connect env reader).2.connected = true ∧
    (TMR_SR_connect env reader).2.trace.getLast? = some (WireEvent.boot r) := by
  have hr : r ∈ scanned env (candidates reader.baudRate) := by
    rw [hsplit]; exact scanned_reaches env before after r hbefore
  rw [connect_eq env reader hopen, connectLoop_first]
  by_cases hrb : r = reader.baudRate
  · subst hrb
    have h0 : ¬ (0 = rates.length) := by decide
    simp [h1, h2, h3, h0]
  · have hne : r ≠ 460800 := by
      rcases hlast with h | h
      · exact absurd h hrb
      · exact h
    simp only [candidates, scanned] at hr
    have hg : env.setBaudRate reader.baudRate = SUCCESS ∧ env.flush reader.baudRate = SUCCESS ∧
        env.cmdVersion reader.baudRate = ERROR_TIMEOUT := by
      by_contra hng
      rw [if_neg hng] at hr
      simp at hr
      exact hrb hr
    rw [if_pos hg] at hr
    rcases List.mem_cons.mp hr with h | h
    · exact absurd h hrb
    · have hmem : r ∈ scanned env
          ((rates.drop (rates.length - rates.length)).filter (fun r => r ≠ reader.baudRate)) := by
        rw [rates_drop_zero]; exact h
      obtain ⟨i, hex, hi1, hi2, hget⟩ := connectLoop_break env reader.baudRate rates.length
        (Nat.le_refl _) reader.baudRate (env.cmdVersion reader.baudRate)
        (reader.trace ++ [WireEvent.transportOpen] ++ [WireEvent.setBaudRate reader.baudRate] ++
          [WireEvent.flush] ++ [WireEvent.cmdVersion]) r hmem h1 h2 h3
      simp only [hg.1, hg.2.1, hg.2.2, ne_eq, not_true_eq_false, if_false, reduceCtorEq]
      rcases hx : connectLoop env reader.baudRate rates.length reader.baudRate ERROR_TIMEOUT
        (reader.trace ++ [WireEvent.transportOpen] ++ [WireEvent.setBaudRate reader.baudRate] ++
          [WireEvent.flush] ++ [WireEvent.cmdVersion]) with ⟨ex, tr⟩
      rw [hg.2.2] at hex
      rw [hx] at hex
      simp only at hex
      subst hex
      have hi8 : i ≠ rates.length := by
        intro h8
        rw [h8] at hget
        exact hne hget.symm
      simp [hi8]

/-- Baud-scan exhaustion as the code has it: when every candidate is set,
flushed and answered by a timeout of the version probe, `TMR_SR_connect` marks
the reader connected, runs the boot sequence with 460800 as the current rate and
returns the status of the boot sequence. -/
theorem connect_exhausted (env : Env) (reader : Reader) (hopen : env.transportOpen = SUCCESS)
    (hall : ∀ c ∈ candidates reader.baudRate,
      env.setBaudRate c = SUCCESS ∧ env.flush c = SUCCESS ∧ env.cmdVersion c = ERROR_TIMEOUT) :
    (TMR_SR_connect env reader).1 = env.boot 460800 ∧
    (TMR_SR_connect env reader).2.connected = true ∧
    (TMR_SR_connect env reader).2.trace.getLast? = some (WireEvent.boot 460800) := by
  have hg := hall reader.baudRate (by simp [candidates])
  have hrest : ∀ c ∈ (rates.drop (rates.length - rates.length)).filter
      (fun r => r ≠ reader.baudRate),
      env.setBaudRate c = SUCCESS ∧ env.flush c = SUCCESS ∧ env.cmdVersion c = ERROR_TIMEOUT := by
    intro c hc
    rw [rates_drop_zero] at hc
    exact hall c (List.mem_cons_of_mem _ hc)
  obtain ⟨ret1, hex⟩ := connectLoop_exhaust env reader.baudRate rates.length (Nat.le_refl _)
    reader.baudRate ERROR_TIMEOUT
    (reader.trace ++ [WireEvent.transportOpen] ++ [WireEvent.setBaudRate reader.baudRate] ++
      [WireEvent.flush] ++ [WireEvent.cmdVersion]) hrest
  rw [connect_eq env reader hopen, connectLoop_first]
  simp only [hg.1, hg.2.1, hg.2.2, ne_eq, not_true_eq_false, if_false, reduceCtorEq]
  rcases hx : connectLoop env reader.baudRate rates.length reader.baudRate ERROR_TIMEOUT
    (reader.trace ++ [WireEvent.transportOpen] ++ [WireEvent.setBaudRate reader.baudRate] ++
      [WireEvent.flush] ++ [WireEvent.cmdVersion]) with ⟨ex, tr⟩
  rw [hx] at hex
  simp only at hex
  subst hex
  have h9 : ¬ (rates.length + 1 = rates.length) := by omega
  have h8 : ¬ (rates.length = 0) := by decide
  simp [h9, h8]

/-- C8 (failing input): with the default rate 115200 configured and a module
that answers the version probe at 460800 only, the probe times out at every
earlier candidate and succeeds at the candidate 460800, the last rate set; yet
`TMR_SR_connect` returns the timeout error, leaves the reader unconnected and
does not run the boot sequence. -/
theorem connect_rejects_last_rate :
    460800 ∈ candidates freshReader.baudRate ∧
    (∀ r ∈ candidates freshReader.baudRate, r ≠ 460800 →
      (moduleAt 460800 SUCCESS).cmdVersion r = ERROR_TIMEOUT) ∧
    (moduleAt 460800 SUCCESS).cmdVersion 460800 = SUCCESS ∧
    (TMR_SR_connect (moduleAt 460800 SUCCESS) freshReader).1 = ERROR_TIMEOUT ∧
    (TMR_SR_connect (moduleAt 460800 SUCCESS) freshReader).2.connected = false ∧
    WireEvent.boot 460800 ∉ (TMR_SR_connect (moduleAt 460800 SUCCESS) freshReader).2.trace ∧
    (ratesSet (TMR_SR_connect (moduleAt 460800 SUCCESS) freshReader).2.trace).getLast? =
      some 460800 := by
  decide

/-- C9 (failing input): with the default rate 115200 configured and a module
that never answers the version probe, the probe times out at every candidate;
yet `TMR_SR_connect` marks the reader connected and runs the boot sequence,
with 460800 as the current rate, and returns the status of that boot
sequence. -/
theorem connect_exhausted_boots :
    (∀ r ∈ candidates freshReader.baudRate,
      (moduleAt 0 ERROR_DEVICE_RESET).cmdVersion r = ERROR_TIMEOUT) ∧
    (TMR_SR_connect (moduleAt 0 ERROR_DEVICE_RESET) freshReader).1 = ERROR_DEVICE_RESET ∧
    (TMR_SR_connect (moduleAt 0 ERROR_DEVICE_RESET) freshReader).2.connected = true ∧
    (TMR_SR_connect (moduleAt 0 ERROR_DEVICE_RESET) freshReader).2.trace.getLast? =
      some (WireEvent.boot 460800) := by
  decide

/-- C10: for a freshly initialised reader that is not connected,
`TMR_SR_paramSet` of `POWERMODE`, of `BAUDRATE` and of `REGION_ID` each return
success for every value, store the value in the cached field (`powerMode`,
`baudRate`, `regionId`) and make no call on the transport or the module: the
trace is the one the reader had. -/
theorem preconnect_config (env : Env) (r0 : Reader) (value : Nat) (hc : r0.connected = false) :
    ((TMR_SR_paramSet env (TMR_SR_SerialReader_init r0) TMR_Param.POWERMODE
        (ParamValue.num value)).1 = SUCCESS ∧
      (TMR_SR_paramSet env (TMR_SR_SerialReader_init r0) TMR_Param.POWERMODE
        (ParamValue.num value)).2.powerMode = value ∧
      (TMR_SR_paramSet env (TMR_SR_SerialReader_init r0) TMR_Param.POWERMODE
        (ParamValue.num value)).2.trace = r0.trace) ∧
    ((TMR_SR_paramSet env (TMR_SR_SerialReader_init r0) TMR_Param.BAUDRATE
        (ParamValue.num value)).1 = SUCCESS ∧
      (TMR_SR_paramSet env (TMR_SR_SerialReader_init r0) TMR_Param.BAUDRATE
        (ParamValue.num value)).2.baudRate = value ∧
      (TMR_SR_paramSet env (TMR_SR_SerialReader_init r0) TMR_Param.BAUDRATE
        (ParamValue.num value)).2.trace = r0.trace) ∧
    ((TMR_SR_paramSet env (TMR_SR_SerialReader_init r0) TMR_Param.REGION_ID
        (ParamValue.num value)).1 = SUCCESS ∧
      (TMR_SR_paramSet env (TMR_SR_SerialReader_init r0) TMR_Param.REGION_ID
        (ParamValue.num value)).2.regionId = value ∧
      (TMR_SR_paramSet env (TMR_SR_SerialReader_init r0) TMR_Param.REGION_ID
        (ParamValue.num value)).2.trace = r0.trace) := by
  simp [TMR_SR_paramSet, TMR_SR_paramProbe, TMR_paramGet, TMR_SR_paramGet, paramGetSwitch,
    paramGetSecond, paramSetSwitch, paramSetSecond, readerkeyOf, protokeyOf, ParamValue.toNat,
    TMR_SR_SerialReader_init, BITGET, BITSET, hc]


/-- C10 (witness): the value 921600, the baud rate of the test program, stored by
each of the three settings on a fresh reader. -/
theorem preconnect_config_witness :
    freshReader.connected = false ∧
    (((TMR_SR_paramSet (moduleAt 115200 SUCCESS) (TMR_SR_SerialReader_init freshReader)
        TMR_Param.POWERMODE (ParamValue.num 921600)).1 = SUCCESS ∧
      (TMR_SR_paramSet (moduleAt 115200 SUCCESS) (TMR_SR_SerialReader_init freshReader)
        TMR_Param.POWERMODE (ParamValue.num 921600)).2.powerMode = 921600 ∧
      (TMR_SR_paramSet (moduleAt 115200 SUCCESS) (TMR_SR_SerialReader_init freshReader)
        TMR_Param.POWERMODE (ParamValue.num 921600)).2.trace = freshReader.trace) ∧
    ((TMR_SR_paramSet (moduleAt 115200 SUCCESS) (TMR_SR_SerialReader_init freshReader)
        TMR_Param.BAUDRATE (ParamValue.num 921600)).1 = SUCCESS ∧
      (TMR_SR_paramSet (moduleAt 115200 SUCCESS) (TMR_SR_SerialReader_init freshReader)
        TMR_Param.BAUDRATE (ParamValue.num 921600)).2.baudRate = 921600 ∧
      (TMR_SR_paramSet (moduleAt 115200 SUCCESS) (TMR_SR_SerialReader_init freshReader)
        TMR_Param.BAUDRATE (ParamValue.num 921600)).2.trace = freshReader.trace) ∧
    ((TMR_SR_paramSet (moduleAt 115200 SUCCESS) (TMR_SR_SerialReader_init freshReader)
        TMR_Param.REGION_ID (ParamValue.num 921600)).1 = SUCCESS ∧
      (TMR_SR_paramSet (moduleAt 115200 SUCCESS) (TMR_SR_SerialReader_init freshReader)
        TMR_Param.REGION_ID (ParamValue.num 921600)).2.regionId = 921600 ∧
      (TMR_SR_paramSet (moduleAt 115200 SUCCESS) (TMR_SR_SerialReader_init freshReader)
        TMR_Param.REGION_ID (ParamValue.num 921600)).2.trace = freshReader.trace)) :=
  ⟨rfl, preconnect_config (moduleAt 115200 SUCCESS) freshReader 921600 rfl⟩

/-! ## The antenna map -/


/-- The request message of `TMR_SR_cmdAntennaDetect`. -/
theorem antennaDetect_request :
    requestOf (installLength (SETU8 (SETU8 (fun _ => 0, 2) TMR_SR_OPCODE_GET_ANTENNA_PORT) 5)) =
      [1, TMR_SR_OPCODE_GET_ANTENNA_PORT, 5] := by
  decide

/-- The parsing loop of `TMR_SR_cmdAntennaDetect` recovers the ports that a
response lists. -/
theorem antennaDetectLoop_eq (msg : Buf) (ports : List TMR_SR_PortDetect)
    (hlen : msg 1 = 2 * ports.length + 1)
    (hports : ∀ k (h : k < ports.length),
      msg (2 * k + 6) = ports[k].port ∧ (msg (2 * k + 7) == 1) = ports[k].detected) :
    ∀ (n j : Nat), ports.length - j ≤ n → j ≤ ports.length →
      antennaDetectLoop msg n (2 * j + 1) = ports.drop j := by
  intro n
  induction n with
  | zero =>
    intro j h1 h2
    have : j = ports.length := by omega
    subst this
    simp [antennaDetectLoop]
  | succ n ih =>
    intro j h1 h2
    unfold antennaDetectLoop
    by_cases hj : j < ports.length
    · rw [if_pos (by rw [hlen]; omega)]
      have e := hports j hj
      rw [show 2 * j + 1 + 5 = 2 * j + 6 by omega, show 2 * j + 1 + 6 = 2 * j + 7 by omega,
        show 2 * j + 1 + 2 = 2 * (j + 1) + 1 by omega, ih (j + 1) (by omega) (by omega),
        e.1, e.2]
      exact (List.drop_eq_getElem_cons hj).symm
    · rw [if_neg (by rw [hlen]; omega)]
      have : j = ports.length := by omega
      subst this
      simp


/-- What `TMR_SR_cmdAntennaDetect` returns for a response that lists `ports`. -/
theorem cmdAntennaDetect_eq (env : Env) (reader : Reader) (msg : Buf)
    (ports : List TMR_SR_PortDetect) (count : Nat)
    (hreply : env.exchange [1, TMR_SR_OPCODE_GET_ANTENNA_PORT, 5] = (SUCCESS, msg))
    (hlen : msg 1 = 2 * ports.length + 1)
    (hports : ∀ k (h : k < ports.length),
      msg (2 * k + 6) = ports[k].port ∧ (msg (2 * k + 7) == 1) = ports[k].detected)
    (hn : ports.length ≤ count) :
    TMR_SR_cmdAntennaDetect env reader count =
      (SUCCESS, ports,
        { reader with
          trace := reader.trace ++
            [WireEvent.message [1, TMR_SR_OPCODE_GET_ANTENNA_PORT, 5]] }) := by
  have h := antennaDetectLoop_eq msg ports hlen hports count 0 (by omega) (by omega)
  simp only [Nat.mul_zero, Nat.zero_add, List.drop_zero] at h
  simp only [TMR_SR_cmdAntennaDetect, TMR_SR_send, TMR_SR_sendTimeout, antennaDetect_request,
    hreply, ne_eq, not_true_eq_false, if_false, h]

/-- The entries that the loop of `initTxRxMapFromPorts` stores. -/
theorem initTxRxMapLoop_data (ps : List TMR_SR_PortDetect) (mask : Nat)
    (data : List TMR_AntennaMap) (ant : Nat) :
    (initTxRxMapLoop ps mask data ant).2.1 =
      data ++ ps.map (fun p => { antenna := p.port, txPort := p.port, rxPort := p.port }) := by
  induction ps generalizing mask data ant with
  | nil => simp [initTxRxMapLoop]
  | cons p rest ih => simp [initTxRxMapLoop, ih]

/-- The tag-operation antenna that the loop of `initTxRxMapFromPorts` leaves. -/
theorem initTxRxMapLoop_antenna (ps : List TMR_SR_PortDetect) (mask : Nat)
    (data : List TMR_AntennaMap) (ant : Nat) (hrange : ∀ p ∈ ps, 1 ≤ p.port) :
    (initTxRxMapLoop ps mask data ant).2.2 =
      if ant = 0 then ((ps.find? (fun p => p.detected)).map (fun p => p.port)).getD 0
      else ant := by
  induction ps generalizing mask data ant with
  | nil =>
    by_cases ha : ant = 0
    · simp [initTxRxMapLoop, ha]
    · simp [initTxRxMapLoop, ha]
  | cons p rest ih =>
    have hp := hrange p (List.mem_cons_self _ _)
    have hr : ∀ q ∈ rest, 1 ≤ q.port := fun q hq => hrange q (List.mem_cons_of_mem _ hq)
    simp only [initTxRxMapLoop]
    rw [ih _ _ _ hr]
    by_cases ha : ant = 0
    · by_cases hd : p.detected = true
      · have hne : p.port ≠ 0 := by omega
        simp [ha, hd, hne]
      · simp [ha, hd]
    · simp [ha]

/-- The port mask that the loop of `initTxRxMapFromPorts` leaves: a 32-bit
number whose bits are those of the mask it starts from and the bits `port - 1`
of the ports visited. -/
theorem initTxRxMapLoop_mask (ps : List TMR_SR_PortDetect) (mask : Nat)
    (data : List TMR_AntennaMap) (ant : Nat) (hmask : mask < 2 ^ 32)
    (hrange : ∀ p ∈ ps, 1 ≤ p.port ∧ p.port ≤ 32) :
    (initTxRxMapLoop ps mask data ant).1 < 2 ^ 32 ∧
    ∀ b, (initTxRxMapLoop ps mask data ant).1.testBit b = true ↔
      (mask.testBit b = true ∨ ∃ p ∈ ps, p.port - 1 = b) := by
  induction ps generalizing mask data ant with
  | nil => exact ⟨hmask, fun b => by simp [initTxRxMapLoop]⟩
  | cons p rest ih =>
    have hp := hrange p (List.mem_cons_self _ _)
    have hr : ∀ q ∈ rest, 1 ≤ q.port ∧ q.port ≤ 32 :=
      fun q hq => hrange q (List.mem_cons_of_mem _ hq)
    have hpow : 2 ^ (p.port - 1) < 2 ^ 32 := Nat.pow_lt_pow_right (by norm_num) (by omega)
    have hor : mask ||| 2 ^ (p.port - 1) < 2 ^ 32 := Nat.or_lt_two_pow hmask hpow
    simp only [initTxRxMapLoop, Nat.one_shiftLeft]
    rw [Nat.mod_eq_of_lt hor]
    obtain ⟨h1, h2⟩ := ih (mask ||| 2 ^ (p.port - 1))
      (data ++ [{ antenna := p.port, txPort := p.port, rxPort := p.port }])
      (if ant = 0 ∧ p.detected = true then p.port else ant) hor hr
    refine ⟨h1, fun b => ?_⟩
    rw [h2 b, Nat.testBit_or, Nat.testBit_two_pow]
    simp only [Bool.or_eq_true, decide_eq_true_eq, List.mem_cons, exists_eq_or_imp]
    tauto

/-- The test `HASPORT(mask, port)` succeeds exactly when bit `port - 1` of the
mask is set. -/
theorem HASPORT_ne_zero (mask port : Nat) :
    HASPORT mask port ≠ 0 ↔ mask.testBit (port - 1) = true := by
  unfold HASPORT
  rw [Nat.one_shiftLeft]
  constructor
  · intro h
    obtain ⟨i, hi⟩ := Nat.ne_zero_implies_bit_true h
    rw [Nat.testBit_and, Nat.testBit_two_pow] at hi
    simp only [Bool.and_eq_true, decide_eq_true_eq] at hi
    rw [hi.1]
    exact hi.2
  · intro h h0
    have : (2 ^ (port - 1) &&& mask).testBit (port - 1) = true := by
      rw [Nat.testBit_and, Nat.testBit_two_pow]
      simp [h]
    rw [h0] at this
    simp at this

/-- What `initTxRxMapFromPorts` returns for a response that lists `ports`. -/
theorem initTxRxMapFromPorts_eq (env : Env) (reader : Reader) (msg : Buf)
    (ports : List TMR_SR_PortDetect)
    (hreply : env.exchange [1, TMR_SR_OPCODE_GET_ANTENNA_PORT, 5] = (SUCCESS, msg))
    (hlen : msg 1 = 2 * ports.length + 1)
    (hports : ∀ k (h : k < ports.length),
      msg (2 * k + 6) = ports[k].port ∧ (msg (2 * k + 7) == 1) = ports[k].detected)
    (hn : ports.length ≤ 16) :
    initTxRxMapFromPorts env reader =
      (SUCCESS,
        { reader with
          trace := reader.trace ++ [WireEvent.message [1, TMR_SR_OPCODE_GET_ANTENNA_PORT, 5]]
          portMask := (initTxRxMapLoop ports 0 [] reader.tagOpParams.antenna).1
          tagOpParams :=
            { reader.tagOpParams with
              antenna := (initTxRxMapLoop ports 0 [] reader.tagOpParams.antenna).2.2 }
          txRxMap :=
            { list := (initTxRxMapLoop ports 0 [] reader.tagOpParams.antenna).2.1
              max := TMR_SR_MAX_ANTENNA_PORTS } }) := by
  simp only [initTxRxMapFromPorts,
    cmdAntennaDetect_eq env reader msg ports TMR_SR_MAX_ANTENNA_PORTS hreply hlen hports hn,
    ne_eq, not_true_eq_false, if_false]

/-- C11: after `initTxRxMapFromPorts` has run on a detect reply that lists the
ports `p_1 .. p_n` (at most 16 of them, each in 1..32) it returns success, the
Tx/Rx map holds exactly the entries (antenna `p_i`, tx `p_i`, rx `p_i`) in
order, the bits set in `portMask` are exactly the bits `p_i - 1`, so that every
entry passes the `HASPORT` test on both of its ports, and the tag-operation
antenna, if it was 0, is the first port reported as detected (0 when there is
none) and is otherwise left as it was. -/
theorem antenna_map_validity (env : Env) (reader : Reader) (msg : Buf)
    (ports : List TMR_SR_PortDetect)
    (hreply : env.exchange [1, TMR_SR_OPCODE_GET_ANTENNA_PORT, 5] = (SUCCESS, msg))
    (hlen : msg 1 = 2 * ports.length + 1)
    (hports : ∀ k (h : k < ports.length),
      msg (2 * k + 6) = ports[k].port ∧ (msg (2 * k + 7) == 1) = ports[k].detected)
    (hn : ports.length ≤ 16)
    (hrange : ∀ p ∈ ports, 1 ≤ p.port ∧ p.port ≤ 32) :
    (initTxRxMapFromPorts env reader).1 = SUCCESS ∧
    (initTxRxMapFromPorts env reader).2.txRxMap.list =
      ports.map (fun p => { antenna := p.port, txPort := p.port, rxPort := p.port }) ∧
    (initTxRxMapFromPorts env reader).2.txRxMap.list.length = ports.length ∧
    (∀ b, (initTxRxMapFromPorts env reader).2.portMask.testBit b = true ↔
      ∃ p ∈ ports, p.port - 1 = b) ∧
    (∀ e ∈ (initTxRxMapFromPorts env reader).2.txRxMap.list,
      (initTxRxMapFromPorts env reader).2.portMask.testBit (e.txPort - 1) = true ∧
      (initTxRxMapFromPorts env reader).2.portMask.testBit (e.rxPort - 1) = true ∧
      HASPORT (initTxRxMapFromPorts env reader).2.portMask e.txPort ≠ 0 ∧
      HASPORT (initTxRxMapFromPorts env reader).2.portMask e.rxPort ≠ 0) ∧
    (initTxRxMapFromPorts env reader).2.tagOpParams.antenna =
      (if reader.tagOpParams.antenna = 0 then
        ((ports.find? (fun p => p.detected)).map (fun p => p.port)).getD 0
      else reader.tagOpParams.antenna) := by
  have hmask := (initTxRxMapLoop_mask ports 0 [] reader.tagOpParams.antenna (by norm_num)
    hrange).2
  have hbit : ∀ b, (initTxRxMapLoop ports 0 [] reader.tagOpParams.antenna).1.testBit b = true ↔
      ∃ p ∈ ports, p.port - 1 = b := by
    intro b
    rw [hmask b]
    simp
  rw [initTxRxMapFromPorts_eq env reader msg ports hreply hlen hports hn]
  simp only [initTxRxMapLoop_data, List.nil_append, List.length_map]
  refine ⟨trivial, trivial, trivial, hbit, ?_, ?_⟩
  · intro e he
    obtain ⟨p, hp, rfl⟩ := List.mem_map.mp he
    have h := (hbit (p.port - 1)).mpr ⟨p, hp, rfl⟩
    exact ⟨h, h, (HASPORT_ne_zero _ _).mpr h, (HASPORT_ne_zero _ _).mpr h⟩
  · exact initTxRxMapLoop_antenna ports 0 [] reader.tagOpParams.antenna
      (fun p hp => (hrange p hp).1)

/-- C11, at a reply listing port 1 (nothing attached) and port 2 (attached). -/
theorem antenna_map_validity_witness :
    (initTxRxMapFromPorts detectModule freshReader).1 = SUCCESS ∧
    (initTxRxMapFromPorts detectModule freshReader).2.txRxMap.list =
      [{ antenna := 1, txPort := 1, rxPort := 1 }, { antenna := 2, txPort := 2, rxPort := 2 }] ∧
    (initTxRxMapFromPorts detectModule freshReader).2.tagOpParams.antenna = 2 := by
  have h := antenna_map_validity detectModule freshReader detectReply
    [{ port := 1, detected := false }, { port := 2, detected := true }] rfl rfl
    (by
      intro k hk
      have hk2 : k < 2 := hk
      interval_cases k <;> exact ⟨rfl, rfl⟩)
    (by decide) (by decide)
  exact ⟨h.1, h.2.1, h.2.2.2.2.2⟩

/-! ## What the parameter functions leave alone -/

/-- The fields of the reader that no parameter get touches. -/
theorem getGPIODirections_frame (env : Env) (pins : List Nat) (reader : Reader) :
    (getGPIODirections env pins reader).2.txRxMap = reader.txRxMap ∧
    (getGPIODirections env pins reader).2.tagOpParams = reader.tagOpParams ∧
    (getGPIODirections env pins reader).2.portMask = reader.portMask ∧
    (getGPIODirections env pins reader).2.versionInfo = reader.versionInfo ∧
    (getGPIODirections env pins reader).2.readPlan = reader.readPlan ∧
    (getGPIODirections env pins reader).2.paramConfirmed = reader.paramConfirmed ∧
    (getGPIODirections env pins reader).2.paramPresent = reader.paramPresent := by
  induction pins generalizing reader with
  | nil => simp [getGPIODirections]
  | cons pin rest ih =>
    simp only [getGPIODirections, callCommand]
    split
    · simp
    · split
      · refine ⟨(ih _).1, (ih _).2.1, (ih _).2.2.1, (ih _).2.2.2.1, (ih _).2.2.2.2.1,
          (ih _).2.2.2.2.2.1, (ih _).2.2.2.2.2.2⟩
      · refine ⟨(ih _).1, (ih _).2.1, (ih _).2.2.1, (ih _).2.2.2.1, (ih _).2.2.2.2.1,
          (ih _).2.2.2.2.2.1, (ih _).2.2.2.2.2.2⟩

theorem cmdAntennaDetect_frame (env : Env) (reader : Reader) (count : Nat) :
    (TMR_SR_cmdAntennaDetect env reader count).2.2 =
      { reader with
        trace := reader.trace ++ [WireEvent.message [1, TMR_SR_OPCODE_GET_ANTENNA_PORT, 5]] } := by
  unfold TMR_SR_cmdAntennaDetect TMR_SR_send TMR_SR_sendTimeout
  simp only [antennaDetect_request]
  split <;> rfl

set_option maxHeartbeats 4000000 in
theorem paramGetSwitch_frame (env : Env) (reader : Reader) (key : TMR_Param) (value : ParamValue) :
    ∀ ret v r, (paramGetSwitch env reader key value = GetExit.left ret v r ∨
        paramGetSwitch env reader key value = GetExit.returned ret v r) →
      r.txRxMap = reader.txRxMap ∧ r.tagOpParams = reader.tagOpParams ∧
      r.portMask = reader.portMask ∧ r.versionInfo = reader.versionInfo ∧
      r.readPlan = reader.readPlan ∧ r.paramConfirmed = reader.paramConfirmed ∧
      r.paramPresent = reader.paramPresent := by
  intro ret v r h
  cases key <;>
    simp only [paramGetSwitch, getByCommand, callCommand, cmdAntennaDetect_frame] at h
  all_goals try (rcases h with h | h <;> cases h <;> simp)
  case POWERMODE =>
    split at h
    · split at h <;> rcases h with h | h <;> cases h <;> simp
    · rcases h with h | h <;> cases h
      simp
  case ANTENNA_TXRXMAP =>
    split at h <;> rcases h with h | h <;> cases h <;> simp
  case REGION_LBT_ENABLE =>
    split at h <;> rcases h with h | h <;> cases h <;> simp
  case GPIO_INPUTLIST =>
    have hf := getGPIODirections_frame env [1, 2, 3, 4] { reader with gpioDirections := 0 }
    split at h
    · split at h
      · split at h <;> rcases h with h | h <;> cases h <;> exact hf
      · rcases h with h | h <;> cases h
        simp
    · rcases h with h | h <;> cases h
      simp
  case GPIO_OUTPUTLIST =>
    have hf := getGPIODirections_frame env [1, 2, 3, 4] { reader with gpioDirections := 0 }
    split at h
    · split at h
      · split at h <;> rcases h with h | h <;> cases h <;> exact hf
      · rcases h with h | h <;> cases h
        simp
    · rcases h with h | h <;> cases h
      simp


theorem paramGetSecond_frame (env : Env) (reader : Reader) (key : TMR_Param) (ret : TMR_Status)
    (value : ParamValue) :
    (paramGetSecond env reader key ret value).2.2.txRxMap = reader.txRxMap ∧
    (paramGetSecond env reader key ret value).2.2.tagOpParams = reader.tagOpParams ∧
    (paramGetSecond env reader key ret value).2.2.portMask = reader.portMask ∧
    (paramGetSecond env reader key ret value).2.2.versionInfo = reader.versionInfo ∧
    (paramGetSecond env reader key ret value).2.2.readPlan = reader.readPlan ∧
    (paramGetSecond env reader key ret value).2.2.paramConfirmed = reader.paramConfirmed ∧
    (paramGetSecond env reader key ret value).2.2.paramPresent = reader.paramPresent := by
  unfold paramGetSecond
  split
  · simp [callCommand]
  · split
    · simp [callCommand]
    · simp

/-- The fields of the reader that `TMR_SR_paramGet` leaves as they were. -/
theorem paramGet_frame (env : Env) (reader : Reader) (key : TMR_Param) (value : ParamValue) :
    (TMR_SR_paramGet env reader key value).2.2.txRxMap = reader.txRxMap ∧
    (TMR_SR_paramGet env reader key value).2.2.tagOpParams = reader.tagOpParams ∧
    (TMR_SR_paramGet env reader key value).2.2.portMask = reader.portMask ∧
    (TMR_SR_paramGet env reader key value).2.2.versionInfo = reader.versionInfo ∧
    (TMR_SR_paramGet env reader key value).2.2.readPlan = reader.readPlan := by
  unfold TMR_SR_paramGet
  split
  · simp
  · cases hsw : paramGetSwitch env reader key value with
    | returned ret v r =>
      have h := paramGetSwitch_frame env reader key value ret v r (Or.inr hsw)
      exact ⟨h.1, h.2.1, h.2.2.1, h.2.2.2.1, h.2.2.2.2.1⟩
    | left ret v r =>
      have h := paramGetSwitch_frame env reader key value ret v r (Or.inl hsw)
      have h2 := paramGetSecond_frame env r key ret v
      dsimp only
      split
      · exact ⟨h2.1.trans h.1, h2.2.1.trans h.2.1, h2.2.2.1.trans h.2.2.1,
          h2.2.2.2.1.trans h.2.2.2.1, h2.2.2.2.2.1.trans h.2.2.2.2.1⟩
      · exact ⟨h2.1.trans h.1, h2.2.1.trans h.2.1, h2.2.2.1.trans h.2.2.1,
          h2.2.2.2.1.trans h.2.2.2.1, h2.2.2.2.2.1.trans h.2.2.2.2.1⟩

/-- The fields of the reader that `TMR_SR_paramProbe` leaves as they were. -/
theorem paramProbe_frame (env : Env) (reader : Reader) (key : TMR_Param) :
    (TMR_SR_paramProbe env reader key).txRxMap = reader.txRxMap ∧
    (TMR_SR_paramProbe env reader key).tagOpParams = reader.tagOpParams ∧
    (TMR_SR_paramProbe env reader key).portMask = reader.portMask ∧
    (TMR_SR_paramProbe env reader key).versionInfo = reader.versionInfo ∧
    (TMR_SR_paramProbe env reader key).readPlan = reader.readPlan := by
  exact paramGet_frame env reader key (ParamValue.num 0)

/-! ## The tag-operation antenna -/

/-- The antenna that the loop of `initTxRxMapFromPorts` leaves is the one it
started from or the port of an element visited. -/
theorem initTxRxMapLoop_antenna_mem (ps : List TMR_SR_PortDetect) (mask : Nat)
    (data : List TMR_AntennaMap) (ant : Nat) :
    (initTxRxMapLoop ps mask data ant).2.2 = ant ∨
      ∃ p ∈ ps, p.port = (initTxRxMapLoop ps mask data ant).2.2 := by
  induction ps generalizing mask data ant with
  | nil => simp [initTxRxMapLoop]
  | cons p rest ih =>
    simp only [initTxRxMapLoop]
    rcases ih ((mask ||| (1 <<< (p.port - 1))) % 2 ^ 32)
      (data ++ [{ antenna := p.port, txPort := p.port, rxPort := p.port }])
      (if ant = 0 ∧ p.detected = true then p.port else ant) with h | ⟨q, hq, h⟩
    · rw [h]
      by_cases hc : ant = 0 ∧ p.detected = true
      · simp [hc]
      · simp [hc]
    · exact Or.inr ⟨q, List.mem_cons_of_mem _ hq, h⟩

/-- `initTxRxMapFromPorts`, started with the tag-operation antenna unset,
leaves the predicate true if the predicate held before. -/
theorem initTxRxMapFromPorts_named (env : Env) (reader : Reader)
    (h0 : reader.tagOpParams.antenna = 0) :
    tagOpAntennaNamed (initTxRxMapFromPorts env reader).2 = true := by
  unfold initTxRxMapFromPorts
  by_cases hs : (TMR_SR_cmdAntennaDetect env reader TMR_SR_MAX_ANTENNA_PORTS).1 = SUCCESS
  · have ht : (TMR_SR_cmdAntennaDetect env reader TMR_SR_MAX_ANTENNA_PORTS).2.2.tagOpParams =
        reader.tagOpParams := by
      unfold TMR_SR_cmdAntennaDetect TMR_SR_send TMR_SR_sendTimeout
      dsimp only
      split <;> rfl
    simp only [hs, ne_eq, not_true_eq_false, if_false, tagOpAntennaNamed, ht, h0,
      initTxRxMapLoop_data, List.nil_append, Bool.or_eq_true, beq_iff_eq, List.any_eq_true,
      List.mem_map]
    rcases initTxRxMapLoop_antenna_mem
      (TMR_SR_cmdAntennaDetect env reader TMR_SR_MAX_ANTENNA_PORTS).2.1 0 [] 0 with h | ⟨q, hq, h⟩
    · exact Or.inl h
    · exact Or.inr ⟨_, ⟨q, hq, rfl⟩, h⟩
  · have ht : (TMR_SR_cmdAntennaDetect env reader TMR_SR_MAX_ANTENNA_PORTS).2.2.tagOpParams =
        reader.tagOpParams := by
      unfold TMR_SR_cmdAntennaDetect TMR_SR_send TMR_SR_sendTimeout
      dsimp only
      split <;> rfl
    simp [hs, tagOpAntennaNamed, ht, h0]

/-- The predicate looks at the Tx/Rx map and the tag-operation parameters
only. -/
theorem tagOpAntennaNamed_congr (r r1 : Reader) (h1 : r1.txRxMap = r.txRxMap)
    (h2 : r1.tagOpParams = r.tagOpParams) : tagOpAntennaNamed r1 = tagOpAntennaNamed r := by
  simp [tagOpAntennaNamed, h1, h2]

/-- The reader on which the first `switch` of `TMR_SR_paramSet` runs satisfies
the predicate when the reader on entry does. -/
theorem probed_named (env : Env) (reader : Reader) (key : TMR_Param) :
    tagOpAntennaNamed
        (if BITGET reader.paramConfirmed key = false then TMR_SR_paramProbe env reader key
          else reader) =
      tagOpAntennaNamed reader := by
  split
  · exact tagOpAntennaNamed_congr _ _ (paramProbe_frame env reader key).1
      (paramProbe_frame env reader key).2.1
  · rfl

/-- The case `TMR_PARAM_TAGOP_ANTENNA` keeps the predicate. -/
theorem setTagopAntenna_named (env : Env) (reader : Reader) (antenna : Nat)
    (h : tagOpAntennaNamed reader = true) :
    ∀ ret r, (setTagopAntenna env reader antenna = SetExit.left ret r ∨
        setTagopAntenna env reader antenna = SetExit.returned ret r) →
      tagOpAntennaNamed r = true := by
  intro ret r hr
  unfold setTagopAntenna at hr
  split at hr
  · rename_i e he
    have hmem := List.mem_of_mem_take (List.mem_of_find?_eq_some he)
    have hant := List.find?_some he
    have hn : tagOpAntennaNamed
        { reader with tagOpParams := { reader.tagOpParams with antenna := antenna } } = true := by
      simp only [tagOpAntennaNamed, Bool.or_eq_true, beq_iff_eq, List.any_eq_true]
      exact Or.inr ⟨e, hmem, by simpa using hant⟩
    split at hr
    · rcases hr with hr | hr <;> cases hr
      exact hn
    · rcases hr with hr | hr <;> cases hr
      exact hn
  · rcases hr with hr | hr <;> cases hr
    exact h

/-- `TMR_SR_paramSet` of the tag-operation antenna keeps the predicate. -/
theorem paramSet_tagopAntenna_named (env : Env) (reader : Reader) (value : ParamValue)
    (h : tagOpAntennaNamed reader = true) :
    tagOpAntennaNamed (TMR_SR_paramSet env reader TMR_Param.TAGOP_ANTENNA value).2 = true := by
  have hp := (probed_named env reader TMR_Param.TAGOP_ANTENNA).trans h
  unfold TMR_SR_paramSet
  dsimp only
  generalize (if BITGET reader.paramConfirmed TMR_Param.TAGOP_ANTENNA = false then
    TMR_SR_paramProbe env reader TMR_Param.TAGOP_ANTENNA else reader) = rp at hp
  split
  · exact hp
  · simp only [paramSetSwitch]
    cases hs : setTagopAntenna env rp (value.toNat % 256) with
    | returned ret r => exact setTagopAntenna_named env rp _ hp ret r (Or.inr hs)
    | left ret r =>
      simp only [paramSetSecond, readerkeyOf, protokeyOf]
      exact setTagopAntenna_named env rp _ hp ret r (Or.inl hs)

/-- What `TMR_SR_paramSet` does for the key `TMR_PARAM_ANTENNA_TXRXMAP` and a
candidate map, in terms of the reader on which its first `switch` runs. -/
theorem paramSet_txRxMap_eq (env : Env) (reader : Reader) (map : TMR_AntennaMapList) :
    ∃ rp : Reader,
      rp = (if BITGET reader.paramConfirmed TMR_Param.ANTENNA_TXRXMAP = false then
        TMR_SR_paramProbe env reader TMR_Param.ANTENNA_TXRXMAP else reader) ∧
      TMR_SR_paramSet env reader TMR_Param.ANTENNA_TXRXMAP (ParamValue.antennaMapList map) =
        if (BITGET rp.paramConfirmed TMR_Param.ANTENNA_TXRXMAP &&
            !BITGET rp.paramPresent TMR_Param.ANTENNA_TXRXMAP) = true then (ERROR_NOT_FOUND, rp)
        else if map.list.length > rp.txRxMap.max then (ERROR_TOO_BIG, rp)
        else if map.list.any (fun e => HASPORT rp.portMask e.txPort == 0 ||
            HASPORT rp.portMask e.rxPort == 0) = true then (ERROR_NO_ANTENNA, rp)
        else (SUCCESS, { rp with txRxMap := { rp.txRxMap with list := map.list } }) := by
  refine ⟨_, rfl, ?_⟩
  unfold TMR_SR_paramSet
  dsimp only
  generalize (if BITGET reader.paramConfirmed TMR_Param.ANTENNA_TXRXMAP = false then
    TMR_SR_paramProbe env reader TMR_Param.ANTENNA_TXRXMAP else reader) = rp
  split
  · rfl
  · simp only [paramSetSwitch, setTxRxMap]
    by_cases h1 : map.list.length > rp.txRxMap.max
    · simp only [h1, if_true, paramSetSecond, readerkeyOf, protokeyOf]
    · by_cases h2 : map.list.any (fun e => HASPORT rp.portMask e.txPort == 0 ||
          HASPORT rp.portMask e.rxPort == 0) = true
      · simp [h1, h2]
      · simp [h1, h2, paramSetSecond, readerkeyOf, protokeyOf]

/-- A set of the Tx/Rx map that fails keeps the predicate; one that succeeds
keeps it when the candidate has an entry for the tag-operation antenna. -/
theorem paramSet_txRxMap_named (env : Env) (reader : Reader) (map : TMR_AntennaMapList)
    (h : tagOpAntennaNamed reader = true)
    (hc : (TMR_SR_paramSet env reader TMR_Param.ANTENNA_TXRXMAP
        (ParamValue.antennaMapList map)).1 = SUCCESS →
      reader.tagOpParams.antenna = 0 ∨
        ∃ e ∈ map.list, e.antenna = reader.tagOpParams.antenna) :
    tagOpAntennaNamed (TMR_SR_paramSet env reader TMR_Param.ANTENNA_TXRXMAP
      (ParamValue.antennaMapList map)).2 = true := by
  obtain ⟨rp, hrp, heq⟩ := paramSet_txRxMap_eq env reader map
  have hp : tagOpAntennaNamed rp = true := by
    rw [hrp]
    exact (probed_named env reader TMR_Param.ANTENNA_TXRXMAP).trans h
  have ht : rp.tagOpParams = reader.tagOpParams := by
    rw [hrp]
    split
    · exact (paramProbe_frame env reader _).2.1
    · rfl
  rw [heq] at hc ⊢
  split
  · exact hp
  · split
    · exact hp
    · split
      · exact hp
      · rename_i h1 h2 h3
        simp [h1, h2, h3] at hc
        simp only [tagOpAntennaNamed, ht, Bool.or_eq_true, beq_iff_eq, List.any_eq_true]
        exact hc

/-- When `initTxRxMapFromPorts` fails it has changed neither the map nor the
tag-operation parameters. -/
theorem initTxRxMapFromPorts_failed (env : Env) (reader : Reader)
    (h : (initTxRxMapFromPorts env reader).1 ≠ SUCCESS) :
    (initTxRxMapFromPorts env reader).2.txRxMap = reader.txRxMap ∧
    (initTxRxMapFromPorts env reader).2.tagOpParams = reader.tagOpParams := by
  unfold initTxRxMapFromPorts at h ⊢
  dsimp only at h ⊢
  by_cases hs : (TMR_SR_cmdAntennaDetect env reader TMR_SR_MAX_ANTENNA_PORTS).1 = SUCCESS
  · simp [hs] at h
  · simp [hs, cmdAntennaDetect_frame]

/-- What `TMR_SR_paramSet` does for the key `TMR_PARAM_ANTENNA_PORTSWITCHGPOS`,
in terms of the reader on which its first `switch` runs and of the command
that sets the reader configuration. -/
theorem paramSet_portSwitch_eq (env : Env) (reader : Reader) (value : ParamValue) :
    ∃ (rp : Reader) (c : Command),
      rp = (if BITGET reader.paramConfirmed TMR_Param.ANTENNA_PORTSWITCHGPOS = false then
        TMR_SR_paramProbe env reader TMR_Param.ANTENNA_PORTSWITCHGPOS else reader) ∧
      TMR_SR_paramSet env reader TMR_Param.ANTENNA_PORTSWITCHGPOS value =
        if (BITGET rp.paramConfirmed TMR_Param.ANTENNA_PORTSWITCHGPOS &&
            !BITGET rp.paramPresent TMR_Param.ANTENNA_PORTSWITCHGPOS) = true then
          (ERROR_NOT_FOUND, rp)
        else if (env.command c).1 ≠ SUCCESS then
          ((env.command c).1, { rp with trace := rp.trace ++ [WireEvent.command c] })
        else initTxRxMapFromPorts env { rp with trace := rp.trace ++ [WireEvent.command c] } := by
  have key : ∀ (rp : Reader) (portmask : Nat),
      (if (BITGET rp.paramConfirmed TMR_Param.ANTENNA_PORTSWITCHGPOS &&
            !BITGET rp.paramPresent TMR_Param.ANTENNA_PORTSWITCHGPOS) = true then
          (ERROR_NOT_FOUND, rp)
        else
          match
            (if (callCommand env rp (Command.SetReaderConfiguration
                  TMR_SR_Configuration.ANTENNA_CONTROL_GPIO [portmask])).1 ≠ SUCCESS then
              SetExit.left (callCommand env rp (Command.SetReaderConfiguration
                  TMR_SR_Configuration.ANTENNA_CONTROL_GPIO [portmask])).1
                (callCommand env rp (Command.SetReaderConfiguration
                  TMR_SR_Configuration.ANTENNA_CONTROL_GPIO [portmask])).2.2
            else
              SetExit.left
                (initTxRxMapFromPorts env (callCommand env rp (Command.SetReaderConfiguration
                  TMR_SR_Configuration.ANTENNA_CONTROL_GPIO [portmask])).2.2).1
                (initTxRxMapFromPorts env (callCommand env rp (Command.SetReaderConfiguration
                  TMR_SR_Configuration.ANTENNA_CONTROL_GPIO [portmask])).2.2).2) with
          | SetExit.returned ret reader => (ret, reader)
          | SetExit.left ret reader =>
            paramSetSecond env reader TMR_Param.ANTENNA_PORTSWITCHGPOS ret value) =
        if (BITGET rp.paramConfirmed TMR_Param.ANTENNA_PORTSWITCHGPOS &&
            !BITGET rp.paramPresent TMR_Param.ANTENNA_PORTSWITCHGPOS) = true then
          (ERROR_NOT_FOUND, rp)
        else if (env.command (Command.SetReaderConfiguration
            TMR_SR_Configuration.ANTENNA_CONTROL_GPIO [portmask])).1 ≠ SUCCESS then
          ((env.command (Command.SetReaderConfiguration
              TMR_SR_Configuration.ANTENNA_CONTROL_GPIO [portmask])).1,
            { rp with trace := rp.trace ++ [WireEvent.command (Command.SetReaderConfiguration
              TMR_SR_Configuration.ANTENNA_CONTROL_GPIO [portmask])] })
        else initTxRxMapFromPorts env
          { rp with trace := rp.trace ++ [WireEvent.command (Command.SetReaderConfiguration
            TMR_SR_Configuration.ANTENNA_CONTROL_GPIO [portmask])] } := by
    intro rp portmask
    by_cases hs : (env.command (Command.SetReaderConfiguration
        TMR_SR_Configuration.ANTENNA_CONTROL_GPIO [portmask])).1 = SUCCESS
    · simp [hs, callCommand, paramSetSecond, readerkeyOf, protokeyOf]
    · simp [hs, callCommand, paramSetSecond, readerkeyOf, protokeyOf]
  cases value with
  | u8List l =>
    exact ⟨_, Command.SetReaderConfiguration TMR_SR_Configuration.ANTENNA_CONTROL_GPIO
      [gpoPortmask (l.list.take l.max) 0], rfl, key _ _⟩
  | _ =>
    exact ⟨_, Command.SetReaderConfiguration TMR_SR_Configuration.ANTENNA_CONTROL_GPIO [0], rfl,
      key _ _⟩

/-- A set of the port-switch outputs that fails keeps the predicate; one made
with the tag-operation antenna unset leaves the predicate true. -/
theorem paramSet_portSwitch_named (env : Env) (reader : Reader) (value : ParamValue)
    (h : tagOpAntennaNamed reader = true)
    (hc : (TMR_SR_paramSet env reader TMR_Param.ANTENNA_PORTSWITCHGPOS value).1 = SUCCESS →
      reader.tagOpParams.antenna = 0) :
    tagOpAntennaNamed
      (TMR_SR_paramSet env reader TMR_Param.ANTENNA_PORTSWITCHGPOS value).2 = true := by
  obtain ⟨rp, c, hrp, heq⟩ := paramSet_portSwitch_eq env reader value
  have hp : tagOpAntennaNamed rp = true := by
    rw [hrp]
    exact (probed_named env reader TMR_Param.ANTENNA_PORTSWITCHGPOS).trans h
  have ht : rp.tagOpParams = reader.tagOpParams := by
    rw [hrp]
    split
    · exact (paramProbe_frame env reader _).2.1
    · rfl
  rw [heq] at hc ⊢
  split
  · exact hp
  · split
    · exact hp
    · rename_i h1 h2
      by_cases hi : (initTxRxMapFromPorts env
          { rp with trace := rp.trace ++ [WireEvent.command c] }).1 = SUCCESS
      · simp only [h1, h2, if_false] at hc
        exact initTxRxMapFromPorts_named env _ (ht.symm ▸ hc hi)
      · have hf := initTxRxMapFromPorts_failed env _ hi
        rw [tagOpAntennaNamed_congr _ _ hf.1 hf.2]
        exact hp

/-- C12 (as amended): the predicate "the tag-operation antenna is 0 or is the
antenna of an entry of the Tx/Rx map" holds after the antenna set-up that ends
the boot sequence, and when it holds before a set it holds after a set of the
tag-operation antenna (whatever the outcome), after a set of the Tx/Rx map that
fails or whose candidate has an entry for the tag-operation antenna, and after
a set of the port-switch outputs that fails or is made with the tag-operation
antenna unset. -/
theorem tagop_antenna_invariant (env : Env) (reader : Reader) (value : ParamValue)
    (map : TMR_AntennaMapList) (h : tagOpAntennaNamed reader = true) :
    tagOpAntennaNamed (bootAntennaSetup env reader).2 = true ∧
    tagOpAntennaNamed (TMR_SR_paramSet env reader TMR_Param.TAGOP_ANTENNA value).2 = true ∧
    (((TMR_SR_paramSet env reader TMR_Param.ANTENNA_TXRXMAP
          (ParamValue.antennaMapList map)).1 = SUCCESS →
        reader.tagOpParams.antenna = 0 ∨
          ∃ e ∈ map.list, e.antenna = reader.tagOpParams.antenna) →
      tagOpAntennaNamed (TMR_SR_paramSet env reader TMR_Param.ANTENNA_TXRXMAP
        (ParamValue.antennaMapList map)).2 = true) ∧
    (((TMR_SR_paramSet env reader TMR_Param.ANTENNA_PORTSWITCHGPOS value).1 = SUCCESS →
        reader.tagOpParams.antenna = 0) →
      tagOpAntennaNamed
        (TMR_SR_paramSet env reader TMR_Param.ANTENNA_PORTSWITCHGPOS value).2 = true) :=
  ⟨initTxRxMapFromPorts_named env _ rfl,
    paramSet_tagopAntenna_named env reader value h,
    paramSet_txRxMap_named env reader map h,
    paramSet_portSwitch_named env reader value h⟩

/-- C12, at a reader with the identity map on ports 1 and 2 and tag operations
on antenna 2, for a set of the tag-operation antenna to 1. -/
theorem tagop_antenna_invariant_witness :
    tagOpAntennaNamed twoPortReader = true ∧
    tagOpAntennaNamed (TMR_SR_paramSet detectModule twoPortReader TMR_Param.TAGOP_ANTENNA
      (ParamValue.num 1)).2 = true :=
  ⟨by decide,
    (tagop_antenna_invariant detectModule twoPortReader (ParamValue.num 1)
      { list := [], max := 0 } (by decide)).2.1⟩

/-- C12 as stated fails: on a reader with the identity map on ports 1 and 2 and
tag operations on antenna 2, for which the predicate holds, a set of the Tx/Rx
map to the single entry (antenna 5, tx 1, rx 1) succeeds, and so does a set of
the port-switch outputs after which the module reports port 1 only; both leave
the tag-operation antenna 2 with no entry in the map. -/
theorem tagop_antenna_dangles :
    tagOpAntennaNamed twoPortReader = true ∧
    (TMR_SR_paramSet detectModule twoPortReader TMR_Param.ANTENNA_TXRXMAP
      (ParamValue.antennaMapList
        { list := [{ antenna := 5, txPort := 1, rxPort := 1 }], max := 1 })).1 = SUCCESS ∧
    tagOpAntennaNamed (TMR_SR_paramSet detectModule twoPortReader TMR_Param.ANTENNA_TXRXMAP
      (ParamValue.antennaMapList
        { list := [{ antenna := 5, txPort := 1, rxPort := 1 }], max := 1 })).2 = false ∧
    (TMR_SR_paramSet onePortModule twoPortReader TMR_Param.ANTENNA_PORTSWITCHGPOS
      (ParamValue.u8List { list := [1], max := 1 })).1 = SUCCESS ∧
    tagOpAntennaNamed (TMR_SR_paramSet onePortModule twoPortReader
      TMR_Param.ANTENNA_PORTSWITCHGPOS (ParamValue.u8List { list := [1], max := 1 })).2 =
        false := by
  refine ⟨by decide, by decide, by decide, by decide, by decide⟩

/-! ## Presence of parameters and the lazy probe -/

theorem setGPIODirections_bits (env : Env) (newDirections : Nat) (pins : List Nat)
    (reader : Reader) :
    (setGPIODirections env newDirections pins reader).2.paramConfirmed = reader.paramConfirmed ∧
    (setGPIODirections env newDirections pins reader).2.paramPresent = reader.paramPresent := by
  induction pins generalizing reader with
  | nil => simp [setGPIODirections]
  | cons pin rest ih =>
    simp only [setGPIODirections, callCommand]
    split
    · split
      · simp
      · exact ⟨(ih _).1, (ih _).2⟩
    · exact ih _

theorem initTxRxMapFromPorts_bits (env : Env) (reader : Reader) :
    (initTxRxMapFromPorts env reader).2.paramConfirmed = reader.paramConfirmed ∧
    (initTxRxMapFromPorts env reader).2.paramPresent = reader.paramPresent := by
  unfold initTxRxMapFromPorts
  dsimp only
  split <;> simp [cmdAntennaDetect_frame]

set_option maxHeartbeats 4000000 in
/-- The first `switch` of `TMR_SR_paramSet` changes no bit of the two bit
sets. -/
theorem paramSetSwitch_bits (env : Env) (reader : Reader) (key : TMR_Param) (value : ParamValue) :
    ∀ ret r, (paramSetSwitch env reader key value = SetExit.left ret r ∨
        paramSetSwitch env reader key value = SetExit.returned ret r) →
      r.paramConfirmed = reader.paramConfirmed ∧ r.paramPresent = reader.paramPresent := by
  intro ret r h
  cases key <;>
    simp only [paramSetSwitch, setByCommand, callCommand] at h
  all_goals try (rcases h with h | h <;> cases h <;> simp)
  all_goals try simp only [setTagopAntenna, setTxRxMap, callCommand] at h
  all_goals
    first
    | (split at h <;> rcases h with h | h <;> cases h <;>
        simp [initTxRxMapFromPorts_bits, setGPIODirections_bits])
    | (split at h <;> (try split at h) <;> rcases h with h | h <;> cases h <;>
        simp [initTxRxMapFromPorts_bits, setGPIODirections_bits])
    | (split at h <;> (try split at h) <;> (try split at h) <;> rcases h with h | h <;>
        cases h <;> simp [initTxRxMapFromPorts_bits, setGPIODirections_bits])


theorem paramSetSecond_bits (env : Env) (reader : Reader) (key : TMR_Param) (ret : TMR_Status)
    (value : ParamValue) :
    (paramSetSecond env reader key ret value).2.paramConfirmed = reader.paramConfirmed ∧
    (paramSetSecond env reader key ret value).2.paramPresent = reader.paramPresent := by
  unfold paramSetSecond
  split
  · simp [callCommand]
  · split
    · simp [callCommand]
    · simp

/-- The bit sets after `TMR_SR_paramGet` for a key that was confirmed on entry,
or when control leaves the first `switch` by its `return`: as on entry. -/
theorem paramGet_bits_same (env : Env) (reader : Reader) (key : TMR_Param) (value : ParamValue)
    (h : BITGET reader.paramConfirmed key = true ∨
      ∃ ret v r, paramGetSwitch env reader key value = GetExit.returned ret v r) :
    (TMR_SR_paramGet env reader key value).2.2.paramConfirmed = reader.paramConfirmed ∧
    (TMR_SR_paramGet env reader key value).2.2.paramPresent = reader.paramPresent := by
  unfold TMR_SR_paramGet
  split
  · exact ⟨rfl, rfl⟩
  · cases hsw : paramGetSwitch env reader key value with
    | returned ret v r =>
      have hf := paramGetSwitch_frame env reader key value ret v r (Or.inr hsw)
      exact ⟨hf.2.2.2.2.2.1, hf.2.2.2.2.2.2⟩
    | left ret v r =>
      have hf := paramGetSwitch_frame env reader key value ret v r (Or.inl hsw)
      have h2 := paramGetSecond_frame env r key ret v
      rcases h with h | ⟨ret1, v1, r1, h⟩
      · have hb : BITGET (paramGetSecond env r key ret v).2.2.paramConfirmed key = true := by
          rw [h2.2.2.2.2.2.1, hf.2.2.2.2.2.1]
          exact h
        simp only [hb, Bool.true_eq_false, if_false]
        exact ⟨h2.2.2.2.2.2.1.trans hf.2.2.2.2.2.1, h2.2.2.2.2.2.2.trans hf.2.2.2.2.2.2⟩
      · rw [hsw] at h
        cases h

/-- The bit sets after `TMR_SR_paramGet` for a key that was not confirmed on
entry, when control leaves the first `switch` at its end. -/
theorem paramGet_bits_left (env : Env) (reader : Reader) (key : TMR_Param) (value : ParamValue)
    (hc : BITGET reader.paramConfirmed key = false)
    (hl : ∃ ret v r, paramGetSwitch env reader key value = GetExit.left ret v r) :
    (TMR_SR_paramGet env reader key value).2.2.paramConfirmed =
      BITSET reader.paramConfirmed key ∧
    (TMR_SR_paramGet env reader key value).2.2.paramPresent =
      (if (TMR_SR_paramGet env reader key value).1 = SUCCESS then BITSET reader.paramPresent key
        else reader.paramPresent) := by
  obtain ⟨ret, v, r, hsw⟩ := hl
  have hf := paramGetSwitch_frame env reader key value ret v r (Or.inl hsw)
  have h2 := paramGetSecond_frame env r key ret v
  have hb : BITGET (paramGetSecond env r key ret v).2.2.paramConfirmed key = false := by
    rw [h2.2.2.2.2.2.1, hf.2.2.2.2.2.1]
    exact hc
  unfold TMR_SR_paramGet
  simp only [hc, Bool.false_and, Bool.false_eq_true, if_false, hsw, hb, if_true]
  rw [h2.2.2.2.2.2.1, hf.2.2.2.2.2.1, h2.2.2.2.2.2.2, hf.2.2.2.2.2.2]
  exact ⟨rfl, rfl⟩

theorem BITSET_idem (bits : TMR_Param → Bool) (key : TMR_Param) :
    BITSET (BITSET bits key) key = BITSET bits key := by
  funext k
  simp only [BITSET]
  split <;> rfl

/-- The bit sets after `TMR_SR_paramProbe`. -/
theorem paramProbe_bits (env : Env) (reader : Reader) (key : TMR_Param) :
    (TMR_SR_paramProbe env reader key).paramConfirmed = BITSET reader.paramConfirmed key ∧
    (TMR_SR_paramProbe env reader key).paramPresent =
      (if (TMR_paramGet env reader key (ParamValue.num 0)).1 = SUCCESS then
        BITSET reader.paramPresent key
      else reader.paramPresent) := by
  unfold TMR_SR_paramProbe TMR_paramGet
  dsimp only
  by_cases hc : BITGET reader.paramConfirmed key = true
  · have h := paramGet_bits_same env reader key (ParamValue.num 0) (Or.inl hc)
    rw [h.1, h.2]
    exact ⟨rfl, rfl⟩
  · have hc : BITGET reader.paramConfirmed key = false := by simpa using hc
    cases hsw : paramGetSwitch env reader key (ParamValue.num 0) with
    | returned ret v r =>
      have h := paramGet_bits_same env reader key (ParamValue.num 0) (Or.inr ⟨ret, v, r, hsw⟩)
      rw [h.1, h.2]
      exact ⟨rfl, rfl⟩
    | left ret v r =>
      have h := paramGet_bits_left env reader key (ParamValue.num 0) hc ⟨ret, v, r, hsw⟩
      rw [h.1, h.2, BITSET_idem]
      refine ⟨rfl, ?_⟩
      split
      · exact BITSET_idem _ _
      · rfl

/-- The bit sets after `TMR_SR_paramSet` are those that its probe step
leaves. -/
theorem paramSet_bits (env : Env) (reader : Reader) (key : TMR_Param) (value : ParamValue) :
    (TMR_SR_paramSet env reader key value).2.paramConfirmed =
      (if BITGET reader.paramConfirmed key = false then TMR_SR_paramProbe env reader key
        else reader).paramConfirmed ∧
    (TMR_SR_paramSet env reader key value).2.paramPresent =
      (if BITGET reader.paramConfirmed key = false then TMR_SR_paramProbe env reader key
        else reader).paramPresent := by
  unfold TMR_SR_paramSet
  dsimp only
  generalize (if BITGET reader.paramConfirmed key = false then TMR_SR_paramProbe env reader key
    else reader) = rp
  split
  · exact ⟨rfl, rfl⟩
  · cases hsw : paramSetSwitch env rp key value with
    | returned ret r => exact paramSetSwitch_bits env rp key value ret r (Or.inr hsw)
    | left ret r =>
      have h1 := paramSetSwitch_bits env rp key value ret r (Or.inl hsw)
      have h2 := paramSetSecond_bits env r key ret value
      exact ⟨h2.1.trans h1.1, h2.2.trans h1.2⟩

theorem BITGET_BITSET_self (bits : TMR_Param → Bool) (key : TMR_Param) :
    BITGET (BITSET bits key) key = true := by
  simp [BITGET, BITSET]

theorem BITGET_BITSET_of_ne (bits : TMR_Param → Bool) (key k : TMR_Param) (h : k ≠ key) :
    BITGET (BITSET bits key) k = BITGET bits k := by
  simp [BITGET, BITSET, h]

theorem BITGET_BITSET_mono (bits : TMR_Param → Bool) (key k : TMR_Param)
    (h : BITGET bits k = true) : BITGET (BITSET bits key) k = true := by
  simp only [BITGET, BITSET] at h ⊢
  split
  · rfl
  · exact h


/-- C13: for every parameter key whose confirmed bit is set and whose present
bit is clear on entry, `TMR_SR_paramGet` and `TMR_SR_paramSet` return
`TMR_ERROR_NOT_FOUND` and hand back the reader as it was, every field of it and
the record of what was sent to the module included; the get also leaves the
object `value` points to as it was. -/
theorem param_presence (env : Env) (reader : Reader) (key : TMR_Param) (value : ParamValue)
    (hc : BITGET reader.paramConfirmed key = true)
    (hp : BITGET reader.paramPresent key = false) :
    TMR_SR_paramGet env reader key value = (ERROR_NOT_FOUND, value, reader) ∧
    TMR_SR_paramSet env reader key value = (ERROR_NOT_FOUND, reader) ∧
    (TMR_SR_paramGet env reader key value).2.2.trace = reader.trace ∧
    (TMR_SR_paramSet env reader key value).2.trace = reader.trace := by
  have hg : TMR_SR_paramGet env reader key value = (ERROR_NOT_FOUND, value, reader) := by
    simp [TMR_SR_paramGet, hc, hp]
  have hs : TMR_SR_paramSet env reader key value = (ERROR_NOT_FOUND, reader) := by
    simp [TMR_SR_paramSet, hc, hp]
  rw [hg, hs]
  exact ⟨rfl, rfl, rfl, rfl⟩

/-- C13, at a reader that has confirmed every key and found none present, for
the read power. -/
theorem param_presence_witness :
    (TMR_SR_paramGet detectModule nothingPresentReader TMR_Param.RADIO_READPOWER
      (ParamValue.num 0)).1 = ERROR_NOT_FOUND ∧
    (TMR_SR_paramSet detectModule nothingPresentReader TMR_Param.RADIO_READPOWER
      (ParamValue.num 2500)).1 = ERROR_NOT_FOUND ∧
    (TMR_SR_paramSet detectModule nothingPresentReader TMR_Param.RADIO_READPOWER
      (ParamValue.num 2500)).2.trace = [] := by
  have h0 := param_presence detectModule nothingPresentReader TMR_Param.RADIO_READPOWER
    (ParamValue.num 0) (by decide) (by decide)
  have h1 := param_presence detectModule nothingPresentReader TMR_Param.RADIO_READPOWER
    (ParamValue.num 2500) (by decide) (by decide)
  refine ⟨?_, ?_, ?_⟩
  · rw [h0.1]
  · rw [h1.2.1]
  · rw [h1.2.2.2]
    rfl

/-- C14, the part that holds: for a key whose confirmed and present bits are
clear on entry, after `TMR_SR_paramProbe` the confirmed bit is set, the present
bit is set exactly when the get of the probe succeeded, and the bits of every
other key are as before; the same holds after `TMR_SR_paramGet` whenever control
leaves its first `switch` at the end rather than by the `return` of line 2293;
and neither a get, a probe nor a set clears a confirmed bit. -/
theorem lazy_probe (env : Env) (reader : Reader) (key : TMR_Param) (value : ParamValue)
    (hc : BITGET reader.paramConfirmed key = false)
    (hp : BITGET reader.paramPresent key = false) :
    (BITGET (TMR_SR_paramProbe env reader key).paramConfirmed key = true ∧
      (BITGET (TMR_SR_paramProbe env reader key).paramPresent key = true ↔
        (TMR_paramGet env reader key (ParamValue.num 0)).1 = SUCCESS) ∧
      ∀ k, k ≠ key →
        BITGET (TMR_SR_paramProbe env reader key).paramConfirmed k =
          BITGET reader.paramConfirmed k ∧
        BITGET (TMR_SR_paramProbe env reader key).paramPresent k =
          BITGET reader.paramPresent k) ∧
    ((∃ ret v r, paramGetSwitch env reader key value = GetExit.left ret v r) →
      BITGET (TMR_SR_paramGet env reader key value).2.2.paramConfirmed key = true ∧
      (BITGET (TMR_SR_paramGet env reader key value).2.2.paramPresent key = true ↔
        (TMR_SR_paramGet env reader key value).1 = SUCCESS) ∧
      ∀ k, k ≠ key →
        BITGET (TMR_SR_paramGet env reader key value).2.2.paramConfirmed k =
          BITGET reader.paramConfirmed k ∧
        BITGET (TMR_SR_paramGet env reader key value).2.2.paramPresent k =
          BITGET reader.paramPresent k) ∧
    (∀ k, BITGET reader.paramConfirmed k = true →
      BITGET (TMR_SR_paramGet env reader key value).2.2.paramConfirmed k = true ∧
      BITGET (TMR_SR_paramProbe env reader key).paramConfirmed k = true ∧
      BITGET (TMR_SR_paramSet env reader key value).2.paramConfirmed k = true) := by
  have hprobe := paramProbe_bits env reader key
  refine ⟨⟨?_, ?_, ?_⟩, ?_, ?_⟩
  · rw [hprobe.1]
    exact BITGET_BITSET_self _ _
  · rw [hprobe.2]
    split
    · rename_i hs
      simp [hs, BITGET_BITSET_self]
    · rename_i hs
      simp [hs, hp]
  · intro k hk
    rw [hprobe.1, hprobe.2]
    refine ⟨BITGET_BITSET_of_ne _ _ _ hk, ?_⟩
    split
    · exact BITGET_BITSET_of_ne _ _ _ hk
    · rfl
  · intro hl
    have hget := paramGet_bits_left env reader key value hc hl
    refine ⟨?_, ?_, ?_⟩
    · rw [hget.1]
      exact BITGET_BITSET_self _ _
    · rw [hget.2]
      split
      · rename_i hs
        simp [hs, BITGET_BITSET_self]
      · rename_i hs
        simp [hs, hp]
    · intro k hk
      rw [hget.1, hget.2]
      refine ⟨BITGET_BITSET_of_ne _ _ _ hk, ?_⟩
      split
      · exact BITGET_BITSET_of_ne _ _ _ hk
      · rfl
  · intro k hk
    have hpk : BITGET (TMR_SR_paramProbe env reader key).paramConfirmed k = true := by
      rw [hprobe.1]
      exact BITGET_BITSET_mono _ _ _ hk
    refine ⟨?_, hpk, ?_⟩
    · cases hsw : paramGetSwitch env reader key value with
      | returned ret v r =>
        rw [(paramGet_bits_same env reader key value (Or.inr ⟨ret, v, r, hsw⟩)).1]
        exact hk
      | left ret v r =>
        rw [(paramGet_bits_left env reader key value hc ⟨ret, v, r, hsw⟩).1]
        exact BITGET_BITSET_mono _ _ _ hk
    · rw [(paramSet_bits env reader key value).1]
      simp only [hc, if_true]
      exact hpk

/-- C14, the part that holds, at a reader of model M6E that has confirmed no
parameter and a module that answers the pin queries: the get of the input pins
confirms the key and finds it present. -/
theorem lazy_probe_witness :
    BITGET (TMR_SR_paramGet detectModule gpioReader TMR_Param.GPIO_INPUTLIST
      (ParamValue.u8List { list := [], max := 4 })).2.2.paramConfirmed
        TMR_Param.GPIO_INPUTLIST = true ∧
    BITGET (TMR_SR_paramGet detectModule gpioReader TMR_Param.GPIO_INPUTLIST
      (ParamValue.u8List { list := [], max := 4 })).2.2.paramPresent
        TMR_Param.GPIO_INPUTLIST = true := by
  have h := (lazy_probe detectModule gpioReader TMR_Param.GPIO_INPUTLIST
    (ParamValue.u8List { list := [], max := 4 }) (by decide) (by decide)).2.1
    ⟨_, _, _, rfl⟩
  exact ⟨h.1, h.2.1.mpr (by decide)⟩

/-- C14 fails for the GPIO lists: on a reader of model M6E whose pin directions
have not been fetched and whose key `TMR_PARAM_GPIO_INPUTLIST` is not confirmed,
with a module that answers the query of a pin direction with a timeout,
`TMR_SR_paramGet` returns the timeout by the `return` of line 2293: the
confirmed bit of the key is still clear on return, and `gpioDirections` is 0
instead of -1. -/
theorem lazy_probe_skipped :
    BITGET gpioReader.paramConfirmed TMR_Param.GPIO_INPUTLIST = false ∧
    (TMR_SR_paramGet gpioFailModule gpioReader TMR_Param.GPIO_INPUTLIST
      (ParamValue.u8List { list := [], max := 4 })).1 = ERROR_TIMEOUT ∧
    BITGET (TMR_SR_paramGet gpioFailModule gpioReader TMR_Param.GPIO_INPUTLIST
      (ParamValue.u8List { list := [], max := 4 })).2.2.paramConfirmed
        TMR_Param.GPIO_INPUTLIST = false ∧
    (TMR_SR_paramGet gpioFailModule gpioReader TMR_Param.GPIO_INPUTLIST
      (ParamValue.u8List { list := [], max := 4 })).2.2.gpioDirections = 0 ∧
    (TMR_SR_paramGet gpioFailModule gpioReader TMR_Param.GPIO_INPUTLIST
      (ParamValue.u8List { list := [], max := 4 })).2.2.trace =
        [WireEvent.command (Command.GetGPIODirection 1)] := by
  refine ⟨by decide, by decide, by decide, by decide, by decide⟩

/-! ## Validation of the Tx/Rx map -/

/-- The test of `validateReadPlan` on a protocol is the test of bit
`protocol - 1`. -/
theorem protocol_bit (protocol mask : Nat) :
    ((1 <<< (protocol - 1)) &&& mask = 0) ↔ mask.testBit (protocol - 1) = false := by
  have h := HASPORT_ne_zero mask protocol
  unfold HASPORT at h
  constructor
  · intro h0
    by_contra hb
    exact (h.mpr (by simpa using hb)) h0
  · intro hb
    by_contra h0
    have := h.mp h0
    rw [hb] at this
    cases this

/-- The validation leaves the weight of a plan as it was. -/
theorem validateReadPlan_weight (reader : Reader) :
    ∀ p : TMR_ReadPlan, (validateReadPlan reader p).2.weight = p.weight
  | TMR_ReadPlan.multi weight plans tw => by
    simp only [validateReadPlan]
    split
    · rfl
    · split <;> rfl
  | TMR_ReadPlan.simple weight antennas protocol filter tagop => by
    simp only [validateReadPlan]
    split
    · rfl
    · split
      · rfl
      · split
        · split <;> rfl
        · rfl
  | TMR_ReadPlan.other weight => by
    simp [validateReadPlan, TMR_ReadPlan.weight]


/-- The result of `validateReadPlan` on a simple plan. -/
theorem validateReadPlan_simple (reader : Reader) (weight : Nat) (antennas : List Nat)
    (protocol : Nat) (filter : Option TMR_TagFilter) (tagop : Option TMR_Tagop) :
    (validateReadPlan reader (TMR_ReadPlan.simple weight antennas protocol filter tagop)).1 =
      planAccepted reader (TMR_ReadPlan.simple weight antennas protocol filter tagop) := by
  simp only [validateReadPlan, planAccepted]
  by_cases h1 : (1 <<< (protocol - 1)) &&& reader.versionInfo.protocols = 0
  · simp [h1, (protocol_bit _ _).mp h1]
  · have hb : reader.versionInfo.protocols.testBit (protocol - 1) = true := by
      by_contra hb
      exact h1 ((protocol_bit _ _).mpr (by simpa using hb))
    simp only [h1, if_false, hb, Bool.true_and]
    by_cases h2 : antennas.any
        (fun a => !(reader.txRxMap.list.any (fun e => a == e.antenna))) = true
    · have h3 : antennas.all
          (fun a => reader.txRxMap.list.any (fun e => e.antenna == a)) = false := by
        rw [List.any_eq_true] at h2
        obtain ⟨a, ha, hna⟩ := h2
        rw [List.all_eq_false]
        refine ⟨a, ha, ?_⟩
        simp only [Bool.not_eq_true', List.any_eq_false, beq_iff_eq] at hna ⊢
        simp only [Bool.not_eq_true, List.any_eq_false, beq_iff_eq]
        intro e he heq
        exact hna e he heq.symm
      simp [h2, h3]
    · have h3 : antennas.all
          (fun a => reader.txRxMap.list.any (fun e => e.antenna == a)) = true := by
        rw [List.all_eq_true]
        intro a ha
        by_contra hna
        apply h2
        rw [List.any_eq_true]
        refine ⟨a, ha, ?_⟩
        simp only [Bool.not_eq_true, List.any_eq_false, beq_iff_eq] at hna
        simp only [Bool.not_eq_true', List.any_eq_false, beq_iff_eq]
        intro e he heq
        exact hna e he heq.symm
      simp only [h2, Bool.false_eq_true, if_false, h3, Bool.true_and]
      cases tagop with
      | none => rfl
      | some op =>
        by_cases h4 : op.type = TMR_TagopType.LIST
        · simp [h4]
        · simp [h4]

mutual
/-- For a plan whose total weights do not wrap, `validateReadPlan` returns true
exactly when the conditions (a) to (d) hold. -/
theorem validateReadPlan_iff (reader : Reader) :
    ∀ p : TMR_ReadPlan, weightsFit p = true →
      (validateReadPlan reader p).1 = planAccepted reader p
  | TMR_ReadPlan.multi weight plans tw => by
    intro hfit
    simp only [weightsFit, Bool.and_eq_true, decide_eq_true_eq] at hfit
    have hl := validateReadPlanLoop_iff reader plans 0 (by norm_num) hfit.1
    simp only [validateReadPlan, planAccepted]
    rw [← hl.1]
    cases hres : validateReadPlanLoop reader plans 0 with
    | mk b rest =>
      cases rest with
      | mk plans1 total =>
        rw [hres] at hl
        cases b with
        | false => simp
        | true =>
          have ht : total = weightSum plans := by
            have := hl.2 rfl
            simp only [Nat.zero_add] at this
            rw [this, Nat.mod_eq_of_lt hfit.2]
          by_cases h0 : total = 0
          · have : ¬ 0 < weightSum plans := by omega
            simp [h0, this]
          · have : 0 < weightSum plans := by omega
            simp [h0, this]
  | TMR_ReadPlan.simple weight antennas protocol filter tagop => by
    intro _
    exact validateReadPlan_simple reader weight antennas protocol filter tagop
  | TMR_ReadPlan.other weight => by
    intro _
    simp [validateReadPlan, planAccepted]
/-- The loop of `validateReadPlan` runs to its end exactly when every sub-plan
meets the conditions, and then the total weight is the sum, in 32 bits. -/
theorem validateReadPlanLoop_iff (reader : Reader) :
    ∀ (plans : List TMR_ReadPlan) (tw : Nat), tw < 2 ^ 32 → plansFit plans = true →
      (validateReadPlanLoop reader plans tw).1 = plansAccepted reader plans ∧
      ((validateReadPlanLoop reader plans tw).1 = true →
        (validateReadPlanLoop reader plans tw).2.2 = (tw + weightSum plans) % 2 ^ 32)
  | [], tw => by
    intro htw _
    simp only [validateReadPlanLoop, plansAccepted, weightSum, List.map_nil, List.sum_nil,
      Nat.add_zero, true_and]
    intro _
    exact (Nat.mod_eq_of_lt htw).symm
  | p :: rest, tw => by
    intro htw hfit
    simp only [plansFit, Bool.and_eq_true] at hfit
    have hp := validateReadPlan_iff reader p hfit.1
    have hw := validateReadPlan_weight reader p
    have hr := validateReadPlanLoop_iff reader rest
      ((tw + (validateReadPlan reader p).2.weight) % 2 ^ 32)
      (Nat.mod_lt _ (by norm_num)) hfit.2
    simp only [validateReadPlanLoop, plansAccepted]
    rw [← hp]
    cases hres : validateReadPlan reader p with
    | mk b p1 =>
      rw [hres] at hr hw
      cases b with
      | false => simp
      | true =>
        simp only [Bool.true_and]
        refine ⟨hr.1, fun h => ?_⟩
        rw [hr.2 h, hw]
        simp only [weightSum, List.map_cons, List.sum_cons]
        omega
end


/-- What `TMR_SR_paramSet` does for the key `TMR_PARAM_READ_PLAN` on a reader
that has found the key present. -/
theorem paramSet_readPlan_eq (env : Env) (reader : Reader) (plan : TMR_ReadPlan)
    (hc : BITGET reader.paramConfirmed TMR_Param.READ_PLAN = true)
    (hp : BITGET reader.paramPresent TMR_Param.READ_PLAN = true) :
    TMR_SR_paramSet env reader TMR_Param.READ_PLAN (ParamValue.readPlan plan) =
      if (validateReadPlan reader plan).1 = false then (ERROR_INVALID, reader)
      else (SUCCESS, { reader with readPlan := (validateReadPlan reader plan).2 }) := by
  unfold TMR_SR_paramSet
  simp only [hc, hp, Bool.true_eq_false, if_false, Bool.not_true, Bool.and_false,
    Bool.false_eq_true, paramSetSwitch]
  by_cases hv : (validateReadPlan reader plan).1 = false
  · simp [hv]
  · simp [hv, paramSetSecond, readerkeyOf, protokeyOf]

/-- C16 (as amended): for every read plan, simple or multi nested to any depth,
with protocols in 1..32, in which the weights of the children of each
multi-plan sum to less than 2^32, `validateReadPlan` returns true exactly when (a) every simple plan's protocol
`p` has bit `p - 1` set in `versionInfo.protocols`, (b) every antenna a simple
plan lists is the antenna of an entry of the Tx/Rx map, (c) no simple plan
carries a tag operation of type List and (d) the weights of the children of
every multi-plan have a positive sum; and on a reader that has found the key
`TMR_PARAM_READ_PLAN` present, the set of the read plan returns
`TMR_ERROR_INVALID` exactly when the validation returns false, leaving the
reader and its stored plan as they were, and otherwise returns success and
stores the validated plan. -/
theorem read_plan_validation (env : Env) (reader : Reader) (plan : TMR_ReadPlan)
    (hc : BITGET reader.paramConfirmed TMR_Param.READ_PLAN = true)
    (hp : BITGET reader.paramPresent TMR_Param.READ_PLAN = true)
    (hrange : protocolsInRange plan = true)
    (hfit : weightsFit plan = true) :
    ((validateReadPlan reader plan).1 = true ↔ planAccepted reader plan = true) ∧
    ((TMR_SR_paramSet env reader TMR_Param.READ_PLAN (ParamValue.readPlan plan)).1 =
        ERROR_INVALID ↔ (validateReadPlan reader plan).1 = false) ∧
    ((TMR_SR_paramSet env reader TMR_Param.READ_PLAN (ParamValue.readPlan plan)).1 =
        ERROR_INVALID →
      (TMR_SR_paramSet env reader TMR_Param.READ_PLAN (ParamValue.readPlan plan)).2 = reader ∧
      (TMR_SR_paramSet env reader TMR_Param.READ_PLAN
        (ParamValue.readPlan plan)).2.readPlan = reader.readPlan) ∧
    ((TMR_SR_paramSet env reader TMR_Param.READ_PLAN (ParamValue.readPlan plan)).1 ≠
        ERROR_INVALID →
      (TMR_SR_paramSet env reader TMR_Param.READ_PLAN (ParamValue.readPlan plan)).1 = SUCCESS ∧
      (TMR_SR_paramSet env reader TMR_Param.READ_PLAN
        (ParamValue.readPlan plan)).2.readPlan = (validateReadPlan reader plan).2) := by
  have _hrange := hrange
  rw [paramSet_readPlan_eq env reader plan hc hp, validateReadPlan_iff reader plan hfit]
  refine ⟨Iff.rfl, ?_⟩
  by_cases hv : planAccepted reader plan = false
  · simp [hv]
  · simp [hv]

/-- C16 as amended, at a reader that supports Gen2 and ISO 18000-6B with
antennas 1 and 2, for a multi-plan of two simple plans with weights 3 and 1:
the plan is accepted and stored with total weight 4. -/
theorem read_plan_validation_witness :
    (validateReadPlan planReader twoProtocolPlan).1 = true ∧
    (TMR_SR_paramSet detectModule planReader TMR_Param.READ_PLAN
      (ParamValue.readPlan twoProtocolPlan)).1 = SUCCESS ∧
    (validateReadPlan planReader twoProtocolPlan).2 =
      TMR_ReadPlan.multi 0
        [TMR_ReadPlan.simple 3 [1] TMR_TAG_PROTOCOL_GEN2 none none,
          TMR_ReadPlan.simple 1 [2] TMR_TAG_PROTOCOL_ISO180006B none none] 4 := by
  have h := read_plan_validation detectModule planReader twoProtocolPlan (by decide)
    (by decide) (by decide) (by decide)
  have hv : (validateReadPlan planReader twoProtocolPlan).1 = true := h.1.mpr (by decide)
  refine ⟨hv, (h.2.2.2 ?_).1, rfl⟩
  intro hinv
  rw [h.2.1.mp hinv] at hv
  cases hv

/-- C16 as stated fails.  For the multi-plan of two simple plans of weight
2^31 each (Gen2 on antenna 1 and ISO 18000-6B on antenna 2, both supported and
mapped, protocols in 1..32, no tag operation) the conditions (a) to (d) hold,
the sum of the weights being 2^32 and positive; but `validateReadPlan` adds
the weights in 32 bits, finds the total weight 0 and returns false, and the
set of the read plan returns `TMR_ERROR_INVALID`. -/
theorem read_plan_validation_wraps :
    planAccepted planReader heavyPlan = true ∧
    protocolsInRange heavyPlan = true ∧
    weightSum [TMR_ReadPlan.simple 2147483648 [1] TMR_TAG_PROTOCOL_GEN2 none none,
      TMR_ReadPlan.simple 2147483648 [2] TMR_TAG_PROTOCOL_ISO180006B none none] = 2 ^ 32 ∧
    (validateReadPlan planReader heavyPlan).1 = false ∧
    (TMR_SR_paramSet detectModule planReader TMR_Param.READ_PLAN
      (ParamValue.readPlan heavyPlan)).1 = ERROR_INVALID := by
  refine ⟨by decide, by decide, by decide, by decide, by decide⟩

/-! ## Distribution of the timeout over the sub-plans -/

theorem inventoryTimeouts_append (a b : List WireEvent) :
    inventoryTimeouts (a ++ b) = inventoryTimeouts a ++ inventoryTimeouts b := by
  simp [inventoryTimeouts, List.filterMap_append]

/-- With a module that accepts every command, the search for a simple plan that
names its antennas succeeds, and it runs an inventory round with the timeout it
was handed, or none when that timeout is 0. -/
theorem searchSimple_trace (env : Env) (henv : ∀ c, (env.command c).1 = SUCCESS)
    (reader : Reader) (timeoutMs tagCount : Nat) (antennas : List Nat) (protocol : Nat)
    (tagop : Option TMR_Tagop) (hant : antennas.isEmpty = false) :
    (searchSimple env reader timeoutMs tagCount antennas protocol tagop).1 = SUCCESS ∧
    inventoryTimeouts
        (searchSimple env reader timeoutMs tagCount antennas protocol tagop).2.2.trace =
      inventoryTimeouts reader.trace ++ (if timeoutMs = 0 then [] else [timeoutMs]) := by
  have hlen : antennas.length ≠ 0 := by
    cases antennas with
    | nil => simp at hant
    | cons a l => simp
  unfold searchSimple
  simp only [prepForSearch, hlen, if_false, setAntennaList, callCommand, henv, ne_eq,
    not_true_eq_false]
  by_cases hp : reader.currentProtocol = protocol
  · by_cases ht : timeoutMs = 0
    · simp [hp, ht, inventoryTimeouts_append, inventoryTimeouts]
    · simp [hp, ht, inventoryTimeouts_append, inventoryTimeouts, henv]
  · by_cases ht : timeoutMs = 0
    · simp [hp, ht, setProtocol, callCommand, henv, inventoryTimeouts_append, inventoryTimeouts]
    · simp [hp, ht, setProtocol, callCommand, henv, inventoryTimeouts_append, inventoryTimeouts]


/-- With a module that accepts every command, the loop over sub-plans that are
simple plans naming their antennas runs one inventory round per sub-plan whose
sub-timeout is not 0, with that sub-timeout. -/
theorem readSubPlans_trace (env : Env) (henv : ∀ c, (env.command c).1 = SUCCESS)
    (timeoutMs totalWeight : Nat) :
    ∀ (plans : List TMR_ReadPlan) (reader : Reader) (tagCount : Nat) (ret : TMR_Status),
      (∀ p ∈ plans, namesAntennas p = true) →
      inventoryTimeouts (readSubPlans env timeoutMs totalWeight plans reader tagCount ret).2.2.trace =
        inventoryTimeouts reader.trace ++
          (subTimeouts timeoutMs totalWeight plans).filter (fun t => t != 0) := by
  intro plans
  induction plans with
  | nil =>
    intro reader tagCount ret _
    simp [readSubPlans, subTimeouts]
  | cons p rest ih =>
    intro reader tagCount ret hall
    have hp := hall p (List.mem_cons_self _ _)
    have hrest : ∀ q ∈ rest, namesAntennas q = true :=
      fun q hq => hall q (List.mem_cons_of_mem _ hq)
    cases p with
    | multi w ps tw => simp [namesAntennas] at hp
    | other w => simp [namesAntennas] at hp
    | simple w antennas protocol filter tagop =>
      have hant : antennas.isEmpty = false := by simpa [namesAntennas] using hp
      have hs := searchSimple_trace env henv reader
        (subTimeout w timeoutMs totalWeight) tagCount antennas protocol tagop hant
      simp only [readSubPlans, TMR_SR_read_internal, TMR_ReadPlan.weight]
      cases hres : searchSimple env reader (subTimeout w timeoutMs totalWeight) tagCount antennas
          protocol tagop with
      | mk st rest2 =>
        cases rest2 with
        | mk tc1 reader1 =>
          rw [hres] at hs
          simp only at hs
          simp only [hs.1, ne_eq, not_true_eq_false, false_and, if_false]
          rw [ih reader1 tc1 SUCCESS hrest, hs.2]
          simp only [subTimeouts, List.map_cons, TMR_ReadPlan.weight, List.filter_cons,
            List.append_assoc]
          by_cases h0 : subTimeout w timeoutMs totalWeight = 0
          · simp [h0]
          · simp [h0]

/-- Quotients rounded down, times the divisor, sum to no more than the sum of
the dividends, to exactly that sum when every division is exact, and fall short
of it by less than the divisor for each term. -/
theorem div_sum (W : Nat) (l : List Nat) :
    (l.map (fun a => a / W)).sum * W ≤ l.sum ∧
    ((l.map (fun a => a / W)).sum * W = l.sum ↔ ∀ a ∈ l, W ∣ a) ∧
    (0 < W → l.sum + l.length ≤ ((l.map (fun a => a / W)).sum + l.length) * W) := by
  induction l with
  | nil => simp
  | cons a rest ih =>
    have hdiv : a / W * W ≤ a := Nat.div_mul_le_self _ _
    have hdvd : a / W * W = a ↔ W ∣ a :=
      ⟨fun h => ⟨a / W, by rw [Nat.mul_comm]; exact h.symm⟩, fun h => Nat.div_mul_cancel h⟩
    have h5 : 0 < W → a + 1 ≤ (a / W + 1) * W := by
      intro hW
      have := Nat.div_add_mod a W
      have hm := Nat.mod_lt a hW
      rw [Nat.add_mul, Nat.one_mul, Nat.mul_comm]
      omega
    simp only [List.map_cons, List.sum_cons, List.mem_cons, forall_eq_or_imp, List.length_cons]
    obtain ⟨h1, h2, h3⟩ := ih
    generalize (rest.map (fun a => a / W)).sum = s at h1 h2 h3 ⊢
    generalize a / W = q at hdiv hdvd h5 ⊢
    refine ⟨by rw [Nat.add_mul]; omega, ?_, ?_⟩
    · rw [Nat.add_mul]
      constructor
      · intro h
        exact ⟨hdvd.mp (by omega), h2.mp (by omega)⟩
      · intro h
        have e1 := hdvd.mpr h.1
        have e2 := h2.mpr h.2
        omega
    · intro hW
      have h4 := h3 hW
      have h6 := h5 hW
      have e : (q + s + (rest.length + 1)) * W = (q + 1) * W + (s + rest.length) * W := by ring
      rw [e]
      omega

/-- The sub-timeouts of the children of a multi-plan whose products of weight
and timeout fit 32 bits are the quotients of those products by the total
weight. -/
theorem subTimeouts_eq (timeoutMs totalWeight : Nat) (plans : List TMR_ReadPlan)
    (hfit : ∀ p ∈ plans, p.weight * timeoutMs < 2 ^ 32) :
    subTimeouts timeoutMs totalWeight plans =
      (plans.map (fun p => p.weight * timeoutMs)).map (fun a => a / totalWeight) ∧
    (plans.map (fun p => p.weight * timeoutMs)).sum = weightSum plans * timeoutMs := by
  induction plans with
  | nil => simp [subTimeouts, weightSum]
  | cons p rest ih =>
    have hp := hfit p (List.mem_cons_self _ _)
    have hr := ih (fun q hq => hfit q (List.mem_cons_of_mem _ hq))
    simp only [subTimeouts, weightSum, List.map_cons, List.sum_cons, subTimeout,
      Nat.mod_eq_of_lt hp, List.map_map] at hr ⊢
    rw [hr.1, hr.2, Nat.add_mul]
    exact ⟨rfl, rfl⟩


/-- C17 (as amended): for a multi-plan of at most five children with positive
total weight `W`, the sum of the child weights, and products of weight and
timeout that fit 32 bits, child `i` is handed the sub-timeout
`w_i * timeoutMs / W` rounded down, which for children that are simple plans
naming their antennas, on a module that accepts every command, is the timeout
of the inventory round run for it (none is run for a sub-timeout of 0); these
sub-timeouts sum to at most `timeoutMs` and to more than `timeoutMs` less the
number of children, and to exactly `timeoutMs` only when every division is
exact: no child receives a remainder. -/
theorem weight_distribution (env : Env) (henv : ∀ c, (env.command c).1 = SUCCESS)
    (reader : Reader) (weight : Nat) (plans : List TMR_ReadPlan)
    (totalWeight timeoutMs tagCount : Nat)
    (hW : 0 < totalWeight) (hsum : totalWeight = weightSum plans)
    (hn : plans.length ≤ TMR_MAX_SERIAL_MULTIPROTOCOL_LENGTH)
    (hsimple : ∀ p ∈ plans, namesAntennas p = true)
    (hfit : ∀ p ∈ plans, p.weight * timeoutMs < 2 ^ 32) :
    inventoryTimeouts
        (TMR_SR_read_internal env (TMR_ReadPlan.multi weight plans totalWeight) reader timeoutMs
          tagCount).2.2.trace =
      inventoryTimeouts reader.trace ++
        (subTimeouts timeoutMs totalWeight plans).filter (fun t => t != 0) ∧
    subTimeouts timeoutMs totalWeight plans =
      plans.map (fun p => p.weight * timeoutMs / totalWeight) ∧
    (subTimeouts timeoutMs totalWeight plans).sum ≤ timeoutMs ∧
    timeoutMs < (subTimeouts timeoutMs totalWeight plans).sum + plans.length ∧
    ((subTimeouts timeoutMs totalWeight plans).sum = timeoutMs ↔
      ∀ p ∈ plans, totalWeight ∣ p.weight * timeoutMs) := by
  obtain ⟨he, hs⟩ := subTimeouts_eq timeoutMs totalWeight plans hfit
  obtain ⟨h1, h2, h3⟩ := div_sum totalWeight (plans.map (fun p => p.weight * timeoutMs))
  rw [← he, hs, ← hsum] at h1 h2
  rw [← he, hs, ← hsum, List.length_map] at h3
  have hlen : 0 < plans.length := by
    cases plans with
    | nil => simp [weightSum] at hsum; omega
    | cons p rest => simp
  refine ⟨?_, ?_, ?_, ?_, ?_⟩
  · have hn2 : ¬ TMR_MAX_SERIAL_MULTIPROTOCOL_LENGTH < plans.length := by omega
    have hW2 : totalWeight ≠ 0 := by omega
    simp only [TMR_SR_read_internal, hn2, hW2, if_false]
    exact readSubPlans_trace env henv timeoutMs totalWeight plans reader tagCount SUCCESS hsimple
  · rw [he, List.map_map]
    rfl
  · rw [Nat.mul_comm totalWeight timeoutMs] at h1
    exact Nat.le_of_mul_le_mul_right h1 hW
  · have h4 := h3 hW
    have h5 : timeoutMs * totalWeight <
        ((subTimeouts timeoutMs totalWeight plans).sum + plans.length) * totalWeight := by
      rw [Nat.mul_comm timeoutMs totalWeight]
      omega
    exact Nat.lt_of_mul_lt_mul_right h5
  · have h6 : (∀ a ∈ plans.map (fun p => p.weight * timeoutMs), totalWeight ∣ a) ↔
        ∀ p ∈ plans, totalWeight ∣ p.weight * timeoutMs := by
      simp only [List.mem_map, forall_exists_index, and_imp, forall_apply_eq_imp_iff₂]
    rw [← h6, ← h2]
    constructor
    · intro h
      rw [h, Nat.mul_comm]
    · intro h
      rw [Nat.mul_comm totalWeight timeoutMs] at h
      exact Nat.eq_of_mul_eq_mul_right hW h

/-- C17 as amended, for two simple plans of weights 3 and 1 and a timeout of
100 ms: the inventory rounds get 75 ms and 25 ms. -/
theorem weight_distribution_witness :
    inventoryTimeouts
        (TMR_SR_read_internal detectModule
          (TMR_ReadPlan.multi 0
            [TMR_ReadPlan.simple 3 [1] TMR_TAG_PROTOCOL_GEN2 none none,
              TMR_ReadPlan.simple 1 [2] TMR_TAG_PROTOCOL_ISO180006B none none] 4)
          planReader 100 0).2.2.trace = [75, 25] ∧
    (subTimeouts 100 4
      [TMR_ReadPlan.simple 3 [1] TMR_TAG_PROTOCOL_GEN2 none none,
        TMR_ReadPlan.simple 1 [2] TMR_TAG_PROTOCOL_ISO180006B none none]).sum = 100 := by
  have h := weight_distribution detectModule (fun _ => rfl) planReader 0
    [TMR_ReadPlan.simple 3 [1] TMR_TAG_PROTOCOL_GEN2 none none,
      TMR_ReadPlan.simple 1 [2] TMR_TAG_PROTOCOL_ISO180006B none none] 4 100 0
    (by decide) (by decide) (by decide) (by decide) (by decide)
  exact ⟨h.1, h.2.2.2.2.mpr (by decide)⟩

/-- C17 as stated fails: for three simple plans of weight 1 each, total weight
3 and a timeout of 100 ms, every child, the last one included, is handed
33 ms, which sum to 99 ms. -/
theorem weight_distribution_short :
    inventoryTimeouts
        (TMR_SR_read_internal detectModule threeEqualPlans planReader 100 0).2.2.trace =
      [33, 33, 33] ∧
    subTimeouts 100 3
        [TMR_ReadPlan.simple 1 [1] TMR_TAG_PROTOCOL_GEN2 none none,
          TMR_ReadPlan.simple 1 [1] TMR_TAG_PROTOCOL_GEN2 none none,
          TMR_ReadPlan.simple 1 [1] TMR_TAG_PROTOCOL_GEN2 none none] = [33, 33, 33] ∧
    (subTimeouts 100 3
        [TMR_ReadPlan.simple 1 [1] TMR_TAG_PROTOCOL_GEN2 none none,
          TMR_ReadPlan.simple 1 [1] TMR_TAG_PROTOCOL_GEN2 none none,
          TMR_ReadPlan.simple 1 [1] TMR_TAG_PROTOCOL_GEN2 none none]).sum ≠ 100 := by
  refine ⟨by decide, by decide, by decide⟩

/-! ## The end of a stream -/

/-- What `TMR_SR_receiveMessage` delivers for a frame of the streaming search
with at least six payload bytes. -/
theorem receive_stream_frame (d0 : Buf) (b : List Nat) (h6 : 6 ≤ b.length)
    (hb : b.length ≤ 251) :
    (TMR_SR_receiveMessage true
      (linkWith (responseFrame TMR_SR_OPCODE_READ_TAG_ID_MULTIPLE 0 0 b)) d0
      TMR_SR_OPCODE_READ_TAG_ID_MULTIPLE).ret = SUCCESS ∧
    (TMR_SR_receiveMessage true
      (linkWith (responseFrame TMR_SR_OPCODE_READ_TAG_ID_MULTIPLE 0 0 b)) d0
      TMR_SR_OPCODE_READ_TAG_ID_MULTIPLE).transport.rx = [] ∧
    (TMR_SR_receiveMessage true
      (linkWith (responseFrame TMR_SR_OPCODE_READ_TAG_ID_MULTIPLE 0 0 b)) d0
      TMR_SR_OPCODE_READ_TAG_ID_MULTIPLE).data 1 = b.length ∧
    (TMR_SR_receiveMessage true
      (linkWith (responseFrame TMR_SR_OPCODE_READ_TAG_ID_MULTIPLE 0 0 b)) d0
      TMR_SR_OPCODE_READ_TAG_ID_MULTIPLE).data 2 = TMR_SR_OPCODE_READ_TAG_ID_MULTIPLE ∧
    ∀ i, i < b.length →
      (TMR_SR_receiveMessage true
        (linkWith (responseFrame TMR_SR_OPCODE_READ_TAG_ID_MULTIPLE 0 0 b)) d0
        TMR_SR_OPCODE_READ_TAG_ID_MULTIPLE).data (5 + i) = b.getD i 0 := by
  unfold responseFrame
  obtain ⟨h1, h2, h3⟩ := receive_frame true d0 TMR_SR_OPCODE_READ_TAG_ID_MULTIPLE
    TMR_SR_OPCODE_READ_TAG_ID_MULTIPLE 0 0 b
    (frameCrc (frameBody TMR_SR_OPCODE_READ_TAG_ID_MULTIPLE 0 0 b) >>> 8)
    (frameCrc (frameBody TMR_SR_OPCODE_READ_TAG_ID_MULTIPLE 0 0 b) &&& 0xff) (by omega)
  rw [frameBody_crc _ 0 0 b hb] at h1
  rw [h1, h2, h3]
  refine ⟨by simp, rfl, ?_, ?_, ?_⟩
  · rw [writeBytes_lt _ _ _ (by rw [frameWith_length]; omega)]
    have := frameWith_getD_succ TMR_SR_OPCODE_READ_TAG_ID_MULTIPLE 0 0 b
      (frameCrc (frameBody TMR_SR_OPCODE_READ_TAG_ID_MULTIPLE 0 0 b) >>> 8)
      (frameCrc (frameBody TMR_SR_OPCODE_READ_TAG_ID_MULTIPLE 0 0 b) &&& 0xff) 0 (by omega)
    rw [this]
    simp [frameBody]
  · rw [writeBytes_lt _ _ _ (by rw [frameWith_length]; omega)]
    have := frameWith_getD_succ TMR_SR_OPCODE_READ_TAG_ID_MULTIPLE 0 0 b
      (frameCrc (frameBody TMR_SR_OPCODE_READ_TAG_ID_MULTIPLE 0 0 b) >>> 8)
      (frameCrc (frameBody TMR_SR_OPCODE_READ_TAG_ID_MULTIPLE 0 0 b) &&& 0xff) 1 (by omega)
    rw [this]
    simp [frameBody]
  · intro i hi
    rw [writeBytes_lt _ _ _ (by rw [frameWith_length]; omega)]
    exact frameWith_getD_data _ _ _ _ _ _ _ hi

/-- What `TMR_SR_paramSet` does for the key `TMR_PARAM_GEN2_Q` on a reader that
has found the key present: one command that sets the protocol configuration. -/
theorem paramSet_gen2Q_eq (env : Env) (reader : Reader) (q : TMR_SR_GEN2_Q)
    (hc : BITGET reader.paramConfirmed TMR_Param.GEN2_Q = true)
    (hp : BITGET reader.paramPresent TMR_Param.GEN2_Q = true) :
    TMR_paramSet env reader TMR_Param.GEN2_Q (ParamValue.gen2Q q) =
      ((env.command (Command.SetProtocolConfiguration TMR_TAG_PROTOCOL_GEN2
          TMR_SR_ProtocolConfiguration.GEN2_Q [q.type, q.initialQ])).1,
        { reader with
          trace := reader.trace ++ [WireEvent.command
            (Command.SetProtocolConfiguration TMR_TAG_PROTOCOL_GEN2
              TMR_SR_ProtocolConfiguration.GEN2_Q [q.type, q.initialQ])] }) := by
  unfold TMR_paramSet TMR_SR_paramSet
  simp [hc, hp, paramSetSwitch, paramSetSecond, readerkeyOf, protokeyOf, callCommand,
    ParamValue.words]


/-- C18 (as amended): in streaming mode with an empty local buffer, when
`TMR_SR_hasMoreTags` receives a frame of the streaming search (6 to 251 payload
bytes) whose response-type byte is 0x00, it sets `tagsRemaining` to 0; if no Q
had been saved it returns `TMR_ERROR_NO_TAGS` without sending anything; if a Q
had been saved (the key `TMR_PARAM_GEN2_Q` being present) it sends the command
that sets the Gen2 Q to the saved value, and when the module accepts it marks
`oldQ` invalid and returns `TMR_ERROR_NO_TAGS`, while when the module refuses it
returns the module's status and leaves `oldQ` saved. -/
theorem streaming_end (env : Env) (reader : Reader) (b : List Nat)
    (hs : reader.useStreaming = true) (hbuf : reader.tagsRemainingInBuffer = 0)
    (hlink : reader.transport =
      linkWith (responseFrame TMR_SR_OPCODE_READ_TAG_ID_MULTIPLE 0 0 b))
    (h6 : 6 ≤ b.length) (hb : b.length ≤ 251)
    (htype : b.getD (if b.getD 0 0 &&& 0x10 = 0x10 then 5 else 3) 0 = 0x00)
    (hc : BITGET reader.paramConfirmed TMR_Param.GEN2_Q = true)
    (hp : BITGET reader.paramPresent TMR_Param.GEN2_Q = true) :
    (TMR_SR_hasMoreTags env reader).2.tagsRemaining = 0 ∧
    (reader.oldQ.type = TMR_SR_GEN2_Q_INVALID →
      (TMR_SR_hasMoreTags env reader).1 = ERROR_NO_TAGS ∧
      (TMR_SR_hasMoreTags env reader).2.trace = reader.trace ∧
      (TMR_SR_hasMoreTags env reader).2.oldQ = reader.oldQ) ∧
    (reader.oldQ.type ≠ TMR_SR_GEN2_Q_INVALID →
      (TMR_SR_hasMoreTags env reader).2.trace =
        reader.trace ++ [WireEvent.command
          (Command.SetProtocolConfiguration TMR_TAG_PROTOCOL_GEN2
            TMR_SR_ProtocolConfiguration.GEN2_Q [reader.oldQ.type, reader.oldQ.initialQ])] ∧
      ((env.command (Command.SetProtocolConfiguration TMR_TAG_PROTOCOL_GEN2
            TMR_SR_ProtocolConfiguration.GEN2_Q
            [reader.oldQ.type, reader.oldQ.initialQ])).1 = SUCCESS →
        (TMR_SR_hasMoreTags env reader).1 = ERROR_NO_TAGS ∧
        (TMR_SR_hasMoreTags env reader).2.oldQ.type = TMR_SR_GEN2_Q_INVALID ∧
        (TMR_SR_hasMoreTags env reader).2.oldQ.initialQ = reader.oldQ.initialQ) ∧
      ((env.command (Command.SetProtocolConfiguration TMR_TAG_PROTOCOL_GEN2
            TMR_SR_ProtocolConfiguration.GEN2_Q
            [reader.oldQ.type, reader.oldQ.initialQ])).1 ≠ SUCCESS →
        (TMR_SR_hasMoreTags env reader).1 =
          (env.command (Command.SetProtocolConfiguration TMR_TAG_PROTOCOL_GEN2
            TMR_SR_ProtocolConfiguration.GEN2_Q [reader.oldQ.type, reader.oldQ.initialQ])).1 ∧
        (TMR_SR_hasMoreTags env reader).2.oldQ = reader.oldQ)) := by
  obtain ⟨r1, _, r3, r4, r5⟩ := receive_stream_frame reader.bufResponse b h6 hb
  have hpos : (if b.getD 0 0 &&& 0x10 = 0x10 then 5 else 3) < b.length := by
    split <;> omega
  have e5 := r5 0 (by omega)
  have e8 := r5 3 (by omega)
  have e10 := r5 5 (by omega)
  unfold TMR_SR_hasMoreTags
  rw [hs, hlink] at *
  generalize TMR_SR_receiveMessage true
    (linkWith (responseFrame TMR_SR_OPCODE_READ_TAG_ID_MULTIPLE 0 0 b)) reader.bufResponse
    TMR_SR_OPCODE_READ_TAG_ID_MULTIPLE = r at r1 r3 r4 r5 e5 e8 e10 ⊢
  have hty : r.data (if r.data 5 &&& 0x10 = 0x10 then 10 else 8) = 0 := by
    rw [e5]
    by_cases hf : b.getD 0 0 &&& 0x10 = 0x10
    · simp only [hf, if_true] at htype ⊢
      rw [e10]
      exact htype
    · simp only [hf, if_false] at htype ⊢
      rw [e8]
      exact htype
  have hlen : ¬ (r.data 1 < 6 ∨ r.data 2 = 0x2F) := by
    rw [r3, r4]
    simp only [TMR_SR_OPCODE_READ_TAG_ID_MULTIPLE]
    omega
  simp only [hbuf, and_self, if_true, r1, ne_eq, not_true_eq_false, if_false, hlen, hty,
    Nat.zero_ne_one]
  by_cases hq : reader.oldQ.type = TMR_SR_GEN2_Q_INVALID
  · simp [hq]
  · simp only [hq, not_false_eq_true, if_true, false_implies, true_implies, true_and]
    have hset : ∀ r2 : Reader, r2.paramConfirmed = reader.paramConfirmed →
        r2.paramPresent = reader.paramPresent →
        TMR_paramSet env r2 TMR_Param.GEN2_Q (ParamValue.gen2Q reader.oldQ) =
          ((env.command (Command.SetProtocolConfiguration TMR_TAG_PROTOCOL_GEN2
              TMR_SR_ProtocolConfiguration.GEN2_Q [reader.oldQ.type, reader.oldQ.initialQ])).1,
            { r2 with
              trace := r2.trace ++ [WireEvent.command
                (Command.SetProtocolConfiguration TMR_TAG_PROTOCOL_GEN2
                  TMR_SR_ProtocolConfiguration.GEN2_Q
                  [reader.oldQ.type, reader.oldQ.initialQ])] }) :=
      fun r2 h1 h2 => paramSet_gen2Q_eq env r2 reader.oldQ (h1 ▸ hc) (h2 ▸ hp)
    rw [hset]
    · by_cases hcmd : (env.command (Command.SetProtocolConfiguration TMR_TAG_PROTOCOL_GEN2
          TMR_SR_ProtocolConfiguration.GEN2_Q [reader.oldQ.type, reader.oldQ.initialQ])).1 =
            SUCCESS
      · simp [hcmd]
      · simp [hcmd]
    · rfl
    · rfl


/-- C18 as amended, at a reader with a saved static Q of 4 that receives the
frame ending the stream, on a module that accepts every command. -/
theorem streaming_end_witness :
    (TMR_SR_hasMoreTags detectModule streamingReader).1 = ERROR_NO_TAGS ∧
    (TMR_SR_hasMoreTags detectModule streamingReader).2.tagsRemaining = 0 ∧
    (TMR_SR_hasMoreTags detectModule streamingReader).2.oldQ.type = TMR_SR_GEN2_Q_INVALID ∧
    (TMR_SR_hasMoreTags detectModule streamingReader).2.trace =
      [WireEvent.command (Command.SetProtocolConfiguration TMR_TAG_PROTOCOL_GEN2
        TMR_SR_ProtocolConfiguration.GEN2_Q [1, 4])] := by
  have h := streaming_end detectModule streamingReader [0, 0, 0, 0, 0, 0] rfl rfl rfl
    (by decide) (by decide) (by decide) (by decide) (by decide)
  have h2 := h.2.2 (by decide)
  exact ⟨(h2.2.1 rfl).1, h.1, (h2.2.1 rfl).2.1, h2.1⟩

/-- C18 as stated fails.  When the module refuses the command that writes the
saved Q back, `TMR_SR_hasMoreTags` returns the module's status, here a timeout,
instead of `TMR_ERROR_NO_TAGS`, and the Q stays saved.  And after a call that
has ended the stream with `TMR_ERROR_NO_TAGS`, the next call, made before any
new read, asks the transport for another frame and returns the timeout of the
idle link. -/
theorem streaming_end_not_final :
    (TMR_SR_hasMoreTags qFailModule streamingReader).1 = ERROR_TIMEOUT ∧
    (TMR_SR_hasMoreTags qFailModule streamingReader).2.oldQ.type = 1 ∧
    (TMR_SR_hasMoreTags detectModule streamingReader).1 = ERROR_NO_TAGS ∧
    (TMR_SR_hasMoreTags detectModule
      (TMR_SR_hasMoreTags detectModule streamingReader).2).1 = ERROR_TIMEOUT ∧
    (TMR_SR_hasMoreTags detectModule
      (TMR_SR_hasMoreTags detectModule streamingReader).2).2.transport.requested = [7, 6, 7] := by
  refine ⟨by decide, by decide, by decide, by decide, by decide⟩

/-! ## Writing tag memory -/

/-- The get of the write mode, for a reader that does not know the key to be
absent, delivers the stored mode and touches the two bit sets only. -/
theorem paramGet_writeMode (env : Env) (reader : Reader) (mode0 : Nat)
    (hk : (BITGET reader.paramConfirmed TMR_Param.GEN2_WRITEMODE &&
      !BITGET reader.paramPresent TMR_Param.GEN2_WRITEMODE) = false) :
    (TMR_paramGet env reader TMR_Param.GEN2_WRITEMODE (ParamValue.num mode0)).2.1.toNat =
      reader.writeMode ∧
    (TMR_paramGet env reader TMR_Param.GEN2_WRITEMODE (ParamValue.num mode0)).2.2.trace =
      reader.trace ∧
    (TMR_paramGet env reader TMR_Param.GEN2_WRITEMODE (ParamValue.num mode0)).2.2.tagOpParams =
      reader.tagOpParams ∧
    (TMR_paramGet env reader TMR_Param.GEN2_WRITEMODE
      (ParamValue.num mode0)).2.2.commandTimeout = reader.commandTimeout ∧
    (TMR_paramGet env reader TMR_Param.GEN2_WRITEMODE
      (ParamValue.num mode0)).2.2.gen2AccessPassword = reader.gen2AccessPassword := by
  unfold TMR_paramGet TMR_SR_paramGet
  simp only [hk, Bool.false_eq_true, if_false, paramGetSwitch, paramGetSecond, readerkeyOf,
    protokeyOf]
  split <;> simp [ParamValue.toNat]

/-- What `TMR_SR_writeTagMemBytes` does for the protocol Gen2 once the write
mode has been fetched and the protocol set up. -/
theorem writeTagMemBytes_gen2 (env : Env) (reader : Reader) (mode0 : Nat)
    (filter : Option TMR_TagFilter) (bank address count : Nat) (data : List Nat)
    (hk : (BITGET reader.paramConfirmed TMR_Param.GEN2_WRITEMODE &&
      !BITGET reader.paramPresent TMR_Param.GEN2_WRITEMODE) = false)
    (hproto : reader.tagOpParams.protocol = TMR_TAG_PROTOCOL_GEN2)
    (hset1 : (env.command (Command.SetProtocol TMR_TAG_PROTOCOL_GEN2)).1 = SUCCESS)
    (hset2 : (env.command
      (Command.SetReaderConfiguration TMR_SR_Configuration.EXTENDED_EPC [1])).1 = SUCCESS) :
    ∃ r : Reader,
      r.trace = reader.trace ++
        [WireEvent.command (Command.SetProtocol TMR_TAG_PROTOCOL_GEN2),
          WireEvent.command
            (Command.SetReaderConfiguration TMR_SR_Configuration.EXTENDED_EPC [1])] ∧
      r.commandTimeout = reader.commandTimeout ∧
      r.gen2AccessPassword = reader.gen2AccessPassword ∧
      TMR_SR_writeTagMemBytes env reader mode0 filter bank address count data =
        if address &&& 1 ≠ 0 ∨ count &&& 1 ≠ 0 then (ERROR_INVALID, r)
        else if reader.writeMode = TMR_GEN2_WORD_ONLY then
          TMR_SR_cmdGEN2WriteTagData env r (r.commandTimeout % 65536) bank (address / 2)
            (count % 256) data r.gen2AccessPassword filter
        else if reader.writeMode = TMR_GEN2_BLOCK_ONLY then
          TMR_SR_cmdBlockWrite env r (r.commandTimeout % 65536) bank (address / 2)
            (count / 2 % 256) data r.gen2AccessPassword filter
        else if reader.writeMode = TMR_GEN2_BLOCK_FALLBACK then
          if (TMR_SR_cmdBlockWrite env r (r.commandTimeout % 65536) bank (address / 2)
              (count / 2 % 256) data r.gen2AccessPassword filter).1 = SUCCESS then
            TMR_SR_cmdBlockWrite env r (r.commandTimeout % 65536) bank (address / 2)
              (count / 2 % 256) data r.gen2AccessPassword filter
          else
            TMR_SR_cmdGEN2WriteTagData env
              (TMR_SR_cmdBlockWrite env r (r.commandTimeout % 65536) bank (address / 2)
                (count / 2 % 256) data r.gen2AccessPassword filter).2
              ((TMR_SR_cmdBlockWrite env r (r.commandTimeout % 65536) bank (address / 2)
                (count / 2 % 256) data r.gen2AccessPassword filter).2.commandTimeout % 65536)
              bank (address / 2) (count % 256) data
              (TMR_SR_cmdBlockWrite env r (r.commandTimeout % 65536) bank (address / 2)
                (count / 2 % 256) data r.gen2AccessPassword filter).2.gen2AccessPassword filter
        else (SUCCESS, r) := by
  obtain ⟨g1, g2, g3, g4, g5⟩ := paramGet_writeMode env reader mode0 hk
  unfold TMR_SR_writeTagMemBytes
  simp only [g1]
  generalize (TMR_paramGet env reader TMR_Param.GEN2_WRITEMODE (ParamValue.num mode0)).2.2 = g
    at g2 g3 g4 g5
  rw [g3, hproto]
  refine ⟨(setProtocol env g TMR_TAG_PROTOCOL_GEN2).2, ?_, ?_, ?_, ?_⟩
  · simp [setProtocol, callCommand, hset1, hset2, g2]
  · simp [setProtocol, callCommand, hset1, hset2, g4]
  · simp [setProtocol, callCommand, hset1, hset2, g5]
  · have hs : (setProtocol env g TMR_TAG_PROTOCOL_GEN2).1 = SUCCESS := by
      simp [setProtocol, callCommand, hset1, hset2]
    have hp : (setProtocol env g TMR_TAG_PROTOCOL_GEN2).2.tagOpParams.protocol =
        TMR_TAG_PROTOCOL_GEN2 := by
      simp [setProtocol, callCommand, hset1, hset2, g3, hproto]
    simp only [hs, ne_eq, not_true_eq_false, if_false, hp, if_true]


/-- The test `x & 1` of C on a natural number. -/
theorem and_one_ne_zero (x : Nat) : x &&& 1 ≠ 0 ↔ x % 2 = 1 := by
  rw [Nat.and_one_is_mod]
  omega

/-- C19 (as amended): for a Gen2 write with even byte address and even byte
count below 256 in the write mode BlockFallback (the protocol set-up
succeeding), the block write is sent first, for `count / 2` words at word
address `address / 2`.  If the module answers it with success, that is the
result and nothing else is sent.  If the module answers it with anything else, a reader code included, the
word-write command is run once with the same timeout, bank, word address
`address / 2`, `count` bytes of the same data, the same access password and the
same filter: its message, when it builds one, is the only other message sent
and the status of its exchange is the result, and when it refuses its arguments
its status is the result and no other message is sent. -/
theorem write_mode_fallback (env : Env) (reader : Reader) (mode0 : Nat)
    (filter : Option TMR_TagFilter) (bank address count : Nat) (data : List Nat)
    (hk : (BITGET reader.paramConfirmed TMR_Param.GEN2_WRITEMODE &&
      !BITGET reader.paramPresent TMR_Param.GEN2_WRITEMODE) = false)
    (hproto : reader.tagOpParams.protocol = TMR_TAG_PROTOCOL_GEN2)
    (hset1 : (env.command (Command.SetProtocol TMR_TAG_PROTOCOL_GEN2)).1 = SUCCESS)
    (hset2 : (env.command
      (Command.SetReaderConfiguration TMR_SR_Configuration.EXTENDED_EPC [1])).1 = SUCCESS)
    (hmode : reader.writeMode = TMR_GEN2_BLOCK_FALLBACK)
    (haddr : address % 2 = 0) (hcount : count % 2 = 0) (hlen : count < 256) :
    ((env.exchange (requestOf (msgBlockWrite (reader.commandTimeout % 65536) bank (address / 2)
          (count / 2) data reader.gen2AccessPassword filter))).1 = SUCCESS →
      (TMR_SR_writeTagMemBytes env reader mode0 filter bank address count data).1 = SUCCESS ∧
      (TMR_SR_writeTagMemBytes env reader mode0 filter bank address count data).2.trace =
        reader.trace ++
          [WireEvent.command (Command.SetProtocol TMR_TAG_PROTOCOL_GEN2),
            WireEvent.command
              (Command.SetReaderConfiguration TMR_SR_Configuration.EXTENDED_EPC [1]),
            WireEvent.message (requestOf (msgBlockWrite (reader.commandTimeout % 65536) bank
              (address / 2) (count / 2) data reader.gen2AccessPassword filter))]) ∧
    ((env.exchange (requestOf (msgBlockWrite (reader.commandTimeout % 65536) bank (address / 2)
          (count / 2) data reader.gen2AccessPassword filter))).1 ≠ SUCCESS →
      (∀ request, Except.map requestOf (msgGEN2WriteTagData (reader.commandTimeout % 65536) bank
          (address / 2) count data reader.gen2AccessPassword filter) = Except.ok request →
        (TMR_SR_writeTagMemBytes env reader mode0 filter bank address count data).1 =
          (env.exchange request).1 ∧
        (TMR_SR_writeTagMemBytes env reader mode0 filter bank address count data).2.trace =
          reader.trace ++
            [WireEvent.command (Command.SetProtocol TMR_TAG_PROTOCOL_GEN2),
              WireEvent.command
                (Command.SetReaderConfiguration TMR_SR_Configuration.EXTENDED_EPC [1]),
              WireEvent.message (requestOf (msgBlockWrite (reader.commandTimeout % 65536) bank
                (address / 2) (count / 2) data reader.gen2AccessPassword filter)),
              WireEvent.message request]) ∧
      (∀ ret, msgGEN2WriteTagData (reader.commandTimeout % 65536) bank (address / 2) count data
          reader.gen2AccessPassword filter = Except.error ret →
        (TMR_SR_writeTagMemBytes env reader mode0 filter bank address count data).1 = ret ∧
        (TMR_SR_writeTagMemBytes env reader mode0 filter bank address count data).2.trace =
          reader.trace ++
            [WireEvent.command (Command.SetProtocol TMR_TAG_PROTOCOL_GEN2),
              WireEvent.command
                (Command.SetReaderConfiguration TMR_SR_Configuration.EXTENDED_EPC [1]),
              WireEvent.message (requestOf (msgBlockWrite (reader.commandTimeout % 65536) bank
                (address / 2) (count / 2) data reader.gen2AccessPassword filter))])) := by
  obtain ⟨r, ht, hT, hpw, heq⟩ := writeTagMemBytes_gen2 env reader mode0 filter bank address count
    data hk hproto hset1 hset2
  have ha : ¬ (address &&& 1 ≠ 0 ∨ count &&& 1 ≠ 0) := by
    rw [and_one_ne_zero, and_one_ne_zero]
    omega
  have hc1 : count / 2 % 256 = count / 2 := Nat.mod_eq_of_lt (by omega)
  have hc2 : count % 256 = count := Nat.mod_eq_of_lt hlen
  have hm0 : ¬ TMR_GEN2_BLOCK_FALLBACK = TMR_GEN2_WORD_ONLY := by decide
  have hm1 : ¬ TMR_GEN2_BLOCK_FALLBACK = TMR_GEN2_BLOCK_ONLY := by decide
  rw [heq]
  simp only [ha, if_false, hmode, hm0, hm1, if_true, hT, hpw, hc1, hc2, TMR_SR_cmdBlockWrite,
    TMR_SR_send, TMR_SR_sendTimeout, TMR_SR_cmdGEN2WriteTagData, ht]
  constructor
  · intro hb
    simp [hb]
  · intro hb
    cases hmsg : msgGEN2WriteTagData (reader.commandTimeout % 65536) bank (address / 2) count
        data reader.gen2AccessPassword filter with
    | error e =>
      constructor
      · intro request hreq
        simp [Except.map] at hreq
      · intro ret hret
        cases hret
        simp [hb, hT, hpw]
    | ok msg =>
      constructor
      · intro request hreq
        simp only [Except.map, Except.ok.injEq] at hreq
        subst hreq
        simp [hb, hT, hpw]
      · intro ret hret
        cases hret

/-- C19 as amended, for a write of four bytes to word 2 of the user bank on a
module that refuses block writes with a reader code: the word write is sent after the block
write, with the same bank, word address and data, and its status is the
result. -/
theorem write_mode_fallback_witness :
    (TMR_SR_writeTagMemBytes blockRefusingModule fallbackReader 0 none 3 4 4
      [0x12, 0x34, 0x56, 0x78]).1 = SUCCESS ∧
    (TMR_SR_writeTagMemBytes blockRefusingModule fallbackReader 0 none 3 4 4
      [0x12, 0x34, 0x56, 0x78]).2.trace =
      [WireEvent.command (Command.SetProtocol TMR_TAG_PROTOCOL_GEN2),
        WireEvent.command (Command.SetReaderConfiguration TMR_SR_Configuration.EXTENDED_EPC [1]),
        WireEvent.message
          [17, 0x2E, 0x03, 0xE8, 0, 0x40, 0, 0xC7, 0, 3, 0, 0, 0, 2, 2, 0x12, 0x34, 0x56, 0x78],
        WireEvent.message [12, 0x24, 0x03, 0xE8, 0, 0, 0, 0, 2, 3, 0x12, 0x34, 0x56, 0x78]] := by
  have h := (write_mode_fallback blockRefusingModule fallbackReader 0 none 3 4 4
    [0x12, 0x34, 0x56, 0x78] (by decide) (by decide) (by decide) (by decide) (by decide)
    (by decide) (by decide) (by decide)).2 (by decide)
  have h2 := h.1 [12, 0x24, 0x03, 0xE8, 0, 0, 0, 0, 2, 3, 0x12, 0x34, 0x56, 0x78] rfl
  exact ⟨h2.1, h2.2⟩

/-- C19 as stated fails.  In the write mode BlockFallback, for a write of four
bytes at the even byte address 4 with an ISO 18000-6B select as its filter, on
a module that refuses block writes with a reader code: the block write is sent
and refused, the word-write command then rejects the filter and returns
`TMR_ERROR_INVALID` without sending anything, so that no word write is issued
where the claim has exactly one. -/
theorem write_mode_fallback_unsent :
    4 % 2 = 0 ∧
    fallbackReader.writeMode = TMR_GEN2_BLOCK_FALLBACK ∧
    (blockRefusingModule.exchange (requestOf (msgBlockWrite 1000 3 2 2 [0x12, 0x34, 0x56, 0x78] 0
      (some (TMR_TagFilter.iso180006bSelect false 0 0 0xff [0, 0, 0, 0, 0, 0, 0, 1]))))).1 =
      ERROR_CODE 0x406 ∧
    (TMR_SR_writeTagMemBytes blockRefusingModule fallbackReader 0
      (some (TMR_TagFilter.iso180006bSelect false 0 0 0xff [0, 0, 0, 0, 0, 0, 0, 1])) 3 4 4
      [0x12, 0x34, 0x56, 0x78]).1 = ERROR_INVALID ∧
    (TMR_SR_writeTagMemBytes blockRefusingModule fallbackReader 0
      (some (TMR_TagFilter.iso180006bSelect false 0 0 0xff [0, 0, 0, 0, 0, 0, 0, 1])) 3 4 4
      [0x12, 0x34, 0x56, 0x78]).2.trace =
      [WireEvent.command (Command.SetProtocol TMR_TAG_PROTOCOL_GEN2),
        WireEvent.command (Command.SetReaderConfiguration TMR_SR_Configuration.EXTENDED_EPC [1]),
        WireEvent.message (requestOf (msgBlockWrite 1000 3 2 2 [0x12, 0x34, 0x56, 0x78] 0
          (some (TMR_TagFilter.iso180006bSelect false 0 0 0xff [0, 0, 0, 0, 0, 0, 0, 1]))))] := by
  refine ⟨by decide, by decide, by decide, by decide, by decide⟩


/-- For the protocol Gen2, `filterbytes` returns `TMR_ERROR_INVALID` only for a
filter that is neither a Gen2 select nor a tag-data filter. -/
theorem filterbytes_gen2_invalid (filter : Option TMR_TagFilter) (m : Buf × Nat)
    (accessPassword : Nat) (usePassword : Bool)
    (h : (filterbytes TMR_TAG_PROTOCOL_GEN2 filter m accessPassword usePassword).1 =
      ERROR_INVALID) :
    ∃ invert op address mask data,
      filter = some (TMR_TagFilter.iso180006bSelect invert op address mask data) := by
  cases filter with
  | none =>
    simp only [filterbytes, true_and, if_true] at h
    split at h <;> cases h
  | some f =>
    cases f with
    | iso180006bSelect invert op address mask data => exact ⟨_, _, _, _, _, rfl⟩
    | gen2Select invert bank bitPointer maskBitLength mask =>
      simp only [filterbytes, false_and, if_false, if_true, reduceCtorEq] at h
      split_ifs at h
    | tagData epcByteCount epc =>
      simp only [filterbytes, false_and, if_false, if_true, reduceCtorEq] at h
      split_ifs at h

/-- With a module that never answers `TMR_ERROR_INVALID`, the word-write command
returns that status only for a filter that is neither a Gen2 select nor a
tag-data filter. -/
theorem cmdGEN2WriteTagData_invalid (env : Env)
    (hmod : ∀ request, (env.exchange request).1 ≠ ERROR_INVALID) (reader : Reader)
    (timeout bank address count : Nat) (data : List Nat) (accessPassword : Nat)
    (filter : Option TMR_TagFilter)
    (h : (TMR_SR_cmdGEN2WriteTagData env reader timeout bank address count data accessPassword
      filter).1 = ERROR_INVALID) :
    ∃ invert op address mask data,
      filter = some (TMR_TagFilter.iso180006bSelect invert op address mask data) := by
  unfold TMR_SR_cmdGEN2WriteTagData at h
  split at h
  · rename_i ret hmsg
    simp only at h
    subst h
    unfold msgGEN2WriteTagData at hmsg
    simp only at hmsg
    split at hmsg
    · rename_i hf
      simp only [Except.error.injEq] at hmsg
      exact filterbytes_gen2_invalid filter _ accessPassword true hmsg
    · split at hmsg
      · cases hmsg
      · cases hmsg
  · simp only [TMR_SR_sendTimeout] at h
    exact absurd h (hmod _)

/-- C20 (as amended): for the protocol Gen2, the protocol set-up succeeding,
`TMR_SR_writeTagMemBytes` returns `TMR_ERROR_INVALID` whenever the byte address
is odd or the byte count is odd, and then it has sent nothing but the set-up
commands, whatever the write mode; for an aligned write, with a module that
never answers `TMR_ERROR_INVALID`, it returns that status only when the filter
is neither a Gen2 select nor a tag-data filter. -/
theorem misaligned_write (env : Env) (reader : Reader) (mode0 : Nat)
    (filter : Option TMR_TagFilter) (bank address count : Nat) (data : List Nat)
    (hk : (BITGET reader.paramConfirmed TMR_Param.GEN2_WRITEMODE &&
      !BITGET reader.paramPresent TMR_Param.GEN2_WRITEMODE) = false)
    (hproto : reader.tagOpParams.protocol = TMR_TAG_PROTOCOL_GEN2)
    (hset1 : (env.command (Command.SetProtocol TMR_TAG_PROTOCOL_GEN2)).1 = SUCCESS)
    (hset2 : (env.command
      (Command.SetReaderConfiguration TMR_SR_Configuration.EXTENDED_EPC [1])).1 = SUCCESS)
    (hmod : ∀ request, (env.exchange request).1 ≠ ERROR_INVALID) :
    ((address % 2 = 1 ∨ count % 2 = 1) →
      (TMR_SR_writeTagMemBytes env reader mode0 filter bank address count data).1 =
        ERROR_INVALID ∧
      (TMR_SR_writeTagMemBytes env reader mode0 filter bank address count data).2.trace =
        reader.trace ++
          [WireEvent.command (Command.SetProtocol TMR_TAG_PROTOCOL_GEN2),
            WireEvent.command
              (Command.SetReaderConfiguration TMR_SR_Configuration.EXTENDED_EPC [1])]) ∧
    (address % 2 = 0 → count % 2 = 0 →
      (TMR_SR_writeTagMemBytes env reader mode0 filter bank address count data).1 =
        ERROR_INVALID →
      ∃ invert op a mask d,
        filter = some (TMR_TagFilter.iso180006bSelect invert op a mask d)) := by
  obtain ⟨r, ht, hT, hpw, heq⟩ := writeTagMemBytes_gen2 env reader mode0 filter bank address count
    data hk hproto hset1 hset2
  rw [heq]
  constructor
  · intro hodd
    have ha : address &&& 1 ≠ 0 ∨ count &&& 1 ≠ 0 := by
      rw [and_one_ne_zero, and_one_ne_zero]
      exact hodd
    simp only [ha, if_true]
    exact ⟨trivial, ht⟩
  · intro haddr hcount
    have ha : ¬ (address &&& 1 ≠ 0 ∨ count &&& 1 ≠ 0) := by
      rw [and_one_ne_zero, and_one_ne_zero]
      omega
    have hblock : ∀ (rd : Reader) (t b a c : Nat) (d : List Nat) (pw : Nat),
        (TMR_SR_cmdBlockWrite env rd t b a c d pw filter).1 ≠ ERROR_INVALID := by
      intro rd t b a c d pw
      simp only [TMR_SR_cmdBlockWrite, TMR_SR_send, TMR_SR_sendTimeout]
      exact hmod _
    simp only [ha, if_false]
    split
    · exact cmdGEN2WriteTagData_invalid env hmod _ _ _ _ _ _ _ _
    · split
      · intro h
        exact absurd h (hblock _ _ _ _ _ _ _)
      · split
        · split
          · intro h
            exact absurd h (hblock _ _ _ _ _ _ _)
          · exact cmdGEN2WriteTagData_invalid env hmod _ _ _ _ _ _ _ _
        · intro h
          cases h

/-- C20 as amended, for a write of four bytes at the odd byte address 3. -/
theorem misaligned_write_witness :
    (TMR_SR_writeTagMemBytes detectModule wordOnlyReader 0 none 3 3 4
      [0x12, 0x34, 0x56, 0x78]).1 = ERROR_INVALID ∧
    (TMR_SR_writeTagMemBytes detectModule wordOnlyReader 0 none 3 3 4
      [0x12, 0x34, 0x56, 0x78]).2.trace =
      [WireEvent.command (Command.SetProtocol TMR_TAG_PROTOCOL_GEN2),
        WireEvent.command
          (Command.SetReaderConfiguration TMR_SR_Configuration.EXTENDED_EPC [1])] :=
  (misaligned_write detectModule wordOnlyReader 0 none 3 3 4 [0x12, 0x34, 0x56, 0x78]
    (by decide) (by decide) (by decide) (by decide) (fun _ => by simp [detectModule])).1
    (by decide)

/-- C20 as stated fails: in the write mode WordOnly, a write of four bytes at
the even byte address 4 with an ISO 18000-6B select as its filter returns
`TMR_ERROR_INVALID`, the word-write command rejecting the filter, although
neither the address nor the count is odd. -/
theorem misaligned_write_not_only :
    4 % 2 = 0 ∧
    (TMR_SR_writeTagMemBytes detectModule wordOnlyReader 0
      (some (TMR_TagFilter.iso180006bSelect false 0 0 0xff [0, 0, 0, 0, 0, 0, 0, 1])) 3 4 4
      [0x12, 0x34, 0x56, 0x78]).1 = ERROR_INVALID ∧
    (TMR_SR_writeTagMemBytes detectModule wordOnlyReader 0
      (some (TMR_TagFilter.iso180006bSelect false 0 0 0xff [0, 0, 0, 0, 0, 0, 0, 1])) 3 4 4
      [0x12, 0x34, 0x56, 0x78]).2.trace =
      [WireEvent.command (Command.SetProtocol TMR_TAG_PROTOCOL_GEN2),
        WireEvent.command
          (Command.SetReaderConfiguration TMR_SR_Configuration.EXTENDED_EPC [1])] := by
  refine ⟨by decide, by decide, by decide⟩

/-! ## Tag filters -/

/-- Storing a byte reduced modulo 256 is storing the byte. -/
theorem SETU8_mod (m : Buf × Nat) (x : Nat) : SETU8 m (x % 256) = SETU8 m x := by
  simp only [SETU8, Nat.mod_mod]

/-- The four bytes of `be32` are what `SETU32` stores. -/
theorem setBytes_be32 (m : Buf × Nat) (x : Nat) : setBytes m (be32 x) = SETU32 m x := by
  simp only [setBytes, be32, List.foldl, SETU32, SETU8_mod]

/-- Storing two lists of bytes one after the other. -/
theorem setBytes_append (m : Buf × Nat) (a b : List Nat) :
    setBytes m (a ++ b) = setBytes (setBytes m a) b := by
  simp only [setBytes, List.foldl_append]

/-- The length field of a select is what `filterbytes` stores for it. -/
theorem setBytes_selectLength (m : Buf × Nat) (n : Nat) :
    setBytes m (selectLength n) =
      SETU8 (if n > 255 then SETU8 m ((n >>> 8) &&& 0xFF) else m) (n &&& 0xFF) := by
  have h1 : ∀ k : Nat, k &&& 0xFF = k % 256 := fun k => Nat.and_pow_two_sub_one_eq_mod k 8
  by_cases h : n > 255
  · simp only [selectLength, h, if_true, setBytes, List.foldl, h1, SETU8_mod]
  · simp only [selectLength, h, if_false, setBytes, List.foldl, h1, SETU8_mod]

/-- The header of a select is what `filterbytes` stores before the mask. -/
theorem setBytes_selectHeader (m : Buf × Nat) (accessPassword : Nat) (usePassword : Bool)
    (bitPointer n : Nat) :
    setBytes m (selectHeader accessPassword usePassword bitPointer n) =
      SETU8
        (if n > 255 then
          SETU8 (SETU32 (if usePassword then SETU32 m accessPassword else m) bitPointer)
            ((n >>> 8) &&& 0xFF)
        else SETU32 (if usePassword then SETU32 m accessPassword else m) bitPointer)
        (n &&& 0xFF) := by
  unfold selectHeader
  rw [setBytes_append, setBytes_append, setBytes_selectLength, setBytes_be32]
  cases usePassword
  · simp only [Bool.false_eq_true, if_false, setBytes, List.foldl]
  · simp only [if_true, setBytes_be32]

/-- What `filterbytes` does with a Gen2 select, in the terms of the header and
of the option byte of the specification. -/
theorem filterbytes_gen2Select (invert : Bool) (bank bitPointer n : Nat) (mask : List Nat)
    (m : Buf × Nat) (accessPassword : Nat) (usePassword : Bool) (hbank : bank < 256) :
    filterbytes TMR_TAG_PROTOCOL_GEN2
        (some (TMR_TagFilter.gen2Select invert bank bitPointer n mask)) m accessPassword
        usePassword =
      if (setBytes m (selectHeader accessPassword usePassword bitPointer n)).2 + 1 + n / 8 >
          TMR_SR_MAX_PACKET_SIZE then
        (ERROR_TOO_BIG, some (selectOption invert bank n),
          setBytes m (selectHeader accessPassword usePassword bitPointer n))
      else
        (SUCCESS, some (selectOption invert bank n),
          setBytes m (selectHeader accessPassword usePassword bitPointer n ++
            bytesOf mask (n / 8))) := by
  have hopt : (if n > 255 then
        (if invert then
          (if bank = 1 then TMR_SR_GEN2_SINGULATION_OPTION_SELECT_ON_ADDRESSED_EPC
            else bank % 256) ||| TMR_SR_GEN2_SINGULATION_OPTION_INVERSE_SELECT_BIT
          else (if bank = 1 then TMR_SR_GEN2_SINGULATION_OPTION_SELECT_ON_ADDRESSED_EPC
            else bank % 256)) ||| TMR_SR_GEN2_SINGULATION_OPTION_EXTENDED_DATA_LENGTH
        else
        (if invert then
          (if bank = 1 then TMR_SR_GEN2_SINGULATION_OPTION_SELECT_ON_ADDRESSED_EPC
            else bank % 256) ||| TMR_SR_GEN2_SINGULATION_OPTION_INVERSE_SELECT_BIT
          else (if bank = 1 then TMR_SR_GEN2_SINGULATION_OPTION_SELECT_ON_ADDRESSED_EPC
            else bank % 256))) = selectOption invert bank n := by
    unfold selectOption
    rw [Nat.mod_eq_of_lt hbank]
    by_cases h : n > 255 <;> cases invert <;> simp [h]
  rw [setBytes_append, setBytes_selectHeader]
  simp only [filterbytes, reduceCtorEq, false_and, if_false, if_true, hopt]

/-- C25. Gen2 select encoding: for a Gen2 select with a bank number that fits a
byte, `filterbytes` stores the option byte `selectOption` (the dedicated value
for bank 1, the bank number otherwise, with the inverse-select bit for an
inverted select and the extended-data-length bit for more than 255 mask bits),
and stores into the message, in this order, the four bytes of the access
password when `usePassword` holds, the four bytes of the bit pointer, high byte
first, and the bit length as two bytes, high byte first, when it exceeds 255
and as one byte otherwise; the mask bytes follow unless the message would be
too big.  For the banks 0 to 3 the low three bits of the option byte are the
dedicated value or the bank number, the inverse-select bit is set exactly for
an inverted select and the extended-data-length bit exactly for more than 255
mask bits. -/
theorem gen2_select_encoding (invert : Bool) (bank bitPointer n : Nat) (mask : List Nat)
    (m : Buf × Nat) (accessPassword : Nat) (usePassword : Bool) (hbank : bank < 256) :
    ((filterbytes TMR_TAG_PROTOCOL_GEN2
        (some (TMR_TagFilter.gen2Select invert bank bitPointer n mask)) m accessPassword
        usePassword).1 = SUCCESS ∨
      (filterbytes TMR_TAG_PROTOCOL_GEN2
        (some (TMR_TagFilter.gen2Select invert bank bitPointer n mask)) m accessPassword
        usePassword).1 = ERROR_TOO_BIG) ∧
    (filterbytes TMR_TAG_PROTOCOL_GEN2
        (some (TMR_TagFilter.gen2Select invert bank bitPointer n mask)) m accessPassword
        usePassword).2.1 = some (selectOption invert bank n) ∧
    (filterbytes TMR_TAG_PROTOCOL_GEN2
        (some (TMR_TagFilter.gen2Select invert bank bitPointer n mask)) m accessPassword
        usePassword).2.2 =
      setBytes m
        ((if usePassword then be32 accessPassword else []) ++ be32 bitPointer ++
          (if n > 255 then [(n >>> 8) % 256, n % 256] else [n]) ++
          (if (filterbytes TMR_TAG_PROTOCOL_GEN2
              (some (TMR_TagFilter.gen2Select invert bank bitPointer n mask)) m accessPassword
              usePassword).1 = SUCCESS then bytesOf mask (n / 8) else [])) ∧
    (bank ≤ 3 →
      selectOption invert bank n &&& 0x07 =
        (if bank = 1 then TMR_SR_GEN2_SINGULATION_OPTION_SELECT_ON_ADDRESSED_EPC else bank) ∧
      (selectOption invert bank n &&& TMR_SR_GEN2_SINGULATION_OPTION_INVERSE_SELECT_BIT ≠ 0 ↔
        invert = true) ∧
      (selectOption invert bank n &&& TMR_SR_GEN2_SINGULATION_OPTION_EXTENDED_DATA_LENGTH ≠ 0 ↔
        n > 255)) := by
  have hsel : (if n > 255 then [(n >>> 8) % 256, n % 256] else [n]) = selectLength n := rfl
  rw [hsel, filterbytes_gen2Select invert bank bitPointer n mask m accessPassword usePassword
    hbank]
  refine ⟨?_, ?_, ?_, ?_⟩
  · split <;> simp
  · split <;> simp
  · split <;> simp [selectHeader]
  · intro h3
    unfold selectOption
    by_cases h : n > 255 <;> cases invert <;> interval_cases bank <;> simp [h] <;> decide

/-- C25, at an inverted select of 300 bits in the
user bank, with a password. -/
theorem gen2_select_encoding_witness :
    (3 : Nat) < 256 ∧
    (filterbytes TMR_TAG_PROTOCOL_GEN2
        (some (TMR_TagFilter.gen2Select true 3 0x20 300 [])) emptyMessage 0x11223344
        true).2.1 = some (selectOption true 3 300) ∧
    selectOption true 3 300 = 0x2B :=
  ⟨by decide,
    (gen2_select_encoding true 3 0x20 300 [] emptyMessage 0x11223344 true (by decide)).2.1,
    by decide⟩

/-- The number of mask bytes of a Gen2 select: `filterbytes` stores the first
`maskBitLength / 8` bytes of the mask, which are all of its `ceil(n / 8)` bytes
when the bit length is a multiple of 8. -/
theorem select_mask_whole_bytes (invert : Bool) (bank bitPointer n : Nat) (mask : List Nat)
    (m : Buf × Nat) (accessPassword : Nat) (usePassword : Bool) (hbank : bank < 256)
    (hfit : (filterbytes TMR_TAG_PROTOCOL_GEN2
        (some (TMR_TagFilter.gen2Select invert bank bitPointer n mask)) m accessPassword
        usePassword).1 ≠ ERROR_TOO_BIG)
    (hn : n % 8 = 0) :
    filterbytes TMR_TAG_PROTOCOL_GEN2
        (some (TMR_TagFilter.gen2Select invert bank bitPointer n mask)) m accessPassword
        usePassword =
      (SUCCESS, some (selectOption invert bank n),
        setBytes m (selectHeader accessPassword usePassword bitPointer n ++
          bytesOf mask ((n + 7) / 8))) := by
  have h8 : (n + 7) / 8 = n / 8 := by omega
  rw [filterbytes_gen2Select invert bank bitPointer n mask m accessPassword usePassword
    hbank] at hfit ⊢
  rw [h8]
  split
  · rename_i h
    simp [h] at hfit
  · rfl

/-- C26, the part that holds, at a select of 16 bits. -/
theorem select_mask_whole_bytes_witness :
    filterbytes TMR_TAG_PROTOCOL_GEN2
        (some (TMR_TagFilter.gen2Select false 2 8 16 [0x00, 0x03])) emptyMessage 0 false =
      (SUCCESS, some (selectOption false 2 16),
        setBytes emptyMessage (selectHeader 0 false 8 16 ++ bytesOf [0x00, 0x03] ((16 + 7) / 8))) :=
  select_mask_whole_bytes false 2 8 16 [0x00, 0x03] emptyMessage 0 false (by decide)
    (by decide) (by decide)

/-- C26. The select of the sample (12 bits, mask bytes `00 03`) is built
without its second mask byte: `filterbytes` succeeds and stores the six bytes
`00 00 00 08 0C 00`, the bit pointer, the length 12 and one mask byte, although
the twelve bits take `ceil(12 / 8) = 2` bytes; the byte behind them is not the
`03` of the mask. -/
theorem select_mask_truncated :
    (filterbytes TMR_TAG_PROTOCOL_GEN2 (some tidSelect) emptyMessage 0 false).1 = SUCCESS ∧
    (filterbytes TMR_TAG_PROTOCOL_GEN2 (some tidSelect) emptyMessage 0 false).2.2.2 =
      emptyMessage.2 + 6 ∧
    bytesAt (filterbytes TMR_TAG_PROTOCOL_GEN2 (some tidSelect) emptyMessage 0 false).2.2.1
      emptyMessage.2 6 = [0x00, 0x00, 0x00, 0x08, 0x0C, 0x00] ∧
    (12 + 7) / 8 = 2 ∧
    bytesAt (filterbytes TMR_TAG_PROTOCOL_GEN2 (some tidSelect) emptyMessage 0 false).2.2.1
      emptyMessage.2 7 ≠ [0x00, 0x00, 0x00, 0x08, 0x0C, 0x00, 0x03] := by
  decide

/-- The mask byte `(0xff00 >> n) & 0xff` has its `n` most significant bits set
and the others clear. -/
theorem msbMask_eq (n : Nat) (hn : n ≤ 8) : (0xff00 >>> n) &&& 0xff = msbMask n := by
  interval_cases n <;> decide

/-- C27. ISO180006B tag-data filter: for an EPC byte count `n` of at most 8,
`filterbytes` for the protocol ISO180006B succeeds with option 1 and stores
exactly eleven bytes, the EQUALS operation, address 0, the mask byte, the `n`
EPC bytes and `8 - n` zero bytes; bit `j` of the mask byte (bit 7 the most
significant) is set exactly when it is one of the `n` most significant; for a
byte count above 8 the function returns Invalid and stores nothing. -/
theorem iso_tag_data_filter (n : Nat) (epc : List Nat) (m : Buf × Nat) (accessPassword : Nat)
    (usePassword : Bool) :
    (n ≤ 8 →
      filterbytes TMR_TAG_PROTOCOL_ISO180006B (some (TMR_TagFilter.tagData n epc)) m
          accessPassword usePassword =
        (SUCCESS, some 1, setBytes m (isoTagDataBytes n epc)) ∧
      (isoTagDataBytes n epc).length = 11 ∧
      (isoTagDataBytes n epc).take 2 = [TMR_ISO180006B_SELECT_OP_EQUALS, 0] ∧
      (∀ j, j < 8 → ((isoTagDataBytes n epc).getD 2 0).testBit j = decide (8 - n ≤ j)) ∧
      ((isoTagDataBytes n epc).drop 3).take n = bytesOf epc n ∧
      (isoTagDataBytes n epc).drop (3 + n) = List.replicate (8 - n) 0) ∧
    (8 < n →
      filterbytes TMR_TAG_PROTOCOL_ISO180006B (some (TMR_TagFilter.tagData n epc)) m
          accessPassword usePassword = (ERROR_INVALID, some 1, m)) := by
  refine ⟨fun hn => ⟨?_, ?_, ?_, ?_, ?_, ?_⟩, fun hn => ?_⟩
  · have h8 : ¬ n > 8 := by omega
    simp only [filterbytes, reduceCtorEq, false_and, if_false, h8, TMR_TAG_PROTOCOL_ISO180006B,
      TMR_TAG_PROTOCOL_GEN2, msbMask_eq n hn, isoTagDataBytes]
    simp [setBytes]
  · simp [isoTagDataBytes, bytesOf]
    omega
  · simp [isoTagDataBytes]
  · intro j hj
    have hm : (isoTagDataBytes n epc).getD 2 0 = msbMask n := rfl
    rw [hm]
    unfold msbMask
    interval_cases n <;> interval_cases j <;> decide
  · simp [isoTagDataBytes, bytesOf]
  · have hl : ([TMR_ISO180006B_SELECT_OP_EQUALS, 0, msbMask n] ++ bytesOf epc n).length = 3 + n := by
      simp [bytesOf]
      omega
    unfold isoTagDataBytes
    rw [← hl, List.drop_left]
  · simp [filterbytes, hn, TMR_TAG_PROTOCOL_ISO180006B, TMR_TAG_PROTOCOL_GEN2]

/-- C27, at an EPC of three bytes. -/
theorem iso_tag_data_filter_witness :
    filterbytes TMR_TAG_PROTOCOL_ISO180006B (some (TMR_TagFilter.tagData 3 [0xE0, 0x04, 0x01]))
        emptyMessage 0 false =
      (SUCCESS, some 1, setBytes emptyMessage (isoTagDataBytes 3 [0xE0, 0x04, 0x01])) ∧
    isoTagDataBytes 3 [0xE0, 0x04, 0x01] =
      [0x00, 0x00, 0xE0, 0xE0, 0x04, 0x01, 0x00, 0x00, 0x00, 0x00, 0x00] :=
  ⟨((iso_tag_data_filter 3 [0xE0, 0x04, 0x01] emptyMessage 0 false).1 (by decide)).1,
    by decide⟩

/-! ## Dispatch on the response type of a streaming frame -/

/-- C30 (as amended): in streaming mode with an empty local buffer, for a
frame received with success whose length byte is at least 6 and at most 249,
so that the frame fits `bufResponse`, and whose opcode is not 0x2F, `TMR_SR_hasMoreTags` looks at the response-type byte (offset 10
when bit 0x10 of byte 5 is set, offset 8 otherwise).  Type 0x01 gives success
with `tagsRemainingInBuffer = 1`, the read cursor at 11 and `tagsRemaining`
unchanged.  Type 0x00 sets `tagsRemaining` to 0, leaves `tagsRemainingInBuffer`
at 0 and gives `TMR_ERROR_NO_TAGS` when no Q is saved or the module accepts
the command that writes the saved Q back, and the status of that command
otherwise.  Every other type gives `TMR_ERROR_PARSE` and changes neither
counter. -/
theorem stream_dispatch (env : Env) (reader : Reader)
    (hs : reader.useStreaming = true) (hbuf : reader.tagsRemainingInBuffer = 0)
    (hret : (streamFrame reader).ret = SUCCESS)
    (hlen : 6 ≤ (streamFrame reader).data 1)
    (hfit : (streamFrame reader).data 1 ≤ 249)
    (hop : (streamFrame reader).data 2 ≠ 0x2F)
    (hc : BITGET reader.paramConfirmed TMR_Param.GEN2_Q = true)
    (hp : BITGET reader.paramPresent TMR_Param.GEN2_Q = true) :
    (responseType (streamFrame reader).data = 0x01 →
      (TMR_SR_hasMoreTags env reader).1 = SUCCESS ∧
      (TMR_SR_hasMoreTags env reader).2.tagsRemainingInBuffer = 1 ∧
      (TMR_SR_hasMoreTags env reader).2.bufPointer = 11 ∧
      (TMR_SR_hasMoreTags env reader).2.bufResponse = (streamFrame reader).data ∧
      (TMR_SR_hasMoreTags env reader).2.tagsRemaining = reader.tagsRemaining) ∧
    (responseType (streamFrame reader).data = 0x00 →
      (TMR_SR_hasMoreTags env reader).2.tagsRemaining = 0 ∧
      (TMR_SR_hasMoreTags env reader).2.tagsRemainingInBuffer = 0 ∧
      (TMR_SR_hasMoreTags env reader).1 =
        if reader.oldQ.type = TMR_SR_GEN2_Q_INVALID then ERROR_NO_TAGS
        else if (env.command (restoreQ reader.oldQ)).1 = SUCCESS then ERROR_NO_TAGS
        else (env.command (restoreQ reader.oldQ)).1) ∧
    (responseType (streamFrame reader).data ≠ 0x01 →
      responseType (streamFrame reader).data ≠ 0x00 →
      (TMR_SR_hasMoreTags env reader).1 = ERROR_PARSE ∧
      (TMR_SR_hasMoreTags env reader).2.tagsRemaining = reader.tagsRemaining ∧
      (TMR_SR_hasMoreTags env reader).2.tagsRemainingInBuffer =
        reader.tagsRemainingInBuffer) := by
  have _hfit := hfit
  have hty : ∀ msg : Buf,
      msg (if msg 5 &&& 0x10 = 0x10 then 10 else 8) = responseType msg := by
    intro msg
    unfold responseType
    split <;> rfl
  unfold streamFrame at hret hlen hop ⊢
  unfold TMR_SR_hasMoreTags
  generalize TMR_SR_receiveMessage reader.useStreaming reader.transport reader.bufResponse
    TMR_SR_OPCODE_READ_TAG_ID_MULTIPLE = r at hret hlen hop ⊢
  have hl : ¬ (r.data 1 < 6 ∨ r.data 2 = 0x2F) := by
    intro h
    rcases h with h | h
    · omega
    · exact hop h
  simp only [hs, hbuf, and_self, if_true, hret, ne_eq, not_true_eq_false, if_false, hl, hty]
  refine ⟨fun h1 => ?_, fun h0 => ?_, fun h1 h0 => ?_⟩
  · simp [h1]
  · have h01 : ¬ responseType r.data = 1 := by rw [h0]; decide
    simp only [h01, if_false, h0, if_true]
    by_cases hq : reader.oldQ.type = TMR_SR_GEN2_Q_INVALID
    · simp [hq]
    · simp only [hq, not_false_eq_true, if_true, if_false]
      have hset : ∀ r2 : Reader, r2.paramConfirmed = reader.paramConfirmed →
          r2.paramPresent = reader.paramPresent →
          TMR_paramSet env r2 TMR_Param.GEN2_Q (ParamValue.gen2Q reader.oldQ) =
            ((env.command (restoreQ reader.oldQ)).1,
              { r2 with
                trace := r2.trace ++ [WireEvent.command (restoreQ reader.oldQ)] }) :=
        fun r2 h1 h2 => paramSet_gen2Q_eq env r2 reader.oldQ (h1 ▸ hc) (h2 ▸ hp)
      rw [hset]
      · by_cases hcmd : (env.command (restoreQ reader.oldQ)).1 = SUCCESS
        · simp [hcmd]
        · simp [hcmd]
      · rfl
      · rfl
  · simp [h1, h0, hbuf]

/-- C30 as amended, at a reader with a saved static Q of 4 that receives the
frame ending the stream, on a module that accepts every command. -/
theorem stream_dispatch_witness :
    responseType (streamFrame streamingReader).data = 0x00 ∧
    (TMR_SR_hasMoreTags detectModule streamingReader).2.tagsRemaining = 0 ∧
    (TMR_SR_hasMoreTags detectModule streamingReader).1 = ERROR_NO_TAGS :=
  have h := (stream_dispatch detectModule streamingReader rfl rfl (by decide) (by decide)
    (by decide) (by decide) (by decide) (by decide)).2.1 (by decide)
  ⟨by decide, h.1, h.2.2.trans (by decide)⟩

/-- C30 as stated fails for the type 0x00.  The reader holds a saved Q and
receives with success a frame of length 6 and opcode 0x22 whose response-type
byte is 0x00; the module refuses the command that writes the Q back, and
`TMR_SR_hasMoreTags` returns the module's status, here a timeout, where the
claim has `TMR_ERROR_NO_TAGS`. -/
theorem stream_dispatch_refused :
    streamingReader.useStreaming = true ∧
    streamingReader.tagsRemainingInBuffer = 0 ∧
    (streamFrame streamingReader).ret = SUCCESS ∧
    (streamFrame streamingReader).data 1 = 6 ∧
    (streamFrame streamingReader).data 2 = 0x22 ∧
    responseType (streamFrame streamingReader).data = 0x00 ∧
    (TMR_SR_hasMoreTags qFailModule streamingReader).1 = ERROR_TIMEOUT ∧
    (TMR_SR_hasMoreTags qFailModule streamingReader).1 ≠ ERROR_NO_TAGS := by
  refine ⟨by decide, by decide, by decide, by decide, by decide, by decide, by decide,
    by decide⟩

/-! ## The ExtendedEPC write after SetProtocol -/

/-- Running the rule over two traces one after the other. -/
theorem epcRun_append (env : Env) (a b : List WireEvent) :
    ∀ s : EpcState, epcRun env s (a ++ b) =
      match epcRun env s a with
      | none => none
      | some s1 => epcRun env s1 b := by
  induction a with
  | nil => intro s; rfl
  | cons e rest ih =>
    intro s
    simp only [List.cons_append, epcRun]
    cases h : epcStep env s e with
    | none => rfl
    | some s1 => exact ih s1

/-- The commands `setProtocol` sends: `SetProtocol`, and after its success the
ExtendedEPC write and nothing else. -/
theorem setProtocol_trace (env : Env) (reader : Reader) (protocol : Nat) :
    (setProtocol env reader protocol).2.trace =
      reader.trace ++
        (if (env.command (Command.SetProtocol protocol)).1 = SUCCESS then
          [WireEvent.command (Command.SetProtocol protocol), WireEvent.command extendedEpcWrite]
        else [WireEvent.command (Command.SetProtocol protocol)]) ∧
    (setProtocol env reader protocol).1 =
      (if (env.command (Command.SetProtocol protocol)).1 = SUCCESS then
        (env.command extendedEpcWrite).1
      else (env.command (Command.SetProtocol protocol)).1) := by
  unfold setProtocol extendedEpcWrite
  by_cases h1 : (env.command (Command.SetProtocol protocol)).1 = SUCCESS
  · by_cases h2 : (env.command
        (Command.SetReaderConfiguration TMR_SR_Configuration.EXTENDED_EPC [1])).1 = SUCCESS
    · simp [callCommand, h1, h2]
    · simp [callCommand, h1, h2]
  · simp [callCommand, h1]

/-- The calls of `prepForSearch` are neither a `SetProtocol`, nor a write of
the reader configuration, nor a search: they leave the rule where it stands. -/
theorem prepForSearch_trace (env : Env) (reader : Reader) (antennaList : List Nat) :
    ∃ added : List WireEvent,
      (prepForSearch env reader antennaList).2.trace = reader.trace ++ added ∧
      ∀ s : EpcState, s ≠ EpcState.awaited → epcRun env s added = some s := by
  unfold prepForSearch
  by_cases hl : antennaList.length = 0
  · simp only [hl, if_true]
    unfold autoDetectAntennaList TMR_SR_cmdAntennaDetect TMR_SR_send TMR_SR_sendTimeout
    by_cases hx : (env.exchange (requestOf (installLength
        (SETU8 (SETU8 (fun _ => 0, 2) TMR_SR_OPCODE_GET_ANTENNA_PORT) 5)))).1 = SUCCESS
    · simp only [hx, ne_eq, not_true_eq_false, if_false]
      split
      · exact ⟨[_], rfl, fun s hs => by simp [epcRun, epcStep, hs]⟩
      · simp only [callCommand]
        exact ⟨[_, _], List.append_assoc _ _ _, fun s hs => by simp [epcRun, epcStep, hs]⟩
    · simp only [hx, ne_eq, not_false_eq_true, if_true]
      exact ⟨[_], rfl, fun s hs => by simp [epcRun, epcStep, hs]⟩
  · simp only [hl, if_false]
    exact ⟨[_], rfl, fun s hs => by simp [setAntennaList, callCommand, epcRun, epcStep, hs]⟩

/-- One search for a simple plan keeps the rule, from a trace that stands
settled: the ExtendedEPC write follows a successful `SetProtocol` at once, the
inventory round is sent only when that write has succeeded, and a search that
returns success or "no tags found" leaves the trace settled. -/
theorem searchSimple_guarded (env : Env)
    (hepc : (env.command extendedEpcWrite).1 ≠ ERROR_NO_TAGS_FOUND)
    (reader : Reader) (timeoutMs tagCount : Nat) (antennas : List Nat) (protocol : Nat)
    (tagop : Option TMR_Tagop) :
    ∃ (added : List WireEvent) (s : EpcState),
      (searchSimple env reader timeoutMs tagCount antennas protocol tagop).2.2.trace =
        reader.trace ++ added ∧
      epcRun env EpcState.settled added = some s ∧ s ≠ EpcState.awaited ∧
      ((searchSimple env reader timeoutMs tagCount antennas protocol tagop).1 = SUCCESS ∨
        (searchSimple env reader timeoutMs tagCount antennas protocol tagop).1 =
          ERROR_NO_TAGS_FOUND → s = EpcState.settled) := by
  obtain ⟨a0, h0, hn⟩ := prepForSearch_trace env reader antennas
  have hn0 := hn EpcState.settled (by decide)
  unfold searchSimple
  generalize prepForSearch env reader antennas = r at h0
  by_cases hr : r.1 = SUCCESS
  swap
  · simp only [ne_eq, hr, not_false_eq_true, if_true]
    exact ⟨a0, EpcState.settled, h0, hn0, by decide, fun _ => rfl⟩
  simp only [ne_eq, hr, not_true_eq_false, if_false]
  by_cases hp : r.2.currentProtocol = protocol
  · simp only [hp, not_true_eq_false, if_false]
    by_cases ht : timeoutMs = 0
    · simp only [ht, if_true]
      exact ⟨a0, EpcState.settled, h0, hn0, by decide, fun _ => rfl⟩
    · simp only [ht, if_false, callCommand]
      refine ⟨a0 ++ [WireEvent.command (Command.inventory timeoutMs protocol tagop.isSome)],
        EpcState.settled, ?_, ?_, by decide, fun _ => rfl⟩
      · split
        · simp [h0]
        · split <;> simp [h0]
      · rw [epcRun_append, hn0]
        simp [epcRun, epcStep]
  · simp only [hp, not_false_eq_true, if_true]
    obtain ⟨hs1, hs2⟩ := setProtocol_trace env { r.2 with currentProtocol := protocol } protocol
    generalize setProtocol env { r.2 with currentProtocol := protocol } protocol = r1 at hs1 hs2
    simp only [h0] at hs1
    by_cases h1 : (env.command (Command.SetProtocol protocol)).1 = SUCCESS
    · simp only [h1, if_true] at hs1 hs2
      by_cases h2 : (env.command extendedEpcWrite).1 = SUCCESS
      · rw [h2] at hs2
        simp only [hs2, not_true_eq_false, if_false]
        by_cases ht : timeoutMs = 0
        · simp only [ht, if_true]
          refine ⟨a0 ++ [WireEvent.command (Command.SetProtocol protocol),
            WireEvent.command extendedEpcWrite], EpcState.settled, ?_, ?_, by decide,
            fun _ => rfl⟩
          · simp [hs1]
          · rw [epcRun_append, hn0]
            simp [epcRun, epcStep, h1, h2]
        · simp only [ht, if_false, callCommand]
          refine ⟨a0 ++ [WireEvent.command (Command.SetProtocol protocol),
            WireEvent.command extendedEpcWrite,
            WireEvent.command (Command.inventory timeoutMs protocol tagop.isSome)],
            EpcState.settled, ?_, ?_, by decide, fun _ => rfl⟩
          · split
            · simp [hs1]
            · split <;> simp [hs1]
          · rw [epcRun_append, hn0]
            simp [epcRun, epcStep, h1, h2]
      · simp only [hs2, h2, not_false_eq_true, if_true]
        refine ⟨a0 ++ [WireEvent.command (Command.SetProtocol protocol),
          WireEvent.command extendedEpcWrite], EpcState.unwritten, ?_, ?_, by decide, ?_⟩
        · simp [hs1]
        · rw [epcRun_append, hn0]
          simp [epcRun, epcStep, h1, h2]
        · intro h
          rcases h with h | h
          · exact h.elim
          · exact absurd h hepc
    · simp only [h1, if_false] at hs1 hs2
      simp only [hs2, h1, not_false_eq_true, if_true]
      refine ⟨a0 ++ [WireEvent.command (Command.SetProtocol protocol)], EpcState.settled, ?_,
        ?_, by decide, fun _ => rfl⟩
      · simp [hs1]
      · rw [epcRun_append, hn0]
        simp [epcRun, epcStep, h1]

mutual
/-- Within one call of `TMR_SR_read_internal`, from a trace that stands
settled, the rule is kept, whatever the plan: every successful `SetProtocol` is
followed at once by the ExtendedEPC write, and no search is sent after a
successful `SetProtocol` whose ExtendedEPC write has not succeeded.  The module
is taken not to answer the ExtendedEPC write with "no tags found", the one
error status the loop over sub-plans reads on from. -/
theorem read_internal_guarded (env : Env)
    (hepc : (env.command extendedEpcWrite).1 ≠ ERROR_NO_TAGS_FOUND) :
    ∀ (rp : TMR_ReadPlan) (reader : Reader) (timeoutMs tagCount : Nat),
      ∃ (added : List WireEvent) (s : EpcState),
        (TMR_SR_read_internal env rp reader timeoutMs tagCount).2.2.trace =
          reader.trace ++ added ∧
        epcRun env EpcState.settled added = some s ∧ s ≠ EpcState.awaited ∧
        ((TMR_SR_read_internal env rp reader timeoutMs tagCount).1 = SUCCESS ∨
          (TMR_SR_read_internal env rp reader timeoutMs tagCount).1 = ERROR_NO_TAGS_FOUND →
          s = EpcState.settled)
  | TMR_ReadPlan.multi weight plans totalWeight, reader, timeoutMs, tagCount => by
    unfold TMR_SR_read_internal
    by_cases hbig : TMR_MAX_SERIAL_MULTIPROTOCOL_LENGTH < plans.length
    · simp only [hbig, if_true]
      exact ⟨[], EpcState.settled, by simp, rfl, by decide, fun _ => rfl⟩
    · simp only [hbig, if_false]
      by_cases hw : totalWeight = 0
      · simp only [hw, if_true]
        obtain ⟨a0, h0, hn⟩ := prepForSearch_trace env reader (firstAntennaList plans)
        have hn0 := hn EpcState.settled (by decide)
        generalize prepForSearch env reader (firstAntennaList plans) = r at h0
        by_cases hr : r.1 = SUCCESS
        · simp only [ne_eq, hr, not_true_eq_false, if_false, callCommand]
          refine ⟨a0 ++ [WireEvent.command (Command.MultipleProtocolSearch
            (plans.map subPlanProtocol) (timeoutMs % 65536))], EpcState.settled, ?_, ?_,
            by decide, fun _ => rfl⟩
          · simp [h0]
          · rw [epcRun_append, hn0]
            simp [epcRun, epcStep]
        · simp only [ne_eq, hr, not_false_eq_true, if_true]
          exact ⟨a0, EpcState.settled, h0, hn0, by decide, fun _ => rfl⟩
      · simp only [hw, if_false]
        exact readSubPlans_guarded env hepc timeoutMs totalWeight plans reader tagCount SUCCESS
  | TMR_ReadPlan.simple weight antennas protocol filter tagop, reader, timeoutMs, tagCount => by
    unfold TMR_SR_read_internal
    exact searchSimple_guarded env hepc reader timeoutMs tagCount antennas protocol tagop
  | TMR_ReadPlan.other weight, reader, timeoutMs, tagCount => by
    unfold TMR_SR_read_internal
    exact ⟨[], EpcState.settled, by simp, rfl, by decide, fun _ => rfl⟩
/-- The loop over the sub-plans of a multi-plan keeps the rule, from a trace
that stands settled. -/
theorem readSubPlans_guarded (env : Env)
    (hepc : (env.command extendedEpcWrite).1 ≠ ERROR_NO_TAGS_FOUND)
    (timeoutMs totalWeight : Nat) :
    ∀ (plans : List TMR_ReadPlan) (reader : Reader) (tagCount : Nat) (ret : TMR_Status),
      ∃ (added : List WireEvent) (s : EpcState),
        (readSubPlans env timeoutMs totalWeight plans reader tagCount ret).2.2.trace =
          reader.trace ++ added ∧
        epcRun env EpcState.settled added = some s ∧ s ≠ EpcState.awaited ∧
        ((readSubPlans env timeoutMs totalWeight plans reader tagCount ret).1 = SUCCESS ∨
          (readSubPlans env timeoutMs totalWeight plans reader tagCount ret).1 =
            ERROR_NO_TAGS_FOUND → s = EpcState.settled)
  | [], reader, tagCount, ret => by
    unfold readSubPlans
    exact ⟨[], EpcState.settled, by simp, rfl, by decide, fun _ => rfl⟩
  | p :: rest, reader, tagCount, ret => by
    unfold readSubPlans
    obtain ⟨a1, s1, h1, hrun1, hs1, hok1⟩ := read_internal_guarded env hepc p reader
      (subTimeout p.weight timeoutMs totalWeight) tagCount
    cases hres : TMR_SR_read_internal env p reader (subTimeout p.weight timeoutMs totalWeight)
        tagCount with
    | mk st rest2 =>
      cases rest2 with
      | mk tc1 reader1 =>
        rw [hres] at h1 hok1
        simp only at h1 hok1 ⊢
        by_cases hstop : st ≠ SUCCESS ∧ st ≠ ERROR_NO_TAGS_FOUND
        · simp only [hstop, ne_eq, not_false_eq_true, and_self, if_true]
          exact ⟨a1, s1, h1, hrun1, hs1, fun h => h.elim False.elim False.elim⟩
        · simp only [hstop, if_false]
          have hst : st = SUCCESS ∨ st = ERROR_NO_TAGS_FOUND := by
            by_contra hcon
            exact hstop ⟨fun h => hcon (Or.inl h), fun h => hcon (Or.inr h)⟩
          have hs1s := hok1 hst
          obtain ⟨a2, s2, h2, hrun2, hs2, hok2⟩ := readSubPlans_guarded env hepc timeoutMs
            totalWeight rest reader1 tc1 st
          refine ⟨a1 ++ a2, s2, ?_, ?_, hs2, hok2⟩
          · rw [h2, h1, List.append_assoc]
          · rw [epcRun_append, hrun1, hs1s]
            exact hrun2
end

/-- C21, the part that holds, at the plan of two protocols, on a
module that accepts every command. -/
theorem read_internal_guarded_witness :
    ∃ (added : List WireEvent) (s : EpcState),
      (TMR_SR_read_internal detectModule twoProtocolPlan planReader 100 0).2.2.trace =
        planReader.trace ++ added ∧
      epcRun detectModule EpcState.settled added = some s ∧ s ≠ EpcState.awaited ∧
      ((TMR_SR_read_internal detectModule twoProtocolPlan planReader 100 0).1 = SUCCESS ∨
        (TMR_SR_read_internal detectModule twoProtocolPlan planReader 100 0).1 =
          ERROR_NO_TAGS_FOUND → s = EpcState.settled) :=
  read_internal_guarded detectModule (by decide) twoProtocolPlan planReader 100 0

/-- C21. The rule fails across two calls.  On a module that accepts
`SetProtocol` and answers the ExtendedEPC write with a timeout, a first call of
`TMR_SR_read_internal` for a Gen2 plan sends `SetProtocol` and the ExtendedEPC
write and returns the timeout, having recorded Gen2 as the current protocol
before `setProtocol` ran; a second call for the same plan therefore skips
`setProtocol` and sends the inventory round, with nothing but the antenna
search list between the failed ExtendedEPC write and the inventory. -/
theorem extended_epc_skipped :
    (TMR_SR_read_internal epcRefusingModule gen2Plan planReader 100 0).1 = ERROR_TIMEOUT ∧
    (TMR_SR_read_internal epcRefusingModule gen2Plan planReader 100 0).2.2.currentProtocol =
      TMR_TAG_PROTOCOL_GEN2 ∧
    (TMR_SR_read_internal epcRefusingModule gen2Plan
      (TMR_SR_read_internal epcRefusingModule gen2Plan planReader 100 0).2.2 100 0).1 =
        SUCCESS ∧
    (TMR_SR_read_internal epcRefusingModule gen2Plan
      (TMR_SR_read_internal epcRefusingModule gen2Plan planReader 100 0).2.2 100 0).2.2.trace =
        [WireEvent.command (Command.SetAntennaSearchList [(1, 1)]),
          WireEvent.command (Command.SetProtocol TMR_TAG_PROTOCOL_GEN2),
          WireEvent.command extendedEpcWrite,
          WireEvent.command (Command.SetAntennaSearchList [(1, 1)]),
          WireEvent.command (Command.inventory 100 TMR_TAG_PROTOCOL_GEN2 false)] ∧
    (epcRefusingModule.command (Command.SetProtocol TMR_TAG_PROTOCOL_GEN2)).1 = SUCCESS ∧
    (epcRefusingModule.command extendedEpcWrite).1 = ERROR_TIMEOUT ∧
    epcRun epcRefusingModule EpcState.settled
      (TMR_SR_read_internal epcRefusingModule gen2Plan
        (TMR_SR_read_internal epcRefusingModule gen2Plan planReader 100 0).2.2 100 0).2.2.trace =
      none := by
  refine ⟨by decide, by decide, by decide, by decide, by decide, by decide, by decide⟩

/-! ## Tag read data -/

/-- The record and the cursor after the read-count field. -/
theorem readCountField_eq (flags : Nat) (msg : Buf) (s : TMR_TagReadData × Nat)
    (h : s.2 < 256) :
    readCountField flags msg s =
      ({ s.1 with
          readCount :=
            if flags &&& TMR_TRD_METADATA_FLAG_READCOUNT ≠ 0 then msg s.2 else s.1.readCount },
        (s.2 + fieldSize flags TMR_TRD_METADATA_FLAG_READCOUNT 1) % 256) := by
  unfold readCountField fieldSize GETU8
  split
  · rfl
  · simp only [Nat.add_zero, Nat.mod_eq_of_lt h]

/-- The record and the cursor after the RSSI field. -/
theorem rssiField_eq (signedRssi : Bool) (flags : Nat) (msg : Buf) (s : TMR_TagReadData × Nat)
    (h : s.2 < 256) :
    rssiField signedRssi flags msg s =
      ({ s.1 with
          rssi :=
            if flags &&& TMR_TRD_METADATA_FLAG_RSSI ≠ 0 then
              (if signedRssi then toInt8 (msg s.2) else Int.ofNat (msg s.2))
            else s.1.rssi },
        (s.2 + fieldSize flags TMR_TRD_METADATA_FLAG_RSSI 1) % 256) := by
  unfold rssiField fieldSize GETU8
  split
  · rfl
  · simp only [Nat.add_zero, Nat.mod_eq_of_lt h]

/-- The record and the cursor after the antenna field. -/
theorem antennaField_eq (flags : Nat) (msg : Buf) (s : TMR_TagReadData × Nat)
    (h : s.2 < 256) :
    antennaField flags msg s =
      ({ s.1 with
          antenna :=
            if flags &&& TMR_TRD_METADATA_FLAG_ANTENNAID ≠ 0 then msg s.2 else s.1.antenna },
        (s.2 + fieldSize flags TMR_TRD_METADATA_FLAG_ANTENNAID 1) % 256) := by
  unfold antennaField fieldSize GETU8
  split
  · rfl
  · simp only [Nat.add_zero, Nat.mod_eq_of_lt h]

/-- The record and the cursor after the frequency field. -/
theorem frequencyField_eq (flags : Nat) (msg : Buf) (s : TMR_TagReadData × Nat)
    (h : s.2 < 256) :
    frequencyField flags msg s =
      ({ s.1 with
          frequency :=
            if flags &&& TMR_TRD_METADATA_FLAG_FREQUENCY ≠ 0 then GETU24AT msg s.2
            else s.1.frequency },
        (s.2 + fieldSize flags TMR_TRD_METADATA_FLAG_FREQUENCY 3) % 256) := by
  unfold frequencyField fieldSize GETU24
  split
  · rfl
  · simp only [Nat.add_zero, Nat.mod_eq_of_lt h]

/-- The record and the cursor after the timestamp field. -/
theorem timestampField_eq (flags : Nat) (msg : Buf) (s : TMR_TagReadData × Nat)
    (h : s.2 < 256) :
    timestampField flags msg s =
      ({ s.1 with
          dspMicros :=
            if flags &&& TMR_TRD_METADATA_FLAG_TIMESTAMP ≠ 0 then GETU32AT msg s.2
            else s.1.dspMicros },
        (s.2 + fieldSize flags TMR_TRD_METADATA_FLAG_TIMESTAMP 4) % 256) := by
  unfold timestampField fieldSize GETU32
  split
  · rfl
  · simp only [Nat.add_zero, Nat.mod_eq_of_lt h]

/-- The record and the cursor after the phase field. -/
theorem phaseField_eq (flags : Nat) (msg : Buf) (s : TMR_TagReadData × Nat)
    (h : s.2 < 256) :
    phaseField flags msg s =
      ({ s.1 with
          phase :=
            if flags &&& TMR_TRD_METADATA_FLAG_PHASE ≠ 0 then GETU16AT msg s.2 else s.1.phase },
        (s.2 + fieldSize flags TMR_TRD_METADATA_FLAG_PHASE 2) % 256) := by
  unfold phaseField fieldSize GETU16
  split
  · rfl
  · simp only [Nat.add_zero, Nat.mod_eq_of_lt h]

/-- The record and the cursor after the protocol field. -/
theorem protocolField_eq (flags : Nat) (msg : Buf) (s : TMR_TagReadData × Nat)
    (h : s.2 < 256) :
    protocolField flags msg s =
      ({ s.1 with
          tag :=
            { s.1.tag with
              protocol :=
                if flags &&& TMR_TRD_METADATA_FLAG_PROTOCOL ≠ 0 then msg s.2
                else s.1.tag.protocol } },
        (s.2 + fieldSize flags TMR_TRD_METADATA_FLAG_PROTOCOL 1) % 256) := by
  unfold protocolField fieldSize GETU8
  split
  · rfl
  · simp only [Nat.add_zero, Nat.mod_eq_of_lt h]

/-- The record and the cursor after the data field. -/
theorem dataField_eq (flags : Nat) (msg : Buf) (s : TMR_TagReadData × Nat)
    (h : s.2 < 256) :
    dataField flags msg s =
      ({ s.1 with
          data :=
            if flags &&& TMR_TRD_METADATA_FLAG_DATA ≠ 0 then
              { list :=
                  (List.range (min (GETU16AT msg s.2 / 8) s.1.data.max)).map
                      (fun k => msg ((s.2 + 2) % 256 + k)) ++
                    s.1.data.list.drop (min (GETU16AT msg s.2 / 8) s.1.data.max)
                max := s.1.data.max
                len := GETU16AT msg s.2 / 8 }
            else s.1.data },
        (s.2 + (if flags &&& TMR_TRD_METADATA_FLAG_DATA ≠ 0 then 2 + GETU16AT msg s.2 / 8
          else 0)) % 256) := by
  unfold dataField GETU16
  split
  · have hmin : (if GETU16AT msg s.2 / 8 > s.1.data.max then s.1.data.max
        else GETU16AT msg s.2 / 8) = min (GETU16AT msg s.2 / 8) s.1.data.max := by
      rw [Nat.min_def]
      split <;> split <;> omega
    simp only [hmin]
    congr 1
    omega
  · simp only [Nat.add_zero, Nat.mod_eq_of_lt h]

/-- The record and the cursor after the GPIO field. -/
theorem gpioField_eq (flags : Nat) (msg : Buf) (s : TMR_TagReadData × Nat)
    (h : s.2 < 256) :
    gpioField flags msg s =
      ({ s.1 with
          gpio :=
            if flags &&& TMR_TRD_METADATA_FLAG_GPIO_STATUS ≠ 0 then
              (List.range s.1.gpioCount).map
                  (fun j => { id := j + 1, high := (msg s.2 >>> j) &&& 0x1 = 1 }) ++
                s.1.gpio.drop s.1.gpioCount
            else s.1.gpio },
        (s.2 + fieldSize flags TMR_TRD_METADATA_FLAG_GPIO_STATUS 1) % 256) := by
  unfold gpioField fieldSize GETU8
  split
  · rfl
  · simp only [Nat.add_zero, Nat.mod_eq_of_lt h]

/-- The cursors of the fields of fixed size are where the specification puts
them. -/
theorem fieldAt_chain (flags i : Nat) (hi : i < 256) :
    i = fieldAt flags i 0 ∧
    (i + fieldSize flags TMR_TRD_METADATA_FLAG_READCOUNT 1) % 256 = fieldAt flags i 1 ∧
    (fieldAt flags i 1 + fieldSize flags TMR_TRD_METADATA_FLAG_RSSI 1) % 256 =
      fieldAt flags i 2 ∧
    (fieldAt flags i 2 + fieldSize flags TMR_TRD_METADATA_FLAG_ANTENNAID 1) % 256 =
      fieldAt flags i 3 ∧
    (fieldAt flags i 3 + fieldSize flags TMR_TRD_METADATA_FLAG_FREQUENCY 3) % 256 =
      fieldAt flags i 4 ∧
    (fieldAt flags i 4 + fieldSize flags TMR_TRD_METADATA_FLAG_TIMESTAMP 4) % 256 =
      fieldAt flags i 5 ∧
    (fieldAt flags i 5 + fieldSize flags TMR_TRD_METADATA_FLAG_PHASE 2) % 256 =
      fieldAt flags i 6 ∧
    (fieldAt flags i 6 + fieldSize flags TMR_TRD_METADATA_FLAG_PROTOCOL 1) % 256 =
      fieldAt flags i 7 := by
  simp only [fieldAt, fixedSizes, List.take, List.sum_cons, List.sum_nil]
  generalize fieldSize flags TMR_TRD_METADATA_FLAG_READCOUNT 1 = a1
  generalize fieldSize flags TMR_TRD_METADATA_FLAG_RSSI 1 = a2
  generalize fieldSize flags TMR_TRD_METADATA_FLAG_ANTENNAID 1 = a3
  generalize fieldSize flags TMR_TRD_METADATA_FLAG_FREQUENCY 3 = a4
  generalize fieldSize flags TMR_TRD_METADATA_FLAG_TIMESTAMP 4 = a5
  generalize fieldSize flags TMR_TRD_METADATA_FLAG_PHASE 2 = a6
  generalize fieldSize flags TMR_TRD_METADATA_FLAG_PROTOCOL 1 = a7
  refine ⟨?_, ?_, ?_, ?_, ?_, ?_, ?_, ?_⟩ <;> omega

/-- The record and the cursor when the EPC length field is reached. -/
theorem metadataFields_eq (signedRssi : Bool) (reader : Reader) (read : TMR_TagReadData)
    (flags i : Nat) (msg : Buf) (hi : i < 256) :
    metadataFields signedRssi reader read flags i msg =
      ({ metadataInit reader read flags with
          readCount :=
            if flags &&& TMR_TRD_METADATA_FLAG_READCOUNT ≠ 0 then msg (fieldAt flags i 0) else 0
          rssi :=
            if flags &&& TMR_TRD_METADATA_FLAG_RSSI ≠ 0 then
              (if signedRssi then toInt8 (msg (fieldAt flags i 1))
                else Int.ofNat (msg (fieldAt flags i 1)))
            else 0
          antenna :=
            if flags &&& TMR_TRD_METADATA_FLAG_ANTENNAID ≠ 0 then msg (fieldAt flags i 2) else 0
          frequency :=
            if flags &&& TMR_TRD_METADATA_FLAG_FREQUENCY ≠ 0 then GETU24AT msg (fieldAt flags i 3)
            else 0
          dspMicros :=
            if flags &&& TMR_TRD_METADATA_FLAG_TIMESTAMP ≠ 0 then GETU32AT msg (fieldAt flags i 4)
            else 0
          phase :=
            if flags &&& TMR_TRD_METADATA_FLAG_PHASE ≠ 0 then GETU16AT msg (fieldAt flags i 5)
            else 0
          tag :=
            { read.tag with
              protocol :=
                if flags &&& TMR_TRD_METADATA_FLAG_PROTOCOL ≠ 0 then msg (fieldAt flags i 6)
                else TMR_TAG_PROTOCOL_NONE }
          data :=
            if flags &&& TMR_TRD_METADATA_FLAG_DATA ≠ 0 then
              { list :=
                  (List.range (min (dataBytes flags i msg) read.data.max)).map
                      (fun k => msg ((fieldAt flags i 7 + 2) % 256 + k)) ++
                    read.data.list.drop (min (dataBytes flags i msg) read.data.max)
                max := read.data.max
                len := dataBytes flags i msg }
            else read.data
          gpio :=
            if flags &&& TMR_TRD_METADATA_FLAG_GPIO_STATUS ≠ 0 then
              (List.range (metadataInit reader read flags).gpioCount).map
                  (fun j => { id := j + 1, high := (msg (gpioAt flags i msg) >>> j) &&& 0x1 = 1 }) ++
                read.gpio.drop (metadataInit reader read flags).gpioCount
            else read.gpio },
        (i + metadataSize flags i msg) % 256) := by
  obtain ⟨c0, c1, c2, c3, c4, c5, c6, c7⟩ := fieldAt_chain flags i hi
  have hlt : ∀ k, fieldAt flags i k < 256 := fun k => Nat.mod_lt _ (by norm_num)
  have hg : (fieldAt flags i 7 + (if flags &&& TMR_TRD_METADATA_FLAG_DATA ≠ 0 then
      2 + GETU16AT msg (fieldAt flags i 7) / 8 else 0)) % 256 = gpioAt flags i msg := by
    unfold gpioAt dataBytes
    generalize (if flags &&& TMR_TRD_METADATA_FLAG_DATA ≠ 0 then
      2 + GETU16AT msg (fieldAt flags i 7) / 8 else 0) = d
    simp only [fieldAt, fixedSizes, List.take, List.sum_cons, List.sum_nil]
    omega
  have hend : (gpioAt flags i msg + fieldSize flags TMR_TRD_METADATA_FLAG_GPIO_STATUS 1) % 256 =
      (i + metadataSize flags i msg) % 256 := by
    unfold gpioAt metadataSize
    omega
  unfold metadataFields
  rw [readCountField_eq _ _ _ hi]
  simp only [c1]
  rw [rssiField_eq _ _ _ _ (hlt 1)]
  simp only [c2]
  rw [antennaField_eq _ _ _ (hlt 2)]
  simp only [c3]
  rw [frequencyField_eq _ _ _ (hlt 3)]
  simp only [c4]
  rw [timestampField_eq _ _ _ (hlt 4)]
  simp only [c5]
  rw [phaseField_eq _ _ _ (hlt 5)]
  simp only [c6]
  rw [protocolField_eq _ _ _ (hlt 6)]
  simp only [c7]
  rw [dataField_eq _ _ _ (hlt 7)]
  simp only [hg]
  rw [gpioField_eq _ _ _ (Nat.mod_lt _ (by norm_num))]
  simp only [hend]
  rw [← c0]
  rfl

/-- C23 (as amended): for a cursor that is a byte, `TMR_SR_parseMetadataFromMessage`
reads the flagged fields in the order readCount (1 byte), RSSI (1 byte, as
signed 8-bit), antenna (1), frequency (3, big-endian), timestamp (4,
big-endian), phase (2, big-endian), protocol (1), data (2-byte bit length, then
bit length / 8 bytes, of which at most `data.max` are copied), GPIO (1), each at
the index the fields before it leave; on reaching the EPC length field the
cursor has advanced by the sum of the sizes of the flagged fields, modulo 256;
an unflagged readCount, RSSI, antenna, frequency, timestamp or phase is 0, an
unflagged protocol is NONE and the two halves of the time stamp are 0, while an
unflagged data list and unflagged GPIO pins are left as they were on entry. -/
theorem metadata_field_order (reader : Reader) (read : TMR_TagReadData) (flags i : Nat)
    (msg : Buf) (hi : i < 256) :
    (metadataFields true reader read flags i msg).2 = (i + metadataSize flags i msg) % 256 ∧
    (TMR_SR_parseMetadataFromMessage reader read flags i msg).1.readCount =
      (if flags &&& TMR_TRD_METADATA_FLAG_READCOUNT ≠ 0 then msg i else 0) ∧
    (TMR_SR_parseMetadataFromMessage reader read flags i msg).1.rssi =
      (if flags &&& TMR_TRD_METADATA_FLAG_RSSI ≠ 0 then toInt8 (msg (fieldAt flags i 1))
        else 0) ∧
    (TMR_SR_parseMetadataFromMessage reader read flags i msg).1.antenna =
      (if flags &&& TMR_TRD_METADATA_FLAG_ANTENNAID ≠ 0 then msg (fieldAt flags i 2) else 0) ∧
    (TMR_SR_parseMetadataFromMessage reader read flags i msg).1.frequency =
      (if flags &&& TMR_TRD_METADATA_FLAG_FREQUENCY ≠ 0 then GETU24AT msg (fieldAt flags i 3)
        else 0) ∧
    (TMR_SR_parseMetadataFromMessage reader read flags i msg).1.dspMicros =
      (if flags &&& TMR_TRD_METADATA_FLAG_TIMESTAMP ≠ 0 then GETU32AT msg (fieldAt flags i 4)
        else 0) ∧
    (TMR_SR_parseMetadataFromMessage reader read flags i msg).1.phase =
      (if flags &&& TMR_TRD_METADATA_FLAG_PHASE ≠ 0 then GETU16AT msg (fieldAt flags i 5)
        else 0) ∧
    (TMR_SR_parseMetadataFromMessage reader read flags i msg).1.tag.protocol =
      (if flags &&& TMR_TRD_METADATA_FLAG_PROTOCOL ≠ 0 then msg (fieldAt flags i 6)
        else TMR_TAG_PROTOCOL_NONE) ∧
    (TMR_SR_parseMetadataFromMessage reader read flags i msg).1.data =
      (if flags &&& TMR_TRD_METADATA_FLAG_DATA ≠ 0 then
        { list :=
            (List.range (min (dataBytes flags i msg) read.data.max)).map
                (fun k => msg ((fieldAt flags i 7 + 2) % 256 + k)) ++
              read.data.list.drop (min (dataBytes flags i msg) read.data.max)
          max := read.data.max
          len := dataBytes flags i msg }
      else read.data) ∧
    (TMR_SR_parseMetadataFromMessage reader read flags i msg).1.gpio =
      (if flags &&& TMR_TRD_METADATA_FLAG_GPIO_STATUS ≠ 0 then
        (List.range
              (if reader.versionInfo.hardware.getD 0 0 = TMR_SR_MODEL_M5E then 2 else 4)).map
            (fun j => { id := j + 1, high := (msg (gpioAt flags i msg) >>> j) &&& 0x1 = 1 }) ++
          read.gpio.drop
            (if reader.versionInfo.hardware.getD 0 0 = TMR_SR_MODEL_M5E then 2 else 4)
      else read.gpio) ∧
    (TMR_SR_parseMetadataFromMessage reader read flags i msg).1.timestampLow = 0 ∧
    (TMR_SR_parseMetadataFromMessage reader read flags i msg).1.timestampHigh = 0 ∧
    (TMR_SR_parseMetadataFromMessage reader read flags i msg).1.metadataFlags = flags := by
  have h0 : fieldAt flags i 0 = i := ((fieldAt_chain flags i hi).1).symm
  unfold TMR_SR_parseMetadataFromMessage epcFields
  rw [metadataFields_eq true reader read flags i msg hi, h0]
  refine ⟨rfl, rfl, rfl, rfl, rfl, rfl, rfl, ?_, rfl, rfl, rfl, rfl, rfl⟩
  simp only []
  split <;> split <;> rfl

/-- C23 as amended, at a record with all nine fields. -/
theorem metadata_field_order_witness :
    (5 : Nat) < 256 ∧
    (metadataFields true freshReader emptyRead 0x1FF 5 allFieldsMessage).2 =
      (5 + metadataSize 0x1FF 5 allFieldsMessage) % 256 ∧
    metadataSize 0x1FF 5 allFieldsMessage = 18 ∧
    (TMR_SR_parseMetadataFromMessage freshReader emptyRead 0x1FF 5 allFieldsMessage).1.rssi =
      -56 :=
  ⟨by decide,
    (metadata_field_order freshReader emptyRead 0x1FF 5 allFieldsMessage (by decide)).1,
    by decide, by decide⟩

/-- C23 as stated fails.  With no flag set, a record that held three data
bytes and two pins on entry holds them on return: the unflagged data list has
length 3, not 0.  And a data field that announces 65528 bits moves the cursor,
a byte, from 5 to 6, not by the 8193 bytes of the field. -/
theorem metadata_unflagged_kept :
    (TMR_SR_parseMetadataFromMessage freshReader staleRead 0 5 (fun _ => 0)).1.data.len = 3 ∧
    (TMR_SR_parseMetadataFromMessage freshReader staleRead 0 5 (fun _ => 0)).1.data.list =
      [0xAA, 0xBB, 0xCC] ∧
    (TMR_SR_parseMetadataFromMessage freshReader staleRead 0 5 (fun _ => 0)).1.gpio =
      [{ id := 1, high := true }, { id := 2, high := true }] ∧
    metadataSize TMR_TRD_METADATA_FLAG_DATA 5 longDataMessage = 8193 ∧
    (metadataFields true freshReader emptyRead TMR_TRD_METADATA_FLAG_DATA 5
      longDataMessage).2 = 6 := by
  refine ⟨by decide, by decide, by decide, by decide, by decide⟩

/-- C24 (as amended): for a read-start time of two 32-bit halves and a 32-bit
delta `d` of DSP microseconds, `TMR_SR_postprocessReaderSpecificMetadata`
produces `timestampHigh * 2^32 + timestampLow = (readTimeHigh * 2^32 +
readTimeLow + d / 1000) mod 2^64`, both halves within 32 bits: the delta
divided by 1000, rounded down, is added to the 64-bit host clock with the carry
out of the low word propagated into the high word. -/
theorem timestamp_folding (read : TMR_TagReadData) (readTimeHigh readTimeLow : Nat)
    (txRxMap : TMR_AntennaMapList) (hh : readTimeHigh < 2 ^ 32) (hl : readTimeLow < 2 ^ 32)
    (hd : read.dspMicros < 2 ^ 32) :
    (TMR_SR_postprocessReaderSpecificMetadata read readTimeHigh readTimeLow
        txRxMap).timestampHigh * 2 ^ 32 +
      (TMR_SR_postprocessReaderSpecificMetadata read readTimeHigh readTimeLow
        txRxMap).timestampLow =
      (readTimeHigh * 2 ^ 32 + readTimeLow + read.dspMicros / 1000) % 2 ^ 64 ∧
    (TMR_SR_postprocessReaderSpecificMetadata read readTimeHigh readTimeLow
        txRxMap).timestampLow < 2 ^ 32 ∧
    (TMR_SR_postprocessReaderSpecificMetadata read readTimeHigh readTimeLow
        txRxMap).timestampHigh < 2 ^ 32 := by
  simp only [TMR_SR_postprocessReaderSpecificMetadata]
  have hq : read.dspMicros / 1000 < 2 ^ 32 := lt_of_le_of_lt (Nat.div_le_self _ _) hd
  generalize read.dspMicros / 1000 = q at hq
  norm_num at hh hl hq ⊢
  split <;> omega

/-- C24 as amended, at a read that starts one millisecond
before the low word wraps, with a delta of 2500 microseconds. -/
theorem timestamp_folding_witness :
    (TMR_SR_postprocessReaderSpecificMetadata { emptyRead with dspMicros := 2500 } 7
        (2 ^ 32 - 1) { list := [], max := 0 }).timestampHigh * 2 ^ 32 +
      (TMR_SR_postprocessReaderSpecificMetadata { emptyRead with dspMicros := 2500 } 7
        (2 ^ 32 - 1) { list := [], max := 0 }).timestampLow =
      (7 * 2 ^ 32 + (2 ^ 32 - 1) + 2500 / 1000) % 2 ^ 64 ∧
    (TMR_SR_postprocessReaderSpecificMetadata { emptyRead with dspMicros := 2500 } 7
        (2 ^ 32 - 1) { list := [], max := 0 }).timestampHigh = 8 ∧
    (TMR_SR_postprocessReaderSpecificMetadata { emptyRead with dspMicros := 2500 } 7
        (2 ^ 32 - 1) { list := [], max := 0 }).timestampLow = 1 :=
  ⟨(timestamp_folding { emptyRead with dspMicros := 2500 } 7 (2 ^ 32 - 1)
      { list := [], max := 0 } (by decide) (by decide) (by decide)).1,
    by decide, by decide⟩

/-- C24 as stated fails.  For a read that starts at time 0 and a delta of 1000
DSP microseconds the time stamp is 1, not 1000: the delta is divided by 1000
before it is added. -/
theorem timestamp_not_micros :
    (TMR_SR_postprocessReaderSpecificMetadata { emptyRead with dspMicros := 1000 } 0 0
        { list := [], max := 0 }).timestampHigh * 2 ^ 32 +
      (TMR_SR_postprocessReaderSpecificMetadata { emptyRead with dspMicros := 1000 } 0 0
        { list := [], max := 0 }).timestampLow = 1 ∧
    (0 * 2 ^ 32 + 0 + 1000) % 2 ^ 64 = 1000 := by
  refine ⟨by decide, by decide⟩

/-! ## The Gen2 link frequency -/

/-- What the setter and the getter of the Gen2 link frequency do: the setter
sends, for the values 250, 400, 40 and 640, one request that carries the byte
0x00, 0x02, 0x03 or 0x04, and returns its status; for every other value it
returns `TMR_ERROR_INVALID` without sending anything; the getter sends one
request and on success delivers byte 7 of the response as it is. -/
theorem link_frequency_codec (env : Env) (reader : Reader) (protocol value value0 : Nat) :
    (∀ blf, gen2LinkFrequencyCode value = some blf →
      (setGen2LinkFrequency env reader protocol value).2.trace =
        reader.trace ++ [WireEvent.message
          [3, TMR_SR_OPCODE_SET_PROTOCOL_PARAM, protocol % 256,
            TMR_SR_GEN2_CONFIGURATION_LINKFREQUENCY, blf]] ∧
      (setGen2LinkFrequency env reader protocol value).1 =
        (env.exchange [3, TMR_SR_OPCODE_SET_PROTOCOL_PARAM, protocol % 256,
          TMR_SR_GEN2_CONFIGURATION_LINKFREQUENCY, blf]).1) ∧
    (gen2LinkFrequencyCode value = none →
      setGen2LinkFrequency env reader protocol value = (ERROR_INVALID, reader)) ∧
    (gen2LinkFrequencyCode value = none ↔
      value ≠ TMR_GEN2_LINKFREQUENCY_250KHZ ∧ value ≠ TMR_GEN2_LINKFREQUENCY_400KHZ ∧
        value ≠ TMR_GEN2_LINKFREQUENCY_40KHZ ∧ value ≠ TMR_GEN2_LINKFREQUENCY_640KHZ) ∧
    (getGen2LinkFrequency env reader protocol value0).2.2.trace =
      reader.trace ++ [WireEvent.message
        [2, TMR_SR_OPCODE_GET_PROTOCOL_PARAM, protocol % 256,
          TMR_SR_GEN2_CONFIGURATION_LINKFREQUENCY]] ∧
    ((getGen2LinkFrequency env reader protocol value0).1 = SUCCESS →
      (getGen2LinkFrequency env reader protocol value0).2.1 =
        (env.exchange [2, TMR_SR_OPCODE_GET_PROTOCOL_PARAM, protocol % 256,
          TMR_SR_GEN2_CONFIGURATION_LINKFREQUENCY]).2 7) := by
  have hset : ∀ blf, blf < 256 → requestOf (installLength (SETU8 (SETU8 (SETU8 (SETU8
      (fun _ => 0, 2) TMR_SR_OPCODE_SET_PROTOCOL_PARAM) protocol)
      TMR_SR_GEN2_CONFIGURATION_LINKFREQUENCY) blf)) =
      [3, TMR_SR_OPCODE_SET_PROTOCOL_PARAM, protocol % 256,
        TMR_SR_GEN2_CONFIGURATION_LINKFREQUENCY, blf] := by
    intro blf hb
    simp [requestOf, installLength, SETU8, List.range_succ, TMR_SR_OPCODE_SET_PROTOCOL_PARAM,
      TMR_SR_GEN2_CONFIGURATION_LINKFREQUENCY, Nat.mod_eq_of_lt hb]
  have hget : requestOf (installLength (SETU8 (SETU8 (SETU8
      (fun _ => 0, 2) TMR_SR_OPCODE_GET_PROTOCOL_PARAM) protocol)
      TMR_SR_GEN2_CONFIGURATION_LINKFREQUENCY)) =
      [2, TMR_SR_OPCODE_GET_PROTOCOL_PARAM, protocol % 256,
        TMR_SR_GEN2_CONFIGURATION_LINKFREQUENCY] := by
    simp [requestOf, installLength, SETU8, List.range_succ, TMR_SR_OPCODE_GET_PROTOCOL_PARAM,
      TMR_SR_GEN2_CONFIGURATION_LINKFREQUENCY]
  refine ⟨?_, ?_, ?_, ?_, ?_⟩
  · intro blf hc
    have hb : blf < 256 := by
      unfold gen2LinkFrequencyCode at hc
      split_ifs at hc <;> simp at hc <;> omega
    simp only [setGen2LinkFrequency, hc, TMR_SR_send, TMR_SR_sendTimeout, hset blf hb]
    exact ⟨trivial, trivial⟩
  · intro hc
    simp only [setGen2LinkFrequency, hc]
  · unfold gen2LinkFrequencyCode TMR_GEN2_LINKFREQUENCY_250KHZ TMR_GEN2_LINKFREQUENCY_400KHZ
      TMR_GEN2_LINKFREQUENCY_40KHZ TMR_GEN2_LINKFREQUENCY_640KHZ
    constructor
    · intro h
      split_ifs at h
      omega
    · intro h
      split_ifs <;> first | rfl | omega
  · simp only [getGen2LinkFrequency, TMR_SR_send, TMR_SR_sendTimeout, hget]
    split <;> rfl
  · simp only [getGen2LinkFrequency, TMR_SR_send, TMR_SR_sendTimeout, hget]
    split
    · intro h
      rename_i hne
      exact absurd h hne
    · intro _
      rfl

/-- C28, the part that holds, at the value 250 kHz. -/
theorem link_frequency_codec_witness :
    (setGen2LinkFrequency (blfModule 0) freshReader TMR_TAG_PROTOCOL_GEN2 250).2.trace =
      freshReader.trace ++ [WireEvent.message
        [3, TMR_SR_OPCODE_SET_PROTOCOL_PARAM, TMR_TAG_PROTOCOL_GEN2 % 256,
          TMR_SR_GEN2_CONFIGURATION_LINKFREQUENCY, 0x00]] :=
  ((link_frequency_codec (blfModule 0) freshReader TMR_TAG_PROTOCOL_GEN2 250 0).1 0x00
    (by decide)).1

/-- C28. The round trip of the Gen2 link frequency fails for each of the four
values.  On a module that accepts the set, stores the byte it carries and
answers the get with that byte, a set of 250, 400, 40 or 640 kHz followed by a
get succeeds twice and delivers 0, 2, 3 or 4, the byte of the wire, not the
`TMR_GEN2_LinkFrequency` that was set. -/
theorem link_frequency_round_trip_fails :
    linkFrequencyRoundTrip TMR_GEN2_LINKFREQUENCY_250KHZ = (SUCCESS, SUCCESS, 0) ∧
    linkFrequencyRoundTrip TMR_GEN2_LINKFREQUENCY_400KHZ = (SUCCESS, SUCCESS, 2) ∧
    linkFrequencyRoundTrip TMR_GEN2_LINKFREQUENCY_40KHZ = (SUCCESS, SUCCESS, 3) ∧
    linkFrequencyRoundTrip TMR_GEN2_LINKFREQUENCY_640KHZ = (SUCCESS, SUCCESS, 4) ∧
    (setGen2LinkFrequency (blfModule 0) freshReader TMR_TAG_PROTOCOL_GEN2
      TMR_GEN2_LINKFREQUENCY_250KHZ).2.trace =
        [WireEvent.message [3, 0x9B, 0x05, 0x10, 0x00]] := by
  refine ⟨by decide, by decide, by decide, by decide, by decide⟩

/-! ## Listener registration -/

/-- A chain from a null head is empty. -/
theorem listIs_none (next : Nat → Option Nat) (l : List Nat) :
    listIs next none l = true ↔ l = [] := by
  cases l <;> simp [listIs]

/-- A chain from a block starts with the block and goes on from its field
`next`. -/
theorem listIs_cons (next : Nat → Option Nat) (a x : Nat) (l : List Nat) :
    listIs next (some a) (x :: l) = true ↔ x = a ∧ listIs next (next a) l = true := by
  simp only [listIs, Bool.and_eq_true, beq_iff_eq]
  constructor
  · rintro ⟨h1, h2⟩
    exact ⟨h1.symm, h2⟩
  · rintro ⟨h1, h2⟩
    exact ⟨h1.symm, h2⟩

/-- A chain of at least one block does not start at the null pointer. -/
theorem listIs_none_cons (next : Nat → Option Nat) (x : Nat) (l : List Nat) :
    listIs next none (x :: l) = false := rfl

/-- A chain from a block is not empty. -/
theorem listIs_some_nil (next : Nat → Option Nat) (a : Nat) :
    listIs next (some a) [] = false := rfl

/-- The blocks reached from a head pointer are determined by it. -/
theorem listIs_unique (next : Nat → Option Nat) :
    ∀ (l1 l2 : List Nat) (h : Option Nat),
      listIs next h l1 = true → listIs next h l2 = true → l1 = l2 := by
  intro l1
  induction l1 with
  | nil =>
    intro l2 h h1 h2
    cases h with
    | none => exact ((listIs_none next l2).1 h2).symm
    | some a => simp [listIs_some_nil] at h1
  | cons x t ih =>
    intro l2 h h1 h2
    cases h with
    | none => simp [listIs_none_cons] at h1
    | some a =>
      cases l2 with
      | nil => simp [listIs_some_nil] at h2
      | cons x2 t2 =>
        obtain ⟨e1, c1⟩ := (listIs_cons next a x t).1 h1
        obtain ⟨e2, c2⟩ := (listIs_cons next a x2 t2).1 h2
        rw [e1, e2, ih t2 (next a) c1 c2]

/-- A block of a chain heads the rest of the chain. -/
theorem listIs_mem (next : Nat → Option Nat) (a : Nat) :
    ∀ (l : List Nat) (h : Option Nat), listIs next h l = true → a ∈ l →
      ∃ l1 l2, l = l1 ++ a :: l2 ∧ listIs next (some a) (a :: l2) = true := by
  intro l
  induction l with
  | nil => intro h _ hm; simp at hm
  | cons x t ih =>
    intro h hc hm
    cases h with
    | none => simp [listIs_none_cons] at hc
    | some y =>
      obtain ⟨e1, c1⟩ := (listIs_cons next y x t).1 hc
      by_cases hax : a = x
      · refine ⟨[], t, by rw [hax]; rfl, ?_⟩
        rw [hax, e1]
        rw [e1] at hc
        exact hc
      · have hm2 : a ∈ t := by
          rcases List.mem_cons.1 hm with h | h
          · exact absurd h hax
          · exact h
        obtain ⟨l1, l2, e, c⟩ := ih (next y) c1 hm2
        exact ⟨x :: l1, l2, by rw [e]; rfl, c⟩

/-- A chain that ends at the null pointer visits no block twice. -/
theorem listIs_nodup (next : Nat → Option Nat) :
    ∀ (l : List Nat) (h : Option Nat), listIs next h l = true → l.Nodup := by
  intro l
  induction l with
  | nil => intro _ _; exact List.nodup_nil
  | cons x t ih =>
    intro h hc
    cases h with
    | none => simp [listIs_none_cons] at hc
    | some y =>
      obtain ⟨e1, c1⟩ := (listIs_cons next y x t).1 hc
      refine List.nodup_cons.2 ⟨?_, ih (next y) c1⟩
      intro hm
      obtain ⟨l1, l2, e, c⟩ := listIs_mem next x t (next y) c1 hm
      rw [e1] at c
      have h2 := listIs_unique next _ _ _ c hc
      simp only [List.cons.injEq] at h2
      have hl := congrArg List.length e
      rw [h2.2] at hl
      simp at hl
      omega

/-- A chain looks only at the fields `next` of its own blocks. -/
theorem listIs_congr (next1 next2 : Nat → Option Nat) :
    ∀ (l : List Nat) (h : Option Nat), (∀ a ∈ l, next1 a = next2 a) →
      listIs next1 h l = listIs next2 h l := by
  intro l
  induction l with
  | nil => intro h _; cases h <;> rfl
  | cons x t ih =>
    intro h hn
    cases h with
    | none => rfl
    | some y =>
      by_cases hyx : x = y
      · have e1 := hn x (List.mem_cons_self _ _)
        have e2 := ih (next2 x) (fun a ha => hn a (List.mem_cons_of_mem _ ha))
        rw [← hyx]
        simp only [listIs, e1, e2]
      · have h1 : listIs next1 (some y) (x :: t) = false := by
          cases hh : listIs next1 (some y) (x :: t) with
          | false => rfl
          | true => exact absurd ((listIs_cons next1 y x t).1 hh).1 hyx
        have h2 : listIs next2 (some y) (x :: t) = false := by
          cases hh : listIs next2 (some y) (x :: t) with
          | false => rfl
          | true => exact absurd ((listIs_cons next2 y x t).1 hh).1 hyx
        rw [h1, h2]

/-- Redirecting the field `next` of the block before `b` to the block after
`b` takes `b` out of the chain. -/
theorem listIs_unlink (next : Nat → Option Nat) (p b : Nat) (r : List Nat) :
    ∀ (pre : List Nat) (h : Option Nat),
      listIs next h (pre ++ p :: b :: r) = true → (pre ++ p :: b :: r).Nodup →
      listIs (fun k => if k = p then next b else next k) h (pre ++ p :: r) = true := by
  intro pre
  induction pre with
  | nil =>
    intro h hc hnd
    cases h with
    | none => simp [listIs_none_cons] at hc
    | some y =>
      simp only [List.nil_append] at hc hnd ⊢
      obtain ⟨e1, c1⟩ := (listIs_cons next y p _).1 hc
      rw [← e1] at c1 ⊢
      cases hny : next p with
      | none => rw [hny] at c1; simp [listIs_none_cons] at c1
      | some z =>
        rw [hny] at c1
        obtain ⟨e3, c3⟩ := (listIs_cons next z b r).1 c1
        rw [← e3] at c3
        rw [listIs_cons]
        refine ⟨rfl, ?_⟩
        simp only [if_true]
        rw [listIs_congr _ next r (next b)]
        · exact c3
        · intro a ha
          have hap : a ≠ p := by
            intro hap
            have := (List.nodup_cons.1 hnd).1
            exact this (List.mem_cons_of_mem _ (hap ▸ ha))
          simp only [hap, if_false]
  | cons q pre ih =>
    intro h hc hnd
    cases h with
    | none => simp [listIs_none_cons] at hc
    | some y =>
      simp only [List.cons_append] at hc hnd ⊢
      obtain ⟨e1, c1⟩ := (listIs_cons next y q _).1 hc
      rw [← e1] at c1 ⊢
      rw [listIs_cons]
      refine ⟨rfl, ?_⟩
      have hqp : q ≠ p := by
        intro hqp
        have := (List.nodup_cons.1 hnd).1
        apply this
        rw [hqp]
        simp
      simp only [hqp, if_false]
      exact ih (next q) c1 (List.nodup_cons.1 hnd).2

/-- The loop of the remove functions on a chain that does not hold `b`: it
ends with a null `block` and changes nothing. -/
theorem unlinkLoop_absent (b : Nat) (head : Option Nat) (next : Nat → Option Nat) :
    ∀ (rest : List Nat) (fuel : Nat) (prev block : Option Nat),
      listIs next block rest = true → rest.length < fuel → b ∉ rest →
      unlinkLoop b head next fuel prev block = some (none, head, next) := by
  intro rest
  induction rest with
  | nil =>
    intro fuel prev block hc hf _
    cases block with
    | some a => simp [listIs_some_nil] at hc
    | none =>
      cases fuel with
      | zero => simp at hf
      | succ n => rfl
  | cons x t ih =>
    intro fuel prev block hc hf hb
    cases block with
    | none => simp [listIs_none_cons] at hc
    | some y =>
      obtain ⟨e1, c1⟩ := (listIs_cons next y x t).1 hc
      cases fuel with
      | zero => simp at hf
      | succ n =>
        have hyb : y ≠ b := fun h => hb (by rw [← h, ← e1]; exact List.mem_cons_self _ _)
        simp only [unlinkLoop, hyb, if_false]
        exact ih n (some y) (next y) c1 (by simpa using hf)
          (fun h => hb (List.mem_cons_of_mem _ h))

/-- The loop of the remove functions on a chain that holds `b` behind the
blocks `r1`: it ends with `block` at `b` and has redirected the pointer before
`b`, which is the one the loop started with when `r1` is empty and the field
`next` of the last block of `r1` otherwise. -/
theorem unlinkLoop_found (b : Nat) (head : Option Nat) (next : Nat → Option Nat)
    (r2 : List Nat) :
    ∀ (r1 : List Nat) (fuel : Nat) (prev block : Option Nat),
      listIs next block (r1 ++ b :: r2) = true → (r1 ++ b :: r2).length < fuel → b ∉ r1 →
      unlinkLoop b head next fuel prev block =
        match (if r1 = [] then prev else r1.getLast?) with
        | none => some (some b, next b, next)
        | some p => some (some b, head, fun k => if k = p then next b else next k) := by
  intro r1
  induction r1 with
  | nil =>
    intro fuel prev block hc hf _
    cases block with
    | none => simp [listIs_none_cons] at hc
    | some y =>
      obtain ⟨e1, c1⟩ := (listIs_cons next y b r2).1 hc
      rw [← e1]
      cases fuel with
      | zero => simp at hf
      | succ n =>
        simp only [unlinkLoop, if_true]
  | cons x t ih =>
    intro fuel prev block hc hf hb
    cases block with
    | none => simp [listIs_none_cons] at hc
    | some y =>
      obtain ⟨e1, c1⟩ := (listIs_cons next y x _).1 hc
      cases fuel with
      | zero => simp at hf
      | succ n =>
        have hyb : y ≠ b := fun h => hb (by rw [← h, ← e1]; exact List.mem_cons_self _ _)
        simp only [unlinkLoop, hyb, if_false]
        rw [ih n (some y) (next y) c1 (by simpa using hf)
          (fun h => hb (List.mem_cons_of_mem _ h))]
        rw [← e1]
        cases t with
        | nil => simp
        | cons z t2 => simp [List.getLast?_cons_cons]

/-- What the loop of the remove functions does to a chain `l`, started at the
head pointer: when `b` is a block of `l` it ends at `b` and leaves the chain
`l` without `b`, otherwise it ends with a null `block` and changes nothing. -/
theorem unlinkLoop_chain (b : Nat) (head : Option Nat) (next : Nat → Option Nat)
    (l : List Nat) (fuel : Nat) (hc : listIs next head l = true) (hf : l.length < fuel) :
    (b ∈ l →
      ∃ head1 next1, unlinkLoop b head next fuel none head = some (some b, head1, next1) ∧
        listIs next1 head1 (l.erase b) = true) ∧
    (b ∉ l → unlinkLoop b head next fuel none head = some (none, head, next)) := by
  refine ⟨fun hm => ?_, fun hm => unlinkLoop_absent b head next l fuel none head hc hf hm⟩
  have hnd := listIs_nodup next l head hc
  obtain ⟨r1, r2, rfl⟩ := List.append_of_mem hm
  have hb1 : b ∉ r1 := by
    intro h
    have := (List.nodup_append.1 hnd).2.2
    exact this h (List.mem_cons_self _ _)
  rw [unlinkLoop_found b head next r2 r1 fuel none head hc hf hb1]
  have herase : (r1 ++ b :: r2).erase b = r1 ++ r2 := by
    rw [List.erase_append_right _ hb1, List.erase_cons_head]
  rw [herase]
  rcases List.eq_nil_or_concat r1 with hr | ⟨pre, p, hr⟩
  · rw [hr] at hc ⊢
    refine ⟨_, _, rfl, ?_⟩
    cases head with
    | none => simp [listIs_none_cons] at hc
    | some y =>
      obtain ⟨e1, c1⟩ := (listIs_cons next y b r2).1 hc
      rw [← e1] at c1
      exact c1
  · rw [List.concat_eq_append] at hr
    rw [hr] at hc hnd ⊢
    have hne : pre ++ [p] ≠ [] := by simp
    have hlast : (pre ++ [p]).getLast? = some p := by simp
    simp only [hne, if_false, hlast]
    refine ⟨_, _, rfl, ?_⟩
    have := listIs_unlink next p b r2 pre head (by simpa using hc) (by simpa using hnd)
    simpa using this

/-- C29. Listener registration, with the listener lock as explicit state and
the two lists as null-terminated chains `lr` and `le` of blocks.  While the
lock is held the four functions return `TMR_ERROR_TRYAGAIN` and leave the
state as it is.  With the lock free, an add returns success with the lock free
again, the block as the new head and its field `next` at the old head, every
other field `next` and the other list as before, so that the chain is `b`
followed by the old chain when `b` was not in it; a remove, for any bound above
the length of the chain, returns: with success and the chain without `b` when
`b` was in it, and with `TMR_ERROR_INVALID` and the state unchanged when it was
not, the other list being untouched. -/
theorem listener_registration (s : ListenerState) (b fuel : Nat) (lr le : List Nat)
    (hr : listIs s.readNext s.readListeners lr = true)
    (he : listIs s.exceptionNext s.readExceptionListeners le = true)
    (hfr : lr.length < fuel) (hfe : le.length < fuel) :
    (s.listenerLock = true →
      TMR_addReadListener s b = (ERROR_TRYAGAIN, s) ∧
      TMR_removeReadListener fuel s b = some (ERROR_TRYAGAIN, s) ∧
      TMR_addReadExceptionListener s b = (ERROR_TRYAGAIN, s) ∧
      TMR_removeReadExceptionListener fuel s b = some (ERROR_TRYAGAIN, s)) ∧
    (s.listenerLock = false →
      ((TMR_addReadListener s b).1 = SUCCESS ∧
        (TMR_addReadListener s b).2.listenerLock = false ∧
        (TMR_addReadListener s b).2.readListeners = some b ∧
        (TMR_addReadListener s b).2.readNext b = s.readListeners ∧
        (∀ k, k ≠ b → (TMR_addReadListener s b).2.readNext k = s.readNext k) ∧
        (TMR_addReadListener s b).2.readExceptionListeners = s.readExceptionListeners ∧
        (TMR_addReadListener s b).2.exceptionNext = s.exceptionNext ∧
        (b ∉ lr →
          listIs (TMR_addReadListener s b).2.readNext (TMR_addReadListener s b).2.readListeners
            (b :: lr) = true)) ∧
      (∃ st s1, TMR_removeReadListener fuel s b = some (st, s1) ∧
        s1.listenerLock = false ∧
        s1.readExceptionListeners = s.readExceptionListeners ∧
        s1.exceptionNext = s.exceptionNext ∧
        (b ∈ lr → st = SUCCESS ∧ listIs s1.readNext s1.readListeners (lr.erase b) = true) ∧
        (b ∉ lr → st = ERROR_INVALID ∧ s1 = s)) ∧
      ((TMR_addReadExceptionListener s b).1 = SUCCESS ∧
        (TMR_addReadExceptionListener s b).2.listenerLock = false ∧
        (TMR_addReadExceptionListener s b).2.readExceptionListeners = some b ∧
        (TMR_addReadExceptionListener s b).2.exceptionNext b = s.readExceptionListeners ∧
        (∀ k, k ≠ b →
          (TMR_addReadExceptionListener s b).2.exceptionNext k = s.exceptionNext k) ∧
        (TMR_addReadExceptionListener s b).2.readListeners = s.readListeners ∧
        (TMR_addReadExceptionListener s b).2.readNext = s.readNext ∧
        (b ∉ le →
          listIs (TMR_addReadExceptionListener s b).2.exceptionNext
            (TMR_addReadExceptionListener s b).2.readExceptionListeners (b :: le) = true)) ∧
      (∃ st s1, TMR_removeReadExceptionListener fuel s b = some (st, s1) ∧
        s1.listenerLock = false ∧
        s1.readListeners = s.readListeners ∧
        s1.readNext = s.readNext ∧
        (b ∈ le →
          st = SUCCESS ∧ listIs s1.exceptionNext s1.readExceptionListeners (le.erase b) = true) ∧
        (b ∉ le → st = ERROR_INVALID ∧ s1 = s))) := by
  have hadd : ∀ (next : Nat → Option Nat) (head : Option Nat) (l : List Nat),
      listIs next head l = true → b ∉ l →
      listIs (linkBlock head next b).2 (linkBlock head next b).1 (b :: l) = true := by
    intro next head l hc hb
    unfold linkBlock
    rw [listIs_cons]
    refine ⟨rfl, ?_⟩
    simp only [if_true]
    rw [listIs_congr _ next l head]
    · exact hc
    · intro a ha
      have hab : a ≠ b := fun h => hb (h ▸ ha)
      simp only [hab, if_false]
  refine ⟨fun hl => ?_, fun hl => ⟨?_, ?_, ?_, ?_⟩⟩
  · simp [TMR_addReadListener, TMR_removeReadListener, TMR_addReadExceptionListener,
      TMR_removeReadExceptionListener, hl]
  · refine ⟨?_, ?_, ?_, ?_, ?_, ?_, ?_, ?_⟩
    · simp [TMR_addReadListener, hl]
    · simp [TMR_addReadListener, hl]
    · simp [TMR_addReadListener, hl, linkBlock]
    · simp [TMR_addReadListener, hl, linkBlock]
    · intro k hk
      simp [TMR_addReadListener, hl, linkBlock, hk]
    · simp [TMR_addReadListener, hl]
    · simp [TMR_addReadListener, hl]
    · intro hb
      simp only [TMR_addReadListener, hl, Bool.false_eq_true, if_false]
      exact hadd s.readNext s.readListeners lr hr hb
  · obtain ⟨hin, hout⟩ := unlinkLoop_chain b s.readListeners s.readNext lr fuel hr hfr
    by_cases hb : b ∈ lr
    · obtain ⟨head1, next1, e, c⟩ := hin hb
      refine ⟨SUCCESS, { s with readListeners := head1, readNext := next1 }, ?_, hl, rfl, rfl,
        fun _ => ⟨rfl, c⟩, fun h => absurd hb h⟩
      simp [TMR_removeReadListener, hl, e]
    · refine ⟨ERROR_INVALID, s, ?_, hl, rfl, rfl, fun h => absurd h hb, fun _ => ⟨rfl, rfl⟩⟩
      unfold TMR_removeReadListener
      rw [if_neg (by simp [hl]), hout hb]
      rfl
  · refine ⟨?_, ?_, ?_, ?_, ?_, ?_, ?_, ?_⟩
    · simp [TMR_addReadExceptionListener, hl]
    · simp [TMR_addReadExceptionListener, hl]
    · simp [TMR_addReadExceptionListener, hl, linkBlock]
    · simp [TMR_addReadExceptionListener, hl, linkBlock]
    · intro k hk
      simp [TMR_addReadExceptionListener, hl, linkBlock, hk]
    · simp [TMR_addReadExceptionListener, hl]
    · simp [TMR_addReadExceptionListener, hl]
    · intro hb
      simp only [TMR_addReadExceptionListener, hl, Bool.false_eq_true, if_false]
      exact hadd s.exceptionNext s.readExceptionListeners le he hb
  · obtain ⟨hin, hout⟩ := unlinkLoop_chain b s.readExceptionListeners s.exceptionNext le fuel
      he hfe
    by_cases hb : b ∈ le
    · obtain ⟨head1, next1, e, c⟩ := hin hb
      refine ⟨SUCCESS, { s with readExceptionListeners := head1, exceptionNext := next1 }, ?_,
        hl, rfl, rfl, fun _ => ⟨rfl, c⟩, fun h => absurd hb h⟩
      simp [TMR_removeReadExceptionListener, hl, e]
    · refine ⟨ERROR_INVALID, s, ?_, hl, rfl, rfl, fun h => absurd h hb, fun _ => ⟨rfl, rfl⟩⟩
      unfold TMR_removeReadExceptionListener
      rw [if_neg (by simp [hl]), hout hb]
      rfl

/-- C29, at the read listeners 3, 2, 1: the
remove of block 2 returns success and leaves the listeners 3, 1. -/
theorem listener_registration_witness :
    ∃ st s1, TMR_removeReadListener 4 threeListeners 2 = some (st, s1) ∧
      st = SUCCESS ∧ listIs s1.readNext s1.readListeners [3, 1] = true :=
  match ((listener_registration threeListeners 2 4 [3, 2, 1] [7] (by decide) (by decide)
    (by decide) (by decide)).2 rfl).2.1 with
  | ⟨st, s1, e, _, _, _, hin, _⟩ => ⟨st, s1, e, (hin (by decide)).1, (hin (by decide)).2⟩

/-! ## Loading firmware -/

/-- Storing nothing changes nothing. -/
theorem writeBytes_nil (d : Buf) (off : Nat) : writeBytes d off [] = d := by
  funext i
  simp [writeBytes]

/-- Storing two lists one behind the other is storing their concatenation. -/
theorem writeBytes_append (d : Buf) (off : Nat) (a b : List Nat) :
    writeBytes (writeBytes d off a) (off + a.length) b = writeBytes d off (a ++ b) := by
  funext i
  simp only [writeBytes, List.length_append]
  by_cases h1 : off + a.length ≤ i ∧ i < off + a.length + b.length
  · have h2 : off ≤ i ∧ i < off + (a.length + b.length) := by omega
    rw [if_pos h1, if_pos h2, List.getD_append_right _ _ _ _ (by omega)]
    congr 1
    omega
  · rw [if_neg h1]
    by_cases h3 : off ≤ i ∧ i < off + a.length
    · have h2 : off ≤ i ∧ i < off + (a.length + b.length) := by omega
      rw [if_pos h3, if_pos h2, List.getD_append _ _ _ _ (by omega)]
    · have h2 : ¬ (off ≤ i ∧ i < off + (a.length + b.length)) := by omega
      rw [if_neg h3, if_neg h2]

/-- The provider that hands out an image in chunks fills the buffer with the
next `remaining` bytes of the image, whatever the size of its chunks, within
`remaining` calls. -/
theorem provideLoop_stream (chunk width : Nat) (hchunk : 1 ≤ chunk) (hw : 65536 ≤ width) :
    ∀ (fuel remaining : Nat) (cookie : List Nat) (buf : Buf) (offset : Nat),
      remaining ≤ fuel → remaining ≤ cookie.length → offset + remaining < 65536 →
      provideLoop (streamProvider chunk) width fuel cookie buf remaining offset =
        some (some (cookie.drop remaining, writeBytes buf offset (cookie.take remaining))) := by
  intro fuel
  induction fuel with
  | zero =>
    intro remaining cookie buf offset hf _ _
    have h0 : remaining = 0 := by omega
    subst h0
    simp [provideLoop, writeBytes_nil]
  | succ n ih =>
    intro remaining cookie buf offset hf hc ho
    by_cases h0 : remaining = 0
    · subst h0
      simp [provideLoop, writeBytes_nil]
    · have hne : cookie ≠ [] := by
        intro h
        rw [h] at hc
        simp at hc
        exact h0 hc
      have hmod : remaining % 65536 = remaining := Nat.mod_eq_of_lt (by omega)
      have hs1 : 1 ≤ min remaining chunk := by
        rw [Nat.le_min]
        omega
      have hs2 : min remaining chunk ≤ remaining := Nat.min_le_left _ _
      have hlen : (cookie.take (min remaining chunk)).length = min remaining chunk := by
        rw [List.length_take]
        omega
      have hsm : min remaining chunk % 65536 = min remaining chunk :=
        Nat.mod_eq_of_lt (by omega)
      have hrem : (remaining + width - min remaining chunk) % width =
          remaining - min remaining chunk := by
        have : remaining + width - min remaining chunk =
            (remaining - min remaining chunk) + width := by omega
        rw [this, Nat.add_mod_right, Nat.mod_eq_of_lt (by omega)]
      have hoff : (offset + min remaining chunk) % 65536 = offset + min remaining chunk :=
        Nat.mod_eq_of_lt (by omega)
      simp only [provideLoop, h0, if_false, streamProvider, hne, hmod, hlen, hsm, hrem, hoff,
        Bool.true_eq_false]
      rw [ih (remaining - min remaining chunk) (cookie.drop (min remaining chunk))
        (writeBytes buf offset (cookie.take (min remaining chunk)))
        (offset + min remaining chunk) (by omega) (by rw [List.length_drop]; omega) (by omega)]
      have e1 : List.drop (remaining - min remaining chunk) (List.drop (min remaining chunk) cookie) =
          List.drop remaining cookie := by
        rw [List.drop_drop]
        congr 1
        omega
      have e2 : writeBytes (writeBytes buf offset (List.take (min remaining chunk) cookie))
          (offset + min remaining chunk)
          (List.take (remaining - min remaining chunk) (List.drop (min remaining chunk) cookie)) =
          writeBytes buf offset (List.take remaining cookie) := by
        have := writeBytes_append buf offset (List.take (min remaining chunk) cookie)
          (List.take (remaining - min remaining chunk) (List.drop (min remaining chunk) cookie))
        rw [hlen] at this
        rw [this]
        have h3 : remaining = min remaining chunk + (remaining - min remaining chunk) := by omega
        conv_rhs => rw [h3, List.take_add]
      rw [e1, e2]

/-- The big-endian 32-bit integer read back from its four bytes. -/
theorem GETU32AT_be32 (d : Buf) (i x : Nat) (hx : x < 2 ^ 32)
    (h0 : d i = (x >>> 24) % 256) (h1 : d (i + 1) = (x >>> 16) % 256)
    (h2 : d (i + 2) = (x >>> 8) % 256) (h3 : d (i + 3) = x % 256) :
    GETU32AT d i = x := by
  unfold GETU32AT
  rw [h0, h1, h2, h3]
  simp only [Nat.shiftLeft_eq, Nat.shiftRight_eq_div_pow]
  norm_num at hx ⊢
  generalize hb0 : x / 16777216 % 256 = b0
  generalize hb1 : x / 65536 % 256 = b1
  generalize hb2 : x / 256 % 256 = b2
  generalize hb3 : x % 256 = b3
  have l1 : b1 < 256 := by omega
  have l2 : b2 < 256 := by omega
  have l3 : b3 < 256 := by omega
  have s1 := Nat.mul_add_lt_is_or (i := 24) (b := b1 * 65536) (by norm_num; omega) b0
  have s2 := Nat.mul_add_lt_is_or (i := 16) (b := b2 * 256) (by norm_num; omega) (256 * b0 + b1)
  have s3 := Nat.mul_add_lt_is_or (i := 8) (b := b3) (by norm_num; omega)
    (65536 * b0 + 256 * b1 + b2)
  norm_num at s1 s2 s3
  have t1 : b0 * 16777216 ||| b1 * 65536 = 65536 * (256 * b0 + b1) := by
    rw [Nat.mul_comm b0, ← s1]
    omega
  rw [t1, ← s2]
  have t2 : 65536 * (256 * b0 + b1) + b2 * 256 = 256 * (65536 * b0 + 256 * b1 + b2) := by
    omega
  rw [t2, ← s3]
  omega

/-- The request of a write-flash-sector command for sector 2 with the
password of the firmware load: the length byte, the opcode, the password, the
address, high byte first, the sector, and the data. -/
theorem requestOf_writeFlashSector (address length : Nat) (data : Buf) (hl : length ≤ 240) :
    requestOf (msgWriteFlashSector 2 address 0x02254410 length data 0) =
      [9 + length, TMR_SR_OPCODE_WRITE_FLASH_SECTOR, 0x02, 0x25, 0x44, 0x10] ++ be32 address ++
        [0x02] ++ bytesAt data 0 length := by
  have hm2 : (SETU8 (SETU32 (SETU32 (SETU8 (fun _ => 0, 2) TMR_SR_OPCODE_WRITE_FLASH_SECTOR)
      0x02254410) address) 2).2 = 12 := rfl
  have h1 : msgWriteFlashSector 2 address 0x02254410 length data 0 1 = 9 + length := by
    simp only [msgWriteFlashSector, installLength, hm2, if_true]
    omega
  have e : (List.range 11).map
      (fun k => msgWriteFlashSector 2 address 0x02254410 length data 0 (1 + k)) =
      [msgWriteFlashSector 2 address 0x02254410 length data 0 1,
        TMR_SR_OPCODE_WRITE_FLASH_SECTOR, 0x02, 0x25, 0x44, 0x10] ++ be32 address ++ [0x02] :=
    rfl
  have hsum : 9 + length + 2 = 11 + length := by omega
  unfold requestOf
  rw [h1, Nat.mod_eq_of_lt (by omega), hsum, List.range_add, List.map_append, e, h1,
    List.map_map]
  congr 1
  unfold bytesAt
  apply List.map_congr_left
  intro k hk
  have hk2 : k < length := List.mem_range.1 hk
  have hc : 12 ≤ 1 + (11 + k) ∧ 1 + (11 + k) < 12 + length := by omega
  have hne : ¬ (1 + (11 + k) = 1) := by omega
  simp only [Function.comp, msgWriteFlashSector, installLength, hm2, hne, if_false, hc,
    and_self, if_true]
  congr 1
  omega

/-- The requests of the erase of sector 2 and of the boot-bootloader command. -/
theorem requestOf_eraseFlash :
    requestOf (msgEraseFlash 2 0x08959121) = eraseRequest ∧
    requestOf (installLength (SETU8 (fun _ => 0, 2) TMR_SR_OPCODE_BOOT_BOOTLOADER)) =
      bootloaderRequest := by
  refine ⟨by decide, by decide⟩

/-- The bytes stored at the start of a buffer are the bytes read back from
there. -/
theorem bytesAt_writeBytes (d : Buf) (l : List Nat) (n : Nat) (hn : n ≤ l.length) :
    bytesAt (writeBytes d 0 l) 0 n = l.take n := by
  apply List.ext_getElem
  · simp [bytesAt, List.length_take]
    omega
  · intro j h1 h2
    have hj : j < n := by simpa [bytesAt] using h1
    simp only [bytesAt, List.getElem_map, List.getElem_range, Nat.zero_add, List.getElem_take]
    rw [writeBytes_lt _ _ _ (by omega), List.getD_eq_getElem?_getD,
      List.getElem?_eq_getElem (by omega)]
    rfl

/-- The loop over the pages, for the provider that hands out the payload in
chunks and a module that accepts the write of every page, from page `k0` on:
it ends with `remaining` at 0, having sent the requests of the pages `k0` to
the last one, in order. -/
theorem writePages_stream (env : Env) (payload : List Nat) (chunk fuel : Nat)
    (hchunk : 1 ≤ chunk) (hfuel : 240 ≤ fuel) (hL : payload.length < 2 ^ 32)
    (hx : ∀ k, k < (payload.length + 239) / 240 →
      (env.exchange (pageRequest payload k)).1 = SUCCESS) :
    ∀ (m k0 n : Nat) (reader : Reader) (buf : Buf) (address : Nat),
      (payload.length + 239) / 240 - k0 = m → k0 ≤ (payload.length + 239) / 240 →
      (k0 < (payload.length + 239) / 240 → address = 240 * k0) →
      payload.length - 240 * k0 ≤ n →
      ∃ reader1 : Reader,
        writePages env (streamProvider chunk) fuel n reader (payload.drop (240 * k0)) buf
          address (payload.length - 240 * k0) = some (PageExit.finished reader1) ∧
        reader1.trace = reader.trace ++
          (List.range' k0 m).map (fun k => WireEvent.message (pageRequest payload k)) := by
  intro m
  induction m with
  | zero =>
    intro k0 n reader buf address hm hk _ _
    have h0 : payload.length - 240 * k0 = 0 := by omega
    rw [h0]
    refine ⟨reader, ?_, by simp⟩
    cases n <;> simp [writePages]
  | succ m ih =>
    intro k0 n reader buf address hm hk haddr hn
    have hlt : k0 < (payload.length + 239) / 240 := by omega
    have hpos : 0 < payload.length - 240 * k0 := by omega
    have ha := haddr hlt
    subst ha
    cases n with
    | zero => omega
    | succ n =>
      have hr0 : ¬ (payload.length - 240 * k0 = 0) := by omega
      have hpl : (if 240 > payload.length - 240 * k0 then (payload.length - 240 * k0) % 65536
          else 240) = min 240 (payload.length - 240 * k0) := by
        rw [Nat.min_def]
        split <;> split <;> omega
      have hmin1 : min 240 (payload.length - 240 * k0) ≤ 240 := Nat.min_le_left _ _
      have hmin2 : min 240 (payload.length - 240 * k0) ≤ payload.length - 240 * k0 :=
        Nat.min_le_right _ _
      have hmin3 : 1 ≤ min 240 (payload.length - 240 * k0) := by
        rw [Nat.le_min]
        omega
      have hdl : (payload.drop (240 * k0)).length = payload.length - 240 * k0 :=
        List.length_drop _ _
      have htake : (payload.drop (240 * k0)).take (min 240 (payload.length - 240 * k0)) =
          (payload.drop (240 * k0)).take 240 := by
        rw [← hdl, List.take_eq_take]
        omega
      have htl : ((payload.drop (240 * k0)).take 240).length =
          min 240 (payload.length - 240 * k0) := by
        rw [List.length_take, hdl]
      have hprov := provideLoop_stream chunk 65536 hchunk (le_refl _) fuel
        (min 240 (payload.length - 240 * k0)) (payload.drop (240 * k0)) buf 0 (by omega)
        (by rw [hdl]; exact hmin2) (by omega)
      have hreq : requestOf (msgWriteFlashSector 2 (240 * k0) 0x02254410
          (min 240 (payload.length - 240 * k0) % 256)
          (writeBytes buf 0 ((payload.drop (240 * k0)).take 240)) 0) =
          pageRequest payload k0 := by
        rw [Nat.mod_eq_of_lt (by omega), requestOf_writeFlashSector _ _ _ hmin1,
          ← htl, bytesAt_writeBytes _ _ _ (le_refl _), List.take_length]
        rfl
      simp only [writePages, hr0, if_false, hpl, hprov, htake, TMR_SR_cmdWriteFlashSector,
        TMR_SR_sendTimeout, hreq, hx k0 hlt, ne_eq, not_true_eq_false]
      have hrem : (payload.length - 240 * k0 + 2 ^ 32 - min 240 (payload.length - 240 * k0)) %
          2 ^ 32 = payload.length - 240 * (k0 + 1) := by
        have : payload.length - 240 * k0 + 2 ^ 32 - min 240 (payload.length - 240 * k0) =
            (payload.length - 240 * k0 - min 240 (payload.length - 240 * k0)) + 2 ^ 32 := by
          omega
        rw [this, Nat.add_mod_right, Nat.mod_eq_of_lt (by omega)]
        omega
      have hcookie : List.drop (min 240 (payload.length - 240 * k0)) (payload.drop (240 * k0)) =
          payload.drop (240 * (k0 + 1)) := by
        rw [List.drop_drop]
        by_cases h240 : 240 ≤ payload.length - 240 * k0
        · congr 1
          omega
        · rw [List.drop_eq_nil_of_le (by omega), List.drop_eq_nil_of_le (by omega)]
      rw [hrem, hcookie]
      obtain ⟨reader1, e1, t1⟩ := ih (k0 + 1) n
        { reader with trace := reader.trace ++ [WireEvent.message (pageRequest payload k0)] }
        (writeBytes buf 0 ((payload.drop (240 * k0)).take 240))
        ((240 * k0 + min 240 (payload.length - 240 * k0)) % 2 ^ 32) (by omega) (by omega)
        (by
          intro h
          have : min 240 (payload.length - 240 * k0) = 240 := by
            rw [Nat.min_def]
            split <;> omega
          rw [this, Nat.mod_eq_of_lt (by omega)]
          omega)
        (by omega)
      refine ⟨reader1, e1, ?_⟩
      rw [t1, List.range'_succ]
      simp

/-- The lengths of the pages of a payload of `L` bytes sum to `L`. -/
theorem page_lengths_sum :
    ∀ (n L : Nat), (L + 239) / 240 = n →
      ((List.range n).map (fun k => min 240 (L - 240 * k))).sum = L := by
  intro n
  induction n with
  | zero =>
    intro L h
    simp
    omega
  | succ n ih =>
    intro L h
    have h2 := ih (L - 240) (by omega)
    rw [List.range_succ_eq_map, List.map_cons, List.sum_cons, List.map_map]
    have e : ((fun k => min 240 (L - 240 * k)) ∘ Nat.succ) =
        (fun k => min 240 (L - 240 - 240 * k)) := by
      funext k
      have hk : L - 240 * (k + 1) = L - 240 - 240 * k := by omega
      simp only [Function.comp, Nat.succ_eq_add_one, hk]
    rw [e, h2]
    simp only [Nat.mul_zero, Nat.sub_zero]
    omega

/-- The header of an image arrives whole: after the first loop of
`TMR_SR_firmwareLoad` the buffer holds the magic number and the length, and the
provider is left with the payload. -/
theorem header_stream (payload : List Nat) (chunk fuel : Nat) (hchunk : 1 ≤ chunk)
    (hfuel : 16 ≤ fuel) (hL : payload.length < 2 ^ 32) :
    ∃ buf : Buf,
      provideLoop (streamProvider chunk) (2 ^ 32) fuel (firmwareImage payload) (fun _ => 0)
        (magic.length + 4) 0 = some (some (payload, buf)) ∧
      bytesAt buf 0 magic.length = magic ∧ GETU32AT buf 12 = payload.length := by
  have hlen : (firmwareImage payload).length = 16 + payload.length := by
    simp [firmwareImage, magic, be32]
    omega
  have h16 : magic.length + 4 = 16 := rfl
  have htake : (firmwareImage payload).take 16 = magic ++ be32 payload.length := by
    unfold firmwareImage
    rw [List.take_left' (by simp [magic, be32])]
  have hdrop : (firmwareImage payload).drop 16 = payload := by
    unfold firmwareImage
    rw [List.drop_left' (by simp [magic, be32])]
  refine ⟨writeBytes (fun _ => 0) 0 (magic ++ be32 payload.length), ?_, ?_, ?_⟩
  · rw [h16, provideLoop_stream chunk (2 ^ 32) hchunk (by norm_num) fuel 16 (firmwareImage payload)
      (fun _ => 0) 0 hfuel (by omega) (by norm_num), htake, hdrop]
  · rw [bytesAt_writeBytes _ _ _ (by simp [magic])]
    simp [magic]
  · apply GETU32AT_be32 _ _ _ hL
    · rw [writeBytes_lt _ _ _ (by simp [magic, be32])]
      rfl
    · rw [writeBytes_lt _ _ _ (by simp [magic, be32])]
      rfl
    · rw [writeBytes_lt _ _ _ (by simp [magic, be32])]
      rfl
    · rw [writeBytes_lt _ _ _ (by simp [magic, be32])]
      rfl

/-- C22. Firmware paging: for an image made of the magic number, the length
`L` of its payload and the payload, a provider that delivers the bytes of the
image in order (in chunks of any size) and a module that accepts every command
of the load (the bootloader command with success or with "invalid opcode"),
`TMR_SR_firmwareLoad` returns the status of the final boot, given at least 240
calls of the provider per page, and has sent, after the changes of the baud
rate and the bootloader command, one erase of sector 2 with the password
`0x08959121` and then exactly `ceil(L / 240)` write-flash-sector commands for
sector 2 with the password `0x02254410`, the `k`-th with the address `240 * k`
and the next `min(240, L - 240 * k)` bytes of the payload; the lengths of the
pages sum to `L`. -/
theorem firmware_paging (env : Env) (reader : Reader) (payload : List Nat) (chunk fuel : Nat)
    (hchunk : 1 ≤ chunk) (hfuel : 240 ≤ fuel) (hL : payload.length < 2 ^ 32)
    (h1 : env.cmdSetBaudRate 9600 = SUCCESS) (h2 : env.setBaudRate 9600 = SUCCESS)
    (h3 : (env.exchange bootloaderRequest).1 = SUCCESS ∨
      (env.exchange bootloaderRequest).1 = TMR_ERROR_INVALID_OPCODE)
    (h4 : env.cmdSetBaudRate (min reader.baudRate 115200) = SUCCESS)
    (h5 : env.setBaudRate (min reader.baudRate 115200) = SUCCESS)
    (h6 : (env.exchange eraseRequest).1 = SUCCESS)
    (hx : ∀ k, k < (payload.length + 239) / 240 →
      (env.exchange (pageRequest payload k)).1 = SUCCESS) :
    (∃ reader1 : Reader,
      TMR_SR_firmwareLoad env fuel reader (firmwareImage payload) (streamProvider chunk) =
        some (env.boot (min reader.baudRate 115200), reader1) ∧
      reader1.trace = reader.trace ++
        [WireEvent.cmdSetBaudRate 9600, WireEvent.setBaudRate 9600,
          WireEvent.message bootloaderRequest,
          WireEvent.cmdSetBaudRate (min reader.baudRate 115200),
          WireEvent.setBaudRate (min reader.baudRate 115200),
          WireEvent.message eraseRequest] ++
        (List.range ((payload.length + 239) / 240)).map
          (fun k => WireEvent.message (pageRequest payload k)) ++
        [WireEvent.boot (min reader.baudRate 115200)]) ∧
    (∀ k, k < (payload.length + 239) / 240 →
      pageRequest payload k =
        [9 + min 240 (payload.length - 240 * k), TMR_SR_OPCODE_WRITE_FLASH_SECTOR, 0x02, 0x25,
          0x44, 0x10] ++ be32 (240 * k) ++ [0x02] ++ (payload.drop (240 * k)).take 240 ∧
      ((payload.drop (240 * k)).take 240).length = min 240 (payload.length - 240 * k)) ∧
    ((List.range ((payload.length + 239) / 240)).map
      (fun k => min 240 (payload.length - 240 * k))).sum = payload.length := by
  have hpl : ∀ k, ((payload.drop (240 * k)).take 240).length =
      min 240 (payload.length - 240 * k) := by
    intro k
    rw [List.length_take, List.length_drop]
  refine ⟨?_, fun k _ => ⟨?_, hpl k⟩, page_lengths_sum _ _ rfl⟩
  · obtain ⟨buf, hh, hmagic, hlen⟩ := header_stream payload chunk fuel hchunk (by omega) hL
    obtain ⟨hre, hrb⟩ := requestOf_eraseFlash
    have hrate : (if reader.baudRate > 115200 then 115200 else reader.baudRate) =
        min reader.baudRate 115200 := by
      rw [Nat.min_def]
      split <;> split <;> omega
    have h3n : ¬ ((env.exchange bootloaderRequest).1 ≠ SUCCESS ∧
        (env.exchange bootloaderRequest).1 ≠ TMR_ERROR_INVALID_OPCODE) := by
      rintro ⟨a, b⟩
      rcases h3 with h | h
      · exact a h
      · exact b h
    obtain ⟨reader1, e1, t1⟩ := writePages_stream env payload chunk fuel hchunk hfuel hL hx
      ((payload.length + 239) / 240) 0 payload.length
      { reader with
        trace := reader.trace ++ [WireEvent.cmdSetBaudRate 9600] ++ [WireEvent.setBaudRate 9600] ++
          [WireEvent.message bootloaderRequest] ++
          [WireEvent.cmdSetBaudRate (min reader.baudRate 115200)] ++
          [WireEvent.setBaudRate (min reader.baudRate 115200)] ++
          [WireEvent.message eraseRequest] }
      buf 0 (by omega) (Nat.zero_le _) (fun _ => rfl) (by omega)
    simp only [Nat.mul_zero, List.drop_zero, Nat.sub_zero] at e1
    refine ⟨{ reader1 with
      trace := reader1.trace ++ [WireEvent.boot (min reader.baudRate 115200)] }, ?_, ?_⟩
    · unfold TMR_SR_firmwareLoad
      simp only [hh, hmagic, ne_eq, not_true_eq_false, if_false, h1, h2, hlen,
        TMR_SR_cmdBootBootloader, TMR_SR_send, TMR_SR_sendTimeout, hrb, h3n, hrate, h4, h5,
        TMR_SR_cmdEraseFlash, hre, h6]
      rw [e1]
    · simp only [t1, List.range_eq_range']
      simp
  · unfold pageRequest
    rw [hpl k]

/-- C22, at an image with a payload of 0x200 bytes,
handed out 100 bytes at a time: three pages of 240, 240 and 32 bytes. -/
theorem firmware_paging_witness :
    (∃ reader1 : Reader,
      TMR_SR_firmwareLoad detectModule 240 freshReader (firmwareImage samplePayload)
          (streamProvider 100) =
        some (detectModule.boot (min freshReader.baudRate 115200), reader1) ∧
      reader1.trace = freshReader.trace ++
        [WireEvent.cmdSetBaudRate 9600, WireEvent.setBaudRate 9600,
          WireEvent.message bootloaderRequest,
          WireEvent.cmdSetBaudRate (min freshReader.baudRate 115200),
          WireEvent.setBaudRate (min freshReader.baudRate 115200),
          WireEvent.message eraseRequest] ++
        (List.range ((samplePayload.length + 239) / 240)).map
          (fun k => WireEvent.message (pageRequest samplePayload k)) ++
        [WireEvent.boot (min freshReader.baudRate 115200)]) ∧
    samplePayload.length = 0x200 ∧
    (List.range ((samplePayload.length + 239) / 240)).map
      (fun k => min 240 (samplePayload.length - 240 * k)) = [240, 240, 32] :=
  ⟨(firmware_paging detectModule freshReader samplePayload 100 240 (by decide) (by decide)
      (by simp [samplePayload]) rfl rfl (Or.inl rfl) rfl rfl rfl (fun _ _ => rfl)).1,
    by simp [samplePayload],
    by simp only [samplePayload, List.length_map, List.length_range]; decide⟩

/-! ## The off time of the background reads -/

/-- The conversion to `int32_t` leaves the numbers of that range as they are. -/
theorem toInt32_eq (x : Int) (h1 : -2 ^ 31 ≤ x) (h2 : x < 2 ^ 31) : toInt32 x = x := by
  unfold toInt32
  have : (x + 2 ^ 31) % 2 ^ 32 = x + 2 ^ 31 := Int.emod_eq_of_lt (by omega) (by omega)
  omega

/-- The sleep time is the off time minus the elapsed milliseconds, for an off
time below 2^31 ms and an elapsed time of at most 2^31 ms. -/
theorem sleepTimeOf_eq (offTime : Nat) (tv_sec tv_usec : Int) (hoff : offTime < 2 ^ 31)
    (hsec : 0 ≤ tv_sec) (husec : 0 ≤ tv_usec) (hel : elapsedMs tv_sec tv_usec ≤ 2 ^ 31) :
    sleepTimeOf offTime tv_sec tv_usec = Int.ofNat offTime - elapsedMs tv_sec tv_usec := by
  unfold sleepTimeOf elapsedMs at *
  have hq : 0 ≤ Int.tdiv tv_usec 1000 := Int.tdiv_nonneg husec (by norm_num)
  have h0 : offTime % 2 ^ 32 = offTime := Nat.mod_eq_of_lt (by omega)
  rw [h0]
  have ho : (Int.ofNat offTime : Int) < 2 ^ 31 := by
    have : (offTime : Int) < ((2 ^ 31 : Nat) : Int) := Int.ofNat_lt.mpr hoff
    simpa using this
  have ho0 : (0 : Int) ≤ Int.ofNat offTime := Int.ofNat_nonneg _
  have e1 : toInt32 (Int.ofNat offTime) = Int.ofNat offTime := toInt32_eq _ (by omega) ho
  rw [e1]
  have e2 : toInt32 (Int.ofNat offTime - Int.tdiv tv_usec 1000) =
      Int.ofNat offTime - Int.tdiv tv_usec 1000 := toInt32_eq _ (by omega) (by omega)
  rw [e2]
  rw [toInt32_eq _ (by omega) (by omega)]
  omega

/-- C35, the part that holds: for an off time below 2^31 ms and an elapsed
time of at most 2^31 ms, no sleep is requested when the off time minus the
elapsed milliseconds is zero or negative, and when it is a positive number of
milliseconds below 1000 the duration handed to `nanosleep` has `tv_sec = 0` and
`tv_nsec` that number of milliseconds, which is below 10^9 nanoseconds. -/
theorem off_time_sleep_short (offTime : Nat) (tv_sec tv_usec : Int) (hoff : offTime < 2 ^ 31)
    (hsec : 0 ≤ tv_sec) (husec : 0 ≤ tv_usec) (hel : elapsedMs tv_sec tv_usec ≤ 2 ^ 31) :
    (Int.ofNat offTime - elapsedMs tv_sec tv_usec ≤ 0 →
      offTimeSleep offTime tv_sec tv_usec = none) ∧
    (0 < Int.ofNat offTime - elapsedMs tv_sec tv_usec →
      Int.ofNat offTime - elapsedMs tv_sec tv_usec < 1000 →
      ∃ s ns, offTimeSleep offTime tv_sec tv_usec = some (s, ns) ∧
        s * 10 ^ 9 + ns = (Int.ofNat offTime - elapsedMs tv_sec tv_usec) * 10 ^ 6 ∧
        0 ≤ ns ∧ ns < 10 ^ 9) := by
  unfold offTimeSleep
  rw [sleepTimeOf_eq offTime tv_sec tv_usec hoff hsec husec hel]
  generalize Int.ofNat offTime - elapsedMs tv_sec tv_usec = t
  constructor
  · intro ht
    simp [sleepspecOf, not_lt.mpr ht]
  · intro h0 h1
    have hdiv : Int.tdiv t 1000 = 0 := Int.tdiv_eq_zero_of_lt (by omega) h1
    refine ⟨0, t * 1000000, ?_, by norm_num, by omega, by omega⟩
    simp only [sleepspecOf, gt_iff_lt, h0, if_true, hdiv]
    rw [toInt32_eq _ (by omega) (by omega)]

/-- C35, the part that holds, at an off time of 250 ms with 0.1 s elapsed:
the sleep is 150 ms. -/
theorem off_time_sleep_short_witness :
    ∃ s ns, offTimeSleep 250 0 100000 = some (s, ns) ∧
      s * 10 ^ 9 + ns = (Int.ofNat 250 - elapsedMs 0 100000) * 10 ^ 6 ∧ 0 ≤ ns ∧ ns < 10 ^ 9 :=
  (off_time_sleep_short 250 0 100000 (by norm_num) (by norm_num) (by norm_num)
    (by decide)).2 (by decide) (by decide)

/-- C35. The duration is wrong from a sleep time of 1000 ms on: with an off time of 1500 ms
and no time elapsed since the read finished, `nanosleep` is handed `tv_sec = 1`
and `tv_nsec = 1500000000`, which is not below 10^9 and makes the duration 2.5 s
instead of 1.5 s. -/
theorem off_time_sleep_overlong :
    sleepTimeOf 1500 0 0 = 1500 ∧
    offTimeSleep 1500 0 0 = some (1, 1500000000) ∧
    ¬ ((1 : Int) * 10 ^ 9 + 1500000000 = sleepTimeOf 1500 0 0 * 10 ^ 6) ∧
    ¬ ((1500000000 : Int) < 10 ^ 9) := by
  decide

/-! ## Locking a Gen2 tag -/

/-- What the frame of `TMR_SR_cmdGEN2LockTag` carries, for every mask, action
and access password: the frame that `TMR_SR_msgAddGEN2LockTag` builds for the
mask `accessPassword mod 2^16`, the action `mask` and the password `action`. -/
theorem lock_frame_fields (timeout mask action accessPassword : Nat) :
    lockCommandFields timeout mask action accessPassword =
      lockFrameFields timeout (accessPassword % 65536) mask action := by
  rfl

/-- C36. The lock frame is misassigned: for the mask 0x00C0, the action 0x0080 and the access password
0x11223344 (timeout 1000 ms, no filter) the frame of `TMR_SR_cmdGEN2LockTag`
carries, after the opcode 0x25, the timeout and the option byte, the bytes
00 00 00 80 (the action) in the password field, 33 44 (the low half of the
password) in the mask field and 00 C0 (the mask) in the action field, where the
frame that `TMR_SR_msgAddGEN2LockTag` builds for the same mask, action and
password carries 11 22 33 44, 00 C0 and 00 80; the command is sent with the
length byte 11. -/
theorem lock_frame_misassigned :
    lockCommandFields 1000 0x00C0 0x0080 0x11223344 =
      [0x25, 0x03, 0xE8, 0x00, 0x00, 0x00, 0x00, 0x80, 0x33, 0x44, 0x00, 0xC0] ∧
    lockFrameFields 1000 0x00C0 0x0080 0x11223344 =
      [0x25, 0x03, 0xE8, 0x00, 0x11, 0x22, 0x33, 0x44, 0x00, 0xC0, 0x00, 0x80] ∧
    (executeTagOpLock (moduleAt 9600 SUCCESS)
        { planReader with commandTimeout := 1000, gen2AccessPassword := 0x11223344 }
        0x00C0 0x0080 none).2.trace =
      [WireEvent.message
        [11, 0x25, 0x03, 0xE8, 0x00, 0x00, 0x00, 0x00, 0x80, 0x33, 0x44, 0x00, 0xC0]] := by
  decide

/-! ## The frequency hop table -/

/-- The loop of `TMR_SR_cmdGetFrequencyHopTable` stores all `len` frequencies
when `i < count`, and none otherwise: its test looks at the message index `i`,
not at the number `j` of entries stored. -/
theorem hopTableLoop_eq (msg : Buf) (i count len : Nat) :
    ∀ n j, n + j = len →
      hopTableLoop msg i count len n j =
        if i < count then (List.range n).map (fun k => GETU32AT msg (5 + 4 * (j + k))) else []
  | 0, j => by
    intro _
    simp [hopTableLoop]
  | n + 1, j => by
    intro h
    by_cases hi : i < count
    · have hj : j < len := by omega
      have ih := hopTableLoop_eq msg i count len n (j + 1) (by omega)
      rw [if_pos hi] at ih
      rw [if_pos hi]
      show (if i < count ∧ j < len then
        GETU32AT msg (5 + 4 * j) :: hopTableLoop msg i count len n (j + 1) else []) = _
      rw [if_pos ⟨hi, hj⟩, ih, List.range_succ_eq_map, List.map_cons, List.map_map]
      have e : ∀ k, j + 1 + k = j + (k + 1) := fun k => by omega
      simp only [Nat.add_zero, e]
      rfl
    · rw [if_neg hi]
      show (if i < count ∧ j < len then
        GETU32AT msg (5 + 4 * j) :: hopTableLoop msg i count len n (j + 1) else []) = _
      rw [if_neg (fun h => hi h.1)]

/-- C38, the part that holds: for every capacity `c` and every successful
reply with `n = LEN / 4` frequencies, `TMR_SR_cmdGetFrequencyHopTable` reports
`n` in `*count`; it stores the `n` frequencies of the reply when `c > 3` (the
message index is 3) and nothing when `c <= 3`, so that it stays within the
capacity exactly when `c <= 3` or `n <= c`. -/
theorem hop_table_stores (env : Env) (reader : Reader) (c : Nat)
    (hok : (env.exchange [0, TMR_SR_OPCODE_GET_FREQ_HOP_TABLE]).1 = SUCCESS) :
    (TMR_SR_cmdGetFrequencyHopTable env reader c).1 = SUCCESS ∧
    (TMR_SR_cmdGetFrequencyHopTable env reader c).2.1 =
      (env.exchange [0, TMR_SR_OPCODE_GET_FREQ_HOP_TABLE]).2 1 / 4 ∧
    (TMR_SR_cmdGetFrequencyHopTable env reader c).2.2.1 =
      (if 3 < c then
        (List.range ((env.exchange [0, TMR_SR_OPCODE_GET_FREQ_HOP_TABLE]).2 1 / 4)).map
          (fun k => GETU32AT (env.exchange [0, TMR_SR_OPCODE_GET_FREQ_HOP_TABLE]).2 (5 + 4 * k))
      else []) := by
  have hreq : requestOf (installLength (SETU8 (fun _ => 0, 2) TMR_SR_OPCODE_GET_FREQ_HOP_TABLE)) =
      [0, TMR_SR_OPCODE_GET_FREQ_HOP_TABLE] := by decide
  have hi : (SETU8 ((fun _ => 0 : Buf), 2) TMR_SR_OPCODE_GET_FREQ_HOP_TABLE).2 = 3 := by decide
  unfold TMR_SR_cmdGetFrequencyHopTable
  simp only [TMR_SR_send, TMR_SR_sendTimeout, hreq, hok, ne_eq, not_true_eq_false, if_false, hi]
  refine ⟨trivial, trivial, ?_⟩
  rw [hopTableLoop_eq _ _ _ _ _ 0 (by omega)]
  simp only [Nat.zero_add]

/-- C38, the part that holds, at a capacity of 8 and a reply with five
frequencies: the five are stored and 5 is reported. -/
theorem hop_table_stores_witness :
    (TMR_SR_cmdGetFrequencyHopTable fiveHopsModule planReader 8).2.1 = 5 ∧
    (TMR_SR_cmdGetFrequencyHopTable fiveHopsModule planReader 8).2.2.1 =
      [902750, 903250, 903750, 904250, 904750] := by
  have h := hop_table_stores fiveHopsModule planReader 8 (by decide)
  refine ⟨by rw [h.2.1]; decide, by rw [h.2.2]; decide⟩

/-- C38. The capacity is not kept: with a capacity of 4 entries and a reply that carries five
frequencies (`LEN = 20`), `TMR_SR_cmdGetFrequencyHopTable` stores five entries,
`hopTable[0]` to `hopTable[4]`, the last one behind the end of the caller's
array, and reports 5; so does the get of the hop table for a list with
`max = 4`.  With a capacity of 3 it stores nothing. -/
theorem hop_table_overrun :
    TMR_SR_cmdGetFrequencyHopTable fiveHopsModule planReader 4 =
      (SUCCESS, 5, [902750, 903250, 903750, 904250, 904750],
        { planReader with trace := [WireEvent.message [0, 0x65]] }) ∧
    (getHopTable fiveHopsModule planReader 4 0).2.2.1.length = 5 ∧
    (getHopTable fiveHopsModule planReader 4 0).2.1 = 5 ∧
    (TMR_SR_cmdGetFrequencyHopTable fiveHopsModule planReader 3).2.2.1 = [] := by
  refine ⟨?_, by decide, by decide, by decide⟩
  rfl

/-! ## Reading tag memory -/

/-- The element at an index of a range of bytes of a message. -/
theorem bytesAt_getD (msg : Buf) (start n k : Nat) (h : k < n) :
    (bytesAt msg start n).getD k 0 = msg (start + k) := by
  unfold bytesAt
  rw [List.getD_eq_getElem _ _ (by simpa using h)]
  simp

/-- The data length of a reply whose length byte is between 1 and 255. -/
theorem gen2DataLength_eq (msg : Buf) (h1 : msg 1 < 256) (h2 : 1 ≤ msg 1) :
    gen2DataLength msg = msg 1 - 1 := by
  unfold gen2DataLength
  omega

/-- C39 (as amended): when the tag-operation protocol is Gen2 and its set-up succeeds, for
every byte address `a` and byte count `n` with `a` odd or `n` odd and
`n + (a mod 2) <= 254`, and every filter and access password for which the
read command builds its message, `TMR_SR_readTagMemBytes` sends one message,
the read of tag data for the word address `a / 2` and the word count
`(n + (a mod 2) + 1) / 2`; for `n >= 1` that count is the least number `w` of
words such that the words `a / 2, ..., a / 2 + w - 1` hold all of the bytes
`a, ..., a + n - 1`; and when the module answers with success and at least
`n + (a mod 2)` data bytes, the result is success and the caller receives the
`n` bytes of the response data from offset `a mod 2` on, the rest of the array
being left as it was. -/
theorem unaligned_read (env : Env) (reader : Reader) (target : Option TMR_TagFilter)
    (bank a n : Nat) (data buf0 : List Nat) (read0 : TMR_TagReadData) (msg : Buf)
    (hproto : reader.tagOpParams.protocol = TMR_TAG_PROTOCOL_GEN2)
    (hset1 : (env.command (Command.SetProtocol TMR_TAG_PROTOCOL_GEN2)).1 = SUCCESS)
    (hset2 : (env.command
      (Command.SetReaderConfiguration TMR_SR_Configuration.EXTENDED_EPC [1])).1 = SUCCESS)
    (hodd : a % 2 = 1 ∨ n % 2 = 1) (hfit : n + a % 2 ≤ 254)
    (hmsg : msgGEN2ReadTagData (reader.commandTimeout % 65536) bank (a / 2)
      ((n + a % 2 + 1) / 2) reader.gen2AccessPassword target = Except.ok msg)
    (hok : (env.exchange (requestOf msg)).1 = SUCCESS)
    (hlen1 : (env.exchange (requestOf msg)).2 1 < 256)
    (hlen2 : n + a % 2 + 1 ≤ (env.exchange (requestOf msg)).2 1) :
    (TMR_SR_readTagMemBytes env reader target bank a n data buf0 read0).1 = SUCCESS ∧
    (TMR_SR_readTagMemBytes env reader target bank a n data buf0 read0).2.2.trace =
      reader.trace ++
        [WireEvent.command (Command.SetProtocol TMR_TAG_PROTOCOL_GEN2),
          WireEvent.command (Command.SetReaderConfiguration TMR_SR_Configuration.EXTENDED_EPC [1]),
          WireEvent.message (requestOf msg)] ∧
    (TMR_SR_readTagMemBytes env reader target bank a n data buf0 read0).2.1 =
      bytesAt (env.exchange (requestOf msg)).2 (6 + a % 2) n ++ data.drop n ∧
    (1 ≤ n → ∀ w, (∀ b, a ≤ b → b < a + n → 2 * (a / 2) ≤ b ∧ b < 2 * (a / 2) + 2 * w) ↔
      (n + a % 2 + 1) / 2 ≤ w) := by
  have hs : setProtocol env reader TMR_TAG_PROTOCOL_GEN2 =
      (SUCCESS, { reader with
        trace := reader.trace ++
          [WireEvent.command (Command.SetProtocol TMR_TAG_PROTOCOL_GEN2),
            WireEvent.command
              (Command.SetReaderConfiguration TMR_SR_Configuration.EXTENDED_EPC [1])]
        currentProtocol := TMR_TAG_PROTOCOL_GEN2 }) := by
    simp [setProtocol, callCommand, hset1, hset2]
  have hun : a &&& 1 ≠ 0 ∨ n &&& 1 ≠ 0 := by
    rw [and_one_ne_zero, and_one_ne_zero]
    exact hodd
  have ha1 : a &&& 1 = a % 2 := Nat.and_one_is_mod a
  have hun2 : ¬ a % 2 = 0 ∨ ¬ n &&& 1 = 0 := by
    rw [← ha1]
    exact hun
  have hwc : (n + 1 + a % 2) / 2 % 65536 % 256 = (n + a % 2 + 1) / 2 := by omega
  have hres : TMR_SR_readTagMemBytes env reader target bank a n data buf0 read0 =
      (SUCCESS,
        (List.range n).map (fun k =>
          (bytesAt (env.exchange (requestOf msg)).2 6
              (if gen2DataLength (env.exchange (requestOf msg)).2 % 256 > 254 then 254
                else gen2DataLength (env.exchange (requestOf msg)).2 % 256) ++
            buf0.drop
              (if gen2DataLength (env.exchange (requestOf msg)).2 % 256 > 254 then 254
                else gen2DataLength (env.exchange (requestOf msg)).2 % 256)).getD
            (a % 2 + k) 0) ++ data.drop n,
        { reader with
          trace := reader.trace ++
            [WireEvent.command (Command.SetProtocol TMR_TAG_PROTOCOL_GEN2),
              WireEvent.command
                (Command.SetReaderConfiguration TMR_SR_Configuration.EXTENDED_EPC [1]),
              WireEvent.message (requestOf msg)]
          currentProtocol := TMR_TAG_PROTOCOL_GEN2 }) := by
    unfold TMR_SR_readTagMemBytes
    rw [hproto, hs]
    simp only [ne_eq, not_true_eq_false, if_false, hproto, if_true, hun2,
      TMR_SR_readTagMemBytesUnaligned, ha1, hwc, TMR_SR_cmdGEN2ReadTagData, hmsg,
      TMR_SR_sendTimeout, hok, storeReadData, List.append_assoc, List.cons_append,
      List.nil_append]
  rw [hres]
  refine ⟨rfl, rfl, ?_, ?_⟩
  · refine congrArg (fun l => l ++ List.drop n data) ?_
    unfold bytesAt
    apply List.map_congr_left
    intro k hk
    have hk2 : k < n := by simpa using hk
    have hcl : a % 2 + k <
        (if gen2DataLength (env.exchange (requestOf msg)).2 % 256 > 254 then 254
          else gen2DataLength (env.exchange (requestOf msg)).2 % 256) := by
      have hd : gen2DataLength (env.exchange (requestOf msg)).2 =
          (env.exchange (requestOf msg)).2 1 - 1 := gen2DataLength_eq _ hlen1 (by omega)
      rw [hd]
      split <;> omega
    rw [List.getD_append _ _ _ _ (by simpa using hcl)]
    have h3 := bytesAt_getD (env.exchange (requestOf msg)).2 6 _ (a % 2 + k) hcl
    unfold bytesAt at h3
    rw [h3, Nat.add_assoc]
  · intro hn w
    constructor
    · intro h
      have h1 := h (a + n - 1) (by omega) (by omega)
      omega
    · intro h b hb1 hb2
      omega

/-- C39 as amended, at the byte address 1 and the byte count 3 of the user
bank, on a module that answers with the four bytes 11 22 33 44: one read of two
words at word address 0 is sent, and the caller receives 22 33 44. -/
theorem unaligned_read_witness :
    (TMR_SR_readTagMemBytes fourBytesModule wordOnlyReader none 3 1 3 [0, 0, 0] [] emptyRead).1 =
      SUCCESS ∧
    (TMR_SR_readTagMemBytes fourBytesModule wordOnlyReader none 3 1 3 [0, 0, 0] []
      emptyRead).2.2.trace =
      [WireEvent.command (Command.SetProtocol TMR_TAG_PROTOCOL_GEN2),
        WireEvent.command (Command.SetReaderConfiguration TMR_SR_Configuration.EXTENDED_EPC [1]),
        WireEvent.message [9, 0x28, 0x03, 0xE8, 0x00, 0x03, 0x00, 0x00, 0x00, 0x00, 0x02]] ∧
    (TMR_SR_readTagMemBytes fourBytesModule wordOnlyReader none 3 1 3 [0, 0, 0] []
      emptyRead).2.1 = [0x22, 0x33, 0x44] := by
  have h := unaligned_read fourBytesModule wordOnlyReader none 3 1 3 [0, 0, 0] [] emptyRead
    (readTagDataMessage 1000 3 0 2 0 none)
    (by decide) (by decide) (by decide) (by decide) (by decide) (by rfl) (by decide) (by decide)
    (by decide)
  exact ⟨h.1, h.2.1, h.2.2.1⟩

/-- C39 as stated fails for an empty read at an odd address: for the byte address 1 and
the byte count 0 `TMR_SR_readTagMemBytes` sends a read of one word, although no
word is needed to hold the bytes of the empty range. -/
theorem unaligned_read_empty :
    (TMR_SR_readTagMemBytes fourBytesModule wordOnlyReader none 3 1 0 [] [] emptyRead).2.2.trace =
      [WireEvent.command (Command.SetProtocol TMR_TAG_PROTOCOL_GEN2),
        WireEvent.command (Command.SetReaderConfiguration TMR_SR_Configuration.EXTENDED_EPC [1]),
        WireEvent.message [9, 0x28, 0x03, 0xE8, 0x00, 0x03, 0x00, 0x00, 0x00, 0x00, 0x01]] ∧
    (∀ b, 1 ≤ b → b < 1 + 0 → 2 * (1 / 2) ≤ b ∧ b < 2 * (1 / 2) + 2 * 0) ∧
    ¬ ((0 + 1 % 2 + 1) / 2 ≤ 0) := by
  refine ⟨by decide, ?_, by decide⟩
  intro b h1 h2
  omega

/-! ## The saved Q of a tag operation -/

/-- C31. The saved Q is not written back.  On a reader as boot leaves it (not
streaming, `oldQ` invalid) and a module that runs the dynamic Q algorithm,
`TMR_SR_tagop_execute` for a Gen2 lock fetches the Q into `oldQ`, sets the
static Q 0 and runs the inventory round with the embedded operation; it returns
success with `oldQ.type` dynamic, not invalid, and the only command that set
the Q is the one that set it to static 0.  The same holds when the inventory
round fails and the error is returned. -/
theorem saved_q_not_restored :
    planReader.useStreaming = false ∧
    planReader.oldQ.type = TMR_SR_GEN2_Q_INVALID ∧
    (TMR_SR_tagop_execute (dynamicQModule SUCCESS) planReader
      { type := TMR_TagopType.GEN2_LOCK } 0).1 = SUCCESS ∧
    (TMR_SR_tagop_execute (dynamicQModule SUCCESS) planReader
      { type := TMR_TagopType.GEN2_LOCK } 0).2.oldQ =
      { type := TMR_SR_GEN2_Q_DYNAMIC, initialQ := 4 } ∧
    (TMR_SR_tagop_execute (dynamicQModule SUCCESS) planReader
      { type := TMR_TagopType.GEN2_LOCK } 0).2.oldQ.type ≠ TMR_SR_GEN2_Q_INVALID ∧
    (TMR_SR_tagop_execute (dynamicQModule SUCCESS) planReader
      { type := TMR_TagopType.GEN2_LOCK } 0).2.trace =
      [WireEvent.command (Command.GetProtocolConfiguration TMR_TAG_PROTOCOL_GEN2
          TMR_SR_ProtocolConfiguration.GEN2_Q),
        WireEvent.command (Command.SetProtocolConfiguration TMR_TAG_PROTOCOL_GEN2
          TMR_SR_ProtocolConfiguration.GEN2_Q [TMR_SR_GEN2_Q_STATIC, 0]),
        WireEvent.command (Command.SetAntennaSearchList [(2, 2)]),
        WireEvent.command (Command.SetProtocol TMR_TAG_PROTOCOL_GEN2),
        WireEvent.command (Command.SetReaderConfiguration TMR_SR_Configuration.EXTENDED_EPC [1]),
        WireEvent.command (Command.inventory 2000 TMR_TAG_PROTOCOL_GEN2 true)] ∧
    (TMR_SR_tagop_execute (dynamicQModule ERROR_TIMEOUT) planReader
      { type := TMR_TagopType.GEN2_LOCK } 0).1 = ERROR_TIMEOUT ∧
    (TMR_SR_tagop_execute (dynamicQModule ERROR_TIMEOUT) planReader
      { type := TMR_TagopType.GEN2_LOCK } 0).2.oldQ.type ≠ TMR_SR_GEN2_Q_INVALID ∧
    qWrites (TMR_SR_tagop_execute (dynamicQModule ERROR_TIMEOUT) planReader
      { type := TMR_TagopType.GEN2_LOCK } 0).2.trace = [[TMR_SR_GEN2_Q_STATIC, 0]] := by
  refine ⟨by decide, by decide, by decide, by decide, by decide, by decide, by decide, by decide,
    by decide⟩

/-! ## The cached protocol -/

/-- The accepted protocol of a trace extended by one event. -/
theorem acceptedProtocol_append (env : Env) (trace : List WireEvent) (e : WireEvent) :
    acceptedProtocol env (trace ++ [e]) =
      match e with
      | WireEvent.command (Command.SetProtocol protocol) =>
        if (env.command (Command.SetProtocol protocol)).1 = SUCCESS then some protocol
        else acceptedProtocol env trace
      | _ => acceptedProtocol env trace := by
  unfold acceptedProtocol
  rw [List.foldl_append]
  rfl

/-- C32, the part that holds: a call of `setProtocol` that returns success
leaves `currentProtocol` at its argument, which is then the protocol of the
most recent `SetProtocol` command that the module accepted; and a call whose
`SetProtocol` command the module refuses changes neither `currentProtocol` nor
the protocol accepted last. -/
theorem setProtocol_mirrors (env : Env) (reader : Reader) (protocol : Nat) :
    ((setProtocol env reader protocol).1 = SUCCESS →
      (setProtocol env reader protocol).2.currentProtocol = protocol ∧
      acceptedProtocol env (setProtocol env reader protocol).2.trace = some protocol) ∧
    ((env.command (Command.SetProtocol protocol)).1 ≠ SUCCESS →
      (setProtocol env reader protocol).1 = (env.command (Command.SetProtocol protocol)).1 ∧
      (setProtocol env reader protocol).2.currentProtocol = reader.currentProtocol ∧
      acceptedProtocol env (setProtocol env reader protocol).2.trace =
        acceptedProtocol env reader.trace) := by
  by_cases h1 : (env.command (Command.SetProtocol protocol)).1 = SUCCESS
  · by_cases h2 : (env.command
        (Command.SetReaderConfiguration TMR_SR_Configuration.EXTENDED_EPC [1])).1 = SUCCESS
    · have hs : setProtocol env reader protocol =
          (SUCCESS, { reader with
            trace := reader.trace ++ [WireEvent.command (Command.SetProtocol protocol)] ++
              [WireEvent.command
                (Command.SetReaderConfiguration TMR_SR_Configuration.EXTENDED_EPC [1])]
            currentProtocol := protocol }) := by
        simp [setProtocol, callCommand, h1, h2]
      rw [hs]
      refine ⟨fun _ => ⟨rfl, ?_⟩, fun h => absurd h1 h⟩
      simp only [acceptedProtocol_append, h1, if_true]
    · have hs : setProtocol env reader protocol =
          ((env.command
              (Command.SetReaderConfiguration TMR_SR_Configuration.EXTENDED_EPC [1])).1,
            { reader with
              trace := reader.trace ++ [WireEvent.command (Command.SetProtocol protocol)] ++
                [WireEvent.command
                  (Command.SetReaderConfiguration TMR_SR_Configuration.EXTENDED_EPC [1])] }) := by
        simp [setProtocol, callCommand, h1, h2]
      rw [hs]
      exact ⟨fun h => absurd h h2, fun h => absurd h1 h⟩
  · have hs : setProtocol env reader protocol =
        ((env.command (Command.SetProtocol protocol)).1,
          { reader with
            trace := reader.trace ++ [WireEvent.command (Command.SetProtocol protocol)] }) := by
      simp [setProtocol, callCommand, h1]
    rw [hs]
    refine ⟨fun h => absurd h h1, fun _ => ⟨rfl, rfl, ?_⟩⟩
    simp only [acceptedProtocol_append, h1, if_false]

/-- C32, the part that holds, at the protocol ISO 18000-6B on a module that
accepts it. -/
theorem setProtocol_mirrors_witness :
    (setProtocol gen2RefusingModule planReader TMR_TAG_PROTOCOL_ISO180006B).2.currentProtocol =
      TMR_TAG_PROTOCOL_ISO180006B ∧
    acceptedProtocol gen2RefusingModule
      (setProtocol gen2RefusingModule planReader TMR_TAG_PROTOCOL_ISO180006B).2.trace =
      some TMR_TAG_PROTOCOL_ISO180006B :=
  (setProtocol_mirrors gen2RefusingModule planReader TMR_TAG_PROTOCOL_ISO180006B).1 (by decide)

/-- C32. The cache does not mirror the accepted protocol.  On a module that
refuses `SetProtocol` for Gen2, after `setProtocol` has set ISO 18000-6B with
success, `TMR_SR_read_internal` for a Gen2 plan returns the module's error with
`currentProtocol` already Gen2, although the protocol accepted last is
ISO 18000-6B: the cache was updated for a `SetProtocol` that failed.  And on a
module that accepts `SetProtocol` but refuses the ExtendedEPC write,
`setProtocol` for Gen2 returns the error and leaves `currentProtocol` as it
was, although the module has accepted Gen2: the cache is stale after a
`SetProtocol` that succeeded. -/
theorem current_protocol_diverges :
    (setProtocol gen2RefusingModule planReader TMR_TAG_PROTOCOL_ISO180006B).1 = SUCCESS ∧
    acceptedProtocol gen2RefusingModule
      (setProtocol gen2RefusingModule planReader TMR_TAG_PROTOCOL_ISO180006B).2.trace =
      some (setProtocol gen2RefusingModule planReader
        TMR_TAG_PROTOCOL_ISO180006B).2.currentProtocol ∧
    (TMR_SR_read_internal gen2RefusingModule gen2Plan
      (setProtocol gen2RefusingModule planReader TMR_TAG_PROTOCOL_ISO180006B).2 100 0).1 =
      ERROR_TIMEOUT ∧
    (TMR_SR_read_internal gen2RefusingModule gen2Plan
      (setProtocol gen2RefusingModule planReader TMR_TAG_PROTOCOL_ISO180006B).2
        100 0).2.2.currentProtocol = TMR_TAG_PROTOCOL_GEN2 ∧
    acceptedProtocol gen2RefusingModule
      (TMR_SR_read_internal gen2RefusingModule gen2Plan
        (setProtocol gen2RefusingModule planReader TMR_TAG_PROTOCOL_ISO180006B).2
          100 0).2.2.trace = some TMR_TAG_PROTOCOL_ISO180006B ∧
    (TMR_SR_read_internal gen2RefusingModule gen2Plan
      (setProtocol gen2RefusingModule planReader TMR_TAG_PROTOCOL_ISO180006B).2
        100 0).2.2.trace =
      [WireEvent.command (Command.SetProtocol TMR_TAG_PROTOCOL_ISO180006B),
        WireEvent.command (Command.SetReaderConfiguration TMR_SR_Configuration.EXTENDED_EPC [1]),
        WireEvent.command (Command.SetAntennaSearchList [(1, 1)]),
        WireEvent.command (Command.SetProtocol TMR_TAG_PROTOCOL_GEN2)] ∧
    (setProtocol epcRefusingModule planReader TMR_TAG_PROTOCOL_GEN2).1 = ERROR_TIMEOUT ∧
    (setProtocol epcRefusingModule planReader TMR_TAG_PROTOCOL_GEN2).2.currentProtocol =
      planReader.currentProtocol ∧
    planReader.currentProtocol ≠ TMR_TAG_PROTOCOL_GEN2 ∧
    acceptedProtocol epcRefusingModule
      (setProtocol epcRefusingModule planReader TMR_TAG_PROTOCOL_GEN2).2.trace =
      some TMR_TAG_PROTOCOL_GEN2 := by
  refine ⟨by decide, by decide, by decide, by decide, by decide, by decide, by decide, by decide,
    by decide, by decide⟩

/-! ## The size of the write frame -/

/-- The message index behind the header of the write of tag data. -/
theorem msgAddGEN2DataWrite_index (timeout bank address : Nat) :
    (TMR_SR_msgAddGEN2DataWrite (fun _ => 0, 2) timeout bank address).2 = 11 := by
  rfl

/-- C33, the part that holds.  For a write without filter, with `i0 = 11` for
the access password 0 and `i0 = 15` for any other, and every count below 256:
`TMR_SR_cmdGEN2WriteTagData` returns `TMR_ERROR_TOO_BIG` when
`i0 + count + 1 > 256`, and otherwise hands `TMR_SR_sendMessage` a message
whose frame takes `i0 + count + 2` bytes, the two CRC bytes being stored at the
indices `i0 + count` and `i0 + count + 1`.  So the frame stays within 256 bytes
when `i0 + count <= 254` and takes 257 bytes when `i0 + count = 255`. -/
theorem write_frame_size (timeout bank address count accessPassword : Nat) (data : List Nat)
    (hcount : count < 256) :
    ((if accessPassword = 0 then 11 else 15) + count + 1 > 256 →
      msgGEN2WriteTagData timeout bank address count data accessPassword none =
        Except.error ERROR_TOO_BIG) ∧
    ((if accessPassword = 0 then 11 else 15) + count + 1 ≤ 256 →
      msgGEN2WriteTagData timeout bank address count data accessPassword none =
        Except.ok (writeTagDataMessage timeout bank address count data accessPassword none) ∧
      (TMR_SR_sendMessage
        (writeTagDataMessage timeout bank address count data accessPassword none)).2 =
        (if accessPassword = 0 then 11 else 15) + count + 2 ∧
      (sendMessageStores
        (writeTagDataMessage timeout bank address count data accessPassword none)).map Prod.fst =
        [0, (if accessPassword = 0 then 11 else 15) + count,
          (if accessPassword = 0 then 11 else 15) + count + 1]) := by
  have hi := msgAddGEN2DataWrite_index timeout bank address
  by_cases hp : accessPassword = 0
  · subst hp
    have hf : filterbytes TMR_TAG_PROTOCOL_GEN2 none
        (TMR_SR_msgAddGEN2DataWrite (fun _ => 0, 2) timeout bank address) 0 true =
        (SUCCESS, some 0, TMR_SR_msgAddGEN2DataWrite (fun _ => 0, 2) timeout bank address) := by
      simp [filterbytes]
    simp only [if_true]
    constructor
    · intro h
      simp only [msgGEN2WriteTagData, hf, hi, ne_eq, not_true_eq_false, if_false,
        TMR_SR_MAX_PACKET_SIZE]
      rw [if_pos (by omega)]
    · intro h
      have hm : msgGEN2WriteTagData timeout bank address count data 0 none =
          Except.ok (writeTagDataMessage timeout bank address count data 0 none) := by
        simp only [writeTagDataMessage, msgGEN2WriteTagData, hf, hi, ne_eq, not_true_eq_false,
          if_false, TMR_SR_MAX_PACKET_SIZE]
        rw [if_neg (by omega)]
      have h1 : writeTagDataMessage timeout bank address count data 0 none 1 = 8 + count := by
        simp only [writeTagDataMessage, msgGEN2WriteTagData, hf, hi, ne_eq, not_true_eq_false,
          if_false, TMR_SR_MAX_PACKET_SIZE]
        rw [if_neg (by omega)]
        simp only [installLength, if_true]
        omega
      refine ⟨hm, ?_, ?_⟩
      · simp only [TMR_SR_sendMessage, h1]
        omega
      · simp only [sendMessageStores, h1, List.map_cons, List.map_nil]
        have : (8 + count) % 256 = 8 + count := Nat.mod_eq_of_lt (by omega)
        rw [this]
        simp only [List.cons.injEq, and_true, true_and]
        omega
  · have hf : filterbytes TMR_TAG_PROTOCOL_GEN2 none
        (TMR_SR_msgAddGEN2DataWrite (fun _ => 0, 2) timeout bank address) accessPassword true =
        (SUCCESS, some TMR_SR_GEN2_SINGULATION_OPTION_USE_PASSWORD,
          SETU32 (TMR_SR_msgAddGEN2DataWrite (fun _ => 0, 2) timeout bank address)
            accessPassword) := by
      simp [filterbytes, hp]
    have hi2 : (SETU32 (TMR_SR_msgAddGEN2DataWrite (fun _ => 0, 2) timeout bank address)
        accessPassword).2 = 15 := by
      rfl
    simp only [hp, if_false]
    constructor
    · intro h
      simp only [msgGEN2WriteTagData, hf, hi2, ne_eq, not_true_eq_false, if_false,
        TMR_SR_MAX_PACKET_SIZE]
      rw [if_pos (by omega)]
    · intro h
      have hm : msgGEN2WriteTagData timeout bank address count data accessPassword none =
          Except.ok (writeTagDataMessage timeout bank address count data accessPassword none) := by
        simp only [writeTagDataMessage, msgGEN2WriteTagData, hf, hi2, ne_eq, not_true_eq_false,
          if_false, TMR_SR_MAX_PACKET_SIZE]
        rw [if_neg (by omega)]
      have h1 : writeTagDataMessage timeout bank address count data accessPassword none 1 =
          12 + count := by
        simp only [writeTagDataMessage, msgGEN2WriteTagData, hf, hi2, ne_eq, not_true_eq_false,
          if_false, TMR_SR_MAX_PACKET_SIZE]
        rw [if_neg (by omega)]
        simp only [installLength, if_true]
        omega
      refine ⟨hm, ?_, ?_⟩
      · simp only [TMR_SR_sendMessage, h1]
        omega
      · simp only [sendMessageStores, h1, List.map_cons, List.map_nil]
        have : (12 + count) % 256 = 12 + count := Nat.mod_eq_of_lt (by omega)
        rw [this]
        simp only [List.cons.injEq, and_true, true_and]
        omega

/-- C33, the part that holds, at a write of four bytes without password: the
frame takes 17 bytes. -/
theorem write_frame_size_witness :
    (TMR_SR_sendMessage (writeTagDataMessage 1000 3 2 4 [0x12, 0x34, 0x56, 0x78] 0 none)).2 = 17 ∧
    (sendMessageStores (writeTagDataMessage 1000 3 2 4 [0x12, 0x34, 0x56, 0x78] 0 none)).map
      Prod.fst = [0, 15, 16] :=
  ((write_frame_size 1000 3 2 4 0 [0x12, 0x34, 0x56, 0x78] (by decide)).2 (by decide)).2

/-- C33. The bound fails by one byte: for a write of 244 bytes without filter
and without access password, `TMR_SR_cmdGEN2WriteTagData` does not return
`TMR_ERROR_TOO_BIG` (its test is `11 + 244 + 1 > 256`); it hands
`TMR_SR_sendMessage` a message with `LEN = 252`, whose frame takes 257 bytes,
and the low byte of the CRC is stored at index 256 of the buffer of
`TMR_SR_MAX_PACKET_SIZE = 256` bytes. -/
theorem write_frame_overrun :
    msgGEN2WriteTagData 1000 3 0 244 (List.replicate 244 0xA5) 0 none =
      Except.ok (writeTagDataMessage 1000 3 0 244 (List.replicate 244 0xA5) 0 none) ∧
    writeTagDataMessage 1000 3 0 244 (List.replicate 244 0xA5) 0 none 1 = 252 ∧
    (TMR_SR_sendMessage (writeTagDataMessage 1000 3 0 244 (List.replicate 244 0xA5) 0 none)).2 = 257 ∧
    (sendMessageStores (writeTagDataMessage 1000 3 0 244 (List.replicate 244 0xA5) 0 none)).map Prod.fst =
      [0, 255, 256] ∧
    TMR_SR_MAX_PACKET_SIZE = 256 ∧
    (TMR_SR_cmdGEN2WriteTagData (moduleAt 9600 SUCCESS) wordOnlyReader 1000 3 0 244 (List.replicate 244 0xA5) 0 none).1 =
      SUCCESS := by
  refine ⟨by rfl, by decide, by decide, by decide, by decide, by decide⟩

/-! ## The EPC of a tag record -/

/-- The conversion of an `int` that holds a natural number to a byte. -/
theorem int_mod_toNat (x : Int) (n : Nat) (h : x = (n : Int)) : (x % 256).toNat = n % 256 := by
  subst h
  omega

/-- C34 (as amended): for every tag record whose EPC length field `B` has
`B / 8 >= 2` (`B / 8 >= 4` when the protocol of the record is Gen2),
`TMR_SR_parseMetadataFromMessage` computes `L = B / 8 - 2` (less 2 more for
Gen2, whose two PC bytes are read first), sets `epcByteCount` to the smaller of
`L mod 256` and `TMR_MAX_EPC_BYTE_COUNT`, which is `min(L, 62)` for `L < 256`,
copies exactly `epcByteCount` bytes from the start of the EPC, leaving the rest
of the array as it was, and reads the CRC as the big-endian 16-bit number at
the index `(start + L) mod 256`, leaving the cursor at `(start + L + 2) mod
256`: the cursor is a byte. -/
theorem epc_extraction (reader : Reader) (read : TMR_TagReadData) (flags i : Nat) (msg : Buf)
    (hB : epcOverhead reader read flags i msg ≤ epcBitLength reader read flags i msg / 8) :
    (TMR_SR_parseMetadataFromMessage reader read flags i msg).1.tag.epcByteCount =
      min (epcLength reader read flags i msg % 256) TMR_MAX_EPC_BYTE_COUNT ∧
    (epcLength reader read flags i msg < 256 →
      (TMR_SR_parseMetadataFromMessage reader read flags i msg).1.tag.epcByteCount =
        min (epcLength reader read flags i msg) 62) ∧
    (TMR_SR_parseMetadataFromMessage reader read flags i msg).1.tag.epc =
      bytesAt msg (epcStart reader read flags i msg)
          (TMR_SR_parseMetadataFromMessage reader read flags i msg).1.tag.epcByteCount ++
        (metadataFields true reader read flags i msg).1.tag.epc.drop
          (TMR_SR_parseMetadataFromMessage reader read flags i msg).1.tag.epcByteCount ∧
    (TMR_SR_parseMetadataFromMessage reader read flags i msg).1.tag.crc =
      GETU16AT msg
        ((epcStart reader read flags i msg + epcLength reader read flags i msg) % 256) ∧
    (TMR_SR_parseMetadataFromMessage reader read flags i msg).2 =
      (epcStart reader read flags i msg + epcLength reader read flags i msg + 2) % 256 ∧
    ((metadataFields true reader read flags i msg).1.tag.protocol = TMR_TAG_PROTOCOL_GEN2 →
      (TMR_SR_parseMetadataFromMessage reader read flags i msg).1.tag.pcByteCount = 2 ∧
      (TMR_SR_parseMetadataFromMessage reader read flags i msg).1.tag.pc.take 2 =
        [msg (((metadataFields true reader read flags i msg).2 + 2) % 256),
          msg (((metadataFields true reader read flags i msg).2 + 3) % 256)]) := by
  unfold TMR_SR_parseMetadataFromMessage epcLength epcStart epcOverhead epcBitLength at *
  generalize metadataFields true reader read flags i msg = s at *
  obtain ⟨r, c⟩ := s
  simp only [] at hB ⊢
  by_cases hg : r.tag.protocol = TMR_TAG_PROTOCOL_GEN2
  · simp only [hg, if_true] at hB ⊢
    generalize hb : GETU16AT msg c / 8 = b at hB
    have e1 : ((Int.ofNat b - 2 - 2) % 256).toNat = (b - 4) % 256 :=
      int_mod_toNat _ _ (by simp only [Int.ofNat_eq_coe]; omega)
    have e2 : ((c + 2) % 256 + 1) % 256 = (c + 3) % 256 := by omega
    have e3 : ((c + 3) % 256 + 1) % 256 = (c + 4) % 256 := by omega
    have e4 : ((Int.ofNat ((c + 4) % 256) + (Int.ofNat b - 2 - 2)) % 256).toNat =
        ((c + 4) % 256 + (b - 4)) % 256 :=
      int_mod_toNat _ _ (by simp only [Int.ofNat_eq_coe]; omega)
    have e5 : (((c + 4) % 256 + (b - 4)) % 256 + 2) % 256 =
        ((c + 4) % 256 + (b - 4) + 2) % 256 := by omega
    simp only [epcFields, GETU16, GETU8, hg, if_true, hb, e1, e2, e3, e4, e5, bytesAt,
      TMR_MAX_EPC_BYTE_COUNT]
    refine ⟨?_, ?_, ?_, trivial, trivial, fun _ => ⟨trivial, ?_⟩⟩
    · split <;> omega
    · intro hL
      split <;> omega
    · trivial
    · simp
  · simp only [hg, if_false] at hB ⊢
    generalize hb : GETU16AT msg c / 8 = b at hB
    have e1 : ((Int.ofNat b - 2) % 256).toNat = (b - 2) % 256 :=
      int_mod_toNat _ _ (by simp only [Int.ofNat_eq_coe]; omega)
    have e4 : ((Int.ofNat ((c + 2) % 256) + (Int.ofNat b - 2)) % 256).toNat =
        ((c + 2) % 256 + (b - 2)) % 256 :=
      int_mod_toNat _ _ (by simp only [Int.ofNat_eq_coe]; omega)
    have e5 : (((c + 2) % 256 + (b - 2)) % 256 + 2) % 256 =
        ((c + 2) % 256 + (b - 2) + 2) % 256 := by omega
    simp only [epcFields, GETU16, hg, if_false, hb, e1, e4, e5, bytesAt, TMR_MAX_EPC_BYTE_COUNT]
    refine ⟨?_, ?_, ?_, trivial, trivial, fun h => h.elim⟩
    · split <;> omega
    · intro hL
      split <;> omega
    · trivial

/-- C34 as amended, at a Gen2 record with an EPC field of 64 bits: the PC
bytes are 30 00, the EPC is the four bytes `E2 00 12 34`, the CRC is `BEEF`
and the cursor ends at 16. -/
theorem epc_extraction_witness :
    (TMR_SR_parseMetadataFromMessage planReader emptyRead TMR_TRD_METADATA_FLAG_PROTOCOL 5
      gen2RecordMessage).1.tag.epcByteCount = 4 ∧
    (TMR_SR_parseMetadataFromMessage planReader emptyRead TMR_TRD_METADATA_FLAG_PROTOCOL 5
      gen2RecordMessage).1.tag.epc = [0xE2, 0x00, 0x12, 0x34] ∧
    (TMR_SR_parseMetadataFromMessage planReader emptyRead TMR_TRD_METADATA_FLAG_PROTOCOL 5
      gen2RecordMessage).1.tag.crc = 0xBEEF ∧
    (TMR_SR_parseMetadataFromMessage planReader emptyRead TMR_TRD_METADATA_FLAG_PROTOCOL 5
      gen2RecordMessage).2 = 16 := by
  have h := epc_extraction planReader emptyRead TMR_TRD_METADATA_FLAG_PROTOCOL 5
    gen2RecordMessage (by decide)
  obtain ⟨h1, _, h3, h4, h5, _⟩ := h
  have e1 : (TMR_SR_parseMetadataFromMessage planReader emptyRead TMR_TRD_METADATA_FLAG_PROTOCOL 5
      gen2RecordMessage).1.tag.epcByteCount = 4 := by
    rw [h1]
    decide
  refine ⟨e1, ?_, ?_, ?_⟩
  · rw [h3, e1]
    decide
  · rw [h4]
    decide
  · rw [h5]
    decide

/-- C34 as stated fails.  For a record without metadata fields at the cursor 5
whose EPC length field announces 2048 bits, that is `L = 254` bytes from the
index 7 on, the CRC is not read `L` bytes after the start of the EPC, at the
index 261, but at the index 5, and the cursor is left at 7, not `L + 2` bytes
behind the start of the EPC: the cursor is a byte and wraps. -/
theorem epc_cursor_wraps :
    epcLength planReader emptyRead 0 5 longEpcMessage = 254 ∧
    epcStart planReader emptyRead 0 5 longEpcMessage = 7 ∧
    (TMR_SR_parseMetadataFromMessage planReader emptyRead 0 5 longEpcMessage).1.tag.epcByteCount =
      62 ∧
    (TMR_SR_parseMetadataFromMessage planReader emptyRead 0 5 longEpcMessage).1.tag.crc =
      GETU16AT longEpcMessage 5 ∧
    (TMR_SR_parseMetadataFromMessage planReader emptyRead 0 5 longEpcMessage).1.tag.crc ≠
      GETU16AT longEpcMessage (7 + 254) ∧
    (TMR_SR_parseMetadataFromMessage planReader emptyRead 0 5 longEpcMessage).2 = 7 ∧
    (TMR_SR_parseMetadataFromMessage planReader emptyRead 0 5 longEpcMessage).2 ≠ 7 + 254 + 2 := by
  decide

/-! ## Multi-plans of weight zero -/

/-- When the loop of `validateReadPlan` runs to its end, the total weight is
the sum of the weights of the sub-plans, in 32 bits, and the sub-plans keep
their number and their weights. -/
theorem validateReadPlanLoop_total (reader : Reader) :
    ∀ (plans : List TMR_ReadPlan) (tw : Nat), tw < 2 ^ 32 →
      (validateReadPlanLoop reader plans tw).1 = true →
      (validateReadPlanLoop reader plans tw).2.2 = (tw + weightSum plans) % 2 ^ 32 ∧
      weightSum (validateReadPlanLoop reader plans tw).2.1 = weightSum plans ∧
      (validateReadPlanLoop reader plans tw).2.1.length = plans.length
  | [], tw => by
    intro htw _
    simp only [validateReadPlanLoop, weightSum, List.map_nil, List.sum_nil, Nat.add_zero,
      List.length_nil, and_self, and_true]
    exact (Nat.mod_eq_of_lt htw).symm
  | p :: rest, tw => by
    intro htw
    have hw := validateReadPlan_weight reader p
    have hr := validateReadPlanLoop_total reader rest
      ((tw + (validateReadPlan reader p).2.weight) % 2 ^ 32) (Nat.mod_lt _ (by norm_num))
    simp only [validateReadPlanLoop]
    cases hres : validateReadPlan reader p with
    | mk b p1 =>
      rw [hres] at hr hw
      cases b with
      | false => simp
      | true =>
        simp only []
        intro h
        have h2 := hr h
        refine ⟨?_, ?_, ?_⟩
        · rw [h2.1]
          simp only [weightSum, List.map_cons, List.sum_cons] at hw ⊢
          rw [hw]
          omega
        · have := h2.2.1
          simp only [weightSum, List.map_cons, List.sum_cons] at this hw ⊢
          rw [this, hw]
        · simp only [List.length_cons, h2.2.2]

/-- C37 (as amended): on a reader that has found the key `TMR_PARAM_READ_PLAN`
present, for every multi-plan all of whose children have weight 0, whatever
total weight the caller supplied, the set of the read plan returns
`TMR_ERROR_INVALID` and leaves the reader, its stored plan included, as it was; and for every
multi-plan that the set accepts, the stored plan is a multi-plan of as many
children with the same weights, whose total weight is the sum of the weights
of the children in 32 bits, is that sum itself when the sum is below 2^32, and
is positive, so that `TMR_SR_read_internal` on the stored plan does not send
the multi-protocol search of the branch `totalWeight = 0`: it returns
`TMR_ERROR_TOO_BIG` for more than five children and reads the children one by
one otherwise. -/
theorem zero_weight_multi (env : Env) (reader : Reader) (weight : Nat)
    (plans : List TMR_ReadPlan) (tw : Nat)
    (hc : BITGET reader.paramConfirmed TMR_Param.READ_PLAN = true)
    (hp : BITGET reader.paramPresent TMR_Param.READ_PLAN = true) :
    ((∀ p ∈ plans, p.weight = 0) →
      TMR_SR_paramSet env reader TMR_Param.READ_PLAN
        (ParamValue.readPlan (TMR_ReadPlan.multi weight plans tw)) = (ERROR_INVALID, reader)) ∧
    ((TMR_SR_paramSet env reader TMR_Param.READ_PLAN
        (ParamValue.readPlan (TMR_ReadPlan.multi weight plans tw))).1 ≠ ERROR_INVALID →
      ∃ plans1 total,
        (TMR_SR_paramSet env reader TMR_Param.READ_PLAN
          (ParamValue.readPlan (TMR_ReadPlan.multi weight plans tw))).1 = SUCCESS ∧
        (TMR_SR_paramSet env reader TMR_Param.READ_PLAN
          (ParamValue.readPlan (TMR_ReadPlan.multi weight plans tw))).2.readPlan =
          TMR_ReadPlan.multi weight plans1 total ∧
        plans1.length = plans.length ∧
        weightSum plans1 = weightSum plans ∧
        total = weightSum plans1 % 2 ^ 32 ∧
        (weightSum plans < 2 ^ 32 → total = weightSum plans1) ∧
        0 < total ∧
        ∀ (env2 : Env) (reader2 : Reader) (timeoutMs tagCount : Nat),
          TMR_SR_read_internal env2 (TMR_ReadPlan.multi weight plans1 total) reader2 timeoutMs
              tagCount =
            if TMR_MAX_SERIAL_MULTIPROTOCOL_LENGTH < plans1.length then
              (ERROR_TOO_BIG, tagCount, reader2)
            else readSubPlans env2 timeoutMs total plans1 reader2 tagCount SUCCESS) := by
  rw [paramSet_readPlan_eq env reader _ hc hp]
  have hl := validateReadPlanLoop_total reader plans 0 (by norm_num)
  simp only [validateReadPlan]
  cases hres : validateReadPlanLoop reader plans 0 with
  | mk b rest =>
    cases rest with
    | mk plans1 total =>
      rw [hres] at hl
      cases b with
      | false =>
        simp
      | true =>
        have h2 := hl rfl
        simp only [Nat.zero_add] at h2
        obtain ⟨ht, hs, hlen⟩ := h2
        constructor
        · intro hz
          have hsum : weightSum plans = 0 := by
            unfold weightSum
            apply List.sum_eq_zero
            intro x hx
            rw [List.mem_map] at hx
            obtain ⟨p, hp1, hp2⟩ := hx
            rw [← hp2]
            exact hz p hp1
          have ht0 : total = 0 := by
            rw [ht, hsum]
            rfl
          simp [ht0]
        · by_cases h0 : total = 0
          · simp [h0]
          · intro _
            refine ⟨plans1, total, ?_, ?_, hlen, hs, ?_, ?_, ?_, ?_⟩
            · simp [h0]
            · simp [h0]
            · rw [hs]
              exact ht
            · intro hfit
              rw [hs, ht, Nat.mod_eq_of_lt hfit]
            · omega
            · intro env2 reader2 timeoutMs tagCount
              simp only [TMR_SR_read_internal, h0, if_false]

/-- C37 as amended, at a reader that supports Gen2 and ISO 18000-6B with
antennas 1 and 2: the multi-plan of two children of weight 0 is refused and
the reader left as it was, and the multi-plan of two children of weights 3 and
1 is accepted. -/
theorem zero_weight_multi_witness :
    TMR_SR_paramSet detectModule planReader TMR_Param.READ_PLAN
      (ParamValue.readPlan zeroWeightPlan) = (ERROR_INVALID, planReader) ∧
    ∃ plans1 total,
      (TMR_SR_paramSet detectModule planReader TMR_Param.READ_PLAN
        (ParamValue.readPlan twoProtocolPlan)).2.readPlan = TMR_ReadPlan.multi 0 plans1 total ∧
      total = 4 := by
  constructor
  · exact (zero_weight_multi detectModule planReader 0 _ 0 (by decide) (by decide)).1
      (by
        intro p hp
        simp only [List.mem_cons, List.mem_singleton, List.not_mem_nil, or_false] at hp
        rcases hp with h | h <;> rw [h] <;> rfl)
  · have hne : (TMR_SR_paramSet detectModule planReader TMR_Param.READ_PLAN
        (ParamValue.readPlan twoProtocolPlan)).1 ≠ ERROR_INVALID := by
      decide
    obtain ⟨plans1, total, _, h2, _, h4, h5, _, _, _⟩ :=
      (zero_weight_multi detectModule planReader 0 _ 0 (by decide) (by decide)).2 hne
    refine ⟨plans1, total, h2, ?_⟩
    rw [h5, h4]
    decide

/-- C37 as stated fails.  The multi-plan of three simple plans of weights
2^31, 2^31 and 1 is accepted by the set of the read plan, and the stored plan
has the total weight 1, the sum of the weights in 32 bits, where the sum of
the weights of its children is 2^32 + 1. -/
theorem zero_weight_multi_wraps :
    (TMR_SR_paramSet detectModule planReader TMR_Param.READ_PLAN
      (ParamValue.readPlan wrappingPlan)).1 = SUCCESS ∧
    (TMR_SR_paramSet detectModule planReader TMR_Param.READ_PLAN
      (ParamValue.readPlan wrappingPlan)).2.readPlan =
      TMR_ReadPlan.multi 0
        [TMR_ReadPlan.simple 2147483648 [1] TMR_TAG_PROTOCOL_GEN2 none none,
          TMR_ReadPlan.simple 2147483648 [2] TMR_TAG_PROTOCOL_ISO180006B none none,
          TMR_ReadPlan.simple 1 [1] TMR_TAG_PROTOCOL_GEN2 none none] 1 ∧
    weightSum [TMR_ReadPlan.simple 2147483648 [1] TMR_TAG_PROTOCOL_GEN2 none none,
      TMR_ReadPlan.simple 2147483648 [2] TMR_TAG_PROTOCOL_ISO180006B none none,
      TMR_ReadPlan.simple 1 [1] TMR_TAG_PROTOCOL_GEN2 none none] = 2 ^ 32 + 1 ∧
    (1 : Nat) ≠ 2 ^ 32 + 1 := by
  refine ⟨by decide, by rfl, by decide, by decide⟩

/-! ## Words of tag memory -/

/-- One more round of the loop of `TMR_SR_writeTagMemWords`. -/
theorem bytesFromWords_succ (data : List Nat) (buf : Buf) (n : Nat) :
    bytesFromWords data (n + 1) buf =
      fun k =>
        if k = 2 * n + 1 then data.getD n 0 &&& 0xff
        else if k = 2 * n then (data.getD n 0 >>> 8) % 256
        else bytesFromWords data n buf k := by
  unfold bytesFromWords
  rw [List.range_succ, List.foldl_append]
  rfl

/-- The loop of `TMR_SR_writeTagMemWords` after `n` rounds: the bytes of the
first `n` words, high byte first, and the rest of the buffer as it was. -/
theorem bytesFromWords_eq (data : List Nat) (buf : Buf) (n : Nat) :
    ∀ k, bytesFromWords data n buf k =
      if k < 2 * n then
        (if k % 2 = 0 then (data.getD (k / 2) 0 >>> 8) % 256 else data.getD (k / 2) 0 &&& 0xff)
      else buf k := by
  induction n with
  | zero =>
    intro k
    simp [bytesFromWords]
  | succ n ih =>
    intro k
    rw [bytesFromWords_succ]
    simp only []
    rw [ih k]
    by_cases h1 : k = 2 * n + 1
    · subst h1
      have e1 : (2 * n + 1) / 2 = n := by omega
      have e2 : ¬ (2 * n + 1) % 2 = 0 := by omega
      have e3 : 2 * n + 1 < 2 * (n + 1) := by omega
      simp only [if_true, e1, e2, e3, if_false]
    · by_cases h2 : k = 2 * n
      · subst h2
        have e1 : (2 * n) / 2 = n := by omega
        have e2 : (2 * n) % 2 = 0 := by omega
        have e3 : 2 * n < 2 * (n + 1) := by omega
        simp only [h1, if_false, if_true, e1, e2, e3]
      · simp only [h1, h2, if_false]
        by_cases h3 : k < 2 * n
        · have e3 : k < 2 * (n + 1) := by omega
          simp only [h3, e3, if_true]
        · have e3 : ¬ k < 2 * (n + 1) := by omega
          simp only [h3, e3, if_false]

/-- One more round of the loop of `TMR_SR_readTagMemWords`. -/
theorem wordsFromBytes_succ (bigEndianHost : Bool) (data8 : Buf) (n : Nat) :
    wordsFromBytes bigEndianHost (n + 1) data8 =
      storeWord bigEndianHost (wordsFromBytes bigEndianHost n data8) n
        (((wordsFromBytes bigEndianHost n data8 (2 * n) <<< 8) |||
          wordsFromBytes bigEndianHost n data8 (2 * n + 1)) % 65536) := by
  unfold wordsFromBytes
  rw [List.range_succ, List.foldl_append]
  rfl

/-- The loop of `TMR_SR_readTagMemWords` after `n` rounds: the first `n` words
hold the big-endian values of their byte pairs, in the byte order of the host,
and the rest of the memory is as it was. -/
theorem wordsFromBytes_eq (bigEndianHost : Bool) (data8 : Buf) (n : Nat) :
    ∀ k, wordsFromBytes bigEndianHost n data8 k =
      if k < 2 * n then
        (if k % 2 = 0 then
          (hostBytes bigEndianHost
            (((data8 (2 * (k / 2)) <<< 8) ||| data8 (2 * (k / 2) + 1)) % 65536)).1
        else
          (hostBytes bigEndianHost
            (((data8 (2 * (k / 2)) <<< 8) ||| data8 (2 * (k / 2) + 1)) % 65536)).2)
      else data8 k := by
  induction n with
  | zero =>
    intro k
    simp [wordsFromBytes]
  | succ n ih =>
    intro k
    have a1 : ¬ 2 * n < 2 * n := by omega
    have a2 : ¬ 2 * n + 1 < 2 * n := by omega
    rw [wordsFromBytes_succ]
    unfold storeWord
    rw [ih k, ih (2 * n), ih (2 * n + 1)]
    simp only [a1, a2, if_false]
    by_cases h2 : k = 2 * n
    · subst h2
      have e1 : (2 * n) / 2 = n := by omega
      have e2 : (2 * n) % 2 = 0 := by omega
      have e3 : 2 * n < 2 * (n + 1) := by omega
      simp only [if_true, e1, e2, e3]
    · by_cases h1 : k = 2 * n + 1
      · subst h1
        have e1 : (2 * n + 1) / 2 = n := by omega
        have e2 : ¬ (2 * n + 1) % 2 = 0 := by omega
        have e3 : 2 * n + 1 < 2 * (n + 1) := by omega
        simp only [h2, if_false, if_true, e1, e2, e3]
      · simp only [h1, h2, if_false]
        by_cases h3 : k < 2 * n
        · have e3 : k < 2 * (n + 1) := by omega
          simp only [h3, e3, if_true]
        · have e3 : ¬ k < 2 * (n + 1) := by omega
          simp only [h3, e3, if_false]

/-- A 16-bit value read back from its two bytes in the memory of the host. -/
theorem loadWord_hostBytes (bigEndianHost : Bool) (m : Buf) (i v : Nat) (hv : v < 65536)
    (h0 : m (2 * i) = (hostBytes bigEndianHost v).1)
    (h1 : m (2 * i + 1) = (hostBytes bigEndianHost v).2) :
    loadWord bigEndianHost m i = v := by
  unfold loadWord
  rw [h0, h1]
  cases bigEndianHost
  · simp only [hostBytes, Bool.false_eq_true, if_false]
    rw [shl8_or _ _ (Nat.mod_lt _ (by norm_num)), Nat.shiftRight_eq_div_pow]
    omega
  · simp only [hostBytes, if_true]
    rw [shl8_or _ _ (Nat.mod_lt _ (by norm_num)), Nat.shiftRight_eq_div_pow]
    omega

/-- The byte sequence of a list of words has two bytes for each word. -/
theorem highByteFirst_length (ws : List Nat) : (highByteFirst ws).length = 2 * ws.length := by
  induction ws with
  | nil => rfl
  | cons w rest ih =>
    simp only [highByteFirst, List.length_cons, ih]
    omega

/-- The bytes of the byte sequence of a list of words: at an even index the
high byte of a word, at an odd index its low byte. -/
theorem highByteFirst_getD (ws : List Nat) :
    ∀ k, k < 2 * ws.length → (highByteFirst ws).getD k 0 =
      if k % 2 = 0 then ws.getD (k / 2) 0 / 256 else ws.getD (k / 2) 0 % 256 := by
  induction ws with
  | nil =>
    intro k hk
    simp at hk
  | cons w rest ih =>
    intro k hk
    match k with
    | 0 => rfl
    | 1 => rfl
    | k + 2 =>
      have e1 : (k + 2) % 2 = k % 2 := by omega
      have e2 : (k + 2) / 2 = k / 2 + 1 := by omega
      have hk2 : k < 2 * rest.length := by
        simp only [List.length_cons] at hk
        omega
      rw [e1, e2]
      simp only [highByteFirst, List.getD_cons_succ]
      exact ih k hk2

/-- The value of `data[i]` depends on the two bytes of the word only. -/
theorem loadWord_congr (bigEndianHost : Bool) (m1 m2 : Buf) (i : Nat)
    (h0 : m1 (2 * i) = m2 (2 * i)) (h1 : m1 (2 * i + 1) = m2 (2 * i + 1)) :
    loadWord bigEndianHost m1 i = loadWord bigEndianHost m2 i := by
  unfold loadWord
  rw [h0, h1]

/-- The conversion of `TMR_SR_readTagMemWords`: on either host, word `i` is
`byte[2i] * 256 + byte[2i+1]`. -/
theorem wordsFromBytes_pair (bigEndianHost : Bool) (data8 : Buf) (n i : Nat) (hi : i < n)
    (hb0 : data8 (2 * i) < 256) (hb1 : data8 (2 * i + 1) < 256) :
    loadWord bigEndianHost (wordsFromBytes bigEndianHost n data8) i =
      data8 (2 * i) * 256 + data8 (2 * i + 1) := by
  have hv : data8 (2 * i) * 256 + data8 (2 * i + 1) < 65536 := by omega
  have hval : ((data8 (2 * i) <<< 8) ||| data8 (2 * i + 1)) % 65536 =
      data8 (2 * i) * 256 + data8 (2 * i + 1) := by
    rw [shl8_or _ _ hb1, Nat.mod_eq_of_lt hv]
  apply loadWord_hostBytes _ _ _ _ hv
  · rw [wordsFromBytes_eq]
    have e1 : 2 * i < 2 * n := by omega
    have e2 : (2 * i) % 2 = 0 := by omega
    have e3 : (2 * i) / 2 = i := by omega
    simp only [e1, e2, e3, if_true, hval]
  · rw [wordsFromBytes_eq]
    have e1 : 2 * i + 1 < 2 * n := by omega
    have e2 : ¬ (2 * i + 1) % 2 = 0 := by omega
    have e3 : (2 * i + 1) / 2 = i := by omega
    simp only [e1, e2, e3, if_true, if_false, hval]

/-- The buffer that `TMR_SR_writeTagMemWords` hands on for `n` words of 16
bits, `n` at most 127: the bytes of the words, high byte first, and behind them
what the buffer held before. -/
theorem bytesFromWords_highByteFirst (ws : List Nat) (buf : Buf)
    (hlen : ws.length ≤ 127) (hw : ∀ w ∈ ws, w < 65536) :
    bytesAt (bytesFromWords ws ws.length buf) 0 254 =
      highByteFirst ws ++ bytesAt buf (2 * ws.length) (254 - 2 * ws.length) := by
  have hwi : ∀ i, i < ws.length → ws.getD i 0 < 65536 := by
    intro i hi
    rw [List.getD_eq_getElem _ _ hi]
    exact hw _ (List.getElem_mem _)
  apply List.ext_getElem
  · simp only [bytesAt, List.length_map, List.length_range, List.length_append,
      highByteFirst_length]
    omega
  · intro k h1 h2
    have hk : k < 254 := by
      simpa [bytesAt] using h1
    rw [← List.getD_eq_getElem _ 0 h1, ← List.getD_eq_getElem _ 0 h2]
    rw [bytesAt_getD _ _ _ _ hk, Nat.zero_add, bytesFromWords_eq]
    by_cases hlt : k < 2 * ws.length
    · rw [List.getD_append _ _ _ _ (by rw [highByteFirst_length]; exact hlt),
        highByteFirst_getD ws k hlt]
      have hq : ws.getD (k / 2) 0 < 65536 := hwi _ (by omega)
      have e1 : ws.getD (k / 2) 0 &&& 0xff = ws.getD (k / 2) 0 % 256 :=
        Nat.and_pow_two_sub_one_eq_mod _ 8
      simp only [hlt, if_true, Nat.shiftRight_eq_div_pow, e1]
      split
      · omega
      · rfl
    · rw [List.getD_append_right _ _ _ _ (by rw [highByteFirst_length]; omega),
        highByteFirst_length, bytesAt_getD _ _ _ _ (by omega)]
      simp only [hlt, if_false]
      congr 1
      omega

/-- C40: for every list `ws` of at most 127 16-bit words, whatever the byte
order of the host: `TMR_SR_writeTagMemWords` called with `ws` is the call of
`TMR_SR_writeTagMemBytes` at the doubled address with the byte count
`2 * |ws|` and the bytes of `ws`, each word high byte first, a sequence of
length `2 * |ws|` (behind it the buffer holds what it held before); and
`TMR_SR_readTagMemWords` for `|ws|` words returns the failure of
`TMR_SR_readTagMemBytes` at the doubled address with the byte count
`2 * |ws|` as it is, and on its success returns success with the same reader
and makes word `i` of the caller's array the number
`byte[2i] * 256 + byte[2i+1]` of the bytes read, so that for the byte sequence
that the write produced from `ws` the array holds `ws` again. -/
theorem word_byte_round_trip (env env2 : Env) (reader reader2 : Reader)
    (bigEndianHost : Bool) (mode0 : Nat) (filter target : Option TMR_TagFilter)
    (bank address bank2 wordAddress : Nat) (ws buf0 data buf2 : List Nat)
    (read0 : TMR_TagReadData)
    (hlen : ws.length ≤ 127) (hw : ∀ w ∈ ws, w < 65536) :
    TMR_SR_writeTagMemWords env reader mode0 filter bank address ws.length ws buf0 =
      TMR_SR_writeTagMemBytes env reader mode0 filter bank (address * 2 % 2 ^ 32)
        (2 * ws.length)
        (highByteFirst ws ++
          bytesAt (fun k => buf0.getD k 0) (2 * ws.length) (254 - 2 * ws.length)) ∧
    (highByteFirst ws).length = 2 * ws.length ∧
    (∀ i, i < ws.length →
      (highByteFirst ws).getD (2 * i) 0 = ws.getD i 0 / 256 ∧
      (highByteFirst ws).getD (2 * i + 1) 0 = ws.getD i 0 % 256) ∧
    ((TMR_SR_readTagMemBytes env2 reader2 target bank2 (wordAddress * 2 % 2 ^ 32)
        (2 * ws.length) data buf2 read0).1 ≠ SUCCESS →
      TMR_SR_readTagMemWords env2 reader2 bigEndianHost target bank2 wordAddress ws.length data
          buf2 read0 =
        TMR_SR_readTagMemBytes env2 reader2 target bank2 (wordAddress * 2 % 2 ^ 32)
          (2 * ws.length) data buf2 read0) ∧
    ((TMR_SR_readTagMemBytes env2 reader2 target bank2 (wordAddress * 2 % 2 ^ 32)
        (2 * ws.length) data buf2 read0).1 = SUCCESS →
      (TMR_SR_readTagMemWords env2 reader2 bigEndianHost target bank2 wordAddress ws.length data
        buf2 read0).1 = SUCCESS ∧
      (TMR_SR_readTagMemWords env2 reader2 bigEndianHost target bank2 wordAddress ws.length data
        buf2 read0).2.2 =
        (TMR_SR_readTagMemBytes env2 reader2 target bank2 (wordAddress * 2 % 2 ^ 32)
          (2 * ws.length) data buf2 read0).2.2 ∧
      (∀ i, i < ws.length →
        (TMR_SR_readTagMemBytes env2 reader2 target bank2 (wordAddress * 2 % 2 ^ 32)
          (2 * ws.length) data buf2 read0).2.1.getD (2 * i) 0 < 256 →
        (TMR_SR_readTagMemBytes env2 reader2 target bank2 (wordAddress * 2 % 2 ^ 32)
          (2 * ws.length) data buf2 read0).2.1.getD (2 * i + 1) 0 < 256 →
        loadWord bigEndianHost
          (fun k => (TMR_SR_readTagMemWords env2 reader2 bigEndianHost target bank2 wordAddress
            ws.length data buf2 read0).2.1.getD k 0) i =
          (TMR_SR_readTagMemBytes env2 reader2 target bank2 (wordAddress * 2 % 2 ^ 32)
            (2 * ws.length) data buf2 read0).2.1.getD (2 * i) 0 * 256 +
          (TMR_SR_readTagMemBytes env2 reader2 target bank2 (wordAddress * 2 % 2 ^ 32)
            (2 * ws.length) data buf2 read0).2.1.getD (2 * i + 1) 0) ∧
      ((TMR_SR_readTagMemBytes env2 reader2 target bank2 (wordAddress * 2 % 2 ^ 32)
          (2 * ws.length) data buf2 read0).2.1.take (2 * ws.length) = highByteFirst ws →
        (List.range ws.length).map
          (loadWord bigEndianHost
            (fun k => (TMR_SR_readTagMemWords env2 reader2 bigEndianHost target bank2
              wordAddress ws.length data buf2 read0).2.1.getD k 0)) = ws)) := by
  have hwi : ∀ i, i < ws.length → ws.getD i 0 < 65536 := by
    intro i hi
    rw [List.getD_eq_getElem _ _ hi]
    exact hw _ (List.getElem_mem _)
  have hcount : ws.length * 2 % 65536 = 2 * ws.length := by omega
  have hpair : ∀ i, i < ws.length →
      (highByteFirst ws).getD (2 * i) 0 = ws.getD i 0 / 256 ∧
      (highByteFirst ws).getD (2 * i + 1) 0 = ws.getD i 0 % 256 := by
    intro i hi
    have e1 : (2 * i) % 2 = 0 := by omega
    have e2 : ¬ (2 * i + 1) % 2 = 0 := by omega
    have e3 : (2 * i) / 2 = i := by omega
    have e4 : (2 * i + 1) / 2 = i := by omega
    rw [highByteFirst_getD ws _ (by omega), highByteFirst_getD ws _ (by omega)]
    simp only [e1, e2, e3, e4, if_true, if_false, and_self]
  have hword : ∀ (r : TMR_Status × List Nat × Reader) (i : Nat), i < ws.length →
      r.2.1.getD (2 * i) 0 < 256 → r.2.1.getD (2 * i + 1) 0 < 256 →
      loadWord bigEndianHost
        (fun k => (bytesAt (wordsFromBytes bigEndianHost ws.length (fun k => r.2.1.getD k 0)) 0
          (2 * ws.length) ++ r.2.1.drop (2 * ws.length)).getD k 0) i =
        r.2.1.getD (2 * i) 0 * 256 + r.2.1.getD (2 * i + 1) 0 := by
    intro r i hi hb0 hb1
    have hl : (bytesAt (wordsFromBytes bigEndianHost ws.length (fun k => r.2.1.getD k 0)) 0
        (2 * ws.length)).length = 2 * ws.length := by
      simp [bytesAt]
    rw [loadWord_congr bigEndianHost _
      (wordsFromBytes bigEndianHost ws.length (fun k => r.2.1.getD k 0)) i ?_ ?_]
    · exact wordsFromBytes_pair bigEndianHost (fun k => r.2.1.getD k 0) ws.length i hi hb0 hb1
    · show List.getD (_ ++ _) (2 * i) 0 = _
      rw [List.getD_append _ _ _ _ (by rw [hl]; omega), bytesAt_getD _ _ _ _ (by omega),
        Nat.zero_add]
    · show List.getD (_ ++ _) (2 * i + 1) 0 = _
      rw [List.getD_append _ _ _ _ (by rw [hl]; omega), bytesAt_getD _ _ _ _ (by omega),
        Nat.zero_add]
  refine ⟨?_, highByteFirst_length ws, hpair, ?_, ?_⟩
  · unfold TMR_SR_writeTagMemWords
    rw [hcount, bytesFromWords_highByteFirst ws _ hlen hw]
  · intro hne
    unfold TMR_SR_readTagMemWords
    rw [hcount]
    simp only [hne, ne_eq, not_false_eq_true, if_true]
  · intro hok
    unfold TMR_SR_readTagMemWords
    rw [hcount]
    simp only [hok, ne_eq, not_true_eq_false, if_false, true_and]
    refine ⟨fun i hi hb0 hb1 => hword _ i hi hb0 hb1, ?_⟩
    intro htake
    have hget : ∀ k, k < 2 * ws.length →
        (TMR_SR_readTagMemBytes env2 reader2 target bank2 (wordAddress * 2 % 2 ^ 32)
          (2 * ws.length) data buf2 read0).2.1.getD k 0 = (highByteFirst ws).getD k 0 := by
      intro k hk
      rw [← htake]
      simp only [List.getD_eq_getElem?_getD, List.getElem?_take, hk, if_true]
    apply List.ext_getElem
    · simp
    · intro i h1 h2
      have hq := hwi i h2
      have hp := hpair i h2
      rw [List.getElem_map, List.getElem_range]
      rw [hword _ i h2 (by rw [hget _ (by omega), hp.1]; omega)
        (by rw [hget _ (by omega), hp.2]; omega)]
      rw [hget _ (by omega), hget _ (by omega), hp.1, hp.2, ← List.getD_eq_getElem _ 0 h2]
      omega

/-- C40, at the words 1122 and 3344 on a little-endian host: the byte sequence
is `11 22 33 44`; written in the write mode WordOnly to word address 2 of the
user bank it goes out in one word write, and read back from a module that
answers with these four bytes the array holds the words 1122 and 3344. -/
theorem word_byte_round_trip_witness :
    highByteFirst [0x1122, 0x3344] = [0x11, 0x22, 0x33, 0x44] ∧
    (TMR_SR_writeTagMemWords (moduleAt 9600 SUCCESS) wordOnlyReader 0 none 3 2 2
      [0x1122, 0x3344] []).2.trace =
      [WireEvent.command (Command.SetProtocol TMR_TAG_PROTOCOL_GEN2),
        WireEvent.command (Command.SetReaderConfiguration TMR_SR_Configuration.EXTENDED_EPC [1]),
        WireEvent.message [12, 0x24, 0x03, 0xE8, 0x00, 0x00, 0x00, 0x00, 0x02, 0x03,
          0x11, 0x22, 0x33, 0x44]] ∧
    (TMR_SR_readTagMemWords fourBytesModule wordOnlyReader false none 3 2 2 [0, 0, 0, 0] []
      emptyRead).1 = SUCCESS ∧
    (List.range 2).map
      (loadWord false
        (fun k => (TMR_SR_readTagMemWords fourBytesModule wordOnlyReader false none 3 2 2
          [0, 0, 0, 0] [] emptyRead).2.1.getD k 0)) = [0x1122, 0x3344] := by
  have h := word_byte_round_trip (moduleAt 9600 SUCCESS) fourBytesModule wordOnlyReader
    wordOnlyReader false 0 none none 3 2 3 2 [0x1122, 0x3344] [] [0, 0, 0, 0] [] emptyRead
    (by decide) (by decide)
  exact ⟨by decide, Eq.trans (congrArg (fun x => x.2.trace) h.1) (by decide),
    (h.2.2.2.2 (by decide)).1, (h.2.2.2.2 (by decide)).2.2.2 (by decide)⟩

end MercuryApi
